import Mathlib

/-!
# Page-buffer simulator with ZNS write-pointer checking

A shallow embedding of `src/test30.c`.  The C program keeps its state in
file-scope variables; here they are the fields of `Sim`, and every C function
becomes a function from state to state.

Conventions of the embedding:

* `buffer[0 .. buffer_size)` is a `List BufferFrame`; `buffer_size` is its length.
* a ghost array `bK` together with `bK_size` is the list of its first `bK_size`
  entries (entries past the size are never read by the program);
* `int` values are `Int` (or `Nat` where the program only stores small
  non-negative constants), `unsigned long long` arithmetic that can wrap is
  written with an explicit `% 2^64`;
* a victim index of `-1` is `none`;
* the device log is the list of the calls that reached the `fprintf` on
  `log_file`; `stderr` is the list of the diagnostics printed.
-/

namespace BufSim

/-! ## Constants -/

def MAX_BUFFER_SIZE : Nat := 65000

def SECTOR_SIZE : Nat := 512

def SECTORS_PER_PAGE : Nat := 8

def ULLONG_MAX : Nat := 18446744073709551615

def UINT_MAX : Nat := 4294967295

def INVALID_PAGE : Nat := ULLONG_MAX

def MAX_ZONES : Nat := 131072

/-- Two to the power 64: the modulus of `unsigned long long` arithmetic. -/
def U64 : Nat := 18446744073709551616

/-- Two to the power 32: the modulus of `unsigned int` arithmetic. -/
def U32 : Nat := 4294967296

/-! ## Data model -/

inductive Op
  | OP_READ
  | OP_WRITE
  deriving DecidableEq

inductive ReplacementPolicy
  | CLOCK_PRO_T1_B4_LOGS_B2
  | CLOCK_PRO_T3_B2_LOGS_B4
  | CLOCK_T1
  | CLOCK_T3
  | FIFO
  | LFU
  | LFU_ARC
  | LRU
  | LRU_ARC
  deriving DecidableEq

open ReplacementPolicy Op

/-- The policy selected by a numeric code of a `P <code>` record (the enum values). -/
def policy_of_code (code : Int) : Option ReplacementPolicy :=
  if code = 0 then some CLOCK_PRO_T1_B4_LOGS_B2
  else if code = 1 then some CLOCK_PRO_T3_B2_LOGS_B4
  else if code = 2 then some CLOCK_T1
  else if code = 3 then some CLOCK_T3
  else if code = 4 then some FIFO
  else if code = 5 then some LFU
  else if code = 6 then some LFU_ARC
  else if code = 7 then some LRU
  else if code = 8 then some LRU_ARC
  else none

structure BufferFrame where
  page_id : Nat
  load_time : Nat
  last_access_time : Nat
  access_count : Nat
  list_type : Nat
  is_dirty : Nat
  ref_arc_list_type : Nat
  ref_bit : Nat
  deriving DecidableEq

structure ARCState where
  p : Int
  t1_size : Int
  t2_size : Int
  b1 : List Nat
  b2 : List Nat
  q : Int
  t3_size : Int
  t4_size : Int
  b3 : List Nat
  b4 : List Nat
  p_clk_hand : Nat
  q_clk_hand : Nat
  deriving DecidableEq

/-- One line of the device log: the arguments of the `write_fio_log` call that printed it. -/
structure IoRec where
  op : Op
  start_lba : Nat
  num_sectors : Nat
  deriving DecidableEq

/-- The byte offset printed for a log line (`start_lba * SECTOR_SIZE` in 64 bits). -/
def IoRec.offset_bytes (r : IoRec) : Nat := (r.start_lba * SECTOR_SIZE) % U64

/-- The byte length printed for a log line (clamped to `UINT_MAX`). -/
def IoRec.length_bytes (r : IoRec) : Nat :=
  if r.num_sectors * SECTOR_SIZE > UINT_MAX then UINT_MAX else r.num_sectors * SECTOR_SIZE

/-- Diagnostics printed on `stderr` by the simulator core (the message texts are dropped). -/
inductive ErrMsg
  | io_length_overflow (start_lba : Nat)
  | zns_zone_id_error (zone_id page_id : Nat)
  | zns_violation (zone_id page_id current_wp : Nat)
  | zns_boundary_warning (zone_id next_wp zone_end_page : Nat)
  | clock_force_evict (page_id idx : Nat)
  | clock_fallback_fifo
  | clock_pro_t1_warning
  | clock_pro_t3_warning
  | bad_policy_code (code : Int)
  deriving DecidableEq

structure Sim where
  buffer : List BufferFrame
  current_policy : ReplacementPolicy
  previous_policy_for_state_carryover : ReplacementPolicy
  current_time : Nat
  hits : Nat
  misses : Nat
  arc_state : ARCState
  log_file : List IoRec
  stderr : List ErrMsg
  global_clk_hand : Nat
  zone_size_pages_global : Nat
  zone_write_pointers : Nat → Nat

/-- The number of frames in use, `buffer_size` of the C program. -/
def Sim.buffer_size (s : Sim) : Nat := s.buffer.length

/-- A frame as `initialize_buffer` leaves it. -/
def empty_frame : BufferFrame :=
  { page_id := INVALID_PAGE, load_time := 0, last_access_time := 0, access_count := 0,
    list_type := 0, is_dirty := 0, ref_arc_list_type := 0, ref_bit := 0 }

/-- Read of `buffer[i]`. -/
def frame_at (buf : List BufferFrame) (i : Nat) : BufferFrame := buf.getD i empty_frame

/-! ## Leaf functions -/

def lba_to_page_id (lba : Nat) : Nat := lba / SECTORS_PER_PAGE

def initialize_buffer (buffer_size : Nat) : List BufferFrame :=
  List.replicate buffer_size empty_frame

/-- The zone table after `initialize_zone_write_pointers`; with a zone size of 0 the
table keeps the zeroes of a C global. -/
def initialize_zone_write_pointers (zone_size_pages_global : Nat) : Nat → Nat :=
  if zone_size_pages_global = 0 then fun _ => 0
  else fun i => if i < MAX_ZONES then (i * zone_size_pages_global) % U64 else 0

/-- The ARC state after `initialize_arc_state(1)` for the given policy and buffer size. -/
def initialize_arc_state_full (current_policy : ReplacementPolicy) (buffer_size : Nat) :
    ARCState :=
  let a : ARCState :=
    { p := 0, t1_size := 0, t2_size := 0, b1 := [], b2 := [],
      q := 0, t3_size := 0, t4_size := 0, b3 := [], b4 := [],
      p_clk_hand := 0, q_clk_hand := 0 }
  if current_policy = CLOCK_T1 then
    { a with p := if buffer_size > 0 then (buffer_size : Int) else 0, t1_size := 0 }
  else if current_policy = CLOCK_T3 then
    { a with q := if buffer_size > 0 then (buffer_size : Int) else 0, t3_size := 0 }
  else if current_policy = CLOCK_PRO_T1_B4_LOGS_B2 then
    { a with p := if buffer_size > 0 then (buffer_size : Int) / 2 else 0, t1_size := 0 }
  else if current_policy = CLOCK_PRO_T3_B2_LOGS_B4 then
    { a with q := if buffer_size > 0 then (buffer_size : Int) / 2 else 0, t3_size := 0 }
  else a

/-- The function `initialize_arc_state(full_reset)`. -/
def initialize_arc_state (full_reset : Bool) (current_policy : ReplacementPolicy)
    (buffer_size : Nat) (a : ARCState) : ARCState :=
  if full_reset then initialize_arc_state_full current_policy buffer_size else a

def find_in_buffer : List BufferFrame → Nat → Option Nat
  | [], _ => none
  | f :: rest, page_id =>
    if f.page_id = page_id then some 0
    else (find_in_buffer rest page_id).map (· + 1)

def find_empty_slot : List BufferFrame → Option Nat
  | [] => none
  | f :: rest =>
    if f.page_id = INVALID_PAGE then some 0
    else (find_empty_slot rest).map (· + 1)

/-- The function `write_fio_log`, called while the log file is open. -/
def write_fio_log (s : Sim) (start_lba num_sectors : Nat) (operation_type : Op) : Sim :=
  if num_sectors = 0 then s
  else
    let s1 : Sim :=
      if num_sectors * SECTOR_SIZE > UINT_MAX then
        { s with stderr := s.stderr ++ [ErrMsg.io_length_overflow start_lba] }
      else s
    let rec_ : IoRec := { op := operation_type, start_lba := start_lba, num_sectors := num_sectors }
    if operation_type = OP_WRITE ∧ s.zone_size_pages_global > 0 then
      let target_page_id := lba_to_page_id start_lba
      let zone_id := target_page_id / s.zone_size_pages_global
      let zone_start_page := (zone_id * s.zone_size_pages_global) % U64
      let num_pages0 := ((num_sectors + SECTORS_PER_PAGE - 1) % U32) / SECTORS_PER_PAGE
      let num_pages := if num_pages0 = 0 ∧ num_sectors > 0 then 1 else num_pages0
      if zone_id ≥ MAX_ZONES then
        { s1 with stderr := s1.stderr ++ [ErrMsg.zns_zone_id_error zone_id target_page_id] }
      else
        let current_wp := s.zone_write_pointers zone_id
        if target_page_id ≠ current_wp then
          { s1 with
            stderr := s1.stderr ++ [ErrMsg.zns_violation zone_id target_page_id current_wp]
            log_file := s1.log_file ++ [rec_] }
        else
          let next_wp := (current_wp + num_pages) % U64
          let zone_end_page := (zone_start_page + s.zone_size_pages_global) % U64
          if next_wp > zone_end_page then
            { s1 with
              stderr := s1.stderr ++ [ErrMsg.zns_boundary_warning zone_id next_wp zone_end_page]
              zone_write_pointers :=
                fun z => if z = zone_id then zone_end_page else s1.zone_write_pointers z
              log_file := s1.log_file ++ [rec_] }
          else
            { s1 with
              zone_write_pointers :=
                fun z => if z = zone_id then next_wp else s1.zone_write_pointers z
              log_file := s1.log_file ++ [rec_] }
    else
      { s1 with log_file := s1.log_file ++ [rec_] }

def handle_dirty_eviction (s : Sim) (victim_idx : Nat) : Sim :=
  if victim_idx ≥ s.buffer.length then s
  else
    let f := frame_at s.buffer victim_idx
    if f.page_id ≠ INVALID_PAGE ∧ f.is_dirty ≠ 0 then
      let s1 := write_fio_log s ((f.page_id * SECTORS_PER_PAGE) % U64) SECTORS_PER_PAGE OP_WRITE
      { s1 with buffer := s1.buffer.set victim_idx { f with is_dirty := 0 } }
    else s

/-- The scan of `evict_fifo`: `i` is the index of the head of the remaining frames. -/
def evict_fifo_loop : List BufferFrame → Nat → Option Nat → Nat → Option Nat
  | [], _, victim_idx, _ => victim_idx
  | f :: rest, i, victim_idx, min_load_time =>
    if f.page_id ≠ INVALID_PAGE ∧ f.load_time < min_load_time then
      evict_fifo_loop rest (i + 1) (some i) f.load_time
    else evict_fifo_loop rest (i + 1) victim_idx min_load_time

def evict_fifo (buf : List BufferFrame) : Option Nat :=
  if buf.length = 0 then none
  else
    let victim_idx := evict_fifo_loop buf 0 none ULLONG_MAX
    if victim_idx = none ∧ find_empty_slot buf = none ∧ buf.length > 0 then some 0
    else victim_idx

/-- The function `arc_remove_from_ghost`: delete the first occurrence, keep the order. -/
def arc_remove_from_ghost (page_id : Nat) : List Nat → List Nat
  | [] => []
  | x :: rest => if x = page_id then rest else x :: arc_remove_from_ghost page_id rest

/-- The function `find_in_arc_ghost`. -/
def find_in_arc_ghost (page_id : Nat) : List Nat → Bool
  | [] => false
  | x :: rest => if x = page_id then true else find_in_arc_ghost page_id rest

/-- The function `arc_add_to_ghost_mru`: the first occurrence of the page is shifted
out (the same loop as in `arc_remove_from_ghost`), then the page is appended.  When
the list is full its first entry is shifted out; entries at positions
`max_ghost_size` and beyond (there are none when the list respects its capacity)
stay where they are. -/
def arc_add_to_ghost_mru (page_id : Nat) (list : List Nat) (max_ghost_size : Nat) : List Nat :=
  if page_id = INVALID_PAGE ∨ max_ghost_size = 0 then list
  else
    let l1 := arc_remove_from_ghost page_id list
    if l1.length < max_ghost_size then l1 ++ [page_id]
    else (l1.take max_ghost_size).drop 1 ++ [page_id] ++ l1.drop max_ghost_size

/-- The scan of `evict_arc_internal_lru`. -/
def evict_arc_internal_lru_loop (target_list_type_val : Nat) :
    List BufferFrame → Nat → Option Nat → Nat → Option Nat
  | [], _, victim_idx, _ => victim_idx
  | f :: rest, i, victim_idx, min_access_time =>
    if f.page_id ≠ INVALID_PAGE ∧ f.list_type = target_list_type_val then
      if f.last_access_time < min_access_time then
        evict_arc_internal_lru_loop target_list_type_val rest (i + 1) (some i) f.last_access_time
      else evict_arc_internal_lru_loop target_list_type_val rest (i + 1) victim_idx min_access_time
    else evict_arc_internal_lru_loop target_list_type_val rest (i + 1) victim_idx min_access_time

def evict_arc_internal_lru (buf : List BufferFrame) (target_list_type_val : Nat) : Option Nat :=
  evict_arc_internal_lru_loop target_list_type_val buf 0 none ULLONG_MAX

/-- The scan of `evict_arc_internal_lfu`. -/
def evict_arc_internal_lfu_loop (target_list_type_val : Nat) :
    List BufferFrame → Nat → Option Nat → Nat → Nat → Option Nat
  | [], _, victim_idx, _, _ => victim_idx
  | f :: rest, i, victim_idx, min_access_count, oldest_load_time =>
    if f.page_id ≠ INVALID_PAGE ∧ f.list_type = target_list_type_val then
      if f.access_count < min_access_count then
        evict_arc_internal_lfu_loop target_list_type_val rest (i + 1) (some i)
          f.access_count f.load_time
      else if f.access_count = min_access_count then
        if f.load_time < oldest_load_time then
          evict_arc_internal_lfu_loop target_list_type_val rest (i + 1) (some i)
            min_access_count f.load_time
        else
          evict_arc_internal_lfu_loop target_list_type_val rest (i + 1) victim_idx
            min_access_count oldest_load_time
      else
        evict_arc_internal_lfu_loop target_list_type_val rest (i + 1) victim_idx
          min_access_count oldest_load_time
    else
      evict_arc_internal_lfu_loop target_list_type_val rest (i + 1) victim_idx
        min_access_count oldest_load_time

def evict_arc_internal_lfu (buf : List BufferFrame) (target_list_type_val : Nat) : Option Nat :=
  evict_arc_internal_lfu_loop target_list_type_val buf 0 none UINT_MAX ULLONG_MAX

/-! ## CLOCK sweep -/

/-- One pass of the reference-bit loop of `evict_via_clock_policy`: `n` iterations
remain, `i` is the loop counter.  Returns the victim, if the pass returned one, and
the frames with the reference bits cleared so far. -/
def clock_pass (hand : Nat) (list_type_filter_active : Bool) (target_list_type : Nat)
    (pass : Nat) : Nat → Nat → List BufferFrame → Option Nat × List BufferFrame
  | 0, _, buf => (none, buf)
  | n + 1, i, buf =>
    let current_idx := (hand + i) % buf.length
    let f := frame_at buf current_idx
    if f.page_id ≠ INVALID_PAGE then
      if list_type_filter_active = true ∧ f.list_type ≠ target_list_type then
        clock_pass hand list_type_filter_active target_list_type pass n (i + 1) buf
      else if f.ref_bit = 0 then (some current_idx, buf)
      else if pass = 0 then
        clock_pass hand list_type_filter_active target_list_type pass n (i + 1)
          (buf.set current_idx { f with ref_bit := 0 })
      else clock_pass hand list_type_filter_active target_list_type pass n (i + 1) buf
    else clock_pass hand list_type_filter_active target_list_type pass n (i + 1) buf

/-- The force-evict loop of `evict_via_clock_policy`. -/
def clock_force (initial_hand : Nat) (list_type_filter_active : Bool) (target_list_type : Nat)
    (buf : List BufferFrame) : Nat → Nat → Option Nat
  | 0, _ => none
  | n + 1, i =>
    let check_idx := (initial_hand + i) % buf.length
    let f := frame_at buf check_idx
    if f.page_id ≠ INVALID_PAGE then
      if list_type_filter_active = true ∧ f.list_type ≠ target_list_type then
        clock_force initial_hand list_type_filter_active target_list_type buf n (i + 1)
      else some check_idx
    else clock_force initial_hand list_type_filter_active target_list_type buf n (i + 1)

/-- What `evict_via_clock_policy` returns and leaves behind: the victim, the hand,
the frames and the diagnostics it printed. -/
structure ClockResult where
  victim : Option Nat
  hand : Nat
  buf : List BufferFrame
  msgs : List ErrMsg

/-- The function `evict_via_clock_policy` (the local `first_pass_victim` is never read
and is left out). -/
def evict_via_clock_policy (hand : Nat) (list_type_filter_active : Bool)
    (target_list_type : Nat) (buf : List BufferFrame) : ClockResult :=
  if buf.length = 0 then { victim := none, hand := hand, buf := buf, msgs := [] }
  else
    match clock_pass hand list_type_filter_active target_list_type 0 buf.length 0 buf with
    | (some idx, buf1) =>
      { victim := some idx, hand := (idx + 1) % buf.length, buf := buf1, msgs := [] }
    | (none, buf1) =>
      match clock_pass hand list_type_filter_active target_list_type 1 buf.length 0 buf1 with
      | (some idx, buf2) =>
        { victim := some idx, hand := (idx + 1) % buf.length, buf := buf2, msgs := [] }
      | (none, buf2) =>
        match clock_force hand list_type_filter_active target_list_type buf2 buf.length 0 with
        | some idx =>
          { victim := some idx, hand := (idx + 1) % buf.length, buf := buf2,
            msgs := [ErrMsg.clock_force_evict (frame_at buf2 idx).page_id idx] }
        | none =>
          { victim := evict_fifo buf2, hand := hand, buf := buf2,
            msgs := [ErrMsg.clock_fallback_fifo] }

/-! ## ARC victim selection -/

def arc_find_victim_lru_arc (buf : List BufferFrame) (a : ARCState) (page_id_to_load : Nat) :
    Option Nat × ARCState :=
  let t1_plus_t2_size := a.t1_size + a.t2_size
  let decide_target : Option Nat :=
    if t1_plus_t2_size = (buf.length : Int) then
      if find_in_arc_ghost page_id_to_load a.b2 = true ∧ a.t1_size = a.p then
        if a.t2_size > 0 then some 2
        else if a.t1_size > 0 then some 1
        else none
      else
        if a.t1_size > 0 then some 1
        else if a.t2_size > 0 then some 2
        else none
    else none
  match decide_target with
  | none => (evict_fifo buf, a)
  | some evict_target_list =>
    match evict_arc_internal_lru buf evict_target_list with
    | some victim_idx =>
      let evicted_page_id := (frame_at buf victim_idx).page_id
      if evict_target_list = 1 then
        (some victim_idx,
          { a with b1 := arc_add_to_ghost_mru evicted_page_id a.b1 buf.length
                   t1_size := if a.t1_size > 0 then a.t1_size - 1 else a.t1_size })
      else
        (some victim_idx,
          { a with b2 := arc_add_to_ghost_mru evicted_page_id a.b2 buf.length
                   t2_size := if a.t2_size > 0 then a.t2_size - 1 else a.t2_size })
    | none =>
      match evict_fifo buf with
      | some victim_idx =>
        if (frame_at buf victim_idx).list_type = 1 ∧ a.t1_size > 0 then
          (some victim_idx, { a with t1_size := a.t1_size - 1 })
        else if (frame_at buf victim_idx).list_type = 2 ∧ a.t2_size > 0 then
          (some victim_idx, { a with t2_size := a.t2_size - 1 })
        else (some victim_idx, a)
      | none => (none, a)

def arc_find_victim_lfu_arc (buf : List BufferFrame) (a : ARCState) (page_id_to_load : Nat) :
    Option Nat × ARCState :=
  let t3_plus_t4_size := a.t3_size + a.t4_size
  let decide_target : Option Nat :=
    if t3_plus_t4_size = (buf.length : Int) then
      if find_in_arc_ghost page_id_to_load a.b4 = true ∧ a.t3_size = a.q then
        if a.t4_size > 0 then some 4
        else if a.t3_size > 0 then some 3
        else none
      else
        if a.t3_size > 0 then some 3
        else if a.t4_size > 0 then some 4
        else none
    else none
  match decide_target with
  | none => (evict_fifo buf, a)
  | some evict_target_list_type =>
    let victim :=
      if evict_target_list_type = 3 then evict_arc_internal_lfu buf 3
      else evict_arc_internal_lru buf 4
    match victim with
    | some victim_idx =>
      let evicted_page_id := (frame_at buf victim_idx).page_id
      if evict_target_list_type = 3 then
        (some victim_idx,
          { a with b3 := arc_add_to_ghost_mru evicted_page_id a.b3 buf.length
                   t3_size := if a.t3_size > 0 then a.t3_size - 1 else a.t3_size })
      else
        (some victim_idx,
          { a with b4 := arc_add_to_ghost_mru evicted_page_id a.b4 buf.length
                   t4_size := if a.t4_size > 0 then a.t4_size - 1 else a.t4_size })
    | none =>
      match evict_fifo buf with
      | some victim_idx =>
        if (frame_at buf victim_idx).list_type = 3 ∧ a.t3_size > 0 then
          (some victim_idx, { a with t3_size := a.t3_size - 1 })
        else if (frame_at buf victim_idx).list_type = 4 ∧ a.t4_size > 0 then
          (some victim_idx, { a with t4_size := a.t4_size - 1 })
        else (some victim_idx, a)
      | none => (none, a)

/-! ## `access_page` -/

/-- The statement `if (x > 0) x--;`. -/
def dec_if_pos (x : Int) : Int := if x > 0 then x - 1 else x

/-- The cache-hit branch of `access_page` (after `current_time++`). -/
def access_hit (s : Sim) (found_idx : Nat) (operation_type : Op) : Sim :=
  let f0 := frame_at s.buffer found_idx
  let f1 : BufferFrame := { f0 with last_access_time := s.current_time }
  let f2 : BufferFrame :=
    if f1.access_count < UINT_MAX then { f1 with access_count := f1.access_count + 1 } else f1
  let f3 : BufferFrame := if operation_type = OP_WRITE then { f2 with is_dirty := 1 } else f2
  let s1 : Sim := { s with hits := s.hits + 1 }
  let a := s.arc_state
  if s.current_policy = LRU_ARC then
    if f3.list_type = 1 then
      { s1 with
        buffer := s.buffer.set found_idx { f3 with list_type := 2 }
        arc_state := { a with t1_size := dec_if_pos a.t1_size, t2_size := a.t2_size + 1 } }
    else { s1 with buffer := s.buffer.set found_idx f3 }
  else if s.current_policy = LFU_ARC then
    if f3.list_type = 3 then
      { s1 with
        buffer := s.buffer.set found_idx { f3 with list_type := 4 }
        arc_state := { a with t3_size := dec_if_pos a.t3_size, t4_size := a.t4_size + 1 } }
    else { s1 with buffer := s.buffer.set found_idx f3 }
  else if s.current_policy = LRU then
    if f3.ref_arc_list_type = 1 then
      { s1 with
        buffer := s.buffer.set found_idx { f3 with ref_arc_list_type := 2 }
        arc_state := { a with t1_size := dec_if_pos a.t1_size, t2_size := a.t2_size + 1 } }
    else { s1 with buffer := s.buffer.set found_idx f3 }
  else if s.current_policy = LFU then
    if f3.ref_arc_list_type = 3 then
      { s1 with
        buffer := s.buffer.set found_idx { f3 with ref_arc_list_type := 4 }
        arc_state := { a with t3_size := dec_if_pos a.t3_size, t4_size := a.t4_size + 1 } }
    else { s1 with buffer := s.buffer.set found_idx f3 }
  else if s.current_policy = CLOCK_T1 ∨ s.current_policy = CLOCK_T3 ∨
      s.current_policy = CLOCK_PRO_T1_B4_LOGS_B2 ∨ s.current_policy = CLOCK_PRO_T3_B2_LOGS_B4 then
    { s1 with buffer := s.buffer.set found_idx { f3 with ref_bit := 1 } }
  else { s1 with buffer := s.buffer.set found_idx f3 }

/-- The outcome of the parameter-adaptation block of a miss. -/
structure StepA where
  arc : ARCState
  actual_load_list_type : Nat
  ref_load_list_type : Nat

/-- The block "ARC parameter adjustment and choice of the list to load into" of the
miss branch of `access_page`. -/
def step_a (current_policy : ReplacementPolicy) (buffer_size : Nat) (a : ARCState)
    (page_id : Nat) : StepA :=
  let N : Int := (buffer_size : Int)
  let b1_size : Int := (a.b1.length : Int)
  let b2_size : Int := (a.b2.length : Int)
  let b3_size : Int := (a.b3.length : Int)
  let b4_size : Int := (a.b4.length : Int)
  if current_policy = LRU ∨ current_policy = LRU_ARC then
    let is_in_b1 := find_in_arc_ghost page_id a.b1
    let is_in_b2 := find_in_arc_ghost page_id a.b2
    let r : StepA :=
      if is_in_b1 = true then
        let delta0 : Int := if b1_size > 0 ∧ b2_size ≥ 0 then max 1 (b2_size / b1_size) else 1
        let delta : Int := max 1 delta0
        { arc := { a with p := min N (a.p + delta), b1 := arc_remove_from_ghost page_id a.b1 }
          actual_load_list_type := 2, ref_load_list_type := 2 }
      else if is_in_b2 = true then
        let delta0 : Int := if b2_size > 0 ∧ b1_size ≥ 0 then max 1 (b1_size / b2_size) else 1
        let delta : Int := max 1 delta0
        { arc := { a with p := max 0 (a.p - delta), b2 := arc_remove_from_ghost page_id a.b2 }
          actual_load_list_type := 2, ref_load_list_type := 2 }
      else { arc := a, actual_load_list_type := 1, ref_load_list_type := 1 }
    if current_policy = LRU then { r with actual_load_list_type := 1 } else r
  else if current_policy = LFU ∨ current_policy = LFU_ARC then
    let is_in_b3 := find_in_arc_ghost page_id a.b3
    let is_in_b4 := find_in_arc_ghost page_id a.b4
    let r : StepA :=
      if is_in_b3 = true then
        let delta0 : Int := if b3_size > 0 ∧ b4_size ≥ 0 then max 1 (b4_size / b3_size) else 1
        let delta : Int := max 1 delta0
        { arc := { a with q := min N (a.q + delta), b3 := arc_remove_from_ghost page_id a.b3 }
          actual_load_list_type := 4, ref_load_list_type := 4 }
      else if is_in_b4 = true then
        let delta0 : Int := if b4_size > 0 ∧ b3_size ≥ 0 then max 1 (b3_size / b4_size) else 1
        let delta : Int := max 1 delta0
        { arc := { a with q := max 0 (a.q - delta), b4 := arc_remove_from_ghost page_id a.b4 }
          actual_load_list_type := 4, ref_load_list_type := 4 }
      else { arc := a, actual_load_list_type := 3, ref_load_list_type := 3 }
    if current_policy = LFU then { r with actual_load_list_type := 3 } else r
  else if current_policy = CLOCK_T1 then
    { arc := a, actual_load_list_type := 1, ref_load_list_type := 0 }
  else if current_policy = CLOCK_T3 then
    { arc := a, actual_load_list_type := 3, ref_load_list_type := 0 }
  else if current_policy = CLOCK_PRO_T1_B4_LOGS_B2 then
    if find_in_arc_ghost page_id a.b4 = true then
      let d0 : Int := if a.t1_size > 0 ∧ b4_size > 0 then max 1 (a.t1_size / b4_size) else 1
      let d1 : Int := if a.t1_size = 0 ∧ b4_size > 0 ∧ N > 0 then max 1 (N / b4_size) else d0
      let delta_val : Int := max 1 d1
      { arc := { a with p := min N (a.p + delta_val), b4 := arc_remove_from_ghost page_id a.b4 }
        actual_load_list_type := 1, ref_load_list_type := 0 }
    else
      let d0 : Int := if a.t1_size > 0 ∧ b4_size > 0 then max 1 (b4_size / a.t1_size) else 1
      let d1 : Int := if b4_size = 0 ∧ a.t1_size > 0 ∧ N > 0 then max 1 (N / a.t1_size) else d0
      let delta_val : Int := max 1 d1
      { arc := { a with p := max 0 (a.p - delta_val) }
        actual_load_list_type := 1, ref_load_list_type := 0 }
  else if current_policy = CLOCK_PRO_T3_B2_LOGS_B4 then
    if find_in_arc_ghost page_id a.b2 = true then
      let d0 : Int := if a.t3_size > 0 ∧ b2_size > 0 then max 1 (a.t3_size / b2_size) else 1
      let d1 : Int := if a.t3_size = 0 ∧ b2_size > 0 ∧ N > 0 then max 1 (N / b2_size) else d0
      let delta_val : Int := max 1 d1
      { arc := { a with q := min N (a.q + delta_val), b2 := arc_remove_from_ghost page_id a.b2 }
        actual_load_list_type := 3, ref_load_list_type := 0 }
    else
      let d0 : Int := if a.t3_size > 0 ∧ b2_size > 0 then max 1 (b2_size / a.t3_size) else 1
      let d1 : Int := if b2_size = 0 ∧ a.t3_size > 0 ∧ N > 0 then max 1 (N / a.t3_size) else d0
      let delta_val : Int := max 1 d1
      { arc := { a with q := max 0 (a.q - delta_val) }
        actual_load_list_type := 3, ref_load_list_type := 0 }
  else { arc := a, actual_load_list_type := 0, ref_load_list_type := 0 }

/-- A call `evict_via_clock_policy(&global_clk_hand, filter, target, buffer, ...)`. -/
def clock_on_global_hand (s : Sim) (list_type_filter_active : Bool) (target_list_type : Nat) :
    Sim × Option Nat :=
  let r := evict_via_clock_policy s.global_clk_hand list_type_filter_active target_list_type
    s.buffer
  ({ s with buffer := r.buf, global_clk_hand := r.hand, stderr := s.stderr ++ r.msgs }, r.victim)

/-- A call `evict_via_clock_policy(&arc_state.p_clk_hand, filter, target, buffer, ...)`. -/
def clock_on_p_hand (s : Sim) (list_type_filter_active : Bool) (target_list_type : Nat) :
    Sim × Option Nat :=
  let r := evict_via_clock_policy s.arc_state.p_clk_hand list_type_filter_active
    target_list_type s.buffer
  ({ s with buffer := r.buf, arc_state := { s.arc_state with p_clk_hand := r.hand },
            stderr := s.stderr ++ r.msgs }, r.victim)

/-- A call `evict_via_clock_policy(&arc_state.q_clk_hand, filter, target, buffer, ...)`. -/
def clock_on_q_hand (s : Sim) (list_type_filter_active : Bool) (target_list_type : Nat) :
    Sim × Option Nat :=
  let r := evict_via_clock_policy s.arc_state.q_clk_hand list_type_filter_active
    target_list_type s.buffer
  ({ s with buffer := r.buf, arc_state := { s.arc_state with q_clk_hand := r.hand },
            stderr := s.stderr ++ r.msgs }, r.victim)

/-- The block "victim selection per policy" of the miss branch. -/
def select_victim (s : Sim) (page_id : Nat) : Sim × Option Nat :=
  if s.current_policy = FIFO then (s, evict_fifo s.buffer)
  else if s.current_policy = LRU then (s, evict_arc_internal_lru s.buffer 1)
  else if s.current_policy = LFU then (s, evict_arc_internal_lfu s.buffer 3)
  else if s.current_policy = LRU_ARC then
    let r := arc_find_victim_lru_arc s.buffer s.arc_state page_id
    ({ s with arc_state := r.2 }, r.1)
  else if s.current_policy = LFU_ARC then
    let r := arc_find_victim_lfu_arc s.buffer s.arc_state page_id
    ({ s with arc_state := r.2 }, r.1)
  else if s.current_policy = CLOCK_T1 then clock_on_global_hand s false 0
  else if s.current_policy = CLOCK_T3 then clock_on_global_hand s false 0
  else if s.current_policy = CLOCK_PRO_T1_B4_LOGS_B2 then
    let r1 : Sim × Option Nat :=
      if s.arc_state.t1_size ≥ s.arc_state.p ∧ s.arc_state.t1_size > 0 then
        let c := clock_on_p_hand s true 1
        if c.2 = none then
          ({ c.1 with stderr := c.1.stderr ++ [ErrMsg.clock_pro_t1_warning] }, none)
        else c
      else (s, none)
    if r1.2 = none then clock_on_p_hand r1.1 false 0 else r1
  else if s.current_policy = CLOCK_PRO_T3_B2_LOGS_B4 then
    let r1 : Sim × Option Nat :=
      if s.arc_state.t3_size ≥ s.arc_state.q ∧ s.arc_state.t3_size > 0 then
        let c := clock_on_q_hand s true 3
        if c.2 = none then
          ({ c.1 with stderr := c.1.stderr ++ [ErrMsg.clock_pro_t3_warning] }, none)
        else c
      else (s, none)
    if r1.2 = none then clock_on_q_hand r1.1 false 0 else r1
  else (s, none)

/-- The block "fallback when the final victim selection failed" of the miss branch. -/
def victim_fallback (s : Sim) (victim_idx : Option Nat) : Sim × Option Nat :=
  if victim_idx = none ∧ s.buffer.length > 0 then
    match evict_fifo s.buffer with
    | none => (s, none)
    | some v =>
      if (frame_at s.buffer v).page_id ≠ INVALID_PAGE then
        let list_of_fifo_victim := (frame_at s.buffer v).list_type
        let a := s.arc_state
        let a1 : ARCState :=
          if s.current_policy = LRU_ARC ∨ s.current_policy = LRU ∨
              s.current_policy = CLOCK_PRO_T1_B4_LOGS_B2 ∨ s.current_policy = CLOCK_T1 then
            if list_of_fifo_victim = 1 ∧ a.t1_size > 0 then { a with t1_size := a.t1_size - 1 }
            else if list_of_fifo_victim = 2 ∧ a.t2_size > 0 then
              { a with t2_size := a.t2_size - 1 }
            else a
          else a
        let a2 : ARCState :=
          if s.current_policy = LFU_ARC ∨ s.current_policy = LFU ∨
              s.current_policy = CLOCK_PRO_T3_B2_LOGS_B4 ∨ s.current_policy = CLOCK_T3 then
            if list_of_fifo_victim = 3 ∧ a1.t3_size > 0 then { a1 with t3_size := a1.t3_size - 1 }
            else if list_of_fifo_victim = 4 ∧ a1.t4_size > 0 then
              { a1 with t4_size := a1.t4_size - 1 }
            else a1
          else a1
        ({ s with arc_state := a2 }, some v)
      else (s, some v)
  else (s, victim_idx)

/-- The block "victim processing" of the miss branch: write back a dirty victim,
update the ghost lists of the policy, and empty the frame. -/
def process_victim (s : Sim) (victim_idx : Nat) : Sim :=
  let s1 := handle_dirty_eviction s victim_idx
  let f := frame_at s1.buffer victim_idx
  let evicted_page_id := f.page_id
  let a := s1.arc_state
  let N := s1.buffer.length
  let a1 : ARCState :=
    if s1.current_policy = LRU ∧ evicted_page_id ≠ INVALID_PAGE then
      if f.ref_arc_list_type = 1 then
        { a with b1 := arc_add_to_ghost_mru evicted_page_id a.b1 N
                 t1_size := dec_if_pos a.t1_size }
      else if f.ref_arc_list_type = 2 then
        { a with b2 := arc_add_to_ghost_mru evicted_page_id a.b2 N
                 t2_size := dec_if_pos a.t2_size }
      else a
    else if s1.current_policy = LFU ∧ evicted_page_id ≠ INVALID_PAGE then
      if f.ref_arc_list_type = 3 then
        { a with b3 := arc_add_to_ghost_mru evicted_page_id a.b3 N
                 t3_size := dec_if_pos a.t3_size }
      else if f.ref_arc_list_type = 4 then
        { a with b4 := arc_add_to_ghost_mru evicted_page_id a.b4 N
                 t4_size := dec_if_pos a.t4_size }
      else a
    else if s1.current_policy = CLOCK_PRO_T1_B4_LOGS_B2 ∧ evicted_page_id ≠ INVALID_PAGE then
      { a with b4 := arc_add_to_ghost_mru evicted_page_id a.b4 N
               b2 := arc_add_to_ghost_mru evicted_page_id a.b2 N
               t1_size := if a.t1_size > 0 ∧ f.list_type = 1 then a.t1_size - 1 else a.t1_size }
    else if s1.current_policy = CLOCK_PRO_T3_B2_LOGS_B4 ∧ evicted_page_id ≠ INVALID_PAGE then
      { a with b2 := arc_add_to_ghost_mru evicted_page_id a.b2 N
               b4 := arc_add_to_ghost_mru evicted_page_id a.b4 N
               t3_size := if a.t3_size > 0 ∧ f.list_type = 3 then a.t3_size - 1 else a.t3_size }
    else a
  { s1 with arc_state := a1
            buffer := s1.buffer.set victim_idx { f with page_id := INVALID_PAGE } }

/-- The block "load the new page" of the miss branch. -/
def load_page (s : Sim) (target_slot page_id : Nat) (operation_type : Op)
    (actual_load_list_type ref_load_list_type : Nat) : Sim :=
  let f0 := frame_at s.buffer target_slot
  let f : BufferFrame :=
    { f0 with
      page_id := page_id, load_time := s.current_time, last_access_time := s.current_time
      access_count := 1, is_dirty := if operation_type = OP_WRITE then 1 else 0
      list_type := actual_load_list_type, ref_bit := 1 }
  let a := s.arc_state
  let N : Int := (s.buffer.length : Int)
  if s.current_policy = LRU then
    { s with
      buffer := s.buffer.set target_slot { f with ref_arc_list_type := ref_load_list_type }
      arc_state :=
        if ref_load_list_type = 1 then { a with t1_size := a.t1_size + 1 }
        else if ref_load_list_type = 2 then { a with t2_size := a.t2_size + 1 } else a }
  else if s.current_policy = LFU then
    { s with
      buffer := s.buffer.set target_slot { f with ref_arc_list_type := ref_load_list_type }
      arc_state :=
        if ref_load_list_type = 3 then { a with t3_size := a.t3_size + 1 }
        else if ref_load_list_type = 4 then { a with t4_size := a.t4_size + 1 } else a }
  else if s.current_policy = LRU_ARC then
    { s with
      buffer := s.buffer.set target_slot { f with ref_arc_list_type := 0 }
      arc_state :=
        if actual_load_list_type = 1 then { a with t1_size := a.t1_size + 1 }
        else if actual_load_list_type = 2 then { a with t2_size := a.t2_size + 1 } else a }
  else if s.current_policy = LFU_ARC then
    { s with
      buffer := s.buffer.set target_slot { f with ref_arc_list_type := 0 }
      arc_state :=
        if actual_load_list_type = 3 then { a with t3_size := a.t3_size + 1 }
        else if actual_load_list_type = 4 then { a with t4_size := a.t4_size + 1 } else a }
  else if s.current_policy = CLOCK_T1 then
    { s with
      buffer := s.buffer.set target_slot { f with ref_arc_list_type := 0, list_type := 1 }
      arc_state := if a.t1_size < N then { a with t1_size := a.t1_size + 1 } else a }
  else if s.current_policy = CLOCK_T3 then
    { s with
      buffer := s.buffer.set target_slot { f with ref_arc_list_type := 0, list_type := 3 }
      arc_state := if a.t3_size < N then { a with t3_size := a.t3_size + 1 } else a }
  else if s.current_policy = CLOCK_PRO_T1_B4_LOGS_B2 then
    let a1 : ARCState := if a.t1_size < N then { a with t1_size := a.t1_size + 1 } else a
    { s with
      buffer := s.buffer.set target_slot { f with ref_arc_list_type := 0, list_type := 1 }
      arc_state := { a1 with b2 := arc_add_to_ghost_mru page_id a1.b2 s.buffer.length } }
  else if s.current_policy = CLOCK_PRO_T3_B2_LOGS_B4 then
    let a1 : ARCState := if a.t3_size < N then { a with t3_size := a.t3_size + 1 } else a
    { s with
      buffer := s.buffer.set target_slot { f with ref_arc_list_type := 0, list_type := 3 }
      arc_state := { a1 with b4 := arc_add_to_ghost_mru page_id a1.b4 s.buffer.length } }
  else
    { s with
      buffer := s.buffer.set target_slot
        { f with ref_arc_list_type := 0, ref_bit := 0, list_type := 0 } }

/-- The cache-miss branch of `access_page` (after `current_time++`). -/
def access_miss (s : Sim) (page_id : Nat) (operation_type : Op) : Sim :=
  let s1 : Sim := { s with misses := s.misses + 1 }
  let s2 := write_fio_log s1 ((page_id * SECTORS_PER_PAGE) % U64) SECTORS_PER_PAGE OP_READ
  let sa := step_a s2.current_policy s2.buffer.length s2.arc_state page_id
  let s3 : Sim := { s2 with arc_state := sa.arc }
  match find_empty_slot s3.buffer with
  | some target_slot =>
    load_page s3 target_slot page_id operation_type sa.actual_load_list_type
      sa.ref_load_list_type
  | none =>
    let sel := select_victim s3 page_id
    let fb := victim_fallback sel.1 sel.2
    match fb.2 with
    | some victim_idx =>
      load_page (process_victim fb.1 victim_idx) victim_idx page_id operation_type
        sa.actual_load_list_type sa.ref_load_list_type
    | none => fb.1

/-- The function `access_page`; `lba_address` is not used by the C function either. -/
def access_page (s : Sim) (_lba_address page_id : Nat) (operation_type : Op) : Sim :=
  let s1 : Sim := { s with current_time := (s.current_time + 1) % U64 }
  let found_idx := find_in_buffer s1.buffer page_id
  if page_id = INVALID_PAGE then s1
  else
    match found_idx with
    | some i => access_hit s1 i operation_type
    | none => access_miss s1 page_id operation_type

/-! ## The driver: policy switches, the record loop, the shutdown flush -/

/-- One iteration of the relabelling loop of a policy switch, for frame `f`. -/
def relabel_frame (old_policy new_policy : ReplacementPolicy) (f : BufferFrame)
    (a : ARCState) : BufferFrame × ARCState :=
  if f.page_id ≠ INVALID_PAGE then
    let f1 : BufferFrame := { f with ref_bit := 0, ref_arc_list_type := 0 }
    if new_policy = LRU then
      let f2 : BufferFrame := { f1 with list_type := 1 }
      let f3 : BufferFrame :=
        if old_policy = LRU_ARC ∧ (f2.list_type = 1 ∨ f2.list_type = 2) then
          { f2 with ref_arc_list_type := f2.list_type }
        else { f2 with ref_arc_list_type := 1 }
      (f3, if f3.ref_arc_list_type = 1 then { a with t1_size := a.t1_size + 1 }
           else { a with t2_size := a.t2_size + 1 })
    else if new_policy = LFU then
      let f2 : BufferFrame := { f1 with list_type := 3 }
      let f3 : BufferFrame :=
        if old_policy = LFU_ARC ∧ (f2.list_type = 3 ∨ f2.list_type = 4) then
          { f2 with ref_arc_list_type := f2.list_type }
        else { f2 with ref_arc_list_type := 3 }
      (f3, if f3.ref_arc_list_type = 3 then { a with t3_size := a.t3_size + 1 }
           else { a with t4_size := a.t4_size + 1 })
    else if new_policy = LRU_ARC then
      let f2 : BufferFrame :=
        if old_policy = LRU ∧ (f1.ref_arc_list_type = 1 ∨ f1.ref_arc_list_type = 2) then
          { f1 with list_type := f1.ref_arc_list_type }
        else { f1 with list_type := 1 }
      (f2, if f2.list_type = 1 then { a with t1_size := a.t1_size + 1 }
           else { a with t2_size := a.t2_size + 1 })
    else if new_policy = LFU_ARC then
      let f2 : BufferFrame :=
        if old_policy = LFU ∧ (f1.ref_arc_list_type = 3 ∨ f1.ref_arc_list_type = 4) then
          { f1 with list_type := f1.ref_arc_list_type }
        else { f1 with list_type := 3 }
      (f2, if f2.list_type = 3 then { a with t3_size := a.t3_size + 1 }
           else { a with t4_size := a.t4_size + 1 })
    else if new_policy = CLOCK_T1 ∨ new_policy = CLOCK_PRO_T1_B4_LOGS_B2 then
      ({ f1 with list_type := 1, ref_bit := 1 }, { a with t1_size := a.t1_size + 1 })
    else if new_policy = CLOCK_T3 ∨ new_policy = CLOCK_PRO_T3_B2_LOGS_B4 then
      ({ f1 with list_type := 3, ref_bit := 1 }, { a with t3_size := a.t3_size + 1 })
    else if new_policy = FIFO then
      ({ f1 with list_type := 0 }, a)
    else (f1, a)
  else (f, a)

/-- The relabelling loop of a policy switch over the frames. -/
def relabel_loop (old_policy new_policy : ReplacementPolicy) :
    List BufferFrame → ARCState → List BufferFrame × ARCState
  | [], a => ([], a)
  | f :: rest, a =>
    let r := relabel_frame old_policy new_policy f a
    let rs := relabel_loop old_policy new_policy rest r.2
    (r.1 :: rs.1, rs.2)

/-- The body of `if (old_policy != new_policy)` in the record loop of `main`. -/
def switch_policy (s : Sim) (new_policy : ReplacementPolicy) : Sim :=
  let old_policy := s.current_policy
  let reset_arc_completely : Bool :=
    if (old_policy = LRU ∧ new_policy = LRU_ARC) ∨ (old_policy = LRU_ARC ∧ new_policy = LRU) then
      false
    else if (old_policy = LFU ∧ new_policy = LFU_ARC) ∨
        (old_policy = LFU_ARC ∧ new_policy = LFU) then false
    else true
  let a1 := initialize_arc_state reset_arc_completely new_policy s.buffer.length s.arc_state
  let a2 : ARCState := { a1 with t1_size := 0, t2_size := 0, t3_size := 0, t4_size := 0 }
  let r := relabel_loop old_policy new_policy s.buffer a2
  { s with
    previous_policy_for_state_carryover := old_policy
    current_policy := new_policy
    buffer := r.1
    arc_state := { r.2 with p_clk_hand := 0, q_clk_hand := 0 }
    global_clk_hand := 0 }

/-- A well-formed line of the workload: an access `<lba> <op>` or a directive `P <code>`.
The code of a directive is the value of `int new_policy_code` after `sscanf` with `%d`. -/
inductive Record
  | access (lba : Nat) (op : Op)
  | policy_change (code : Int)
  deriving DecidableEq

/-- One iteration of the record loop of `main` on a well-formed line. -/
def process_record (s : Sim) : Record → Sim
  | Record.access lba op => access_page s lba (lba_to_page_id lba) op
  | Record.policy_change code =>
    if code ≥ 0 ∧ code ≤ 8 then
      match policy_of_code code with
      | some new_policy => if s.current_policy ≠ new_policy then switch_policy s new_policy else s
      | none => s
    else { s with stderr := s.stderr ++ [ErrMsg.bad_policy_code code] }

/-- The record loop of `main`. -/
def run (s : Sim) : List Record → Sim
  | [] => s
  | r :: rest => run (process_record s r) rest

/-- The state `main` starts the record loop in. -/
def init_sim (buffer_size : Nat) (initial_policy : ReplacementPolicy)
    (zone_size_pages : Nat) : Sim :=
  { buffer := initialize_buffer buffer_size
    current_policy := initial_policy
    previous_policy_for_state_carryover := initial_policy
    current_time := 0
    hits := 0
    misses := 0
    arc_state := initialize_arc_state_full initial_policy buffer_size
    log_file := []
    stderr := []
    global_clk_hand := 0
    zone_size_pages_global := zone_size_pages
    zone_write_pointers := initialize_zone_write_pointers zone_size_pages }

/-- The flush loop at the end of `main`: `n` iterations remain, `i` is the loop counter. -/
def shutdown_flush_loop : Nat → Nat → Sim → Sim
  | 0, _, s => s
  | n + 1, i, s =>
    let f := frame_at s.buffer i
    if f.page_id ≠ INVALID_PAGE ∧ f.is_dirty ≠ 0 then
      shutdown_flush_loop n (i + 1) (handle_dirty_eviction s i)
    else shutdown_flush_loop n (i + 1) s

def shutdown_flush (s : Sim) : Sim := shutdown_flush_loop s.buffer.length 0 s

/-- A whole run: the record loop from the initial state, then the shutdown flush. -/
def simulate (buffer_size : Nat) (initial_policy : ReplacementPolicy) (zone_size_pages : Nat)
    (trace : List Record) : Sim :=
  shutdown_flush (run (init_sim buffer_size initial_policy zone_size_pages) trace)

/-- The number of access records of a trace. -/
def access_count_of : List Record → Nat
  | [] => 0
  | Record.access _ _ :: rest => access_count_of rest + 1
  | Record.policy_change _ :: rest => access_count_of rest

/-- The code is a value of the 32-bit `int new_policy_code` that `main` reads a directive
into. -/
def code_fits_int (code : Int) : Prop := -2147483648 ≤ code ∧ code ≤ 2147483647

instance (code : Int) : Decidable (code_fits_int code) :=
  inferInstanceAs (Decidable (_ ∧ _))

/-- Every access record carries an LBA that fits `unsigned long long`. -/
def lbas_fit : List Record → Prop
  | [] => True
  | Record.access lba _ :: rest => lba < U64 ∧ lbas_fit rest
  | Record.policy_change _ :: rest => lbas_fit rest

/-! ## Predicates used in the statements -/

/-- Every component of the simulator state other than the diagnostics stream is the
same in `s'` as in `s`; in particular the device log is the same. -/
def same_but_stderr (s s' : Sim) : Prop :=
  s'.buffer = s.buffer ∧ s'.current_policy = s.current_policy ∧
  s'.previous_policy_for_state_carryover = s.previous_policy_for_state_carryover ∧
  s'.current_time = s.current_time ∧ s'.hits = s.hits ∧ s'.misses = s.misses ∧
  s'.arc_state = s.arc_state ∧ s'.log_file = s.log_file ∧
  s'.global_clk_hand = s.global_clk_hand ∧
  s'.zone_size_pages_global = s.zone_size_pages_global ∧
  s'.zone_write_pointers = s.zone_write_pointers

/-- The fields of a frame that identify the page it holds and its history. -/
def frame_core (f : BufferFrame) : Nat × Nat × Nat × Nat × Nat :=
  (f.page_id, f.load_time, f.last_access_time, f.access_count, f.is_dirty)

/-- The pair of policies is one of the two for which a switch carries the ARC state over. -/
def carries_over (old_policy new_policy : ReplacementPolicy) : Prop :=
  (old_policy = LRU ∧ new_policy = LRU_ARC) ∨ (old_policy = LRU_ARC ∧ new_policy = LRU) ∨
  (old_policy = LFU ∧ new_policy = LFU_ARC) ∨ (old_policy = LFU_ARC ∧ new_policy = LFU)

instance (o n : ReplacementPolicy) : Decidable (carries_over o n) :=
  inferInstanceAs (Decidable (_ ∨ _ ∨ _ ∨ _))

/-- The targets `(p, q)` a full reset installs for a policy, with `N` frames. -/
def reset_targets (new_policy : ReplacementPolicy) (N : Nat) : Int × Int :=
  match new_policy with
  | CLOCK_T1 => ((N : Int), 0)
  | CLOCK_T3 => (0, (N : Int))
  | CLOCK_PRO_T1_B4_LOGS_B2 => ((N : Int) / 2, 0)
  | CLOCK_PRO_T3_B2_LOGS_B4 => (0, (N : Int) / 2)
  | _ => (0, 0)

/-! ## Policy switches -/

/-- The components of the state that only `access_page` itself and a policy switch
write: policy, clock, counters, zone size, and the number of frames. -/
def Sim.fixed (s : Sim) : ReplacementPolicy × Nat × Nat × Nat × Nat × Nat :=
  (s.current_policy, s.current_time, s.hits, s.misses, s.zone_size_pages_global,
    s.buffer.length)

/-- What a miss does before it looks for a slot: count it, log the read, run step A. -/
def miss_begin (s : Sim) (page_id : Nat) : Sim :=
  { write_fio_log { s with misses := s.misses + 1 }
      ((page_id * SECTORS_PER_PAGE) % U64) SECTORS_PER_PAGE OP_READ with
    arc_state := (step_a s.current_policy s.buffer.length s.arc_state page_id).arc }

/-- What a miss does once step A is done: find or make a slot, load the page. -/
def miss_finish (s3 : Sim) (page_id : Nat) (operation_type : Op) (al rl : Nat) : Sim :=
  match find_empty_slot s3.buffer with
  | some target_slot => load_page s3 target_slot page_id operation_type al rl
  | none =>
    match (victim_fallback (select_victim s3 page_id).1 (select_victim s3 page_id).2).2 with
    | some victim_idx =>
      load_page
        (process_victim
          (victim_fallback (select_victim s3 page_id).1 (select_victim s3 page_id).2).1
          victim_idx)
        victim_idx page_id operation_type al rl
    | none => (victim_fallback (select_victim s3 page_id).1 (select_victim s3 page_id).2).1

/-- A ghost list is duplicate-free and holds at most `N` entries. -/
def ghost_list_ok (l : List Nat) (N : Nat) : Prop := l.Nodup ∧ l.length ≤ N

/-- The four ghost lists are duplicate-free with at most `N` entries, and the targets
`p`, `q` lie in `[0, N]`. -/
def arc_ok (a : ARCState) (N : Nat) : Prop :=
  ghost_list_ok a.b1 N ∧ ghost_list_ok a.b2 N ∧ ghost_list_ok a.b3 N ∧ ghost_list_ok a.b4 N ∧
  0 ≤ a.p ∧ a.p ≤ (N : Int) ∧ 0 ≤ a.q ∧ a.q ≤ (N : Int)

/-- The part of the ARC state `arc_ok` speaks about. -/
def arc_ghosts (a : ARCState) : List Nat × List Nat × List Nat × List Nat × Int × Int :=
  (a.b1, a.b2, a.b3, a.b4, a.p, a.q)

/-- The ghost lists and targets of a state are within bounds for its number of frames. -/
def Sim.ok (s : Sim) : Prop := arc_ok s.arc_state s.buffer.length

/-- The page a log record was written for. -/
def IoRec.page (r : IoRec) : Nat := lba_to_page_id r.start_lba

/-- Every write record of the device log is for a page below the write pointer of its
zone, unless a non-sequential-write diagnostic was printed for that page. -/
def writes_below_wp (s : Sim) : Prop :=
  ∀ r ∈ s.log_file, r.op = OP_WRITE →
    (∃ wp0, ErrMsg.zns_violation (r.page / s.zone_size_pages_global) r.page wp0 ∈ s.stderr) ∨
      r.page < s.zone_write_pointers (r.page / s.zone_size_pages_global)

/-- The write pointer of zone `z` lies between the first page of the zone and the first
page of the next zone. -/
def wp_in_zone (s : Sim) (z : Nat) : Prop :=
  z * s.zone_size_pages_global ≤ s.zone_write_pointers z ∧
  s.zone_write_pointers z ≤ (z + 1) * s.zone_size_pages_global

/-- How a piece of the simulator may move the zone table, the log and the diagnostics:
the zone size stays, no pointer decreases, a pointer within its zone stays within it,
and write records stay below their pointers or warned about. -/
def zns_step (s s' : Sim) : Prop :=
  s'.zone_size_pages_global = s.zone_size_pages_global ∧
  (∀ z, s.zone_write_pointers z ≤ s'.zone_write_pointers z) ∧
  (∀ z, wp_in_zone s z → wp_in_zone s' z) ∧
  (writes_below_wp s → writes_below_wp s')

/-- A piece of the simulator that leaves zone size, zone table and log alone and only
adds diagnostics. -/
def quiet_step (s s' : Sim) : Prop :=
  s'.zone_size_pages_global = s.zone_size_pages_global ∧
  s'.zone_write_pointers = s.zone_write_pointers ∧
  s'.log_file = s.log_file ∧ ∃ e, s'.stderr = s.stderr ++ e

/-- What the scans of `evict_arc_internal_lru` and `evict_arc_internal_lfu` return: the
index of a resident frame of the target list. -/
def in_list (buf : List BufferFrame) (t v : Nat) : Prop :=
  v < buf.length ∧ (frame_at buf v).page_id ≠ INVALID_PAGE ∧ (frame_at buf v).list_type = t

/-- A frame with its reference bit cleared. -/
def erase_ref (f : BufferFrame) : BufferFrame := { f with ref_bit := 0 }

/-- The partition tag the size counters follow: the shadow tag under pure LRU and LFU,
`list_type` under every other policy. -/
def frame_tag (pol : ReplacementPolicy) (f : BufferFrame) : Nat :=
  if pol = LRU ∨ pol = LFU then f.ref_arc_list_type else f.list_type

/-- The number of resident frames whose tag is `k`. -/
def count_tag (pol : ReplacementPolicy) (buf : List BufferFrame) (k : Nat) : Int :=
  ((buf.countP fun f => decide (f.page_id ≠ INVALID_PAGE ∧ frame_tag pol f = k) : Nat) : Int)

/-- The number of resident frames. -/
def count_resident (buf : List BufferFrame) : Int :=
  ((buf.countP fun f => decide (f.page_id ≠ INVALID_PAGE) : Nat) : Int)

/-- The labels a resident frame may carry under a policy. -/
def tag_ok (pol : ReplacementPolicy) (f : BufferFrame) : Prop :=
  match pol with
  | LRU => f.list_type = 1 ∧ (f.ref_arc_list_type = 1 ∨ f.ref_arc_list_type = 2)
  | LRU_ARC => f.list_type = 1 ∨ f.list_type = 2
  | LFU => f.list_type = 3 ∧ (f.ref_arc_list_type = 3 ∨ f.ref_arc_list_type = 4)
  | LFU_ARC => f.list_type = 3 ∨ f.list_type = 4
  | CLOCK_T1 => f.list_type = 1
  | CLOCK_PRO_T1_B4_LOGS_B2 => f.list_type = 1
  | CLOCK_T3 => f.list_type = 3
  | CLOCK_PRO_T3_B2_LOGS_B4 => f.list_type = 3
  | FIFO => True

def tags_ok (pol : ReplacementPolicy) (buf : List BufferFrame) : Prop :=
  ∀ f ∈ buf, f.page_id ≠ INVALID_PAGE → tag_ok pol f

/-- No valid page is held by two frames. -/
def pages_unique (buf : List BufferFrame) : Prop :=
  ∀ x, x ≠ INVALID_PAGE → (buf.countP fun f => decide (f.page_id = x)) ≤ 1

def counts_le (buf : List BufferFrame) : Prop :=
  ∀ f ∈ buf, f.page_id ≠ INVALID_PAGE → f.access_count ≤ UINT_MAX

def times_le (buf : List BufferFrame) (T : Nat) : Prop :=
  ∀ f ∈ buf, f.page_id ≠ INVALID_PAGE → f.load_time ≤ T ∧ f.last_access_time ≤ T

/-- The size counters agree with the tags of the resident frames; under FIFO, which has
no partition, they are all 0. -/
def sizes_ok (pol : ReplacementPolicy) (buf : List BufferFrame) (a : ARCState) : Prop :=
  if pol = FIFO then a.t1_size = 0 ∧ a.t2_size = 0 ∧ a.t3_size = 0 ∧ a.t4_size = 0
  else
    a.t1_size = count_tag pol buf 1 ∧ a.t2_size = count_tag pol buf 2 ∧
    a.t3_size = count_tag pol buf 3 ∧ a.t4_size = count_tag pol buf 4

/-- No resident page is in the list. -/
def not_resident_in (buf : List BufferFrame) (l : List Nat) : Prop :=
  ∀ f ∈ buf, f.page_id ≠ INVALID_PAGE → f.page_id ∉ l

/-- Under the four ARC-style policies the ghost lists hold only evicted pages: no
resident page is in any of them, and the two lists of a pair are disjoint (the lists of
the other pair being empty). -/
def ghosts_ok (pol : ReplacementPolicy) (buf : List BufferFrame) (a : ARCState) : Prop :=
  (pol = LRU ∨ pol = LRU_ARC →
    a.b3 = [] ∧ a.b4 = [] ∧ (∀ x ∈ a.b1, x ∉ a.b2) ∧
    not_resident_in buf a.b1 ∧ not_resident_in buf a.b2) ∧
  (pol = LFU ∨ pol = LFU_ARC →
    a.b1 = [] ∧ a.b2 = [] ∧ (∀ x ∈ a.b3, x ∉ a.b4) ∧
    not_resident_in buf a.b3 ∧ not_resident_in buf a.b4)

/-- The invariant of the engine between two records. -/
def Sim.inv (s : Sim) : Prop :=
  tags_ok s.current_policy s.buffer ∧ pages_unique s.buffer ∧ counts_le s.buffer ∧
  times_le s.buffer s.current_time ∧ sizes_ok s.current_policy s.buffer s.arc_state ∧
  ghosts_ok s.current_policy s.buffer s.arc_state ∧ s.ok

/-- The part of the invariant that speaks about the frames, for a given policy, ARC
state and bound on the time stamps. -/
def buf_inv (pol : ReplacementPolicy) (a : ARCState) (T : Nat) (buf : List BufferFrame) : Prop :=
  tags_ok pol buf ∧ pages_unique buf ∧ counts_le buf ∧ times_le buf T ∧
  sizes_ok pol buf a ∧ ghosts_ok pol buf a

/-- The frame of a hit after the policy-independent updates. -/
def hit_base (f0 : BufferFrame) (T : Nat) (op : Op) : BufferFrame :=
  let f1 : BufferFrame := { f0 with last_access_time := T }
  let f2 : BufferFrame :=
    if f1.access_count < UINT_MAX then { f1 with access_count := f1.access_count + 1 } else f1
  if op = OP_WRITE then { f2 with is_dirty := 1 } else f2

/-- The frame of a hit after the policy's own update. -/
def hit_frame (pol : ReplacementPolicy) (f3 : BufferFrame) : BufferFrame :=
  match pol with
  | LRU_ARC => if f3.list_type = 1 then { f3 with list_type := 2 } else f3
  | LFU_ARC => if f3.list_type = 3 then { f3 with list_type := 4 } else f3
  | LRU => if f3.ref_arc_list_type = 1 then { f3 with ref_arc_list_type := 2 } else f3
  | LFU => if f3.ref_arc_list_type = 3 then { f3 with ref_arc_list_type := 4 } else f3
  | FIFO => f3
  | _ => { f3 with ref_bit := 1 }

/-- The ARC state after a hit on a frame. -/
def hit_arc (pol : ReplacementPolicy) (f3 : BufferFrame) (a : ARCState) : ARCState :=
  match pol with
  | LRU_ARC =>
    if f3.list_type = 1 then
      { a with t1_size := dec_if_pos a.t1_size, t2_size := a.t2_size + 1 } else a
  | LFU_ARC =>
    if f3.list_type = 3 then
      { a with t3_size := dec_if_pos a.t3_size, t4_size := a.t4_size + 1 } else a
  | LRU =>
    if f3.ref_arc_list_type = 1 then
      { a with t1_size := dec_if_pos a.t1_size, t2_size := a.t2_size + 1 } else a
  | LFU =>
    if f3.ref_arc_list_type = 3 then
      { a with t3_size := dec_if_pos a.t3_size, t4_size := a.t4_size + 1 } else a
  | _ => a

/-- How a hit moves a frame between partitions (`k0` is its tag before, `k1` after),
with the size counters following. -/
def hit_move (pol : ReplacementPolicy) (k0 k1 : Nat) (a a' : ARCState) : Prop :=
  (k1 = k0 ∧ a'.t1_size = a.t1_size ∧ a'.t2_size = a.t2_size ∧
    a'.t3_size = a.t3_size ∧ a'.t4_size = a.t4_size) ∨
  (pol ≠ FIFO ∧ k0 = 1 ∧ k1 = 2 ∧ a'.t1_size = dec_if_pos a.t1_size ∧
    a'.t2_size = a.t2_size + 1 ∧ a'.t3_size = a.t3_size ∧ a'.t4_size = a.t4_size) ∨
  (pol ≠ FIFO ∧ k0 = 3 ∧ k1 = 4 ∧ a'.t3_size = dec_if_pos a.t3_size ∧
    a'.t4_size = a.t4_size + 1 ∧ a'.t1_size = a.t1_size ∧ a'.t2_size = a.t2_size)

/-- The invariant with the time stamps of the resident frames bounded by `T` instead of
the clock. -/
def Sim.inv_at (s : Sim) (T : Nat) : Prop :=
  buf_inv s.current_policy s.arc_state T s.buffer ∧ s.ok

/-- The page is neither resident nor, under an ARC-style policy, in a ghost list. -/
def fresh (pol : ReplacementPolicy) (buf : List BufferFrame) (a : ARCState) (X : Nat) : Prop :=
  (∀ f ∈ buf, f.page_id ≠ X) ∧
  (pol = LRU ∨ pol = LRU_ARC ∨ pol = LFU ∨ pol = LFU_ARC →
    X ∉ a.b1 ∧ X ∉ a.b2 ∧ X ∉ a.b3 ∧ X ∉ a.b4)

/-- The list types step A may hand to the load, per policy. -/
def load_ok (pol : ReplacementPolicy) (al rl : Nat) : Prop :=
  match pol with
  | LRU => al = 1 ∧ (rl = 1 ∨ rl = 2)
  | LRU_ARC => al = 1 ∨ al = 2
  | LFU => al = 3 ∧ (rl = 3 ∨ rl = 4)
  | LFU_ARC => al = 3 ∨ al = 4
  | _ => True

/-- The frame `load_page` writes into the target slot. -/
def load_frame (pol : ReplacementPolicy) (f0 : BufferFrame) (T X : Nat) (op : Op)
    (al rl : Nat) : BufferFrame :=
  let f : BufferFrame :=
    { f0 with
      page_id := X, load_time := T, last_access_time := T
      access_count := 1, is_dirty := if op = OP_WRITE then 1 else 0
      list_type := al, ref_bit := 1 }
  match pol with
  | LRU => { f with ref_arc_list_type := rl }
  | LFU => { f with ref_arc_list_type := rl }
  | LRU_ARC => { f with ref_arc_list_type := 0 }
  | LFU_ARC => { f with ref_arc_list_type := 0 }
  | CLOCK_T1 => { f with ref_arc_list_type := 0, list_type := 1 }
  | CLOCK_T3 => { f with ref_arc_list_type := 0, list_type := 3 }
  | CLOCK_PRO_T1_B4_LOGS_B2 => { f with ref_arc_list_type := 0, list_type := 1 }
  | CLOCK_PRO_T3_B2_LOGS_B4 => { f with ref_arc_list_type := 0, list_type := 3 }
  | FIFO => { f with ref_arc_list_type := 0, ref_bit := 0, list_type := 0 }

/-- The ARC state `load_page` leaves. -/
def load_arc (pol : ReplacementPolicy) (a : ARCState) (N X al rl : Nat) : ARCState :=
  match pol with
  | LRU =>
    if rl = 1 then { a with t1_size := a.t1_size + 1 }
    else if rl = 2 then { a with t2_size := a.t2_size + 1 } else a
  | LFU =>
    if rl = 3 then { a with t3_size := a.t3_size + 1 }
    else if rl = 4 then { a with t4_size := a.t4_size + 1 } else a
  | LRU_ARC =>
    if al = 1 then { a with t1_size := a.t1_size + 1 }
    else if al = 2 then { a with t2_size := a.t2_size + 1 } else a
  | LFU_ARC =>
    if al = 3 then { a with t3_size := a.t3_size + 1 }
    else if al = 4 then { a with t4_size := a.t4_size + 1 } else a
  | CLOCK_T1 => if a.t1_size < (N : Int) then { a with t1_size := a.t1_size + 1 } else a
  | CLOCK_T3 => if a.t3_size < (N : Int) then { a with t3_size := a.t3_size + 1 } else a
  | CLOCK_PRO_T1_B4_LOGS_B2 =>
    { (if a.t1_size < (N : Int) then { a with t1_size := a.t1_size + 1 } else a) with
      b2 := arc_add_to_ghost_mru X
        (if a.t1_size < (N : Int) then { a with t1_size := a.t1_size + 1 } else a).b2 N }
  | CLOCK_PRO_T3_B2_LOGS_B4 =>
    { (if a.t3_size < (N : Int) then { a with t3_size := a.t3_size + 1 } else a) with
      b4 := arc_add_to_ghost_mru X
        (if a.t3_size < (N : Int) then { a with t3_size := a.t3_size + 1 } else a).b4 N }
  | FIFO => a

/-- The size counters right before the load: as in the invariant, except that plain CLOCK,
which does not count an eviction, may be one ahead with a full count. -/
def sizes_pre (pol : ReplacementPolicy) (buf : List BufferFrame) (a : ARCState) : Prop :=
  if pol = CLOCK_T1 then
    (a.t1_size = count_tag pol buf 1 ∨
      (a.t1_size = (buf.length : Int) ∧ count_tag pol buf 1 + 1 = (buf.length : Int))) ∧
    a.t2_size = count_tag pol buf 2 ∧ a.t3_size = count_tag pol buf 3 ∧
    a.t4_size = count_tag pol buf 4
  else if pol = CLOCK_T3 then
    a.t1_size = count_tag pol buf 1 ∧ a.t2_size = count_tag pol buf 2 ∧
    (a.t3_size = count_tag pol buf 3 ∨
      (a.t3_size = (buf.length : Int) ∧ count_tag pol buf 3 + 1 = (buf.length : Int))) ∧
    a.t4_size = count_tag pol buf 4
  else sizes_ok pol buf a

/-- How the load moves the size counters, `k` being the tag of the loaded frame. -/
def load_move (pol : ReplacementPolicy) (k N : Nat) (a a' : ARCState) : Prop :=
  match pol with
  | FIFO =>
    a'.t1_size = a.t1_size ∧ a'.t2_size = a.t2_size ∧ a'.t3_size = a.t3_size ∧
    a'.t4_size = a.t4_size
  | CLOCK_T1 =>
    k = 1 ∧ a'.t1_size = (if a.t1_size < (N : Int) then a.t1_size + 1 else a.t1_size) ∧
    a'.t2_size = a.t2_size ∧ a'.t3_size = a.t3_size ∧ a'.t4_size = a.t4_size
  | CLOCK_PRO_T1_B4_LOGS_B2 =>
    k = 1 ∧ a'.t1_size = (if a.t1_size < (N : Int) then a.t1_size + 1 else a.t1_size) ∧
    a'.t2_size = a.t2_size ∧ a'.t3_size = a.t3_size ∧ a'.t4_size = a.t4_size
  | CLOCK_T3 =>
    k = 3 ∧ a'.t3_size = (if a.t3_size < (N : Int) then a.t3_size + 1 else a.t3_size) ∧
    a'.t1_size = a.t1_size ∧ a'.t2_size = a.t2_size ∧ a'.t4_size = a.t4_size
  | CLOCK_PRO_T3_B2_LOGS_B4 =>
    k = 3 ∧ a'.t3_size = (if a.t3_size < (N : Int) then a.t3_size + 1 else a.t3_size) ∧
    a'.t1_size = a.t1_size ∧ a'.t2_size = a.t2_size ∧ a'.t4_size = a.t4_size
  | _ =>
    a'.t1_size = a.t1_size + (if k = 1 then 1 else 0) ∧
    a'.t2_size = a.t2_size + (if k = 2 then 1 else 0) ∧
    a'.t3_size = a.t3_size + (if k = 3 then 1 else 0) ∧
    a'.t4_size = a.t4_size + (if k = 4 then 1 else 0)

/-- The part of the invariant that does not depend on the clock: pages are held once, and
the ghost lists are well formed and hold evicted pages only. -/
def Sim.wf (s : Sim) : Prop :=
  pages_unique s.buffer ∧ ghosts_ok s.current_policy s.buffer s.arc_state ∧ s.ok

/-- The clock-dependent part of the invariant, with `T` bounding the time stamps. -/
def buf_sz (pol : ReplacementPolicy) (a : ARCState) (T : Nat) (buf : List BufferFrame) : Prop :=
  tags_ok pol buf ∧ counts_le buf ∧ times_le buf T ∧ sizes_ok pol buf a

/-- How an eviction of page `Y` may change the ghost lists under an ARC-style policy: not
at all, or `Y` enters one list of the policy's pair. -/
def ghost_rel (pol : ReplacementPolicy) (Y N : Nat) (a a' : ARCState) : Prop :=
  arc_ghosts a' = arc_ghosts a ∨
  ((pol = LRU ∨ pol = LRU_ARC) ∧ a'.b3 = a.b3 ∧ a'.b4 = a.b4 ∧
    ((a'.b1 = arc_add_to_ghost_mru Y a.b1 N ∧ a'.b2 = a.b2) ∨
     (a'.b1 = a.b1 ∧ a'.b2 = arc_add_to_ghost_mru Y a.b2 N))) ∨
  ((pol = LFU ∨ pol = LFU_ARC) ∧ a'.b1 = a.b1 ∧ a'.b2 = a.b2 ∧
    ((a'.b3 = arc_add_to_ghost_mru Y a.b3 N ∧ a'.b4 = a.b4) ∨
     (a'.b3 = a.b3 ∧ a'.b4 = arc_add_to_ghost_mru Y a.b4 N))) ∨
  ¬ (pol = LRU ∨ pol = LRU_ARC ∨ pol = LFU ∨ pol = LFU_ARC)

/-- The ARC state after the block "victim processing", `f` being the victim frame. -/
def evict_arc (pol : ReplacementPolicy) (a : ARCState) (N : Nat) (f : BufferFrame) : ARCState :=
  if pol = LRU ∧ f.page_id ≠ INVALID_PAGE then
    if f.ref_arc_list_type = 1 then
      { a with b1 := arc_add_to_ghost_mru f.page_id a.b1 N
               t1_size := dec_if_pos a.t1_size }
    else if f.ref_arc_list_type = 2 then
      { a with b2 := arc_add_to_ghost_mru f.page_id a.b2 N
               t2_size := dec_if_pos a.t2_size }
    else a
  else if pol = LFU ∧ f.page_id ≠ INVALID_PAGE then
    if f.ref_arc_list_type = 3 then
      { a with b3 := arc_add_to_ghost_mru f.page_id a.b3 N
               t3_size := dec_if_pos a.t3_size }
    else if f.ref_arc_list_type = 4 then
      { a with b4 := arc_add_to_ghost_mru f.page_id a.b4 N
               t4_size := dec_if_pos a.t4_size }
    else a
  else if pol = CLOCK_PRO_T1_B4_LOGS_B2 ∧ f.page_id ≠ INVALID_PAGE then
    { a with b4 := arc_add_to_ghost_mru f.page_id a.b4 N
             b2 := arc_add_to_ghost_mru f.page_id a.b2 N
             t1_size := if a.t1_size > 0 ∧ f.list_type = 1 then a.t1_size - 1 else a.t1_size }
  else if pol = CLOCK_PRO_T3_B2_LOGS_B4 ∧ f.page_id ≠ INVALID_PAGE then
    { a with b2 := arc_add_to_ghost_mru f.page_id a.b2 N
             b4 := arc_add_to_ghost_mru f.page_id a.b4 N
             t3_size := if a.t3_size > 0 ∧ f.list_type = 3 then a.t3_size - 1 else a.t3_size }
  else a

/-- The size bookkeeping of the fallback block, `lt` being the list type of the frame
`evict_fifo` chose. -/
def fallback_arc (pol : ReplacementPolicy) (a : ARCState) (lt : Nat) : ARCState :=
  let a1 : ARCState :=
    if pol = LRU_ARC ∨ pol = LRU ∨ pol = CLOCK_PRO_T1_B4_LOGS_B2 ∨ pol = CLOCK_T1 then
      if lt = 1 ∧ a.t1_size > 0 then { a with t1_size := a.t1_size - 1 }
      else if lt = 2 ∧ a.t2_size > 0 then { a with t2_size := a.t2_size - 1 }
      else a
    else a
  if pol = LFU_ARC ∨ pol = LFU ∨ pol = CLOCK_PRO_T3_B2_LOGS_B4 ∨ pol = CLOCK_T3 then
    if lt = 3 ∧ a1.t3_size > 0 then { a1 with t3_size := a1.t3_size - 1 }
    else if lt = 4 ∧ a1.t4_size > 0 then { a1 with t4_size := a1.t4_size - 1 }
    else a1
  else a1

/-- What victim selection leaves of the state when it does not touch the partition
bookkeeping: the frames up to reference bits, the ghost lists, targets and size counters;
and a victim it returns is an index of the buffer. -/
def sel_plain (s : Sim) (r : Sim × Option Nat) : Prop :=
  r.1.buffer.map erase_ref = s.buffer.map erase_ref ∧
  arc_ghosts r.1.arc_state = arc_ghosts s.arc_state ∧
  r.1.arc_state.t1_size = s.arc_state.t1_size ∧ r.1.arc_state.t2_size = s.arc_state.t2_size ∧
  r.1.arc_state.t3_size = s.arc_state.t3_size ∧ r.1.arc_state.t4_size = s.arc_state.t4_size ∧
  ∀ v, r.2 = some v → v < s.buffer.length

/-- The list `arc_find_victim_lru_arc` decides to evict from (`none`: it returns
`evict_fifo()` at once); `in_b2` is the outcome of the lookup in B2. -/
def lru_arc_target (a : ARCState) (N : Nat) (in_b2 : Bool) : Option Nat :=
  if a.t1_size + a.t2_size = (N : Int) then
    if in_b2 = true ∧ a.t1_size = a.p then
      if a.t2_size > 0 then some 2
      else if a.t1_size > 0 then some 1
      else none
    else
      if a.t1_size > 0 then some 1
      else if a.t2_size > 0 then some 2
      else none
  else none

/-- What `arc_find_victim_lru_arc` returns: nothing changed (no target list, or no victim
at all); or the least recently used frame of T1 or of T2 went to B1 or B2; or the scan of
the target list found nothing and `evict_fifo` stepped in. -/
def lru_arc_outcome (buf : List BufferFrame) (a : ARCState) (r : Option Nat × ARCState) :
    Prop :=
  (r.2 = a ∧
    (r.1 = none ∨
      ¬ (a.t1_size + a.t2_size = (buf.length : Int) ∧ (0 < a.t1_size ∨ 0 < a.t2_size)))) ∨
  (∃ v, r.1 = some v ∧ in_list buf 1 v ∧ 0 < a.t1_size ∧
    r.2 = { a with b1 := arc_add_to_ghost_mru (frame_at buf v).page_id a.b1 buf.length
                   t1_size := a.t1_size - 1 }) ∨
  (∃ v, r.1 = some v ∧ in_list buf 2 v ∧ 0 < a.t2_size ∧
    r.2 = { a with b2 := arc_add_to_ghost_mru (frame_at buf v).page_id a.b2 buf.length
                   t2_size := a.t2_size - 1 }) ∨
  (arc_ghosts r.2 = arc_ghosts a ∧
    ((0 < a.t1_size ∧ evict_arc_internal_lru buf 1 = none) ∨
     (0 < a.t2_size ∧ evict_arc_internal_lru buf 2 = none)))

/-- The list `arc_find_victim_lfu_arc` decides to evict from. -/
def lfu_arc_target (a : ARCState) (N : Nat) (in_b4 : Bool) : Option Nat :=
  if a.t3_size + a.t4_size = (N : Int) then
    if in_b4 = true ∧ a.t3_size = a.q then
      if a.t4_size > 0 then some 4
      else if a.t3_size > 0 then some 3
      else none
    else
      if a.t3_size > 0 then some 3
      else if a.t4_size > 0 then some 4
      else none
  else none

/-- What `arc_find_victim_lfu_arc` returns, as `lru_arc_outcome` for T3, T4, B3, B4. -/
def lfu_arc_outcome (buf : List BufferFrame) (a : ARCState) (r : Option Nat × ARCState) :
    Prop :=
  (r.2 = a ∧
    (r.1 = none ∨
      ¬ (a.t3_size + a.t4_size = (buf.length : Int) ∧ (0 < a.t3_size ∨ 0 < a.t4_size)))) ∨
  (∃ v, r.1 = some v ∧ in_list buf 3 v ∧ 0 < a.t3_size ∧
    r.2 = { a with b3 := arc_add_to_ghost_mru (frame_at buf v).page_id a.b3 buf.length
                   t3_size := a.t3_size - 1 }) ∨
  (∃ v, r.1 = some v ∧ in_list buf 4 v ∧ 0 < a.t4_size ∧
    r.2 = { a with b4 := arc_add_to_ghost_mru (frame_at buf v).page_id a.b4 buf.length
                   t4_size := a.t4_size - 1 }) ∨
  (arc_ghosts r.2 = arc_ghosts a ∧
    ((0 < a.t3_size ∧ evict_arc_internal_lfu buf 3 = none) ∨
     (0 < a.t4_size ∧ evict_arc_internal_lru buf 4 = none)))

/-- The state and victim after victim selection and the fallback block. -/
def chosen (s : Sim) (X : Nat) : Sim × Option Nat :=
  victim_fallback (select_victim s X).1 (select_victim s X).2

/-- The state after victim selection, fallback and victim processing. -/
def evicted (s : Sim) (X v : Nat) : Sim := process_victim (chosen s X).1 v

/-- The flag `reset_arc_completely` of a policy switch. -/
def reset_flag (old_policy new_policy : ReplacementPolicy) : Bool :=
  if (old_policy = LRU ∧ new_policy = LRU_ARC) ∨ (old_policy = LRU_ARC ∧ new_policy = LRU) then
    false
  else if (old_policy = LFU ∧ new_policy = LFU_ARC) ∨
      (old_policy = LFU_ARC ∧ new_policy = LFU) then false
  else true

/-- The LRU scenario: six reads of pages 0, 1, 2, 0, 3, 1. -/
def lru_scenario : List Record :=
  [Record.access 0 OP_READ, Record.access 8 OP_READ, Record.access 16 OP_READ,
    Record.access 0 OP_READ, Record.access 24 OP_READ, Record.access 8 OP_READ]

/-- The write-back scenario: a write of page 0, then a read of page 1. -/
def writeback_scenario : List Record :=
  [Record.access 0 OP_WRITE, Record.access 8 OP_READ]

/-- The number of pages `write_fio_log` computes for a write of `num_sectors` sectors. -/
def num_pages_of (num_sectors : Nat) : Nat :=
  if ((num_sectors + SECTORS_PER_PAGE - 1) % U32) / SECTORS_PER_PAGE = 0 ∧ num_sectors > 0 then 1
  else ((num_sectors + SECTORS_PER_PAGE - 1) % U32) / SECTORS_PER_PAGE

/-- The two-write scenarios of the ZNS check. -/
def zns_in_order : List Record := [Record.access 0 OP_WRITE, Record.access 8 OP_WRITE]

def zns_out_of_order : List Record := [Record.access 8 OP_WRITE, Record.access 0 OP_WRITE]

/-- The write records of a log, as page numbers. -/
def written_pages (log : List IoRec) : List Nat :=
  (log.filter fun r => decide (r.op = OP_WRITE)).map fun r => lba_to_page_id r.start_lba

/-- The read record a miss on page `X` logs. -/
def miss_read_record (X : Nat) : IoRec :=
  { op := OP_READ, start_lba := (X * SECTORS_PER_PAGE) % U64, num_sectors := SECTORS_PER_PAGE }

/-- The write record the write-back of page `Y` logs. -/
def victim_write_record (Y : Nat) : IoRec :=
  { op := OP_WRITE, start_lba := (Y * SECTORS_PER_PAGE) % U64, num_sectors := SECTORS_PER_PAGE }

/-- The ZNS check rejects a write at `lba`: zones are on and the zone ID is out of range. -/
def zns_rejects (s : Sim) (lba : Nat) : Prop :=
  0 < s.zone_size_pages_global ∧ MAX_ZONES ≤ lba_to_page_id lba / s.zone_size_pages_global

instance (s : Sim) (lba : Nat) : Decidable (zns_rejects s lba) :=
  inferInstanceAs (Decidable (_ ∧ _))

/-- The state of a miss on `X` once the miss is counted, the read logged and step A done. -/
def miss_entry (s : Sim) (X : Nat) : Sim :=
  miss_begin { s with current_time := (s.current_time + 1) % U64 } X

/-- The index of the frame a miss on `X` evicts, if it evicts one. -/
def miss_victim (s : Sim) (X : Nat) : Option Nat :=
  match find_empty_slot (miss_entry s X).buffer with
  | some _ => none
  | none => (chosen (miss_entry s X) X).2

/-- The victim frame as victim selection left it. -/
def victim_frame (s : Sim) (X v : Nat) : BufferFrame :=
  frame_at (chosen (miss_entry s X) X).1.buffer v

/-- The state right after the write-back of the victim. -/
def written_back (s : Sim) (X v : Nat) : Sim :=
  handle_dirty_eviction (chosen (miss_entry s X) X).1 v

/-- The state of a miss right before the block "load the new page". -/
def before_load (s : Sim) (X : Nat) : Sim :=
  match find_empty_slot s.buffer with
  | some _ => s
  | none =>
    match (chosen s X).2 with
    | some v => evicted s X v
    | none => (chosen s X).1

/-- The slot a miss loads the page into: the first empty slot, else the victim's. -/
def load_slot (s : Sim) (X : Nat) : Option Nat :=
  match find_empty_slot s.buffer with
  | some slot => some slot
  | none => (chosen s X).2

/-- The spec's "p forced to N": the adaptation target is set to the buffer size. -/
def hold_p (s : Sim) : Sim :=
  { s with arc_state := { s.arc_state with p := (s.buffer.length : Int) } }

/-- The per-access hit/miss sequence of a trace of accesses (`true`: hit); with `hold` set,
p is forced to N before every access. -/
def hit_sequence (hold : Bool) : Sim → List (Nat × Op) → List Bool
  | _, [] => []
  | s, (lba, op) :: rest =>
    decide ((access_page (if hold then hold_p s else s) lba (lba_to_page_id lba) op).hits
        = (if hold then hold_p s else s).hits + 1)
      :: hit_sequence hold
          (access_page (if hold then hold_p s else s) lba (lba_to_page_id lba) op) rest

/-- The value of p after every access of the run `hit_sequence` follows. -/
def p_sequence (hold : Bool) : Sim → List (Nat × Op) → List Int
  | _, [] => []
  | s, (lba, op) :: rest =>
    (access_page (if hold then hold_p s else s) lba (lba_to_page_id lba) op).arc_state.p
      :: p_sequence hold
          (access_page (if hold then hold_p s else s) lba (lba_to_page_id lba) op) rest

/-- A trace on which LRU and LRU-ARC part: pages 0, 0, 1, 2, 1. -/
def lru_arc_split : List (Nat × Op) :=
  [(0, OP_READ), (0, OP_READ), (8, OP_READ), (16, OP_READ), (8, OP_READ)]

/-- Accesses that leave page 0 in the second partition and page 1 in the first. -/
def placement_trace : List Record :=
  [Record.access 0 OP_READ, Record.access 0 OP_READ, Record.access 8 OP_READ]

/-- The size counter of partition `k` (T1..T4). -/
def size_of (a : ARCState) (k : Nat) : Int :=
  if k = 1 then a.t1_size else if k = 2 then a.t2_size
  else if k = 3 then a.t3_size else if k = 4 then a.t4_size else 0

/-- The scenario against the counter sentence of C20: CLOCK_T1 with one frame, which
holds page 0 when page 1 is read. -/
def clock_full : Sim := run (init_sim 1 CLOCK_T1 0) [Record.access 0 OP_READ]

/-- The LRU run of the witness of C15: pages 0, 1, 2 with two frames. -/
def ghost_run : Sim :=
  run (init_sim 2 LRU 0)
    [Record.access 0 OP_READ, Record.access 8 OP_READ, Record.access 16 OP_READ]

/-- How an eviction moves the size counters, `k` being the tag of the victim: plain CLOCK
and FIFO do not count it, the other policies take one off the victim's partition. -/
def evict_move (pol : ReplacementPolicy) (k : Nat) (a a' : ARCState) : Prop :=
  if pol = FIFO ∨ pol = CLOCK_T1 ∨ pol = CLOCK_T3 then
    a'.t1_size = a.t1_size ∧ a'.t2_size = a.t2_size ∧ a'.t3_size = a.t3_size ∧
    a'.t4_size = a.t4_size
  else
    a'.t1_size = a.t1_size - (if k = 1 then 1 else 0) ∧
    a'.t2_size = a.t2_size - (if k = 2 then 1 else 0) ∧
    a'.t3_size = a.t3_size - (if k = 3 then 1 else 0) ∧
    a'.t4_size = a.t4_size - (if k = 4 then 1 else 0)

/-- The list the specification describes for `arc_add_to_ghost_mru`: the last `cap`
elements of the list with `pid` removed and then appended at the MRU end. -/
def ghost_mru_spec (pid : Nat) (l : List Nat) (cap : Nat) : List Nat :=
  (l.erase pid ++ [pid]).drop ((l.erase pid ++ [pid]).length - cap)

/-- Every frame whose dirty flag is set holds a valid page. -/
def dirty_valid (buf : List BufferFrame) : Prop :=
  ∀ f ∈ buf, f.is_dirty ≠ 0 → f.page_id ≠ INVALID_PAGE

/-- A frame as the shutdown flush leaves it: a resident dirty frame is marked clean. -/
def flushed_frame (f : BufferFrame) : BufferFrame :=
  if f.page_id ≠ INVALID_PAGE ∧ f.is_dirty ≠ 0 then { f with is_dirty := 0 } else f

/-- The write records the shutdown flush appends for the frames `buf`, in their order: one
for the page of every resident dirty frame whose write the ZNS check does not reject. -/
def flush_writes (s : Sim) (buf : List BufferFrame) : List IoRec :=
  (buf.filter fun f =>
      decide (f.page_id ≠ INVALID_PAGE ∧ f.is_dirty ≠ 0 ∧
        ¬ zns_rejects s ((f.page_id * SECTORS_PER_PAGE) % U64))).map
    fun f => victim_write_record f.page_id

/-- The scenario against the eviction sentence of C23: CLOCK-Pro-T1 with one frame, which
holds page 0 when page 1 is read. -/
def clock_pro_full : Sim :=
  run (init_sim 1 CLOCK_PRO_T1_B4_LOGS_B2 0) [Record.access 0 OP_READ]

/-- The run of the witness of C23: CLOCK-Pro-T1 with two frames holding pages 0 and 1. -/
def clock_pro_two : Sim :=
  run (init_sim 2 CLOCK_PRO_T1_B4_LOGS_B2 0) [Record.access 0 OP_READ, Record.access 8 OP_READ]

/-- Frame `j` of the buffer exists and holds a page. -/
def resident_at (buf : List BufferFrame) (j : Nat) : Prop :=
  j < buf.length ∧ (frame_at buf j).page_id ≠ INVALID_PAGE

/-- The FIFO scenario: reads of pages 0, 1, 2, 0. -/
def fifo_scenario : List Record :=
  [Record.access 0 OP_READ, Record.access 8 OP_READ, Record.access 16 OP_READ,
    Record.access 0 OP_READ]

/-- A buffer for the LFU scan: pages 7, 8 and 9 in T3 with access counts 2, 1, 1 and load
times 1, 5, 3. -/
def lfu_sample_buffer : List BufferFrame :=
  [{ empty_frame with page_id := 7, list_type := 3, access_count := 2, load_time := 1 },
   { empty_frame with page_id := 8, list_type := 3, access_count := 1, load_time := 5 },
   { empty_frame with page_id := 9, list_type := 3, access_count := 1, load_time := 3 }]

/-- A frame the CLOCK sweep considers: it holds a page and, when the list-type filter is
active, is of the target list type. -/
def clock_match (filt : Bool) (t : Nat) (f : BufferFrame) : Prop :=
  f.page_id ≠ INVALID_PAGE ∧ (filt = true → f.list_type = t)

instance (filt : Bool) (t : Nat) (f : BufferFrame) : Decidable (clock_match filt t f) :=
  inferInstanceAs (Decidable (_ ∧ _))

/-- The number of iterations (frames inspected) of one pass of the reference-bit loop of
`evict_via_clock_policy`; the branches are those of `clock_pass`. -/
def clock_pass_steps (hand : Nat) (list_type_filter_active : Bool) (target_list_type : Nat)
    (pass : Nat) : Nat → Nat → List BufferFrame → Nat
  | 0, _, _ => 0
  | n + 1, i, buf =>
    let current_idx := (hand + i) % buf.length
    let f := frame_at buf current_idx
    if f.page_id ≠ INVALID_PAGE then
      if list_type_filter_active = true ∧ f.list_type ≠ target_list_type then
        1 + clock_pass_steps hand list_type_filter_active target_list_type pass n (i + 1) buf
      else if f.ref_bit = 0 then 1
      else if pass = 0 then
        1 + clock_pass_steps hand list_type_filter_active target_list_type pass n (i + 1)
          (buf.set current_idx { f with ref_bit := 0 })
      else 1 + clock_pass_steps hand list_type_filter_active target_list_type pass n (i + 1) buf
    else 1 + clock_pass_steps hand list_type_filter_active target_list_type pass n (i + 1) buf

/-- The number of iterations of the force-evict loop of `evict_via_clock_policy`. -/
def clock_force_steps (initial_hand : Nat) (list_type_filter_active : Bool)
    (target_list_type : Nat) (buf : List BufferFrame) : Nat → Nat → Nat
  | 0, _ => 0
  | n + 1, i =>
    let check_idx := (initial_hand + i) % buf.length
    let f := frame_at buf check_idx
    if f.page_id ≠ INVALID_PAGE then
      if list_type_filter_active = true ∧ f.list_type ≠ target_list_type then
        1 + clock_force_steps initial_hand list_type_filter_active target_list_type buf n (i + 1)
      else 1
    else 1 + clock_force_steps initial_hand list_type_filter_active target_list_type buf n (i + 1)

/-- The number of frames the three loops of `evict_via_clock_policy` inspect. -/
def clock_sweep_inspections (hand : Nat) (list_type_filter_active : Bool)
    (target_list_type : Nat) (buf : List BufferFrame) : Nat :=
  if buf.length = 0 then 0
  else
    match clock_pass hand list_type_filter_active target_list_type 0 buf.length 0 buf with
    | (some _, _) =>
      clock_pass_steps hand list_type_filter_active target_list_type 0 buf.length 0 buf
    | (none, buf1) =>
      clock_pass_steps hand list_type_filter_active target_list_type 0 buf.length 0 buf +
      match clock_pass hand list_type_filter_active target_list_type 1 buf.length 0 buf1 with
      | (some _, _) =>
        clock_pass_steps hand list_type_filter_active target_list_type 1 buf.length 0 buf1
      | (none, buf2) =>
        clock_pass_steps hand list_type_filter_active target_list_type 1 buf.length 0 buf1 +
        clock_force_steps hand list_type_filter_active target_list_type buf2 buf.length 0

/-- The number of frames a call of `evict_via_clock_policy` inspects in all: those of its
three loops and, when it ends in `return evict_fifo()`, the `buffer_size` frames the loop of
`evict_fifo` goes through. -/
def clock_inspections (hand : Nat) (list_type_filter_active : Bool)
    (target_list_type : Nat) (buf : List BufferFrame) : Nat :=
  clock_sweep_inspections hand list_type_filter_active target_list_type buf +
  (if (evict_via_clock_policy hand list_type_filter_active target_list_type buf).msgs
      = [ErrMsg.clock_fallback_fifo] then buf.length else 0)

/-- The frames at the ring offsets `lo ≤ i < hi` from `hand` that the sweep considers. -/
def swept (hand : Nat) (filt : Bool) (t : Nat) (b : List BufferFrame) (lo hi j : Nat) : Prop :=
  ∃ i, lo ≤ i ∧ i < hi ∧ (hand + i) % b.length = j ∧ clock_match filt t (frame_at b j)

/-- Plain CLOCK with two frames after the reads of pages 0 and 1: both frames are resident,
of list type 1, with their reference bit set. -/
def clock_two : Sim :=
  run (init_sim 2 CLOCK_T1 0) [Record.access 0 OP_READ, Record.access 8 OP_READ]

/-- Plain CLOCK with two frames after the reads of pages 0, 1 and 2: frame 0 holds page 2
with its reference bit set, frame 1 holds page 1 with its reference bit clear. -/
def clock_three : Sim :=
  run (init_sim 2 CLOCK_T1 0)
    [Record.access 0 OP_READ, Record.access 8 OP_READ, Record.access 16 OP_READ]

/-- The force-evict loop of a call of `evict_via_clock_policy` is reached: the buffer is not
empty and both reference-bit passes ran through without returning. -/
def force_pass_entered (hand : Nat) (filt : Bool) (t : Nat) (buf : List BufferFrame) : Prop :=
  buf.length ≠ 0 ∧ (clock_pass hand filt t 0 buf.length 0 buf).1 = none ∧
  (clock_pass hand filt t 1 buf.length 0 (clock_pass hand filt t 0 buf.length 0 buf).2).1 = none

/-- What the force-evict loop of a call of `evict_via_clock_policy` returns, on the frames
the two reference-bit passes leave. -/
def force_pass_result (hand : Nat) (filt : Bool) (t : Nat) (buf : List BufferFrame) :
    Option Nat :=
  clock_force hand filt t
    (clock_pass hand filt t 1 buf.length 0 (clock_pass hand filt t 0 buf.length 0 buf).2).2
    buf.length 0

/-- A dirty page beyond the last zone: with zones of one page, page 131072 lies in zone
131072 = MAX_ZONES.  It is written (a miss), then evicted by the read of page 0. -/
def beyond_zones_trace : List Record :=
  [Record.access 1048576 OP_WRITE, Record.access 0 OP_READ]

/-- The number of resident frames whose `list_type` is `k`. -/
def count_list_type (buf : List BufferFrame) (k : Nat) : Int :=
  ((buf.countP fun f => decide (f.page_id ≠ INVALID_PAGE ∧ f.list_type = k) : Nat) : Int)

/-- The number of resident frames whose `ref_arc_list_type` is `k`. -/
def count_ref_type (buf : List BufferFrame) (k : Nat) : Int :=
  ((buf.countP fun f => decide (f.page_id ≠ INVALID_PAGE ∧ f.ref_arc_list_type = k) : Nat) : Int)

/-- A run over two frames that ends right after a switch from LRU to LRU_ARC. -/
def switch_trace : List Record :=
  [Record.access 0 OP_READ, Record.access 0 OP_READ, Record.access 8 OP_WRITE,
    Record.policy_change 8]

/-- Frame `v` is the least recently accessed resident frame of list `t`: it is resident and
of list type `t`, no resident frame of list `t` has a smaller last_access_time, and those
at a lower index have a larger one. -/
def lru_frame_of (buf : List BufferFrame) (t v : Nat) : Prop :=
  in_list buf t v ∧
  (∀ j, in_list buf t j →
    (frame_at buf v).last_access_time ≤ (frame_at buf j).last_access_time) ∧
  (∀ j, j < v → in_list buf t j →
    (frame_at buf v).last_access_time < (frame_at buf j).last_access_time)

/-- Frame `v` is the least frequently used resident frame of list `t`: it is resident and
of list type `t`, no resident frame of list `t` has a smaller access_count, and among those
of equal access_count none has a smaller load_time. -/
def lfu_frame_of (buf : List BufferFrame) (t v : Nat) : Prop :=
  in_list buf t v ∧
  ∀ j, in_list buf t j →
    (frame_at buf v).access_count ≤ (frame_at buf j).access_count ∧
    ((frame_at buf j).access_count = (frame_at buf v).access_count →
      (frame_at buf v).load_time ≤ (frame_at buf j).load_time)

/-- LRU_ARC with two frames after the reads of pages 0, 0, 1: page 0 is in T2, page 1 in
T1. -/
def lru_arc_mixed : Sim :=
  run (init_sim 2 LRU_ARC 0)
    [Record.access 0 OP_READ, Record.access 0 OP_READ, Record.access 8 OP_READ]

/-- The ARC state of `lru_arc_mixed` with page 5 put in B2 and the target p set to
t1_size = 1: the state of the branch of `arc_find_victim_lru_arc` that prefers T2. -/
def lru_arc_prefers_t2 : ARCState :=
  { lru_arc_mixed.arc_state with b2 := [5], p := 1 }

/-- LFU_ARC with two frames after the reads of pages 0, 0, 0, 1, 1: both pages are in T4,
page 0 with access_count 3 and last access at time 3, page 1 with access_count 2 and last
access at time 5. -/
def lfu_arc_both_t4 : Sim :=
  run (init_sim 2 LFU_ARC 0)
    [Record.access 0 OP_READ, Record.access 0 OP_READ, Record.access 0 OP_READ,
      Record.access 8 OP_READ, Record.access 8 OP_READ]

/-- The state with the adaptation target p replaced by `p'`. -/
def with_p (s : Sim) (p' : Int) : Sim := { s with arc_state := { s.arc_state with p := p' } }

/-- The state with the adaptation target q replaced by `q'`. -/
def with_q (s : Sim) (q' : Int) : Sim := { s with arc_state := { s.arc_state with q := q' } }

/-- LRU_ARC with two frames after the reads of pages 0, 0, 1, 2, 1, 2, 0, 3: frame 0 holds
page 3 in T1, frame 1 holds page 0 in T2, B2 is [1, 2] and t1_size = p = 1. -/
def lru_arc_ghost_hit : Sim :=
  run (init_sim 2 LRU_ARC 0)
    [Record.access 0 OP_READ, Record.access 0 OP_READ, Record.access 8 OP_READ,
      Record.access 16 OP_READ, Record.access 8 OP_READ, Record.access 16 OP_READ,
      Record.access 0 OP_READ, Record.access 24 OP_READ]

/-- LRU with two frames after the reads of pages 0, 0, 1: page 0 carries the shadow tag 2,
page 1 the shadow tag 1. -/
def lru_mixed : Sim :=
  run (init_sim 2 LRU 0)
    [Record.access 0 OP_READ, Record.access 0 OP_READ, Record.access 8 OP_READ]

/-- The load times of the resident frames are pairwise distinct. -/
def load_times_distinct (buf : List BufferFrame) : Prop :=
  ∀ i j, resident_at buf i → resident_at buf j →
    (frame_at buf i).load_time = (frame_at buf j).load_time → i = j

/-- No two frames hold the same valid page. -/
def pages_distinct (buf : List BufferFrame) : Prop :=
  ∀ i j, resident_at buf i → resident_at buf j →
    (frame_at buf i).page_id = (frame_at buf j).page_id → i = j

/-- Every resident frame of `e` is a resident frame of `b` with the same load time. -/
def sub_loads (b e : List BufferFrame) : Prop :=
  e.length = b.length ∧
  ∀ j, resident_at e j →
    (frame_at e j).page_id = (frame_at b j).page_id ∧
    (frame_at e j).load_time = (frame_at b j).load_time

/-- A run over two frames with hits, evictions and a policy switch. -/
def distinct_trace : List Record :=
  [Record.access 0 OP_READ, Record.access 8 OP_WRITE, Record.access 0 OP_READ,
    Record.access 16 OP_READ, Record.policy_change 4, Record.access 24 OP_READ]

/-- A frame without its partition labels. -/
def strip_lists (f : BufferFrame) : BufferFrame :=
  { f with list_type := 0, ref_arc_list_type := 0 }

/-- Two buffers that differ at most in the partition labels of their frames. -/
def same_frames (b b' : List BufferFrame) : Prop := b.map strip_lists = b'.map strip_lists

/-- Every resident frame passes the list-type filter. -/
def all_pass (filt : Bool) (t : Nat) (b : List BufferFrame) : Prop :=
  ∀ f ∈ b, f.page_id ≠ INVALID_PAGE → filt = true → f.list_type = t

/-- The four CLOCK-family policies. -/
def is_clock (pol : ReplacementPolicy) : Prop :=
  pol = CLOCK_T1 ∨ pol = CLOCK_T3 ∨ pol = CLOCK_PRO_T1_B4_LOGS_B2 ∨
  pol = CLOCK_PRO_T3_B2_LOGS_B4

instance (pol : ReplacementPolicy) : Decidable (is_clock pol) :=
  inferInstanceAs (Decidable (_ ∨ _ ∨ _ ∨ _))

/-- The list type a CLOCK-family policy loads its pages with. -/
def clock_tag (pol : ReplacementPolicy) : Nat :=
  if pol = CLOCK_T1 ∨ pol = CLOCK_PRO_T1_B4_LOGS_B2 then 1 else 3

/-- The hand the sweep of the active policy moves: `p_clk_hand` under CLOCK_PRO_T1,
`q_clk_hand` under CLOCK_PRO_T3, `global_clk_hand` otherwise. -/
def clock_hand (s : Sim) : Nat :=
  if s.current_policy = CLOCK_PRO_T1_B4_LOGS_B2 then s.arc_state.p_clk_hand
  else if s.current_policy = CLOCK_PRO_T3_B2_LOGS_B4 then s.arc_state.q_clk_hand
  else s.global_clk_hand

/-- The clock and the counters of a state. -/
def counters (s : Sim) : Nat × Nat × Nat := (s.current_time, s.hits, s.misses)

/-- The zone size, the zone table and the device log of a state. -/
def device (s : Sim) : Nat × (Nat → Nat) × List IoRec :=
  (s.zone_size_pages_global, s.zone_write_pointers, s.log_file)

/-- Two states that a CLOCK-family policy cannot tell apart: their frames differ at most
in the partition labels, and they have the same hand, clock, counters, zone table and
device log. -/
def clock_rel (s r : Sim) : Prop :=
  same_frames s.buffer r.buffer ∧ clock_hand s = clock_hand r ∧ counters s = counters r ∧
  device s = device r

/-- A state of a CLOCK-family policy all of whose resident frames carry the list type of
the policy. -/
def clock_state (s : Sim) : Prop :=
  is_clock s.current_policy ∧
  ∀ f ∈ s.buffer, f.page_id ≠ INVALID_PAGE → f.list_type = clock_tag s.current_policy

/-- The access records `<lba> <op>` of the pairs of `l`, in their order. -/
def access_records (l : List (Nat × Op)) : List Record :=
  l.map fun a => Record.access a.1 a.2

/-- What `access_page` does with page `X` in state `s`: nothing (`none`) when `X` is
INVALID_PAGE; otherwise a hit (`true`) if `find_in_buffer` finds the page and a miss
(`false`) if not, and with a miss the page of the frame it evicts, if it evicts one. -/
def access_outcome (s : Sim) (X : Nat) : Option (Bool × Option Nat) :=
  if X = INVALID_PAGE then none
  else
    match find_in_buffer s.buffer X with
    | some _ => some (true, none)
    | none => some (false, (miss_victim s X).map fun v => (victim_frame s X v).page_id)

/-- The outcomes of the accesses of `l`, one after the other, from state `s`. -/
def access_outcomes : Sim → List (Nat × Op) → List (Option (Bool × Option Nat))
  | _, [] => []
  | s, a :: rest =>
    access_outcome s (lba_to_page_id a.1)
      :: access_outcomes (process_record s (Record.access a.1 a.2)) rest

/-- The trace of the example of C36: two frames, pages 0, 1, 2, 0, 3, 1, the third one
written. -/
def clock_family_trace : List (Nat × Op) :=
  [(0, OP_READ), (8, OP_READ), (16, OP_WRITE), (0, OP_READ), (24, OP_READ), (8, OP_READ)]

theorem relabel_frame_core (o n : ReplacementPolicy) (f : BufferFrame) (a : ARCState) :
    frame_core (relabel_frame o n f a).1 = frame_core f := by
  simp only [relabel_frame, frame_core]
  split_ifs <;> rfl

theorem relabel_loop_core (o n : ReplacementPolicy) (buf : List BufferFrame) (a : ARCState) :
    (relabel_loop o n buf a).1.map frame_core = buf.map frame_core := by
  induction buf generalizing a with
  | nil => rfl
  | cons f rest ih =>
    simp only [relabel_loop, List.map_cons, relabel_frame_core, ih]

theorem relabel_frame_arc (o n : ReplacementPolicy) (f : BufferFrame) (a : ARCState) :
    (relabel_frame o n f a).2.p = a.p ∧ (relabel_frame o n f a).2.q = a.q ∧
    (relabel_frame o n f a).2.b1 = a.b1 ∧ (relabel_frame o n f a).2.b2 = a.b2 ∧
    (relabel_frame o n f a).2.b3 = a.b3 ∧ (relabel_frame o n f a).2.b4 = a.b4 := by
  simp only [relabel_frame]
  split_ifs <;> simp

theorem relabel_loop_arc (o n : ReplacementPolicy) (buf : List BufferFrame) (a : ARCState) :
    (relabel_loop o n buf a).2.p = a.p ∧ (relabel_loop o n buf a).2.q = a.q ∧
    (relabel_loop o n buf a).2.b1 = a.b1 ∧ (relabel_loop o n buf a).2.b2 = a.b2 ∧
    (relabel_loop o n buf a).2.b3 = a.b3 ∧ (relabel_loop o n buf a).2.b4 = a.b4 := by
  induction buf generalizing a with
  | nil => simp [relabel_loop]
  | cons f rest ih =>
    simp only [relabel_loop]
    have h1 := relabel_frame_arc o n f a
    have h2 := ih (relabel_frame o n f a).2
    refine ⟨h2.1.trans h1.1, h2.2.1.trans h1.2.1, h2.2.2.1.trans h1.2.2.1,
      h2.2.2.2.1.trans h1.2.2.2.1, h2.2.2.2.2.1.trans h1.2.2.2.2.1,
      h2.2.2.2.2.2.trans h1.2.2.2.2.2⟩

theorem initialize_arc_state_full_ghosts (pol : ReplacementPolicy) (N : Nat) :
    (initialize_arc_state_full pol N).b1 = [] ∧ (initialize_arc_state_full pol N).b2 = [] ∧
    (initialize_arc_state_full pol N).b3 = [] ∧ (initialize_arc_state_full pol N).b4 = [] := by
  cases pol <;> simp [initialize_arc_state_full]

theorem initialize_arc_state_full_targets (pol : ReplacementPolicy) (N : Nat) :
    ((initialize_arc_state_full pol N).p, (initialize_arc_state_full pol N).q)
      = reset_targets pol N := by
  rcases Nat.eq_zero_or_pos N with h0 | hpos
  · subst h0
    cases pol <;> simp [initialize_arc_state_full, reset_targets]
  · cases pol <;> simp [initialize_arc_state_full, reset_targets, hpos]

theorem policy_of_code_range (code : Int) (new_policy : ReplacementPolicy)
    (h : policy_of_code code = some new_policy) : code ≥ 0 ∧ code ≤ 8 := by
  unfold policy_of_code at h
  split_ifs at h <;> omega

theorem policy_of_code_none (code : Int) (h : code < 0 ∨ 8 < code) :
    policy_of_code code = none := by
  unfold policy_of_code
  split_ifs <;> first | omega | rfl

theorem process_record_switch (s : Sim) (code : Int) (new_policy : ReplacementPolicy)
    (h : policy_of_code code = some new_policy) (hne : s.current_policy ≠ new_policy) :
    process_record s (Record.policy_change code) = switch_policy s new_policy := by
  have hr := policy_of_code_range code new_policy h
  simp [process_record, h, hr.1, hr.2, hne]

/-- C8: a policy-switch record whose code, a value of the `int` the directive is read
into, is the current policy's or lies outside 0..8, leaves every component of the
simulator state (policy, frames, ghost lists, p, q, partition sizes, CLOCK hands, hits,
misses, clock, zone write pointers) unchanged and appends nothing to the device log; only a
diagnostic may be printed. -/
theorem switch_noop_keeps_state (s : Sim) (code : Int) (hint : code_fits_int code)
    (h : policy_of_code code = some s.current_policy ∨ code < 0 ∨ 8 < code) :
    same_but_stderr s (process_record s (Record.policy_change code)) := by
  have _ := hint
  rcases h with h | h
  · have hr := policy_of_code_range code _ h
    simp [process_record, h, hr.1, hr.2, same_but_stderr]
  · have hn : ¬ (code ≥ 0 ∧ code ≤ 8) := by omega
    simp [process_record, hn, same_but_stderr]

theorem switch_noop_keeps_state_witness :
    (code_fits_int 4 ∧
      (policy_of_code 4 = some (init_sim 2 FIFO 4).current_policy ∨ (4 : Int) < 0 ∨
        (8 : Int) < 4)) ∧
    same_but_stderr (init_sim 2 FIFO 4)
      (process_record (init_sim 2 FIFO 4) (Record.policy_change 4)) :=
  ⟨⟨by decide, Or.inl (by decide)⟩,
    switch_noop_keeps_state (init_sim 2 FIFO 4) 4 (by decide) (Or.inl (by decide))⟩

/-- A policy-switch record keeps the core of every frame, the counters, the clock, the
zone write pointers and the device log. -/
theorem process_switch_core (s : Sim) (code : Int) :
    (process_record s (Record.policy_change code)).buffer.map frame_core
        = s.buffer.map frame_core ∧
    (process_record s (Record.policy_change code)).hits = s.hits ∧
    (process_record s (Record.policy_change code)).misses = s.misses ∧
    (process_record s (Record.policy_change code)).current_time = s.current_time ∧
    (process_record s (Record.policy_change code)).zone_write_pointers
        = s.zone_write_pointers ∧
    (process_record s (Record.policy_change code)).log_file = s.log_file := by
  simp only [process_record]
  split_ifs with hr
  · cases hc : policy_of_code code with
    | none => simp
    | some new_policy =>
      simp only []
      split_ifs with hne
      · simp [switch_policy, relabel_loop_core]
      · simp
  · simp

/-- C9: a policy-switch record (whatever its code, so in particular one that selects a
policy different from the current one) leaves page_id, load_time, last_access_time,
access_count and is_dirty of every frame unchanged, leaves hits, misses, current_time
and the zone write pointers unchanged, and appends nothing to the device log. -/
theorem switch_keeps_frames (s : Sim) (code : Int) :
    (process_record s (Record.policy_change code)).buffer.map frame_core
        = s.buffer.map frame_core ∧
    (process_record s (Record.policy_change code)).hits = s.hits ∧
    (process_record s (Record.policy_change code)).misses = s.misses ∧
    (process_record s (Record.policy_change code)).current_time = s.current_time ∧
    (process_record s (Record.policy_change code)).zone_write_pointers
        = s.zone_write_pointers ∧
    (process_record s (Record.policy_change code)).log_file = s.log_file :=
  process_switch_core s code

/-- C10: on a switch from the current policy to a different policy `new_policy`: if the
pair is LRU/LRU_ARC or LFU/LFU_ARC (in either direction) the ghost lists B1..B4 and p, q
are unchanged; for every other pair the four ghost lists are empty and (p, q) is (N, 0)
for CLOCK_T1, (0, N) for CLOCK_T3, (N/2, 0) for CLOCK_PRO_T1, (0, N/2) for CLOCK_PRO_T3
and (0, 0) otherwise; in all cases the three CLOCK hands are 0 afterwards. -/
theorem switch_arc_state (s : Sim) (code : Int) (new_policy : ReplacementPolicy)
    (h : policy_of_code code = some new_policy) (hne : s.current_policy ≠ new_policy) :
    (carries_over s.current_policy new_policy →
      (process_record s (Record.policy_change code)).arc_state.b1 = s.arc_state.b1 ∧
      (process_record s (Record.policy_change code)).arc_state.b2 = s.arc_state.b2 ∧
      (process_record s (Record.policy_change code)).arc_state.b3 = s.arc_state.b3 ∧
      (process_record s (Record.policy_change code)).arc_state.b4 = s.arc_state.b4 ∧
      (process_record s (Record.policy_change code)).arc_state.p = s.arc_state.p ∧
      (process_record s (Record.policy_change code)).arc_state.q = s.arc_state.q) ∧
    (¬ carries_over s.current_policy new_policy →
      (process_record s (Record.policy_change code)).arc_state.b1 = [] ∧
      (process_record s (Record.policy_change code)).arc_state.b2 = [] ∧
      (process_record s (Record.policy_change code)).arc_state.b3 = [] ∧
      (process_record s (Record.policy_change code)).arc_state.b4 = [] ∧
      ((process_record s (Record.policy_change code)).arc_state.p,
        (process_record s (Record.policy_change code)).arc_state.q)
          = reset_targets new_policy s.buffer.length) ∧
    (process_record s (Record.policy_change code)).arc_state.p_clk_hand = 0 ∧
    (process_record s (Record.policy_change code)).arc_state.q_clk_hand = 0 ∧
    (process_record s (Record.policy_change code)).global_clk_hand = 0 := by
  rw [process_record_switch s code new_policy h hne]
  unfold switch_policy
  simp only []
  generalize hold : s.current_policy = old at *
  refine ⟨?_, ?_, by simp, by simp, by simp⟩
  · intro hc
    have hreset : (if (old = LRU ∧ new_policy = LRU_ARC) ∨ (old = LRU_ARC ∧ new_policy = LRU)
        then false
        else if (old = LFU ∧ new_policy = LFU_ARC) ∨ (old = LFU_ARC ∧ new_policy = LFU)
        then false else true) = false := by
      unfold carries_over at hc
      split_ifs with h1 h2
      · rfl
      · rfl
      · exfalso; tauto
    rw [hreset]
    have hl := relabel_loop_arc old new_policy s.buffer
      { initialize_arc_state false new_policy s.buffer.length s.arc_state with
        t1_size := 0, t2_size := 0, t3_size := 0, t4_size := 0 }
    simp only [initialize_arc_state] at hl ⊢
    simp at hl ⊢
    tauto
  · intro hc
    have hreset : (if (old = LRU ∧ new_policy = LRU_ARC) ∨ (old = LRU_ARC ∧ new_policy = LRU)
        then false
        else if (old = LFU ∧ new_policy = LFU_ARC) ∨ (old = LFU_ARC ∧ new_policy = LFU)
        then false else true) = true := by
      unfold carries_over at hc
      split_ifs with h1 h2
      · exfalso; tauto
      · exfalso; tauto
      · rfl
    rw [hreset]
    have hl := relabel_loop_arc old new_policy s.buffer
      { initialize_arc_state true new_policy s.buffer.length s.arc_state with
        t1_size := 0, t2_size := 0, t3_size := 0, t4_size := 0 }
    have hg := initialize_arc_state_full_ghosts new_policy s.buffer.length
    have ht := initialize_arc_state_full_targets new_policy s.buffer.length
    simp only [initialize_arc_state] at hl ⊢
    simp at hl ⊢
    obtain ⟨h1, h2, h3, h4, h5, h6⟩ := hl
    rw [h1, h2, h3, h4, h5, h6]
    exact ⟨hg.1, hg.2.1, hg.2.2.1, hg.2.2.2, ht⟩

theorem switch_arc_state_witness :
    policy_of_code 2 = some CLOCK_T1 ∧ (init_sim 2 FIFO 0).current_policy ≠ CLOCK_T1 ∧
    (process_record (init_sim 2 FIFO 0) (Record.policy_change 2)).arc_state.b1 = [] ∧
    (process_record (init_sim 2 FIFO 0) (Record.policy_change 2)).global_clk_hand = 0 :=
  have h := switch_arc_state (init_sim 2 FIFO 0) 2 CLOCK_T1 (by decide) (by decide)
  ⟨by decide, by decide, (h.2.1 (by decide)).1, h.2.2.2.2⟩

/-! ## Components no part of an access changes, or changes in one place only -/

theorem write_fio_log_fixed (s : Sim) (lba n : Nat) (op : Op) :
    (write_fio_log s lba n op).fixed = s.fixed := by
  unfold write_fio_log
  simp only []
  split_ifs <;> rfl

theorem write_fio_log_buffer (s : Sim) (lba n : Nat) (op : Op) :
    (write_fio_log s lba n op).buffer = s.buffer := by
  unfold write_fio_log
  simp only []
  split_ifs <;> rfl

theorem write_fio_log_arc (s : Sim) (lba n : Nat) (op : Op) :
    (write_fio_log s lba n op).arc_state = s.arc_state := by
  unfold write_fio_log
  simp only []
  split_ifs <;> rfl

theorem write_fio_log_hand (s : Sim) (lba n : Nat) (op : Op) :
    (write_fio_log s lba n op).global_clk_hand = s.global_clk_hand := by
  unfold write_fio_log
  simp only []
  split_ifs <;> rfl

theorem handle_dirty_eviction_fixed (s : Sim) (v : Nat) :
    (handle_dirty_eviction s v).fixed = s.fixed := by
  unfold handle_dirty_eviction
  simp only []
  split_ifs
  · rfl
  · have h := write_fio_log_fixed s
      (((frame_at s.buffer v).page_id * SECTORS_PER_PAGE) % U64) SECTORS_PER_PAGE OP_WRITE
    have hb := write_fio_log_buffer s
      (((frame_at s.buffer v).page_id * SECTORS_PER_PAGE) % U64) SECTORS_PER_PAGE OP_WRITE
    simp only [Sim.fixed, Prod.mk.injEq] at h ⊢
    simp [h, hb]
  · rfl

theorem handle_dirty_eviction_arc (s : Sim) (v : Nat) :
    (handle_dirty_eviction s v).arc_state = s.arc_state := by
  unfold handle_dirty_eviction
  simp only []
  split_ifs <;> simp [write_fio_log_arc]

theorem clock_pass_length (hand : Nat) (filt : Bool) (target pass : Nat) (n i : Nat)
    (buf : List BufferFrame) :
    (clock_pass hand filt target pass n i buf).2.length = buf.length := by
  induction n generalizing i buf with
  | zero => rfl
  | succ n ih =>
    unfold clock_pass
    simp only []
    split_ifs <;> simp [ih]

theorem evict_via_clock_policy_length (hand : Nat) (filt : Bool) (target : Nat)
    (buf : List BufferFrame) :
    (evict_via_clock_policy hand filt target buf).buf.length = buf.length := by
  unfold evict_via_clock_policy
  split_ifs with h0
  · rfl
  · have h1 := clock_pass_length hand filt target 0 buf.length 0 buf
    split
    · rename_i idx buf1 heq
      rw [heq] at h1; exact h1
    · rename_i buf1 heq
      rw [heq] at h1
      have h2 := clock_pass_length hand filt target 1 buf.length 0 buf1
      split
      · rename_i idx buf2 heq2
        rw [heq2] at h2; simp at h1 h2 ⊢; omega
      · rename_i buf2 heq2
        rw [heq2] at h2
        split <;> (simp at h1 h2 ⊢; omega)

theorem clock_on_global_hand_fixed (s : Sim) (filt : Bool) (target : Nat) :
    (clock_on_global_hand s filt target).1.fixed = s.fixed := by
  simp [clock_on_global_hand, Sim.fixed, evict_via_clock_policy_length]

theorem clock_on_p_hand_fixed (s : Sim) (filt : Bool) (target : Nat) :
    (clock_on_p_hand s filt target).1.fixed = s.fixed := by
  simp [clock_on_p_hand, Sim.fixed, evict_via_clock_policy_length]

theorem clock_on_q_hand_fixed (s : Sim) (filt : Bool) (target : Nat) :
    (clock_on_q_hand s filt target).1.fixed = s.fixed := by
  simp [clock_on_q_hand, Sim.fixed, evict_via_clock_policy_length]

theorem fixed_stderr (s : Sim) (e : List ErrMsg) :
    Sim.fixed { s with stderr := e } = s.fixed := rfl

theorem fixed_arc (s : Sim) (a : ARCState) :
    Sim.fixed { s with arc_state := a } = s.fixed := rfl

theorem select_victim_fixed (s : Sim) (page_id : Nat) :
    (select_victim s page_id).1.fixed = s.fixed := by
  obtain ⟨buf, pol, prev, time, hits, misses, arc, log, err, hand, zs, wp⟩ := s
  cases pol <;> simp only [select_victim, reduceCtorEq, if_true, if_false]
  all_goals first
    | rfl
    | exact clock_on_global_hand_fixed _ _ _
    | (split_ifs <;>
        simp only [clock_on_p_hand_fixed, clock_on_q_hand_fixed, fixed_stderr])

theorem victim_fallback_fixed (s : Sim) (v : Option Nat) :
    (victim_fallback s v).1.fixed = s.fixed := by
  unfold victim_fallback
  by_cases h1 : v = none ∧ s.buffer.length > 0
  · rw [if_pos h1]
    cases evict_fifo s.buffer with
    | none => rfl
    | some w =>
      simp only []
      split_ifs <;> rfl
  · rw [if_neg h1]

theorem process_victim_fixed (s : Sim) (v : Nat) :
    (process_victim s v).fixed = s.fixed := by
  have h := handle_dirty_eviction_fixed s v
  simp only [Sim.fixed, Prod.mk.injEq] at h ⊢
  simp [process_victim, h]

theorem load_page_fixed (s : Sim) (slot page_id : Nat) (op : Op) (al rl : Nat) :
    (load_page s slot page_id op al rl).fixed = s.fixed := by
  obtain ⟨buf, pol, prev, time, hits, misses, arc, log, err, hand, zs, wp⟩ := s
  cases pol <;> simp [load_page, Sim.fixed]

theorem access_hit_fixed (s : Sim) (i : Nat) (op : Op) :
    (access_hit s i op).fixed
      = (s.current_policy, s.current_time, s.hits + 1, s.misses, s.zone_size_pages_global,
          s.buffer.length) := by
  obtain ⟨buf, pol, prev, time, hits, misses, arc, log, err, hand, zs, wp⟩ := s
  cases pol <;> simp only [access_hit, reduceCtorEq, if_true, if_false, or_self, or_true,
    true_or] <;> (try split_ifs) <;> simp [Sim.fixed]

theorem access_miss_eq (s : Sim) (page_id : Nat) (op : Op) :
    access_miss s page_id op
      = miss_finish (miss_begin s page_id) page_id op
          (step_a s.current_policy s.buffer.length s.arc_state page_id).actual_load_list_type
          (step_a s.current_policy s.buffer.length s.arc_state page_id).ref_load_list_type := by
  rfl

theorem miss_begin_fixed (s : Sim) (page_id : Nat) :
    (miss_begin s page_id).fixed
      = (s.current_policy, s.current_time, s.hits, s.misses + 1, s.zone_size_pages_global,
          s.buffer.length) := by
  rfl

theorem miss_finish_fixed (s : Sim) (page_id : Nat) (op : Op) (al rl : Nat) :
    (miss_finish s page_id op al rl).fixed = s.fixed := by
  unfold miss_finish
  split
  · rw [load_page_fixed]
  · split
    · rw [load_page_fixed, process_victim_fixed, victim_fallback_fixed, select_victim_fixed]
    · rw [victim_fallback_fixed, select_victim_fixed]

theorem access_miss_fixed (s : Sim) (page_id : Nat) (op : Op) :
    (access_miss s page_id op).fixed
      = (s.current_policy, s.current_time, s.hits, s.misses + 1, s.zone_size_pages_global,
          s.buffer.length) := by
  rw [access_miss_eq, miss_finish_fixed, miss_begin_fixed]

theorem lba_to_page_id_valid (lba : Nat) (h : lba < U64) : lba_to_page_id lba ≠ INVALID_PAGE := by
  unfold lba_to_page_id SECTORS_PER_PAGE INVALID_PAGE ULLONG_MAX
  unfold U64 at h
  omega

theorem access_page_counts (s : Sim) (lba page_id : Nat) (op : Op)
    (h : page_id ≠ INVALID_PAGE) :
    (access_page s lba page_id op).hits + (access_page s lba page_id op).misses
      = s.hits + s.misses + 1 := by
  unfold access_page
  simp only [h, if_false]
  split
  · rename_i i _
    have := access_hit_fixed { s with current_time := (s.current_time + 1) % U64 } i op
    simp only [Sim.fixed, Prod.mk.injEq] at this
    omega
  · have := access_miss_fixed { s with current_time := (s.current_time + 1) % U64 } page_id op
    simp only [Sim.fixed, Prod.mk.injEq] at this
    omega

theorem process_record_counts (s : Sim) (r : Record) (h : lbas_fit [r]) :
    (process_record s r).hits + (process_record s r).misses
      = s.hits + s.misses + access_count_of [r] := by
  cases r with
  | access lba op =>
    simp only [lbas_fit, and_true] at h
    simp only [process_record, access_count_of]
    exact access_page_counts s lba _ op (lba_to_page_id_valid lba h)
  | policy_change code =>
    have h9 := process_switch_core s code
    simp only [access_count_of]
    omega

theorem run_counts (trace : List Record) (s : Sim) (h : lbas_fit trace) :
    (run s trace).hits + (run s trace).misses = s.hits + s.misses + access_count_of trace := by
  induction trace generalizing s with
  | nil => simp [run, access_count_of]
  | cons r rest ih =>
    have hr : lbas_fit [r] ∧ lbas_fit rest := by
      cases r <;> simp_all [lbas_fit]
    have h1 := process_record_counts s r hr.1
    have h2 := ih (process_record s r) hr.2
    simp only [run]
    cases r <;> simp only [access_count_of] at h1 ⊢ <;> omega

/-- C1: for every buffer size, every initial policy, every zone size and every sequence
of access and policy-switch records whose LBAs fit `unsigned long long`, after the
sequence hits + misses equals the number of access records processed (a prefix of such a
sequence is such a sequence, so this holds after each record). -/
theorem hits_plus_misses_count (N : Nat) (pol : ReplacementPolicy) (zs : Nat)
    (trace : List Record) (h : lbas_fit trace) :
    (run (init_sim N pol zs) trace).hits + (run (init_sim N pol zs) trace).misses
      = access_count_of trace := by
  have := run_counts trace (init_sim N pol zs) h
  simpa [init_sim] using this

theorem hits_plus_misses_count_witness :
    lbas_fit [Record.access 0 OP_READ, Record.policy_change 8, Record.access 8 OP_WRITE] ∧
    (run (init_sim 2 LRU 4)
        [Record.access 0 OP_READ, Record.policy_change 8, Record.access 8 OP_WRITE]).hits +
      (run (init_sim 2 LRU 4)
        [Record.access 0 OP_READ, Record.policy_change 8, Record.access 8 OP_WRITE]).misses
      = access_count_of
        [Record.access 0 OP_READ, Record.policy_change 8, Record.access 8 OP_WRITE] :=
  ⟨by simp [lbas_fit, U64],
   hits_plus_misses_count 2 LRU 4 _ (by simp [lbas_fit, U64])⟩

/-! ## Ghost-list primitives -/

theorem arc_remove_from_ghost_eq_erase (pid : Nat) (l : List Nat) :
    arc_remove_from_ghost pid l = l.erase pid := by
  induction l with
  | nil => rfl
  | cons x rest ih =>
    by_cases h : x = pid
    · subst h; simp [arc_remove_from_ghost]
    · simp [arc_remove_from_ghost, h, ih, List.erase_cons_tail]

theorem find_in_arc_ghost_iff (pid : Nat) (l : List Nat) :
    find_in_arc_ghost pid l = true ↔ pid ∈ l := by
  induction l with
  | nil => simp [find_in_arc_ghost]
  | cons x rest ih =>
    by_cases h : x = pid
    · subst h; simp [find_in_arc_ghost]
    · have h' : ¬ pid = x := fun e => h e.symm
      simp [find_in_arc_ghost, h, h', ih]

theorem ghost_list_ok_nil (N : Nat) : ghost_list_ok [] N := by
  simp [ghost_list_ok]

theorem ghost_list_ok_remove (pid : Nat) (l : List Nat) (N : Nat) (h : ghost_list_ok l N) :
    ghost_list_ok (arc_remove_from_ghost pid l) N := by
  rw [arc_remove_from_ghost_eq_erase]
  refine ⟨h.1.erase pid, ?_⟩
  have := List.length_erase_le pid l
  have := h.2
  omega

theorem arc_add_to_ghost_mru_eq (pid : Nat) (l : List Nat) (N : Nat) :
    arc_add_to_ghost_mru pid l N =
      if pid = INVALID_PAGE ∨ N = 0 then l
      else if (l.erase pid).length < N then l.erase pid ++ [pid]
      else ((l.erase pid).take N).drop 1 ++ [pid] ++ (l.erase pid).drop N := by
  simp only [arc_add_to_ghost_mru, arc_remove_from_ghost_eq_erase]

theorem mem_arc_add_to_ghost_mru (x pid : Nat) (l : List Nat) (N : Nat)
    (h : x ∈ arc_add_to_ghost_mru pid l N) : x = pid ∨ x ∈ l := by
  rw [arc_add_to_ghost_mru_eq] at h
  split_ifs at h
  · exact Or.inr h
  · simp only [List.mem_append, List.mem_singleton] at h
    rcases h with h | h
    · exact Or.inr (List.mem_of_mem_erase h)
    · exact Or.inl h
  · simp only [List.mem_append, List.mem_singleton] at h
    rcases h with (h | h) | h
    · exact Or.inr (List.mem_of_mem_erase (List.mem_of_mem_take (List.mem_of_mem_drop h)))
    · exact Or.inl h
    · exact Or.inr (List.mem_of_mem_erase (List.mem_of_mem_drop h))

theorem ghost_list_ok_add (pid : Nat) (l : List Nat) (N : Nat) (h : ghost_list_ok l N) :
    ghost_list_ok (arc_add_to_ghost_mru pid l N) N := by
  rw [arc_add_to_ghost_mru_eq]
  have hnd : (l.erase pid).Nodup := h.1.erase pid
  have hlen : (l.erase pid).length ≤ N := by
    have := List.length_erase_le pid l
    have := h.2
    omega
  have hnot : pid ∉ l.erase pid := fun hm => (List.Nodup.mem_erase_iff h.1).1 hm |>.1 rfl
  split_ifs with h0 h1
  · exact h
  · refine ⟨?_, ?_⟩
    · rw [List.nodup_append]
      refine ⟨hnd, List.nodup_singleton pid, ?_⟩
      intro a ha hb
      rw [List.mem_singleton] at hb
      subst hb
      exact hnot ha
    · simp; omega
  · have hN : 0 < N := by
      rcases Nat.eq_zero_or_pos N with hz | hp
      · exact absurd (Or.inr hz) h0
      · exact hp
    have heq : (l.erase pid).length = N := by omega
    have htake : (l.erase pid).take N = l.erase pid := List.take_of_length_le (by omega)
    have hdrop : (l.erase pid).drop N = [] := List.drop_of_length_le (by omega)
    rw [htake, hdrop, List.append_nil]
    refine ⟨?_, ?_⟩
    · rw [List.nodup_append]
      refine ⟨hnd.sublist (List.drop_sublist 1 _), List.nodup_singleton pid, ?_⟩
      intro a ha hb
      rw [List.mem_singleton] at hb
      subst hb
      exact hnot (List.mem_of_mem_drop ha)
    · simp; omega

/-! ## The ghost lists and the targets p, q stay within bounds -/

theorem arc_ok_congr (a a' : ARCState) (N : Nat) (h : arc_ghosts a' = arc_ghosts a)
    (hok : arc_ok a N) : arc_ok a' N := by
  simp only [arc_ghosts, Prod.mk.injEq] at h
  obtain ⟨h1, h2, h3, h4, h5, h6⟩ := h
  unfold arc_ok at hok ⊢
  rw [h1, h2, h3, h4, h5, h6]
  exact hok

theorem clamp_up (p d : Int) (N : Nat) (h0 : 0 ≤ p) (hd : 1 ≤ d) :
    0 ≤ min (N : Int) (p + d) ∧ min (N : Int) (p + d) ≤ (N : Int) := by
  omega

theorem clamp_down (p d : Int) (N : Nat) (hN : p ≤ (N : Int)) (hd : 1 ≤ d) :
    0 ≤ max 0 (p - d) ∧ max 0 (p - d) ≤ (N : Int) := by
  omega

theorem step_a_arc_ok (pol : ReplacementPolicy) (N : Nat) (a : ARCState) (pid : Nat)
    (h : arc_ok a N) : arc_ok (step_a pol N a pid).arc N := by
  obtain ⟨h1, h2, h3, h4, hp0, hpN, hq0, hqN⟩ := h
  cases pol <;> simp only [step_a, reduceCtorEq, if_true, if_false, or_self, or_true, true_or,
    or_false, false_or] <;> (try split_ifs) <;>
    first
    | exact ⟨h1, h2, h3, h4, hp0, hpN, hq0, hqN⟩
    | exact ⟨ghost_list_ok_remove _ _ _ h1, h2, h3, h4,
        (clamp_up _ _ _ hp0 (le_max_left _ _)).1, (clamp_up _ _ _ hp0 (le_max_left _ _)).2,
        hq0, hqN⟩
    | exact ⟨h1, ghost_list_ok_remove _ _ _ h2, h3, h4,
        (clamp_down _ _ _ hpN (le_max_left _ _)).1, (clamp_down _ _ _ hpN (le_max_left _ _)).2,
        hq0, hqN⟩
    | exact ⟨h1, h2, ghost_list_ok_remove _ _ _ h3, h4, hp0, hpN,
        (clamp_up _ _ _ hq0 (le_max_left _ _)).1, (clamp_up _ _ _ hq0 (le_max_left _ _)).2⟩
    | exact ⟨h1, h2, h3, ghost_list_ok_remove _ _ _ h4, hp0, hpN,
        (clamp_down _ _ _ hqN (le_max_left _ _)).1, (clamp_down _ _ _ hqN (le_max_left _ _)).2⟩
    | exact ⟨h1, h2, h3, ghost_list_ok_remove _ _ _ h4,
        (clamp_up _ _ _ hp0 (le_max_left _ _)).1, (clamp_up _ _ _ hp0 (le_max_left _ _)).2,
        hq0, hqN⟩
    | exact ⟨h1, h2, h3, h4,
        (clamp_down _ _ _ hpN (le_max_left _ _)).1, (clamp_down _ _ _ hpN (le_max_left _ _)).2,
        hq0, hqN⟩
    | exact ⟨h1, ghost_list_ok_remove _ _ _ h2, h3, h4, hp0, hpN,
        (clamp_up _ _ _ hq0 (le_max_left _ _)).1, (clamp_up _ _ _ hq0 (le_max_left _ _)).2⟩
    | exact ⟨h1, h2, h3, h4, hp0, hpN,
        (clamp_down _ _ _ hqN (le_max_left _ _)).1, (clamp_down _ _ _ hqN (le_max_left _ _)).2⟩

theorem arc_find_victim_lru_arc_ok (buf : List BufferFrame) (a : ARCState) (pid : Nat)
    (h : arc_ok a buf.length) : arc_ok (arc_find_victim_lru_arc buf a pid).2 buf.length := by
  obtain ⟨h1, h2, h3, h4, hp0, hpN, hq0, hqN⟩ := h
  unfold arc_find_victim_lru_arc
  simp only []
  repeat' split
  all_goals first
    | exact ⟨h1, h2, h3, h4, hp0, hpN, hq0, hqN⟩
    | exact ⟨ghost_list_ok_add _ _ _ h1, h2, h3, h4, hp0, hpN, hq0, hqN⟩
    | exact ⟨h1, ghost_list_ok_add _ _ _ h2, h3, h4, hp0, hpN, hq0, hqN⟩

theorem arc_find_victim_lfu_arc_ok (buf : List BufferFrame) (a : ARCState) (pid : Nat)
    (h : arc_ok a buf.length) : arc_ok (arc_find_victim_lfu_arc buf a pid).2 buf.length := by
  obtain ⟨h1, h2, h3, h4, hp0, hpN, hq0, hqN⟩ := h
  unfold arc_find_victim_lfu_arc
  simp only []
  repeat' split
  all_goals first
    | exact ⟨h1, h2, h3, h4, hp0, hpN, hq0, hqN⟩
    | exact ⟨h1, h2, ghost_list_ok_add _ _ _ h3, h4, hp0, hpN, hq0, hqN⟩
    | exact ⟨h1, h2, h3, ghost_list_ok_add _ _ _ h4, hp0, hpN, hq0, hqN⟩

theorem clock_on_global_hand_ok (s : Sim) (filt : Bool) (target : Nat) (h : s.ok) :
    (clock_on_global_hand s filt target).1.ok := by
  simpa [clock_on_global_hand, Sim.ok, evict_via_clock_policy_length] using h

theorem clock_on_p_hand_ok (s : Sim) (filt : Bool) (target : Nat) (h : s.ok) :
    (clock_on_p_hand s filt target).1.ok := by
  unfold Sim.ok at h ⊢
  simp only [clock_on_p_hand, evict_via_clock_policy_length]
  exact arc_ok_congr _ _ _ rfl h

theorem clock_on_q_hand_ok (s : Sim) (filt : Bool) (target : Nat) (h : s.ok) :
    (clock_on_q_hand s filt target).1.ok := by
  unfold Sim.ok at h ⊢
  simp only [clock_on_q_hand, evict_via_clock_policy_length]
  exact arc_ok_congr _ _ _ rfl h

theorem ok_stderr (s : Sim) (e : List ErrMsg) (h : s.ok) : Sim.ok { s with stderr := e } := h

theorem ite_fst_ok (c : Prop) [Decidable c] (x y : Sim × Option Nat) (hx : x.1.ok)
    (hy : y.1.ok) : (if c then x else y).1.ok := by
  split_ifs <;> assumption

theorem select_victim_ok (s : Sim) (page_id : Nat) (h : s.ok) :
    (select_victim s page_id).1.ok := by
  obtain ⟨buf, pol, prev, time, hits, misses, arc, log, err, hand, zs, wp⟩ := s
  cases pol <;> simp only [select_victim, reduceCtorEq, if_true, if_false]
  case FIFO => exact h
  case LRU => exact h
  case LFU => exact h
  case LRU_ARC => exact arc_find_victim_lru_arc_ok _ _ _ h
  case LFU_ARC => exact arc_find_victim_lfu_arc_ok _ _ _ h
  case CLOCK_T1 => exact clock_on_global_hand_ok _ _ _ h
  case CLOCK_T3 => exact clock_on_global_hand_ok _ _ _ h
  case CLOCK_PRO_T1_B4_LOGS_B2 =>
    have h1 := clock_on_p_hand_ok _ true 1 h
    apply ite_fst_ok
    · apply clock_on_p_hand_ok
      apply ite_fst_ok
      · apply ite_fst_ok
        · exact ok_stderr _ _ h1
        · exact h1
      · exact h
    · apply ite_fst_ok
      · apply ite_fst_ok
        · exact ok_stderr _ _ h1
        · exact h1
      · exact h
  case CLOCK_PRO_T3_B2_LOGS_B4 =>
    have h1 := clock_on_q_hand_ok _ true 3 h
    apply ite_fst_ok
    · apply clock_on_q_hand_ok
      apply ite_fst_ok
      · apply ite_fst_ok
        · exact ok_stderr _ _ h1
        · exact h1
      · exact h
    · apply ite_fst_ok
      · apply ite_fst_ok
        · exact ok_stderr _ _ h1
        · exact h1
      · exact h

theorem victim_fallback_ok (s : Sim) (v : Option Nat) (h : s.ok) :
    (victim_fallback s v).1.ok := by
  unfold victim_fallback
  by_cases h1 : v = none ∧ s.buffer.length > 0
  · rw [if_pos h1]
    cases evict_fifo s.buffer with
    | none => exact h
    | some w =>
      simp only []
      split_ifs <;> exact h
  · rw [if_neg h1]; exact h

theorem handle_dirty_eviction_length (s : Sim) (v : Nat) :
    (handle_dirty_eviction s v).buffer.length = s.buffer.length := by
  have := handle_dirty_eviction_fixed s v
  simp only [Sim.fixed, Prod.mk.injEq] at this
  exact this.2.2.2.2.2

theorem process_victim_ok (s : Sim) (v : Nat) (h : s.ok) : (process_victim s v).ok := by
  unfold Sim.ok at h ⊢
  have hl := handle_dirty_eviction_length s v
  have ha := handle_dirty_eviction_arc s v
  have hp : (handle_dirty_eviction s v).current_policy = s.current_policy := by
    have := handle_dirty_eviction_fixed s v
    simp only [Sim.fixed, Prod.mk.injEq] at this
    exact this.1
  simp only [process_victim, List.length_set, hl, ha, hp]
  obtain ⟨h1, h2, h3, h4, hp0, hpN, hq0, hqN⟩ := h
  split_ifs <;> first
    | exact ⟨h1, h2, h3, h4, hp0, hpN, hq0, hqN⟩
    | exact ⟨ghost_list_ok_add _ _ _ h1, h2, h3, h4, hp0, hpN, hq0, hqN⟩
    | exact ⟨h1, ghost_list_ok_add _ _ _ h2, h3, h4, hp0, hpN, hq0, hqN⟩
    | exact ⟨h1, h2, ghost_list_ok_add _ _ _ h3, h4, hp0, hpN, hq0, hqN⟩
    | exact ⟨h1, h2, h3, ghost_list_ok_add _ _ _ h4, hp0, hpN, hq0, hqN⟩
    | exact ⟨h1, ghost_list_ok_add _ _ _ h2, h3, ghost_list_ok_add _ _ _ h4, hp0, hpN, hq0, hqN⟩

theorem load_page_ok (s : Sim) (slot page_id : Nat) (op : Op) (al rl : Nat) (h : s.ok) :
    (load_page s slot page_id op al rl).ok := by
  obtain ⟨buf, pol, prev, time, hits, misses, arc, log, err, hand, zs, wp⟩ := s
  unfold Sim.ok at h ⊢
  obtain ⟨h1, h2, h3, h4, hp0, hpN, hq0, hqN⟩ := h
  cases pol <;> simp only [load_page, reduceCtorEq, if_true, if_false, List.length_set] <;>
    (try split_ifs) <;> first
    | exact ⟨h1, h2, h3, h4, hp0, hpN, hq0, hqN⟩
    | exact ⟨h1, ghost_list_ok_add _ _ _ h2, h3, h4, hp0, hpN, hq0, hqN⟩
    | exact ⟨h1, h2, h3, ghost_list_ok_add _ _ _ h4, hp0, hpN, hq0, hqN⟩

theorem access_hit_ok (s : Sim) (i : Nat) (op : Op) (h : s.ok) : (access_hit s i op).ok := by
  obtain ⟨buf, pol, prev, time, hits, misses, arc, log, err, hand, zs, wp⟩ := s
  unfold Sim.ok at h ⊢
  cases pol <;> simp only [access_hit, reduceCtorEq, if_true, if_false, or_self, or_true,
    true_or] <;> (try split_ifs) <;> simp only [List.length_set] <;> exact h

theorem miss_begin_ok (s : Sim) (page_id : Nat) (h : s.ok) : (miss_begin s page_id).ok :=
  step_a_arc_ok _ _ _ _ h

theorem miss_finish_ok (s : Sim) (page_id : Nat) (op : Op) (al rl : Nat) (h : s.ok) :
    (miss_finish s page_id op al rl).ok := by
  unfold miss_finish
  split
  · exact load_page_ok _ _ _ _ _ _ h
  · split
    · exact load_page_ok _ _ _ _ _ _
        (process_victim_ok _ _ (victim_fallback_ok _ _ (select_victim_ok _ _ h)))
    · exact victim_fallback_ok _ _ (select_victim_ok _ _ h)

theorem access_page_ok (s : Sim) (lba page_id : Nat) (op : Op) (h : s.ok) :
    (access_page s lba page_id op).ok := by
  unfold access_page
  simp only []
  split_ifs
  · exact h
  · split
    · exact access_hit_ok _ _ _ h
    · rw [access_miss_eq]
      exact miss_finish_ok _ _ _ _ _ (miss_begin_ok _ _ h)

theorem relabel_loop_length (o n : ReplacementPolicy) (buf : List BufferFrame) (a : ARCState) :
    (relabel_loop o n buf a).1.length = buf.length := by
  have := congrArg List.length (relabel_loop_core o n buf a)
  simpa using this

theorem initialize_arc_state_full_ok (pol : ReplacementPolicy) (N : Nat) :
    arc_ok (initialize_arc_state_full pol N) N := by
  rcases Nat.eq_zero_or_pos N with h0 | hpos
  · subst h0
    cases pol <;> simp [initialize_arc_state_full, arc_ok, ghost_list_ok]
  · cases pol <;> simp [initialize_arc_state_full, arc_ok, ghost_list_ok, hpos] <;> omega

theorem relabel_result_ok (o n : ReplacementPolicy) (buf : List BufferFrame) (a : ARCState)
    (N : Nat) (h : arc_ok a N) :
    arc_ok { (relabel_loop o n buf
        { a with t1_size := 0, t2_size := 0, t3_size := 0, t4_size := 0 }).2 with
      p_clk_hand := 0, q_clk_hand := 0 } N := by
  have hl := relabel_loop_arc o n buf
    { a with t1_size := 0, t2_size := 0, t3_size := 0, t4_size := 0 }
  refine arc_ok_congr a _ N ?_ h
  simp only [arc_ghosts, Prod.mk.injEq]
  exact ⟨hl.2.2.1, hl.2.2.2.1, hl.2.2.2.2.1, hl.2.2.2.2.2, hl.1, hl.2.1⟩

theorem initialize_arc_state_ok (reset : Bool) (pol : ReplacementPolicy) (N : Nat)
    (a : ARCState) (h : arc_ok a N) : arc_ok (initialize_arc_state reset pol N a) N := by
  unfold initialize_arc_state
  split_ifs
  · exact initialize_arc_state_full_ok _ _
  · exact h

theorem switch_policy_ok (s : Sim) (new_policy : ReplacementPolicy) (h : s.ok) :
    (switch_policy s new_policy).ok := by
  unfold Sim.ok at h ⊢
  unfold switch_policy
  simp only [relabel_loop_length]
  exact relabel_result_ok _ _ _ _ _ (initialize_arc_state_ok _ _ _ _ h)

theorem process_record_ok (s : Sim) (r : Record) (h : s.ok) : (process_record s r).ok := by
  cases r with
  | access lba op => exact access_page_ok s lba _ op h
  | policy_change code =>
    simp only [process_record]
    split_ifs
    · cases policy_of_code code with
      | none => exact h
      | some new_policy =>
        simp only []
        split_ifs
        · exact switch_policy_ok _ _ h
        · exact h
    · exact h

theorem run_ok (trace : List Record) (s : Sim) (h : s.ok) : (run s trace).ok := by
  induction trace generalizing s with
  | nil => exact h
  | cons r rest ih => exact ih _ (process_record_ok s r h)

theorem init_sim_ok (N : Nat) (pol : ReplacementPolicy) (zs : Nat) : (init_sim N pol zs).ok := by
  unfold Sim.ok init_sim initialize_buffer
  simp only [List.length_replicate]
  exact initialize_arc_state_full_ok pol N

theorem init_sim_length (N : Nat) (pol : ReplacementPolicy) (zs : Nat) :
    (init_sim N pol zs).buffer.length = N := by
  simp [init_sim, initialize_buffer]

theorem access_page_length (s : Sim) (lba page_id : Nat) (op : Op) :
    (access_page s lba page_id op).buffer.length = s.buffer.length := by
  unfold access_page
  simp only []
  split_ifs
  · rfl
  · split
    · rename_i i _
      have := access_hit_fixed { s with current_time := (s.current_time + 1) % U64 } i op
      simp only [Sim.fixed, Prod.mk.injEq] at this
      exact this.2.2.2.2.2
    · have := access_miss_fixed { s with current_time := (s.current_time + 1) % U64 }
        page_id op
      simp only [Sim.fixed, Prod.mk.injEq] at this
      exact this.2.2.2.2.2

theorem process_record_length (s : Sim) (r : Record) :
    (process_record s r).buffer.length = s.buffer.length := by
  cases r with
  | access lba op => exact access_page_length s lba _ op
  | policy_change code =>
    have := congrArg List.length (process_switch_core s code).1
    simpa using this

theorem run_length (trace : List Record) (s : Sim) :
    (run s trace).buffer.length = s.buffer.length := by
  induction trace generalizing s with
  | nil => rfl
  | cons r rest ih => simp only [run]; rw [ih, process_record_length]

/-- C3: in every state reached from an initial state by any sequence of accesses and
policy switches (any buffer size N, any policy), each ghost list B1, B2, B3, B4 has
length at most N and contains no page ID twice. -/
theorem ghost_lists_bounded_nodup (N : Nat) (pol : ReplacementPolicy) (zs : Nat)
    (trace : List Record) :
    ((run (init_sim N pol zs) trace).arc_state.b1.length ≤ N ∧
      (run (init_sim N pol zs) trace).arc_state.b1.Nodup) ∧
    ((run (init_sim N pol zs) trace).arc_state.b2.length ≤ N ∧
      (run (init_sim N pol zs) trace).arc_state.b2.Nodup) ∧
    ((run (init_sim N pol zs) trace).arc_state.b3.length ≤ N ∧
      (run (init_sim N pol zs) trace).arc_state.b3.Nodup) ∧
    ((run (init_sim N pol zs) trace).arc_state.b4.length ≤ N ∧
      (run (init_sim N pol zs) trace).arc_state.b4.Nodup) := by
  have h := run_ok trace _ (init_sim_ok N pol zs)
  unfold Sim.ok arc_ok ghost_list_ok at h
  rw [run_length, init_sim_length] at h
  exact ⟨⟨h.1.2, h.1.1⟩, ⟨h.2.1.2, h.2.1.1⟩, ⟨h.2.2.1.2, h.2.2.1.1⟩, ⟨h.2.2.2.1.2, h.2.2.2.1.1⟩⟩

/-- C5: in every state reached from an initial state by any sequence of accesses and
policy switches (any buffer size N, any policy), 0 <= p <= N and 0 <= q <= N. -/
theorem targets_within_bounds (N : Nat) (pol : ReplacementPolicy) (zs : Nat)
    (trace : List Record) :
    0 ≤ (run (init_sim N pol zs) trace).arc_state.p ∧
    (run (init_sim N pol zs) trace).arc_state.p ≤ (N : Int) ∧
    0 ≤ (run (init_sim N pol zs) trace).arc_state.q ∧
    (run (init_sim N pol zs) trace).arc_state.q ≤ (N : Int) := by
  have h := run_ok trace _ (init_sim_ok N pol zs)
  unfold Sim.ok arc_ok at h
  rw [run_length, init_sim_length] at h
  exact h.2.2.2.2

/-! ## Zone write pointers -/

theorem zns_step_refl (s : Sim) : zns_step s s :=
  ⟨rfl, fun _ => le_refl _, fun _ h => h, fun h => h⟩

theorem zns_step_trans (s1 s2 s3 : Sim) (h12 : zns_step s1 s2) (h23 : zns_step s2 s3) :
    zns_step s1 s3 :=
  ⟨h23.1.trans h12.1, fun z => le_trans (h12.2.1 z) (h23.2.1 z),
    fun z h => h23.2.2.1 z (h12.2.2.1 z h), fun h => h23.2.2.2 (h12.2.2.2 h)⟩

theorem quiet_step_refl (s : Sim) : quiet_step s s := ⟨rfl, rfl, rfl, [], by simp⟩

theorem quiet_step_trans (s1 s2 s3 : Sim) (h12 : quiet_step s1 s2) (h23 : quiet_step s2 s3) :
    quiet_step s1 s3 := by
  obtain ⟨a1, a2, a3, e1, a4⟩ := h12
  obtain ⟨b1, b2, b3, e2, b4⟩ := h23
  exact ⟨b1.trans a1, b2.trans a2, b3.trans a3, e1 ++ e2, by rw [b4, a4, List.append_assoc]⟩

theorem zns_step_of_quiet (s s' : Sim) (h : quiet_step s s') : zns_step s s' := by
  obtain ⟨h1, h2, h3, e, h4⟩ := h
  refine ⟨h1, fun z => by rw [h2], fun z hz => ?_, fun hw => ?_⟩
  · unfold wp_in_zone at hz ⊢
    rw [h1, h2]; exact hz
  · intro r hr hop
    rw [h3] at hr
    rw [h1, h2, h4]
    rcases hw r hr hop with ⟨wp0, hv⟩ | hlt
    · exact Or.inl ⟨wp0, List.mem_append_left _ hv⟩
    · exact Or.inr hlt

theorem zone_arith (target zs : Nat) (ht : target < 2305843009213693952) (h0 : 0 < zs)
    (h64 : zs < U64) :
    (target / zs) * zs ≤ target ∧ target < (target / zs) * zs + zs ∧
    (target / zs) * zs + zs < U64 ∧ (target / zs + 1) * zs = (target / zs) * zs + zs := by
  have h1 : (target / zs) * zs ≤ target := Nat.div_mul_le_self target zs
  have h2 : target < (target / zs) * zs + zs := by
    have := Nat.lt_div_mul_add (a := target) h0
    exact this
  have h3 : (target / zs + 1) * zs = (target / zs) * zs + zs := by ring
  refine ⟨h1, h2, ?_, h3⟩
  rcases Nat.eq_zero_or_pos (target / zs) with hz | hp
  · rw [hz]; simpa using h64
  · have : zs ≤ (target / zs) * zs := Nat.le_mul_of_pos_left zs hp
    unfold U64
    omega

theorem zns_step_log (s s' : Sim) (r : IoRec)
    (hz : s'.zone_size_pages_global = s.zone_size_pages_global)
    (hw : s'.zone_write_pointers = s.zone_write_pointers)
    (hl : s'.log_file = s.log_file ++ [r]) (he : ∃ e, s'.stderr = s.stderr ++ e)
    (hr : r.op = OP_WRITE →
      ∃ wp0, ErrMsg.zns_violation (r.page / s.zone_size_pages_global) r.page wp0 ∈ s'.stderr) :
    zns_step s s' := by
  obtain ⟨e, he⟩ := he
  refine ⟨hz, fun z => by rw [hw], fun z h => ?_, fun hJ => ?_⟩
  · unfold wp_in_zone at h ⊢
    rw [hz, hw]; exact h
  · intro r' hr' hop
    rw [hl, List.mem_append, List.mem_singleton] at hr'
    rw [hz, hw]
    rcases hr' with hr' | hr'
    · rcases hJ r' hr' hop with ⟨wp0, hv⟩ | hlt
      · exact Or.inl ⟨wp0, by rw [he]; exact List.mem_append_left _ hv⟩
      · exact Or.inr hlt
    · subst hr'
      exact Or.inl (hr hop)

theorem zns_step_wp (s s' : Sim) (r : IoRec) (new : Nat)
    (hz : s'.zone_size_pages_global = s.zone_size_pages_global)
    (hw : s'.zone_write_pointers =
      fun z => if z = r.page / s.zone_size_pages_global then new else s.zone_write_pointers z)
    (hl : s'.log_file = s.log_file ++ [r]) (he : ∃ e, s'.stderr = s.stderr ++ e)
    (hold : s.zone_write_pointers (r.page / s.zone_size_pages_global) = r.page)
    (hlt : r.page < new)
    (hlo : (r.page / s.zone_size_pages_global) * s.zone_size_pages_global ≤ new)
    (hhi : new ≤ (r.page / s.zone_size_pages_global + 1) * s.zone_size_pages_global) :
    zns_step s s' := by
  obtain ⟨e, he⟩ := he
  have hmono : ∀ z, s.zone_write_pointers z ≤ s'.zone_write_pointers z := by
    intro z
    rw [hw]
    simp only []
    split_ifs with hzz
    · subst hzz; rw [hold]; exact le_of_lt hlt
    · exact le_refl _
  refine ⟨hz, hmono, fun z h => ?_, fun hJ => ?_⟩
  · unfold wp_in_zone at h ⊢
    rw [hz, hw]
    simp only []
    split_ifs with hzz
    · subst hzz; exact ⟨hlo, hhi⟩
    · exact h
  · intro r' hr' hop
    rw [hl, List.mem_append, List.mem_singleton] at hr'
    rw [hz]
    rcases hr' with hr' | hr'
    · rcases hJ r' hr' hop with ⟨wp0, hv⟩ | hlt'
      · exact Or.inl ⟨wp0, by rw [he]; exact List.mem_append_left _ hv⟩
      · exact Or.inr (lt_of_lt_of_le hlt' (hmono _))
    · subst hr'
      right
      rw [hw]
      simp only [if_true]
      exact hlt

theorem write_fio_log_zns (s : Sim) (lba n : Nat) (op : Op) (hl : lba < U64)
    (h0 : 0 < s.zone_size_pages_global) (h64 : s.zone_size_pages_global < U64) :
    zns_step s (write_fio_log s lba n op) := by
  have ht : lba_to_page_id lba < 2305843009213693952 := by
    unfold lba_to_page_id SECTORS_PER_PAGE; unfold U64 at hl; omega
  obtain ⟨ha1, ha2, ha3, ha4⟩ := zone_arith (lba_to_page_id lba) _ ht h0 h64
  have hmod : ((lba_to_page_id lba / s.zone_size_pages_global) * s.zone_size_pages_global) % U64
      = (lba_to_page_id lba / s.zone_size_pages_global) * s.zone_size_pages_global :=
    Nat.mod_eq_of_lt (by omega)
  unfold write_fio_log
  by_cases hn : n = 0
  · rw [if_pos hn]; exact zns_step_refl s
  rw [if_neg hn]
  simp only []
  by_cases hop : op = OP_WRITE
  · subst hop
    simp only [true_and, h0, if_true, gt_iff_lt]
    by_cases hzid : lba_to_page_id lba / s.zone_size_pages_global ≥ MAX_ZONES
    · rw [if_pos hzid]
      apply zns_step_of_quiet
      split_ifs <;> exact ⟨rfl, rfl, rfl, _, by simp; rfl⟩
    · rw [if_neg hzid]
      by_cases hseq : lba_to_page_id lba
          ≠ s.zone_write_pointers (lba_to_page_id lba / s.zone_size_pages_global)
      · rw [if_pos hseq]
        refine zns_step_log s _ ⟨OP_WRITE, lba, n⟩ ?_ ?_ ?_ ?_ ?_
        · split_ifs <;> rfl
        · split_ifs <;> rfl
        · split_ifs <;> rfl
        · split_ifs
          · exact ⟨_, by simp; rfl⟩
          · exact ⟨_, rfl⟩
        · intro _
          refine ⟨s.zone_write_pointers (lba_to_page_id lba / s.zone_size_pages_global), ?_⟩
          simp only [IoRec.page]
          split_ifs <;> simp
      · rw [if_neg hseq]
        have hseq' : s.zone_write_pointers (lba_to_page_id lba / s.zone_size_pages_global)
            = lba_to_page_id lba := by
          by_contra hc; exact hseq (fun e => hc e.symm)
        rw [hseq', hmod]
        have hend : ((lba_to_page_id lba / s.zone_size_pages_global) * s.zone_size_pages_global
            + s.zone_size_pages_global) % U64
            = (lba_to_page_id lba / s.zone_size_pages_global) * s.zone_size_pages_global
              + s.zone_size_pages_global := Nat.mod_eq_of_lt ha3
        rw [hend]
        generalize hnp : (if (n + SECTORS_PER_PAGE - 1) % U32 / SECTORS_PER_PAGE = 0 ∧ n > 0 then 1
          else (n + SECTORS_PER_PAGE - 1) % U32 / SECTORS_PER_PAGE) = num_pages
        have hnp1 : 1 ≤ num_pages ∧ num_pages < 4294967296 := by
          rw [← hnp]
          unfold SECTORS_PER_PAGE U32
          split_ifs <;> omega
        have hnext : (lba_to_page_id lba + num_pages) % U64 = lba_to_page_id lba + num_pages :=
          Nat.mod_eq_of_lt (by unfold U64; omega)
        rw [hnext]
        by_cases hb : lba_to_page_id lba + num_pages
            > (lba_to_page_id lba / s.zone_size_pages_global) * s.zone_size_pages_global
              + s.zone_size_pages_global
        · rw [if_pos hb]
          refine zns_step_wp s _ ⟨OP_WRITE, lba, n⟩
            ((lba_to_page_id lba / s.zone_size_pages_global) * s.zone_size_pages_global
              + s.zone_size_pages_global) ?_ ?_ ?_ ?_ ?_ ?_ ?_ ?_
          · split_ifs <;> rfl
          · split_ifs <;> rfl
          · split_ifs <;> rfl
          · split_ifs
            · exact ⟨_, by simp; rfl⟩
            · exact ⟨_, by simp; rfl⟩
          · exact hseq'
          · exact ha2
          · simp only [IoRec.page]; omega
          · simp only [IoRec.page]; omega
        · rw [if_neg hb]
          refine zns_step_wp s _ ⟨OP_WRITE, lba, n⟩ (lba_to_page_id lba + num_pages)
            ?_ ?_ ?_ ?_ ?_ ?_ ?_ ?_
          · split_ifs <;> rfl
          · split_ifs <;> rfl
          · split_ifs <;> rfl
          · split_ifs
            · exact ⟨_, rfl⟩
            · exact ⟨[], by simp⟩
          · exact hseq'
          · simp only [IoRec.page]; omega
          · simp only [IoRec.page]; omega
          · simp only [IoRec.page]; omega
  · have hf : ¬ (op = OP_WRITE ∧ s.zone_size_pages_global > 0) := fun h => hop h.1
    rw [if_neg hf]
    refine zns_step_log s _ ⟨op, lba, n⟩ ?_ ?_ ?_ ?_ ?_
    · split_ifs <;> rfl
    · split_ifs <;> rfl
    · split_ifs <;> rfl
    · split_ifs
      · exact ⟨_, rfl⟩
      · exact ⟨[], by simp⟩
    · intro h; exact absurd h hop

theorem handle_dirty_eviction_zns (s : Sim) (v : Nat)
    (h0 : 0 < s.zone_size_pages_global) (h64 : s.zone_size_pages_global < U64) :
    zns_step s (handle_dirty_eviction s v) := by
  unfold handle_dirty_eviction
  simp only []
  split_ifs
  · exact zns_step_refl s
  · exact write_fio_log_zns s _ _ _ (Nat.mod_lt _ (by unfold U64; omega)) h0 h64
  · exact zns_step_refl s

theorem clock_on_global_hand_quiet (s : Sim) (filt : Bool) (target : Nat) :
    quiet_step s (clock_on_global_hand s filt target).1 :=
  ⟨rfl, rfl, rfl, _, rfl⟩

theorem clock_on_p_hand_quiet (s : Sim) (filt : Bool) (target : Nat) :
    quiet_step s (clock_on_p_hand s filt target).1 :=
  ⟨rfl, rfl, rfl, _, rfl⟩

theorem clock_on_q_hand_quiet (s : Sim) (filt : Bool) (target : Nat) :
    quiet_step s (clock_on_q_hand s filt target).1 :=
  ⟨rfl, rfl, rfl, _, rfl⟩

theorem quiet_stderr (s : Sim) (e : List ErrMsg) :
    quiet_step s { s with stderr := s.stderr ++ e } :=
  ⟨rfl, rfl, rfl, e, rfl⟩

theorem ite_fst_quiet (s : Sim) (c : Prop) [Decidable c] (x y : Sim × Option Nat)
    (hx : quiet_step s x.1) (hy : quiet_step s y.1) : quiet_step s (if c then x else y).1 := by
  split_ifs <;> assumption

theorem select_victim_quiet (s : Sim) (page_id : Nat) :
    quiet_step s (select_victim s page_id).1 := by
  obtain ⟨buf, pol, prev, time, hits, misses, arc, log, err, hand, zs, wp⟩ := s
  cases pol <;> simp only [select_victim, reduceCtorEq, if_true, if_false]
  case FIFO => exact quiet_step_refl _
  case LRU => exact quiet_step_refl _
  case LFU => exact quiet_step_refl _
  case LRU_ARC => exact ⟨rfl, rfl, rfl, [], by simp⟩
  case LFU_ARC => exact ⟨rfl, rfl, rfl, [], by simp⟩
  case CLOCK_T1 => exact clock_on_global_hand_quiet _ _ _
  case CLOCK_T3 => exact clock_on_global_hand_quiet _ _ _
  case CLOCK_PRO_T1_B4_LOGS_B2 =>
    have h1 := clock_on_p_hand_quiet
      { buffer := buf, current_policy := CLOCK_PRO_T1_B4_LOGS_B2,
        previous_policy_for_state_carryover := prev, current_time := time, hits := hits,
        misses := misses, arc_state := arc, log_file := log, stderr := err,
        global_clk_hand := hand, zone_size_pages_global := zs, zone_write_pointers := wp }
      true 1
    have h2 := quiet_step_trans _ _ _ h1 (quiet_stderr _ [ErrMsg.clock_pro_t1_warning])
    apply ite_fst_quiet
    · refine quiet_step_trans _ _ _ ?_ (clock_on_p_hand_quiet _ _ _)
      apply ite_fst_quiet
      · apply ite_fst_quiet
        · exact h2
        · exact h1
      · exact quiet_step_refl _
    · apply ite_fst_quiet
      · apply ite_fst_quiet
        · exact h2
        · exact h1
      · exact quiet_step_refl _
  case CLOCK_PRO_T3_B2_LOGS_B4 =>
    have h1 := clock_on_q_hand_quiet
      { buffer := buf, current_policy := CLOCK_PRO_T3_B2_LOGS_B4,
        previous_policy_for_state_carryover := prev, current_time := time, hits := hits,
        misses := misses, arc_state := arc, log_file := log, stderr := err,
        global_clk_hand := hand, zone_size_pages_global := zs, zone_write_pointers := wp }
      true 3
    have h2 := quiet_step_trans _ _ _ h1 (quiet_stderr _ [ErrMsg.clock_pro_t3_warning])
    apply ite_fst_quiet
    · refine quiet_step_trans _ _ _ ?_ (clock_on_q_hand_quiet _ _ _)
      apply ite_fst_quiet
      · apply ite_fst_quiet
        · exact h2
        · exact h1
      · exact quiet_step_refl _
    · apply ite_fst_quiet
      · apply ite_fst_quiet
        · exact h2
        · exact h1
      · exact quiet_step_refl _

theorem victim_fallback_quiet (s : Sim) (v : Option Nat) :
    quiet_step s (victim_fallback s v).1 := by
  unfold victim_fallback
  by_cases h1 : v = none ∧ s.buffer.length > 0
  · rw [if_pos h1]
    cases evict_fifo s.buffer with
    | none => exact quiet_step_refl s
    | some w =>
      simp only []
      split_ifs <;> exact ⟨rfl, rfl, rfl, [], by simp⟩
  · rw [if_neg h1]; exact quiet_step_refl s

theorem process_victim_zns (s : Sim) (v : Nat)
    (h0 : 0 < s.zone_size_pages_global) (h64 : s.zone_size_pages_global < U64) :
    zns_step s (process_victim s v) :=
  handle_dirty_eviction_zns s v h0 h64

theorem load_page_quiet (s : Sim) (slot page_id : Nat) (op : Op) (al rl : Nat) :
    quiet_step s (load_page s slot page_id op al rl) := by
  obtain ⟨buf, pol, prev, time, hits, misses, arc, log, err, hand, zs, wp⟩ := s
  cases pol <;> simp only [load_page, reduceCtorEq, if_true, if_false] <;>
    exact ⟨rfl, rfl, rfl, [], by simp⟩

theorem access_hit_quiet (s : Sim) (i : Nat) (op : Op) :
    quiet_step s (access_hit s i op) := by
  obtain ⟨buf, pol, prev, time, hits, misses, arc, log, err, hand, zs, wp⟩ := s
  cases pol <;> simp only [access_hit, reduceCtorEq, if_true, if_false, or_self, or_true,
    true_or] <;> (try split_ifs) <;> exact ⟨rfl, rfl, rfl, [], by simp⟩

theorem miss_begin_zns (s : Sim) (page_id : Nat)
    (h0 : 0 < s.zone_size_pages_global) (h64 : s.zone_size_pages_global < U64) :
    zns_step s (miss_begin s page_id) :=
  write_fio_log_zns { s with misses := s.misses + 1 } _ _ _
    (Nat.mod_lt _ (by unfold U64; omega)) h0 h64

theorem zs_of_fixed (s s' : Sim) (h : s'.fixed = s.fixed) :
    s'.zone_size_pages_global = s.zone_size_pages_global := by
  simp only [Sim.fixed, Prod.mk.injEq] at h
  exact h.2.2.2.2.1

theorem miss_finish_zns (s : Sim) (page_id : Nat) (op : Op) (al rl : Nat)
    (h0 : 0 < s.zone_size_pages_global) (h64 : s.zone_size_pages_global < U64) :
    zns_step s (miss_finish s page_id op al rl) := by
  unfold miss_finish
  split
  · exact zns_step_of_quiet _ _ (load_page_quiet _ _ _ _ _ _)
  · have hq := quiet_step_trans _ _ _ (select_victim_quiet s page_id)
      (victim_fallback_quiet (select_victim s page_id).1 (select_victim s page_id).2)
    split
    · rename_i v _
      have hz := hq.1
      have hp := process_victim_zns
        (victim_fallback (select_victim s page_id).1 (select_victim s page_id).2).1 v
        (by rw [hz]; exact h0) (by rw [hz]; exact h64)
      exact zns_step_trans _ _ _ (zns_step_trans _ _ _ (zns_step_of_quiet _ _ hq) hp)
        (zns_step_of_quiet _ _ (load_page_quiet _ _ _ _ _ _))
    · exact zns_step_of_quiet _ _ hq

theorem access_page_zns (s : Sim) (lba page_id : Nat) (op : Op)
    (h0 : 0 < s.zone_size_pages_global) (h64 : s.zone_size_pages_global < U64) :
    zns_step s (access_page s lba page_id op) := by
  unfold access_page
  simp only []
  split_ifs
  · exact zns_step_of_quiet _ _ ⟨rfl, rfl, rfl, [], by simp⟩
  · have hq : quiet_step s { s with current_time := (s.current_time + 1) % U64 } :=
      ⟨rfl, rfl, rfl, [], by simp⟩
    split
    · exact zns_step_of_quiet _ _ (quiet_step_trans _ _ _ hq (access_hit_quiet _ _ _))
    · rw [access_miss_eq]
      have hb := miss_begin_zns { s with current_time := (s.current_time + 1) % U64 } page_id
        h0 h64
      have hf := miss_finish_zns
        (miss_begin { s with current_time := (s.current_time + 1) % U64 } page_id) page_id op
        (step_a s.current_policy s.buffer.length s.arc_state page_id).actual_load_list_type
        (step_a s.current_policy s.buffer.length s.arc_state page_id).ref_load_list_type
        (by rw [hb.1]; exact h0) (by rw [hb.1]; exact h64)
      exact zns_step_trans _ _ _ (zns_step_of_quiet _ _ hq) (zns_step_trans _ _ _ hb hf)

theorem switch_policy_quiet (s : Sim) (new_policy : ReplacementPolicy) :
    quiet_step s (switch_policy s new_policy) :=
  ⟨rfl, rfl, rfl, [], by simp [switch_policy]⟩

theorem process_record_zns (s : Sim) (r : Record)
    (h0 : 0 < s.zone_size_pages_global) (h64 : s.zone_size_pages_global < U64) :
    zns_step s (process_record s r) := by
  cases r with
  | access lba op => exact access_page_zns s lba _ op h0 h64
  | policy_change code =>
    simp only [process_record]
    split_ifs
    · cases policy_of_code code with
      | none => exact zns_step_refl s
      | some new_policy =>
        simp only []
        split_ifs
        · exact zns_step_of_quiet _ _ (switch_policy_quiet _ _)
        · exact zns_step_refl s
    · exact zns_step_of_quiet _ _ (quiet_stderr _ _)

theorem run_zns (trace : List Record) (s : Sim)
    (h0 : 0 < s.zone_size_pages_global) (h64 : s.zone_size_pages_global < U64) :
    zns_step s (run s trace) := by
  induction trace generalizing s with
  | nil => exact zns_step_refl s
  | cons r rest ih =>
    have h1 := process_record_zns s r h0 h64
    exact zns_step_trans _ _ _ h1 (ih _ (by rw [h1.1]; exact h0) (by rw [h1.1]; exact h64))

theorem shutdown_flush_loop_zns (n i : Nat) (s : Sim)
    (h0 : 0 < s.zone_size_pages_global) (h64 : s.zone_size_pages_global < U64) :
    zns_step s (shutdown_flush_loop n i s) := by
  induction n generalizing i s with
  | zero => exact zns_step_refl s
  | succ n ih =>
    unfold shutdown_flush_loop
    simp only []
    split_ifs
    · have h1 := handle_dirty_eviction_zns s i h0 h64
      exact zns_step_trans _ _ _ h1 (ih _ _ (by rw [h1.1]; exact h0) (by rw [h1.1]; exact h64))
    · exact ih _ _ h0 h64

theorem shutdown_flush_zns (s : Sim)
    (h0 : 0 < s.zone_size_pages_global) (h64 : s.zone_size_pages_global < U64) :
    zns_step s (shutdown_flush s) :=
  shutdown_flush_loop_zns _ _ s h0 h64

theorem run_append (t1 t2 : List Record) (s : Sim) : run s (t1 ++ t2) = run (run s t1) t2 := by
  induction t1 generalizing s with
  | nil => rfl
  | cons r rest ih => exact ih (process_record s r)

theorem init_sim_wp_in_zone (N : Nat) (pol : ReplacementPolicy) (zs z : Nat) (h0 : 0 < zs)
    (hz : z < MAX_ZONES) (hzz : z * zs < U64) : wp_in_zone (init_sim N pol zs) z := by
  have hne : zs ≠ 0 := by omega
  have hm : (z * zs) % U64 = z * zs := Nat.mod_eq_of_lt hzz
  have : (z + 1) * zs = z * zs + zs := by ring
  simp only [wp_in_zone, init_sim, initialize_zone_write_pointers, hne, if_false, hz, if_true, hm]
  omega

theorem init_sim_writes_below_wp (N : Nat) (pol : ReplacementPolicy) (zs : Nat) :
    writes_below_wp (init_sim N pol zs) := by
  intro r hr
  simp [init_sim] at hr

/-- C6 (amended): with ZNS enabled and a zone size that fits `unsigned long long`, for
every zone z < MAX_ZONES whose start z*zone_size_pages is below 2^64 (so that the 64-bit
product computed at initialisation does not wrap), after every record, and after the
shutdown flush, the write pointer of z lies in [z*zone_size_pages, (z+1)*zone_size_pages];
and the pointer of every zone never decreases over the run (from any state of the run
to any later one, the shutdown flush included). -/
theorem zone_pointer_range_mono (N : Nat) (pol : ReplacementPolicy) (zs : Nat)
    (t1 t2 : List Record) (z : Nat) (h0 : 0 < zs) (h64 : zs < U64) (hz : z < MAX_ZONES) :
    (z * zs < U64 →
      z * zs ≤ (run (init_sim N pol zs) t1).zone_write_pointers z ∧
      (run (init_sim N pol zs) t1).zone_write_pointers z ≤ (z + 1) * zs) ∧
    (z * zs < U64 →
      z * zs ≤ (simulate N pol zs t1).zone_write_pointers z ∧
      (simulate N pol zs t1).zone_write_pointers z ≤ (z + 1) * zs) ∧
    (run (init_sim N pol zs) t1).zone_write_pointers z
      ≤ (run (init_sim N pol zs) (t1 ++ t2)).zone_write_pointers z ∧
    (run (init_sim N pol zs) (t1 ++ t2)).zone_write_pointers z
      ≤ (simulate N pol zs (t1 ++ t2)).zone_write_pointers z := by
  have hr1 := run_zns t1 (init_sim N pol zs) h0 h64
  have hzs1 : (run (init_sim N pol zs) t1).zone_size_pages_global = zs := hr1.1
  have hf1 := shutdown_flush_zns (run (init_sim N pol zs) t1)
    (by rw [hzs1]; exact h0) (by rw [hzs1]; exact h64)
  have hr2 := run_zns t2 (run (init_sim N pol zs) t1)
    (by rw [hzs1]; exact h0) (by rw [hzs1]; exact h64)
  have hzs2 : (run (run (init_sim N pol zs) t1) t2).zone_size_pages_global = zs :=
    hr2.1.trans hzs1
  have hf2 := shutdown_flush_zns (run (run (init_sim N pol zs) t1) t2)
    (by rw [hzs2]; exact h0) (by rw [hzs2]; exact h64)
  refine ⟨fun hzz => ?_, fun hzz => ?_, ?_, ?_⟩
  · have := hr1.2.2.1 z (init_sim_wp_in_zone N pol zs z h0 hz hzz)
    unfold wp_in_zone at this
    rw [hzs1] at this
    exact this
  · have := hf1.2.2.1 z (hr1.2.2.1 z (init_sim_wp_in_zone N pol zs z h0 hz hzz))
    unfold wp_in_zone at this
    rw [hf1.1, hzs1] at this
    exact this
  · rw [run_append]; exact hr2.2.1 z
  · unfold simulate; rw [run_append]; exact hf2.2.1 z

theorem zone_pointer_range_mono_witness :
    (0 < 4 ∧ 4 < U64 ∧ 0 < MAX_ZONES) ∧
    (run (init_sim 1 FIFO 4) [Record.access 0 OP_WRITE]).zone_write_pointers 0
      ≤ (simulate 1 FIFO 4 ([Record.access 0 OP_WRITE] ++ [Record.access 8 OP_WRITE])).zone_write_pointers 0 :=
  have h := zone_pointer_range_mono 1 FIFO 4 [Record.access 0 OP_WRITE]
    [Record.access 8 OP_WRITE] 0 (by decide) (by decide) (by decide)
  ⟨⟨by decide, by decide, by decide⟩, le_trans h.2.2.1 h.2.2.2⟩

/-- C6 fails as stated: with zone size 2^63 + 1 the product 2 * zone_size computed by
`initialize_zone_write_pointers` wraps to 2, so the pointer of zone 2 is below the start
2 * zone_size of the zone. -/
theorem zone_pointer_range_counterexample :
    ¬ (2 * 9223372036854775809
        ≤ (run (init_sim 1 FIFO 9223372036854775809)
            [Record.access 0 OP_READ]).zone_write_pointers 2) := by
  decide

/-- C7 (amended): with ZNS enabled, at the end of a run (record loop and shutdown
flush) every write record of the device log whose page was never the subject of a
non-sequential-write diagnostic is for a page strictly below the final write pointer
of the page's zone. -/
theorem sequential_writes_below_final_wp (N : Nat) (pol : ReplacementPolicy) (zs : Nat)
    (trace : List Record) (h0 : 0 < zs) (h64 : zs < U64) (r : IoRec)
    (hr : r ∈ (simulate N pol zs trace).log_file) (hop : r.op = OP_WRITE)
    (hseq : ∀ wp0, ErrMsg.zns_violation (r.page / zs) r.page wp0
      ∉ (simulate N pol zs trace).stderr) :
    r.page < (simulate N pol zs trace).zone_write_pointers (r.page / zs) := by
  have hr1 := run_zns trace (init_sim N pol zs) h0 h64
  have hzs1 : (run (init_sim N pol zs) trace).zone_size_pages_global = zs := hr1.1
  have hf1 := shutdown_flush_zns (run (init_sim N pol zs) trace)
    (by rw [hzs1]; exact h0) (by rw [hzs1]; exact h64)
  have hJ : writes_below_wp (simulate N pol zs trace) :=
    hf1.2.2.2 (hr1.2.2.2 (init_sim_writes_below_wp N pol zs))
  have hzs : (simulate N pol zs trace).zone_size_pages_global = zs := hf1.1.trans hzs1
  rcases hJ r hr hop with ⟨wp0, hv⟩ | hlt
  · rw [hzs] at hv
    exact absurd hv (hseq wp0)
  · rw [hzs] at hlt
    exact hlt

theorem sequential_writes_below_final_wp_witness :
    (⟨OP_WRITE, 0, 8⟩ : IoRec) ∈
      (simulate 1 FIFO 4 [Record.access 0 OP_WRITE, Record.access 8 OP_WRITE]).log_file ∧
    IoRec.page ⟨OP_WRITE, 0, 8⟩ <
      (simulate 1 FIFO 4
        [Record.access 0 OP_WRITE, Record.access 8 OP_WRITE]).zone_write_pointers
          (IoRec.page ⟨OP_WRITE, 0, 8⟩ / 4) :=
  have hs : (simulate 1 FIFO 4
      [Record.access 0 OP_WRITE, Record.access 8 OP_WRITE]).stderr = [] := by decide
  ⟨by decide,
   sequential_writes_below_final_wp 1 FIFO 4
     [Record.access 0 OP_WRITE, Record.access 8 OP_WRITE] (by decide) (by decide)
     ⟨OP_WRITE, 0, 8⟩ (by decide) rfl
     (fun wp0 h => by rw [hs] at h; exact absurd h (List.not_mem_nil _))⟩

/-- C7 fails as stated: FIFO with one frame and zones of 4 pages, trace `8 W`, `0 W`.
Page 1 is written back while the pointer of zone 0 is 0 (a non-sequential write, logged
all the same), and the final pointer of zone 0 is 1. -/
theorem sequential_writes_counterexample :
    (⟨OP_WRITE, 8, 8⟩ : IoRec) ∈
      (simulate 1 FIFO 4 [Record.access 8 OP_WRITE, Record.access 0 OP_WRITE]).log_file ∧
    ¬ (IoRec.page ⟨OP_WRITE, 8, 8⟩ <
      (simulate 1 FIFO 4
        [Record.access 8 OP_WRITE, Record.access 0 OP_WRITE]).zone_write_pointers
          (IoRec.page ⟨OP_WRITE, 8, 8⟩ / 4)) := by
  decide

/-! ## Frames: reading, writing, counting -/

theorem frame_at_set_eq (buf : List BufferFrame) (k : Nat) (g : BufferFrame)
    (h : k < buf.length) : frame_at (buf.set k g) k = g := by
  induction buf generalizing k with
  | nil => simp at h
  | cons f rest ih =>
    cases k with
    | zero => simp [frame_at]
    | succ k =>
      simp only [List.length_cons, Nat.add_lt_add_iff_right] at h
      have := ih k h
      simpa [frame_at] using this

theorem frame_at_set_ne (buf : List BufferFrame) (k i : Nat) (g : BufferFrame) (h : i ≠ k) :
    frame_at (buf.set k g) i = frame_at buf i := by
  induction buf generalizing k i with
  | nil => simp [frame_at]
  | cons f rest ih =>
    cases k with
    | zero =>
      cases i with
      | zero => exact absurd rfl h
      | succ i => simp [frame_at]
    | succ k =>
      cases i with
      | zero => simp [frame_at]
      | succ i =>
        have := ih k i (fun e => h (by rw [e]))
        simpa [frame_at] using this

theorem frame_at_mem (buf : List BufferFrame) (i : Nat) (h : i < buf.length) :
    frame_at buf i ∈ buf := by
  induction buf generalizing i with
  | nil => simp at h
  | cons f rest ih =>
    cases i with
    | zero => simp [frame_at]
    | succ i =>
      simp only [List.length_cons, Nat.add_lt_add_iff_right] at h
      have := ih i h
      simp only [frame_at, List.getD_cons_succ, List.mem_cons] at this ⊢
      exact Or.inr this

theorem mem_iff_frame_at (buf : List BufferFrame) (f : BufferFrame) (h : f ∈ buf) :
    ∃ i, i < buf.length ∧ frame_at buf i = f := by
  induction buf with
  | nil => simp at h
  | cons g rest ih =>
    rcases List.mem_cons.1 h with h | h
    · exact ⟨0, by simp, by simp [frame_at, h]⟩
    · obtain ⟨i, hi, hf⟩ := ih h
      exact ⟨i + 1, by simp; omega, by simpa [frame_at] using hf⟩

theorem mem_set_cases (buf : List BufferFrame) (k : Nat) (g f : BufferFrame)
    (h : f ∈ buf.set k g) : f = g ∨ ∃ i, i < buf.length ∧ i ≠ k ∧ frame_at buf i = f := by
  obtain ⟨i, hi, hf⟩ := mem_iff_frame_at _ _ h
  rw [List.length_set] at hi
  by_cases hik : i = k
  · subst hik
    rw [frame_at_set_eq buf i g hi] at hf
    exact Or.inl hf.symm
  · rw [frame_at_set_ne buf k i g hik] at hf
    exact Or.inr ⟨i, hi, hik, hf⟩

theorem countP_set (p : BufferFrame → Bool) (buf : List BufferFrame) (k : Nat)
    (g : BufferFrame) (h : k < buf.length) :
    (buf.set k g).countP p + (if p (frame_at buf k) = true then 1 else 0)
      = buf.countP p + (if p g = true then 1 else 0) := by
  induction buf generalizing k with
  | nil => simp at h
  | cons f rest ih =>
    cases k with
    | zero =>
      simp only [List.set_cons_zero, List.countP_cons, frame_at, List.getD_cons_zero]
      omega
    | succ k =>
      simp only [List.length_cons, Nat.add_lt_add_iff_right] at h
      have := ih k h
      simp only [List.set_cons_succ, List.countP_cons, frame_at, List.getD_cons_succ] at this ⊢
      omega

theorem find_empty_slot_none (buf : List BufferFrame) (h : find_empty_slot buf = none) :
    ∀ f ∈ buf, f.page_id ≠ INVALID_PAGE := by
  induction buf with
  | nil => simp
  | cons g rest ih =>
    unfold find_empty_slot at h
    split_ifs at h with hg
    simp only [Option.map_eq_none'] at h
    intro f hf
    rcases List.mem_cons.1 hf with hf | hf
    · rw [hf]; exact hg
    · exact ih h f hf

theorem find_empty_slot_of_all (buf : List BufferFrame)
    (h : ∀ f ∈ buf, f.page_id ≠ INVALID_PAGE) : find_empty_slot buf = none := by
  induction buf with
  | nil => rfl
  | cons g rest ih =>
    unfold find_empty_slot
    rw [if_neg (h g (by simp)), ih (fun f hf => h f (by simp [hf]))]
    rfl

theorem find_empty_slot_some (buf : List BufferFrame) (i : Nat)
    (h : find_empty_slot buf = some i) :
    i < buf.length ∧ (frame_at buf i).page_id = INVALID_PAGE := by
  induction buf generalizing i with
  | nil => simp [find_empty_slot] at h
  | cons g rest ih =>
    unfold find_empty_slot at h
    split_ifs at h with hg
    · simp only [Option.some.injEq] at h
      subst h
      exact ⟨by simp, by simpa [frame_at] using hg⟩
    · simp only [Option.map_eq_some'] at h
      obtain ⟨j, hj, hji⟩ := h
      subst hji
      obtain ⟨h1, h2⟩ := ih j hj
      exact ⟨by simp; omega, by simpa [frame_at] using h2⟩

theorem find_in_buffer_none (buf : List BufferFrame) (pid : Nat)
    (h : find_in_buffer buf pid = none) : ∀ f ∈ buf, f.page_id ≠ pid := by
  induction buf with
  | nil => simp
  | cons g rest ih =>
    unfold find_in_buffer at h
    split_ifs at h with hg
    simp only [Option.map_eq_none'] at h
    intro f hf
    rcases List.mem_cons.1 hf with hf | hf
    · rw [hf]; exact hg
    · exact ih h f hf

theorem find_in_buffer_some (buf : List BufferFrame) (pid i : Nat)
    (h : find_in_buffer buf pid = some i) :
    i < buf.length ∧ (frame_at buf i).page_id = pid := by
  induction buf generalizing i with
  | nil => simp [find_in_buffer] at h
  | cons g rest ih =>
    unfold find_in_buffer at h
    split_ifs at h with hg
    · simp only [Option.some.injEq] at h
      subst h
      exact ⟨by simp, by simpa [frame_at] using hg⟩
    · simp only [Option.map_eq_some'] at h
      obtain ⟨j, hj, hji⟩ := h
      subst hji
      obtain ⟨h1, h2⟩ := ih j hj
      exact ⟨by simp; omega, by simpa [frame_at] using h2⟩

/-! ## Victim scans -/

theorem evict_fifo_loop_lt (buf : List BufferFrame) (i : Nat) (vic : Option Nat) (m : Nat)
    (hv : ∀ v, vic = some v → v < i + buf.length) (r : Nat)
    (h : evict_fifo_loop buf i vic m = some r) : r < i + buf.length := by
  induction buf generalizing i vic m with
  | nil => unfold evict_fifo_loop at h; exact hv r h
  | cons f rest ih =>
    unfold evict_fifo_loop at h
    simp only [List.length_cons]
    split_ifs at h
    · have := ih (i + 1) (some i) f.load_time (fun v hv' => by
        simp only [Option.some.injEq] at hv'; omega) h
      omega
    · have := ih (i + 1) vic m (fun v hv' => by
        have := hv v hv'; simp only [List.length_cons] at this; omega) h
      omega

theorem evict_fifo_lt (buf : List BufferFrame) (r : Nat) (h : evict_fifo buf = some r) :
    r < buf.length := by
  unfold evict_fifo at h
  rcases Nat.eq_zero_or_pos buf.length with h0 | h0
  · rw [if_pos h0] at h; exact absurd h (by simp)
  · rw [if_neg (by omega)] at h
    simp only [] at h
    split_ifs at h with h1
    · simp only [Option.some.injEq] at h; omega
    · have := evict_fifo_loop_lt buf 0 none ULLONG_MAX (by simp) r h
      omega

theorem evict_fifo_full (buf : List BufferFrame) (hN : 0 < buf.length)
    (hfull : find_empty_slot buf = none) : ∃ v, evict_fifo buf = some v := by
  unfold evict_fifo
  rw [if_neg (by omega)]
  simp only []
  cases hl : evict_fifo_loop buf 0 none ULLONG_MAX with
  | none => exact ⟨0, by simp [hfull, hN]⟩
  | some v => exact ⟨v, by simp⟩

theorem frame_at_append_length (pre : List BufferFrame) (f : BufferFrame)
    (rest : List BufferFrame) : frame_at (pre ++ f :: rest) pre.length = f := by
  induction pre with
  | nil => simp [frame_at]
  | cons g pre ih => simpa [frame_at] using ih

theorem evict_arc_internal_lru_loop_spec (t : Nat) (buf pre : List BufferFrame)
    (vic : Option Nat) (m : Nat) (hv : ∀ v, vic = some v → in_list (pre ++ buf) t v) (r : Nat)
    (h : evict_arc_internal_lru_loop t buf pre.length vic m = some r) :
    in_list (pre ++ buf) t r := by
  induction buf generalizing pre vic m with
  | nil => unfold evict_arc_internal_lru_loop at h; exact hv r h
  | cons f rest ih =>
    unfold evict_arc_internal_lru_loop at h
    have hl : (pre ++ [f]).length = pre.length + 1 := by simp
    have happ : pre ++ f :: rest = (pre ++ [f]) ++ rest := by simp
    rw [← hl] at h
    rw [happ] at hv ⊢
    split_ifs at h with h1 h2
    · refine ih (pre ++ [f]) (some pre.length) f.last_access_time (fun v hv' => ?_) h
      simp only [Option.some.injEq] at hv'
      subst hv'
      rw [← happ]
      exact ⟨by simp, by rw [frame_at_append_length]; exact h1.1,
        by rw [frame_at_append_length]; exact h1.2⟩
    · exact ih (pre ++ [f]) vic m hv h
    · exact ih (pre ++ [f]) vic m hv h

theorem evict_arc_internal_lru_spec (buf : List BufferFrame) (t r : Nat)
    (h : evict_arc_internal_lru buf t = some r) : in_list buf t r := by
  have := evict_arc_internal_lru_loop_spec t buf [] none ULLONG_MAX (by simp) r h
  simpa using this

theorem evict_arc_internal_lru_loop_none (t : Nat) (buf : List BufferFrame) (i : Nat)
    (vic : Option Nat) (m : Nat) (h : evict_arc_internal_lru_loop t buf i vic m = none) :
    vic = none ∧ ∀ f ∈ buf, f.page_id ≠ INVALID_PAGE → f.list_type = t →
      ¬ f.last_access_time < m := by
  induction buf generalizing i vic m with
  | nil => unfold evict_arc_internal_lru_loop at h; exact ⟨h, by simp⟩
  | cons f rest ih =>
    unfold evict_arc_internal_lru_loop at h
    split_ifs at h with h1 h2
    · exact absurd (ih _ _ _ h).1 (by simp)
    · obtain ⟨hv, hr⟩ := ih _ _ _ h
      refine ⟨hv, fun g hg => ?_⟩
      rcases List.mem_cons.1 hg with hg | hg
      · subst hg; exact fun _ _ => h2
      · exact hr g hg
    · obtain ⟨hv, hr⟩ := ih _ _ _ h
      refine ⟨hv, fun g hg => ?_⟩
      rcases List.mem_cons.1 hg with hg | hg
      · subst hg; exact fun hp hl => absurd ⟨hp, hl⟩ h1
      · exact hr g hg

theorem evict_arc_internal_lru_exists (buf : List BufferFrame) (t : Nat) (f : BufferFrame)
    (hf : f ∈ buf) (hp : f.page_id ≠ INVALID_PAGE) (hl : f.list_type = t)
    (ht : f.last_access_time < ULLONG_MAX) : ∃ v, evict_arc_internal_lru buf t = some v := by
  cases h : evict_arc_internal_lru buf t with
  | some v => exact ⟨v, rfl⟩
  | none =>
    exact absurd ht ((evict_arc_internal_lru_loop_none t buf 0 none ULLONG_MAX h).2 f hf hp hl)

theorem evict_arc_internal_lfu_loop_spec (t : Nat) (buf pre : List BufferFrame)
    (vic : Option Nat) (mc ol : Nat) (hv : ∀ v, vic = some v → in_list (pre ++ buf) t v)
    (r : Nat) (h : evict_arc_internal_lfu_loop t buf pre.length vic mc ol = some r) :
    in_list (pre ++ buf) t r := by
  induction buf generalizing pre vic mc ol with
  | nil => unfold evict_arc_internal_lfu_loop at h; exact hv r h
  | cons f rest ih =>
    unfold evict_arc_internal_lfu_loop at h
    have hl : (pre ++ [f]).length = pre.length + 1 := by simp
    have happ : pre ++ f :: rest = (pre ++ [f]) ++ rest := by simp
    rw [← hl] at h
    rw [happ] at hv ⊢
    split_ifs at h with h1 h2 h3 h4
    · refine ih (pre ++ [f]) (some pre.length) _ _ (fun v hv' => ?_) h
      simp only [Option.some.injEq] at hv'
      subst hv'
      rw [← happ]
      exact ⟨by simp, by rw [frame_at_append_length]; exact h1.1,
        by rw [frame_at_append_length]; exact h1.2⟩
    · refine ih (pre ++ [f]) (some pre.length) _ _ (fun v hv' => ?_) h
      simp only [Option.some.injEq] at hv'
      subst hv'
      rw [← happ]
      exact ⟨by simp, by rw [frame_at_append_length]; exact h1.1,
        by rw [frame_at_append_length]; exact h1.2⟩
    · exact ih (pre ++ [f]) vic _ _ hv h
    · exact ih (pre ++ [f]) vic _ _ hv h
    · exact ih (pre ++ [f]) vic _ _ hv h

theorem evict_arc_internal_lfu_spec (buf : List BufferFrame) (t r : Nat)
    (h : evict_arc_internal_lfu buf t = some r) : in_list buf t r := by
  have := evict_arc_internal_lfu_loop_spec t buf [] none UINT_MAX ULLONG_MAX (by simp) r h
  simpa using this

theorem evict_arc_internal_lfu_loop_none (t : Nat) (buf : List BufferFrame) (i : Nat)
    (vic : Option Nat) (mc ol : Nat)
    (h : evict_arc_internal_lfu_loop t buf i vic mc ol = none) :
    vic = none ∧ ∀ f ∈ buf, f.page_id ≠ INVALID_PAGE → f.list_type = t →
      ¬ f.access_count < mc ∧ ¬ (f.access_count = mc ∧ f.load_time < ol) := by
  induction buf generalizing i vic mc ol with
  | nil => unfold evict_arc_internal_lfu_loop at h; exact ⟨h, by simp⟩
  | cons f rest ih =>
    unfold evict_arc_internal_lfu_loop at h
    split_ifs at h with h1 h2 h3 h4
    · exact absurd (ih _ _ _ _ h).1 (by simp)
    · exact absurd (ih _ _ _ _ h).1 (by simp)
    · obtain ⟨hv, hr⟩ := ih _ _ _ _ h
      refine ⟨hv, fun g hg => ?_⟩
      rcases List.mem_cons.1 hg with hg | hg
      · subst hg; exact fun _ _ => ⟨h2, fun hc => h4 hc.2⟩
      · exact hr g hg
    · obtain ⟨hv, hr⟩ := ih _ _ _ _ h
      refine ⟨hv, fun g hg => ?_⟩
      rcases List.mem_cons.1 hg with hg | hg
      · subst hg; exact fun _ _ => ⟨h2, fun hc => h3 hc.1⟩
      · exact hr g hg
    · obtain ⟨hv, hr⟩ := ih _ _ _ _ h
      refine ⟨hv, fun g hg => ?_⟩
      rcases List.mem_cons.1 hg with hg | hg
      · subst hg; exact fun hp hl => absurd ⟨hp, hl⟩ h1
      · exact hr g hg

theorem evict_arc_internal_lfu_exists (buf : List BufferFrame) (t : Nat) (f : BufferFrame)
    (hf : f ∈ buf) (hp : f.page_id ≠ INVALID_PAGE) (hl : f.list_type = t)
    (hc : f.access_count ≤ UINT_MAX) (ht : f.load_time < ULLONG_MAX) :
    ∃ v, evict_arc_internal_lfu buf t = some v := by
  cases h : evict_arc_internal_lfu buf t with
  | some v => exact ⟨v, rfl⟩
  | none =>
    obtain ⟨h1, h2⟩ :=
      (evict_arc_internal_lfu_loop_none t buf 0 none UINT_MAX ULLONG_MAX h).2 f hf hp hl
    exfalso
    apply h2
    exact ⟨by omega, ht⟩

/-! ## The invariant of the replacement engine -/

/-! ### Frames that differ in reference bits only -/

theorem map_erase_ref_set (buf : List BufferFrame) (idx : Nat) :
    (buf.set idx { frame_at buf idx with ref_bit := 0 }).map erase_ref = buf.map erase_ref := by
  induction buf generalizing idx with
  | nil => rfl
  | cons f rest ih =>
    cases idx with
    | zero => simp [frame_at, erase_ref]
    | succ idx =>
      have := ih idx
      simp only [frame_at, List.getD_cons_succ, List.set_cons_succ, List.map_cons] at this ⊢
      rw [this]

theorem clock_pass_mod_ref (hand : Nat) (filt : Bool) (target pass : Nat) (n i : Nat)
    (buf : List BufferFrame) :
    (clock_pass hand filt target pass n i buf).2.map erase_ref = buf.map erase_ref := by
  induction n generalizing i buf with
  | zero => rfl
  | succ n ih =>
    unfold clock_pass
    simp only []
    split_ifs
    · exact ih _ _
    · rfl
    · rw [ih, map_erase_ref_set]
    · exact ih _ _
    · exact ih _ _

theorem clock_pass_lt (hand : Nat) (filt : Bool) (target pass : Nat) (n i : Nat)
    (buf : List BufferFrame) (hN : 0 < buf.length) (v : Nat)
    (h : (clock_pass hand filt target pass n i buf).1 = some v) : v < buf.length := by
  induction n generalizing i buf with
  | zero => simp [clock_pass] at h
  | succ n ih =>
    unfold clock_pass at h
    simp only [] at h
    split_ifs at h
    · exact ih _ _ hN h
    · simp only [Option.some.injEq] at h
      rw [← h]; exact Nat.mod_lt _ hN
    · have := ih (i + 1) (buf.set ((hand + i) % buf.length)
        { frame_at buf ((hand + i) % buf.length) with ref_bit := 0 }) (by simpa using hN) h
      simpa using this
    · exact ih _ _ hN h
    · exact ih _ _ hN h

theorem clock_force_lt (hand : Nat) (filt : Bool) (target : Nat) (buf : List BufferFrame)
    (n i : Nat) (hN : 0 < buf.length) (v : Nat)
    (h : clock_force hand filt target buf n i = some v) : v < buf.length := by
  induction n generalizing i with
  | zero => simp [clock_force] at h
  | succ n ih =>
    unfold clock_force at h
    simp only [] at h
    split_ifs at h
    · exact ih _ h
    · simp only [Option.some.injEq] at h
      rw [← h]; exact Nat.mod_lt _ hN
    · exact ih _ h

theorem find_empty_slot_mod_ref (b b' : List BufferFrame)
    (h : b'.map erase_ref = b.map erase_ref) : find_empty_slot b' = find_empty_slot b := by
  induction b generalizing b' with
  | nil =>
    simp only [List.map_nil, List.map_eq_nil_iff] at h
    rw [h]
  | cons f rest ih =>
    cases b' with
    | nil => simp at h
    | cons g rest' =>
      simp only [List.map_cons, List.cons.injEq] at h
      have hp : g.page_id = f.page_id := congrArg (fun x => x.page_id) h.1
      unfold find_empty_slot
      rw [hp, ih rest' h.2]

theorem evict_via_clock_policy_spec (hand : Nat) (filt : Bool) (target : Nat)
    (buf : List BufferFrame) :
    (evict_via_clock_policy hand filt target buf).buf.map erase_ref = buf.map erase_ref ∧
    (∀ v, (evict_via_clock_policy hand filt target buf).victim = some v → v < buf.length) ∧
    (0 < buf.length → find_empty_slot buf = none →
      ∃ v, (evict_via_clock_policy hand filt target buf).victim = some v) := by
  unfold evict_via_clock_policy
  rcases Nat.eq_zero_or_pos buf.length with h0 | hN
  · rw [if_pos h0]
    exact ⟨rfl, by simp, fun h => by omega⟩
  rw [if_neg (by omega)]
  have hm1 := clock_pass_mod_ref hand filt target 0 buf.length 0 buf
  have hl1 := clock_pass_lt hand filt target 0 buf.length 0 buf hN
  have hlen1 := clock_pass_length hand filt target 0 buf.length 0 buf
  cases h1 : clock_pass hand filt target 0 buf.length 0 buf with
  | mk r1 buf1 =>
    rw [h1] at hm1 hl1 hlen1
    simp only [] at hm1 hl1 hlen1
    cases r1 with
    | some idx => exact ⟨hm1, fun v hv => hl1 v hv, fun _ _ => ⟨idx, rfl⟩⟩
    | none =>
      simp only []
      have hm2 := clock_pass_mod_ref hand filt target 1 buf.length 0 buf1
      have hl2 := clock_pass_lt hand filt target 1 buf.length 0 buf1 (by omega)
      have hlen2 := clock_pass_length hand filt target 1 buf.length 0 buf1
      cases h2 : clock_pass hand filt target 1 buf.length 0 buf1 with
      | mk r2 buf2 =>
        rw [h2] at hm2 hl2 hlen2
        simp only [] at hm2 hl2 hlen2
        have hm : buf2.map erase_ref = buf.map erase_ref := hm2.trans hm1
        cases r2 with
        | some idx =>
          exact ⟨hm, fun v hv => by have := hl2 v hv; omega, fun _ _ => ⟨idx, rfl⟩⟩
        | none =>
          simp only []
          cases h3 : clock_force hand filt target buf2 buf.length 0 with
          | some idx =>
            refine ⟨hm, fun v hv => ?_, fun _ _ => ⟨idx, rfl⟩⟩
            simp only [Option.some.injEq] at hv
            have := clock_force_lt hand filt target buf2 buf.length 0 (by omega) idx h3
            omega
          | none =>
            refine ⟨hm, fun v hv => ?_, fun _ hfull => ?_⟩
            · have := evict_fifo_lt buf2 v hv
              omega
            · exact evict_fifo_full buf2 (by omega)
                (by rw [find_empty_slot_mod_ref buf buf2 hm]; exact hfull)

theorem mem_mod_ref (b b' : List BufferFrame) (h : b'.map erase_ref = b.map erase_ref)
    (f : BufferFrame) (hf : f ∈ b') : ∃ g ∈ b, erase_ref g = erase_ref f := by
  have : erase_ref f ∈ b'.map erase_ref := List.mem_map_of_mem _ hf
  rw [h, List.mem_map] at this
  exact this

theorem countP_mod_ref (p : BufferFrame → Bool) (hp : ∀ f, p (erase_ref f) = p f)
    (b b' : List BufferFrame) (h : b'.map erase_ref = b.map erase_ref) :
    b'.countP p = b.countP p := by
  have h1 : ∀ l : List BufferFrame, (l.map erase_ref).countP p = l.countP p := by
    intro l
    rw [List.countP_map]
    congr 1
    funext f
    exact hp f
  rw [← h1 b', ← h1 b, h]

theorem count_tag_mod_ref (pol : ReplacementPolicy) (b b' : List BufferFrame)
    (h : b'.map erase_ref = b.map erase_ref) (k : Nat) :
    count_tag pol b' k = count_tag pol b k := by
  unfold count_tag
  rw [countP_mod_ref (fun f => decide (f.page_id ≠ INVALID_PAGE ∧ frame_tag pol f = k))
    (fun f => rfl) b b' h]

theorem tag_ok_erase_ref (pol : ReplacementPolicy) (f g : BufferFrame)
    (h : erase_ref g = erase_ref f) (hg : tag_ok pol g) : tag_ok pol f := by
  have h1 : g.list_type = f.list_type := congrArg (fun x => x.list_type) h
  have h2 : g.ref_arc_list_type = f.ref_arc_list_type :=
    congrArg (fun x => x.ref_arc_list_type) h
  cases pol <;> simp only [tag_ok] at hg ⊢ <;> first
    | trivial
    | (rw [← h1, ← h2]; exact hg)
    | (rw [← h1]; exact hg)

theorem not_resident_in_mod_ref (b b' : List BufferFrame)
    (h : b'.map erase_ref = b.map erase_ref) (l : List Nat) (hb : not_resident_in b l) :
    not_resident_in b' l := by
  intro f hf hp
  obtain ⟨g, hg, he⟩ := mem_mod_ref b b' h f hf
  have h1 : g.page_id = f.page_id := congrArg (fun x => x.page_id) he
  rw [← h1] at hp ⊢
  exact hb g hg hp

theorem buf_inv_mod_ref (pol : ReplacementPolicy) (a : ARCState) (T : Nat)
    (b b' : List BufferFrame) (h : b'.map erase_ref = b.map erase_ref)
    (hb : buf_inv pol a T b) : buf_inv pol a T b' := by
  obtain ⟨h1, h2, h3, h4, h5, h6⟩ := hb
  refine ⟨?_, ?_, ?_, ?_, ?_, ?_⟩
  · intro f hf hp
    obtain ⟨g, hg, he⟩ := mem_mod_ref b b' h f hf
    have hpg : g.page_id = f.page_id := congrArg (fun x => x.page_id) he
    exact tag_ok_erase_ref pol f g he (h1 g hg (by rw [hpg]; exact hp))
  · intro x hx
    rw [countP_mod_ref (fun f => decide (f.page_id = x)) (fun f => rfl) b b' h]
    exact h2 x hx
  · intro f hf hp
    obtain ⟨g, hg, he⟩ := mem_mod_ref b b' h f hf
    have hpg : g.page_id = f.page_id := congrArg (fun x => x.page_id) he
    have hc : g.access_count = f.access_count := congrArg (fun x => x.access_count) he
    rw [← hc]; exact h3 g hg (by rw [hpg]; exact hp)
  · intro f hf hp
    obtain ⟨g, hg, he⟩ := mem_mod_ref b b' h f hf
    have hpg : g.page_id = f.page_id := congrArg (fun x => x.page_id) he
    have hl : g.load_time = f.load_time := congrArg (fun x => x.load_time) he
    have ha : g.last_access_time = f.last_access_time :=
      congrArg (fun x => x.last_access_time) he
    rw [← hl, ← ha]
    exact h4 g hg (by rw [hpg]; exact hp)
  · unfold sizes_ok at h5 ⊢
    simp only [count_tag_mod_ref pol b b' h]
    exact h5
  · unfold ghosts_ok at h6 ⊢
    refine ⟨fun hp => ?_, fun hp => ?_⟩
    · obtain ⟨c1, c2, c3, c4, c5⟩ := h6.1 hp
      exact ⟨c1, c2, c3, not_resident_in_mod_ref b b' h _ c4,
        not_resident_in_mod_ref b b' h _ c5⟩
    · obtain ⟨c1, c2, c3, c4, c5⟩ := h6.2 hp
      exact ⟨c1, c2, c3, not_resident_in_mod_ref b b' h _ c4,
        not_resident_in_mod_ref b b' h _ c5⟩

theorem sim_inv_iff (s : Sim) :
    s.inv ↔ buf_inv s.current_policy s.arc_state s.current_time s.buffer ∧ s.ok := by
  unfold Sim.inv buf_inv
  tauto

/-! ### Counting under a write to one frame -/

theorem count_tag_set (pol : ReplacementPolicy) (buf : List BufferFrame) (k idx : Nat)
    (g : BufferFrame) (h : idx < buf.length) :
    count_tag pol (buf.set idx g) k
      = count_tag pol buf k
        - (if (frame_at buf idx).page_id ≠ INVALID_PAGE ∧ frame_tag pol (frame_at buf idx) = k
            then 1 else 0)
        + (if g.page_id ≠ INVALID_PAGE ∧ frame_tag pol g = k then 1 else 0) := by
  have := countP_set (fun f => decide (f.page_id ≠ INVALID_PAGE ∧ frame_tag pol f = k))
    buf idx g h
  unfold count_tag
  simp only [decide_eq_true_eq] at this
  split_ifs at this ⊢ <;> omega

theorem pages_unique_set_invalid (buf : List BufferFrame) (idx : Nat) (g : BufferFrame)
    (h : idx < buf.length) (hg : g.page_id = INVALID_PAGE) (hu : pages_unique buf) :
    pages_unique (buf.set idx g) := by
  intro x hx
  have := countP_set (fun f => decide (f.page_id = x)) buf idx g h
  have hu' := hu x hx
  simp only [decide_eq_true_eq] at this
  have hgx : ¬ g.page_id = x := fun e => hx (by rw [← e, hg])
  rw [if_neg hgx] at this
  split_ifs at this <;> omega

theorem pages_unique_set_new (buf : List BufferFrame) (idx : Nat) (g : BufferFrame)
    (h : idx < buf.length) (hnew : ∀ f ∈ buf, f.page_id ≠ g.page_id) (hu : pages_unique buf) :
    pages_unique (buf.set idx g) := by
  intro x hx
  have := countP_set (fun f => decide (f.page_id = x)) buf idx g h
  have hu' := hu x hx
  simp only [decide_eq_true_eq] at this
  by_cases hgx : g.page_id = x
  · have hz : (buf.countP fun f => decide (f.page_id = x)) = 0 := by
      rw [List.countP_eq_zero]
      intro f hf
      simp only [decide_eq_true_eq]
      rw [← hgx]
      exact hnew f hf
    rw [if_pos hgx] at this
    split_ifs at this <;> omega
  · rw [if_neg hgx] at this
    split_ifs at this <;> omega

theorem pages_unique_set_same (buf : List BufferFrame) (idx : Nat) (g : BufferFrame)
    (h : idx < buf.length) (hg : g.page_id = (frame_at buf idx).page_id)
    (hu : pages_unique buf) : pages_unique (buf.set idx g) := by
  intro x hx
  have := countP_set (fun f => decide (f.page_id = x)) buf idx g h
  have hu' := hu x hx
  simp only [decide_eq_true_eq] at this
  rw [hg] at this
  split_ifs at this <;> omega

/-- After frame `idx` is emptied, no frame holds the page it held. -/
theorem pages_unique_evicted (buf : List BufferFrame) (idx : Nat) (g : BufferFrame)
    (h : idx < buf.length) (hg : g.page_id = INVALID_PAGE)
    (hres : (frame_at buf idx).page_id ≠ INVALID_PAGE) (hu : pages_unique buf) :
    ∀ f ∈ buf.set idx g, f.page_id ≠ (frame_at buf idx).page_id := by
  have := countP_set (fun f => decide (f.page_id = (frame_at buf idx).page_id)) buf idx g h
  have hu' := hu _ hres
  simp only [decide_eq_true_eq, if_true] at this
  have hgx : ¬ g.page_id = (frame_at buf idx).page_id := fun e => hres (by rw [← e, hg])
  rw [if_neg hgx] at this
  have hz : ((buf.set idx g).countP fun f => decide (f.page_id = (frame_at buf idx).page_id))
      = 0 := by omega
  rw [List.countP_eq_zero] at hz
  intro f hf
  have := hz f hf
  simpa using this

theorem count_tag_nonneg (pol : ReplacementPolicy) (buf : List BufferFrame) (k : Nat) :
    0 ≤ count_tag pol buf k := by
  unfold count_tag; omega

theorem not_resident_in_set (buf : List BufferFrame) (idx : Nat) (g : BufferFrame)
    (l : List Nat) (hg : g.page_id ≠ INVALID_PAGE → g.page_id ∉ l)
    (h : not_resident_in buf l) : not_resident_in (buf.set idx g) l := by
  intro f hf hp
  rcases List.mem_or_eq_of_mem_set hf with hf | hf
  · exact h f hf hp
  · rw [hf] at hp ⊢; exact hg hp

theorem not_resident_in_frame_at (buf : List BufferFrame) (idx : Nat) (l : List Nat)
    (h : not_resident_in buf l) (hi : idx < buf.length)
    (hp : (frame_at buf idx).page_id ≠ INVALID_PAGE) : (frame_at buf idx).page_id ∉ l :=
  h _ (frame_at_mem buf idx hi) hp

/-! ### A hit -/

theorem ite_eq_of (c : Prop) [Decidable c] (x y z : Sim) (hx : c → x = z) (hy : ¬ c → y = z) :
    (if c then x else y) = z := by
  split_ifs with h
  · exact hx h
  · exact hy h

theorem access_hit_eq (s : Sim) (i : Nat) (op : Op) :
    access_hit s i op
      = { s with
          hits := s.hits + 1
          buffer := s.buffer.set i
            (hit_frame s.current_policy (hit_base (frame_at s.buffer i) s.current_time op))
          arc_state := hit_arc s.current_policy
            (hit_base (frame_at s.buffer i) s.current_time op) s.arc_state } := by
  obtain ⟨buf, pol, prev, time, hits, misses, arc, log, err, hand, zs, wp⟩ := s
  cases pol
  case LRU_ARC =>
    refine ite_eq_of ((hit_base (frame_at buf i) time op).list_type = 1) _ _ _ ?_ ?_ <;>
      intro h <;> simp only [hit_frame, hit_arc, h, if_true, if_false] <;> rfl
  case LFU_ARC =>
    refine ite_eq_of ((hit_base (frame_at buf i) time op).list_type = 3) _ _ _ ?_ ?_ <;>
      intro h <;> simp only [hit_frame, hit_arc, h, if_true, if_false] <;> rfl
  case LRU =>
    refine ite_eq_of ((hit_base (frame_at buf i) time op).ref_arc_list_type = 1) _ _ _ ?_ ?_ <;>
      intro h <;> simp only [hit_frame, hit_arc, h, if_true, if_false] <;> rfl
  case LFU =>
    refine ite_eq_of ((hit_base (frame_at buf i) time op).ref_arc_list_type = 3) _ _ _ ?_ ?_ <;>
      intro h <;> simp only [hit_frame, hit_arc, h, if_true, if_false] <;> rfl
  all_goals rfl

theorem hit_base_fields (f0 : BufferFrame) (T : Nat) (op : Op) :
    (hit_base f0 T op).page_id = f0.page_id ∧ (hit_base f0 T op).load_time = f0.load_time ∧
    (hit_base f0 T op).last_access_time = T ∧
    (hit_base f0 T op).list_type = f0.list_type ∧
    (hit_base f0 T op).ref_arc_list_type = f0.ref_arc_list_type ∧
    (f0.access_count ≤ UINT_MAX → (hit_base f0 T op).access_count ≤ UINT_MAX) := by
  unfold hit_base
  simp only []
  split_ifs <;> refine ⟨rfl, rfl, rfl, rfl, rfl, fun h => ?_⟩ <;> simp only [] <;> omega

theorem hit_frame_fields (pol : ReplacementPolicy) (f3 : BufferFrame) :
    (hit_frame pol f3).page_id = f3.page_id ∧ (hit_frame pol f3).load_time = f3.load_time ∧
    (hit_frame pol f3).last_access_time = f3.last_access_time ∧
    (hit_frame pol f3).access_count = f3.access_count := by
  cases pol <;> simp only [hit_frame] <;> (try split_ifs) <;> simp

theorem hit_frame_tag_ok (pol : ReplacementPolicy) (f3 : BufferFrame) (h : tag_ok pol f3) :
    tag_ok pol (hit_frame pol f3) := by
  cases pol <;> simp only [hit_frame, tag_ok] at h ⊢ <;> first
    | exact h
    | (split_ifs <;> simp_all)

theorem hit_arc_ghosts (pol : ReplacementPolicy) (f3 : BufferFrame) (a : ARCState) :
    arc_ghosts (hit_arc pol f3 a) = arc_ghosts a := by
  cases pol <;> simp only [hit_arc] <;> first
    | rfl
    | (split_ifs <;> rfl)

theorem hit_frame_move (pol : ReplacementPolicy) (f3 : BufferFrame) (a : ARCState) :
    hit_move pol (frame_tag pol f3) (frame_tag pol (hit_frame pol f3)) a (hit_arc pol f3 a) := by
  cases pol <;> simp only [hit_frame, hit_arc, hit_move, frame_tag, reduceCtorEq, or_self,
    or_true, true_or, if_true, if_false, ne_eq, not_false_eq_true, not_true_eq_false,
    false_and, true_and, and_true, or_false, false_or, and_self] <;>
    (try split_ifs) <;> simp_all

theorem tag_ok_congr (pol : ReplacementPolicy) (f g : BufferFrame)
    (h1 : g.list_type = f.list_type) (h2 : g.ref_arc_list_type = f.ref_arc_list_type)
    (h : tag_ok pol f) : tag_ok pol g := by
  cases pol <;> simp only [tag_ok] at h ⊢ <;> first
    | trivial
    | (rw [h1, h2]; exact h)
    | (rw [h1]; exact h)

theorem frame_tag_congr (pol : ReplacementPolicy) (f g : BufferFrame)
    (h1 : g.list_type = f.list_type) (h2 : g.ref_arc_list_type = f.ref_arc_list_type) :
    frame_tag pol g = frame_tag pol f := by
  unfold frame_tag; rw [h1, h2]

theorem ghosts_ok_congr (pol : ReplacementPolicy) (buf : List BufferFrame) (a a' : ARCState)
    (h : arc_ghosts a' = arc_ghosts a) (hg : ghosts_ok pol buf a) : ghosts_ok pol buf a' := by
  simp only [arc_ghosts, Prod.mk.injEq] at h
  obtain ⟨h1, h2, h3, h4, _, _⟩ := h
  unfold ghosts_ok at hg ⊢
  rw [h1, h2, h3, h4]
  exact hg

theorem ghosts_ok_set (pol : ReplacementPolicy) (buf : List BufferFrame) (a : ARCState)
    (idx : Nat) (g : BufferFrame)
    (hg : g.page_id ≠ INVALID_PAGE →
      g.page_id ∉ a.b1 ∧ g.page_id ∉ a.b2 ∧ g.page_id ∉ a.b3 ∧ g.page_id ∉ a.b4)
    (h : ghosts_ok pol buf a) : ghosts_ok pol (buf.set idx g) a := by
  unfold ghosts_ok at h ⊢
  refine ⟨fun hp => ?_, fun hp => ?_⟩
  · obtain ⟨c1, c2, c3, c4, c5⟩ := h.1 hp
    exact ⟨c1, c2, c3, not_resident_in_set _ _ _ _ (fun hr => (hg hr).1) c4,
      not_resident_in_set _ _ _ _ (fun hr => (hg hr).2.1) c5⟩
  · obtain ⟨c1, c2, c3, c4, c5⟩ := h.2 hp
    exact ⟨c1, c2, c3, not_resident_in_set _ _ _ _ (fun hr => (hg hr).2.2.1) c4,
      not_resident_in_set _ _ _ _ (fun hr => (hg hr).2.2.2) c5⟩

/-- A resident page is in no ghost list the policy keeps disjoint from the buffer. -/
theorem ghosts_ok_frame (pol : ReplacementPolicy) (buf : List BufferFrame) (a : ARCState)
    (h : ghosts_ok pol buf a) (hpol : pol = LRU ∨ pol = LRU_ARC ∨ pol = LFU ∨ pol = LFU_ARC)
    (f : BufferFrame) (hf : f ∈ buf) (hp : f.page_id ≠ INVALID_PAGE) :
    f.page_id ∉ a.b1 ∧ f.page_id ∉ a.b2 ∧ f.page_id ∉ a.b3 ∧ f.page_id ∉ a.b4 := by
  unfold ghosts_ok at h
  rcases hpol with hp1 | hp1 | hp1 | hp1
  · obtain ⟨c1, c2, c3, c4, c5⟩ := h.1 (Or.inl hp1)
    rw [c1, c2]; exact ⟨c4 f hf hp, c5 f hf hp, by simp, by simp⟩
  · obtain ⟨c1, c2, c3, c4, c5⟩ := h.1 (Or.inr hp1)
    rw [c1, c2]; exact ⟨c4 f hf hp, c5 f hf hp, by simp, by simp⟩
  · obtain ⟨c1, c2, c3, c4, c5⟩ := h.2 (Or.inl hp1)
    rw [c1, c2]; exact ⟨by simp, by simp, c4 f hf hp, c5 f hf hp⟩
  · obtain ⟨c1, c2, c3, c4, c5⟩ := h.2 (Or.inr hp1)
    rw [c1, c2]; exact ⟨by simp, by simp, c4 f hf hp, c5 f hf hp⟩

theorem ghosts_ok_set_same (pol : ReplacementPolicy) (buf : List BufferFrame) (a : ARCState)
    (idx : Nat) (g : BufferFrame) (hi : idx < buf.length)
    (hg : g.page_id = (frame_at buf idx).page_id) (h : ghosts_ok pol buf a) :
    ghosts_ok pol (buf.set idx g) a := by
  unfold ghosts_ok at h ⊢
  have hm := frame_at_mem buf idx hi
  refine ⟨fun hp => ?_, fun hp => ?_⟩
  · obtain ⟨c1, c2, c3, c4, c5⟩ := h.1 hp
    exact ⟨c1, c2, c3,
      not_resident_in_set _ _ _ _ (fun hr => by rw [hg] at hr ⊢; exact c4 _ hm hr) c4,
      not_resident_in_set _ _ _ _ (fun hr => by rw [hg] at hr ⊢; exact c5 _ hm hr) c5⟩
  · obtain ⟨c1, c2, c3, c4, c5⟩ := h.2 hp
    exact ⟨c1, c2, c3,
      not_resident_in_set _ _ _ _ (fun hr => by rw [hg] at hr ⊢; exact c4 _ hm hr) c4,
      not_resident_in_set _ _ _ _ (fun hr => by rw [hg] at hr ⊢; exact c5 _ hm hr) c5⟩

theorem sizes_ok_hit (pol : ReplacementPolicy) (buf : List BufferFrame) (a a' : ARCState)
    (idx : Nat) (g : BufferFrame) (hi : idx < buf.length)
    (hres : (frame_at buf idx).page_id ≠ INVALID_PAGE)
    (hg : g.page_id = (frame_at buf idx).page_id)
    (hm : hit_move pol (frame_tag pol (frame_at buf idx)) (frame_tag pol g) a a')
    (h : sizes_ok pol buf a) : sizes_ok pol (buf.set idx g) a' := by
  unfold sizes_ok at h ⊢
  have hgres : g.page_id ≠ INVALID_PAGE := by rw [hg]; exact hres
  by_cases hF : pol = FIFO
  · rw [if_pos hF] at h ⊢
    rcases hm with hm | hm | hm
    · obtain ⟨_, e1, e2, e3, e4⟩ := hm
      rw [e1, e2, e3, e4]; exact h
    · exact absurd hF hm.1
    · exact absurd hF hm.1
  · rw [if_neg hF] at h ⊢
    have c1 := count_tag_set pol buf 1 idx g hi
    have c2 := count_tag_set pol buf 2 idx g hi
    have c3 := count_tag_set pol buf 3 idx g hi
    have c4 := count_tag_set pol buf 4 idx g hi
    have n1 := count_tag_nonneg pol (buf.set idx g) 1
    have n2 := count_tag_nonneg pol (buf.set idx g) 2
    have n3 := count_tag_nonneg pol (buf.set idx g) 3
    have n4 := count_tag_nonneg pol (buf.set idx g) 4
    simp only [hres, hgres, ne_eq, not_false_eq_true, true_and] at c1 c2 c3 c4
    obtain ⟨h1, h2, h3, h4⟩ := h
    rcases hm with hm | hm | hm
    · obtain ⟨e0, e1, e2, e3, e4⟩ := hm
      rw [e0] at c1 c2 c3 c4
      rw [e1, e2, e3, e4, c1, c2, c3, c4, h1, h2, h3, h4]
      refine ⟨?_, ?_, ?_, ?_⟩ <;> split_ifs <;> omega
    · obtain ⟨_, k0, k1, e1, e2, e3, e4⟩ := hm
      rw [k0, k1] at c1 c2 c3 c4
      simp only [if_true, OfNat.ofNat_ne_one, if_false, Nat.reduceEqDiff, OfNat.one_ne_ofNat]
        at c1 c2 c3 c4
      rw [e1, e2, e3, e4, h1, h2, h3, h4]
      unfold dec_if_pos
      refine ⟨?_, ?_, ?_, ?_⟩ <;> (try split_ifs) <;> omega
    · obtain ⟨_, k0, k1, e1, e2, e3, e4⟩ := hm
      rw [k0, k1] at c1 c2 c3 c4
      simp only [if_true, OfNat.ofNat_ne_one, if_false, Nat.reduceEqDiff, OfNat.one_ne_ofNat]
        at c1 c2 c3 c4
      rw [e1, e2, e3, e4, h1, h2, h3, h4]
      unfold dec_if_pos
      refine ⟨?_, ?_, ?_, ?_⟩ <;> (try split_ifs) <;> omega

theorem access_hit_inv (s : Sim) (i : Nat) (op : Op) (h : s.inv) (hi : i < s.buffer.length)
    (hres : (frame_at s.buffer i).page_id ≠ INVALID_PAGE) : (access_hit s i op).inv := by
  have hok := access_hit_ok s i op h.2.2.2.2.2.2
  rw [access_hit_eq] at hok ⊢
  obtain ⟨h1, h2, h3, h4, h5, h6, _⟩ := h
  have hb := hit_base_fields (frame_at s.buffer i) s.current_time op
  have hf := hit_frame_fields s.current_policy (hit_base (frame_at s.buffer i) s.current_time op)
  have hmem := frame_at_mem s.buffer i hi
  have hpage : (hit_frame s.current_policy
      (hit_base (frame_at s.buffer i) s.current_time op)).page_id
      = (frame_at s.buffer i).page_id := hf.1.trans hb.1
  refine ⟨?_, ?_, ?_, ?_, ?_, ?_, hok⟩
  · intro f hfm hp
    rcases List.mem_or_eq_of_mem_set hfm with hfm | hfm
    · exact h1 f hfm hp
    · rw [hfm]
      exact hit_frame_tag_ok _ _
        (tag_ok_congr _ _ _ hb.2.2.2.1 hb.2.2.2.2.1 (h1 _ hmem hres))
  · exact pages_unique_set_same _ _ _ hi hpage h2
  · intro f hfm hp
    rcases List.mem_or_eq_of_mem_set hfm with hfm | hfm
    · exact h3 f hfm hp
    · rw [hfm, hf.2.2.2]
      exact hb.2.2.2.2.2 (h3 _ hmem hres)
  · intro f hfm hp
    rcases List.mem_or_eq_of_mem_set hfm with hfm | hfm
    · exact h4 f hfm hp
    · rw [hfm, hf.2.1, hf.2.2.1, hb.2.1, hb.2.2.1]
      exact ⟨(h4 _ hmem hres).1, le_refl _⟩
  · refine sizes_ok_hit _ _ _ _ _ _ hi hres hpage ?_ h5
    have := hit_frame_move s.current_policy
      (hit_base (frame_at s.buffer i) s.current_time op) s.arc_state
    rw [frame_tag_congr _ _ _ hb.2.2.2.1 hb.2.2.2.2.1] at this
    exact this
  · exact ghosts_ok_set_same _ _ _ _ _ hi hpage (ghosts_ok_congr _ _ _ _ (hit_arc_ghosts _ _ _) h6)

/-! ### Step A of a miss -/

theorem find_in_arc_ghost_false (pid : Nat) (l : List Nat) (h : pid ∉ l) :
    find_in_arc_ghost pid l = false := by
  cases hf : find_in_arc_ghost pid l with
  | false => rfl
  | true => exact absurd ((find_in_arc_ghost_iff pid l).1 hf) h

theorem find_in_arc_ghost_true (pid : Nat) (l : List Nat) (h : pid ∈ l) :
    find_in_arc_ghost pid l = true := (find_in_arc_ghost_iff pid l).2 h

theorem step_a_sizes (pol : ReplacementPolicy) (N : Nat) (a : ARCState) (X : Nat) :
    (step_a pol N a X).arc.t1_size = a.t1_size ∧ (step_a pol N a X).arc.t2_size = a.t2_size ∧
    (step_a pol N a X).arc.t3_size = a.t3_size ∧ (step_a pol N a X).arc.t4_size = a.t4_size := by
  cases pol <;> simp only [step_a, reduceCtorEq, if_true, if_false, or_self, or_true, true_or,
    or_false, false_or] <;> (try split_ifs) <;> simp

theorem step_a_lru_family (pol : ReplacementPolicy) (hp : pol = LRU ∨ pol = LRU_ARC) (N : Nat)
    (a : ARCState) (X : Nat) :
    (step_a pol N a X).arc.b1 = (if X ∈ a.b1 then a.b1.erase X else a.b1) ∧
    (step_a pol N a X).arc.b2 = (if X ∈ a.b1 then a.b2 else a.b2.erase X) ∧
    (step_a pol N a X).arc.b3 = a.b3 ∧ (step_a pol N a X).arc.b4 = a.b4 ∧
    ((step_a pol N a X).ref_load_list_type = 1 ∨ (step_a pol N a X).ref_load_list_type = 2) ∧
    (step_a pol N a X).actual_load_list_type
      = (if pol = LRU then 1 else (step_a pol N a X).ref_load_list_type) := by
  by_cases h1 : X ∈ a.b1
  · have f1 := find_in_arc_ghost_true X a.b1 h1
    rcases hp with hp | hp <;> subst hp <;>
      simp [step_a, f1, h1, arc_remove_from_ghost_eq_erase]
  · have f1 := find_in_arc_ghost_false X a.b1 h1
    by_cases h2 : X ∈ a.b2
    · have f2 := find_in_arc_ghost_true X a.b2 h2
      rcases hp with hp | hp <;> subst hp <;>
        simp [step_a, f1, f2, h1, arc_remove_from_ghost_eq_erase]
    · have f2 := find_in_arc_ghost_false X a.b2 h2
      rcases hp with hp | hp <;> subst hp <;>
        simp [step_a, f1, f2, h1, List.erase_of_not_mem h2]

theorem step_a_lfu_family (pol : ReplacementPolicy) (hp : pol = LFU ∨ pol = LFU_ARC) (N : Nat)
    (a : ARCState) (X : Nat) :
    (step_a pol N a X).arc.b3 = (if X ∈ a.b3 then a.b3.erase X else a.b3) ∧
    (step_a pol N a X).arc.b4 = (if X ∈ a.b3 then a.b4 else a.b4.erase X) ∧
    (step_a pol N a X).arc.b1 = a.b1 ∧ (step_a pol N a X).arc.b2 = a.b2 ∧
    ((step_a pol N a X).ref_load_list_type = 3 ∨ (step_a pol N a X).ref_load_list_type = 4) ∧
    (step_a pol N a X).actual_load_list_type
      = (if pol = LFU then 3 else (step_a pol N a X).ref_load_list_type) := by
  by_cases h1 : X ∈ a.b3
  · have f1 := find_in_arc_ghost_true X a.b3 h1
    rcases hp with hp | hp <;> subst hp <;>
      simp [step_a, f1, h1, arc_remove_from_ghost_eq_erase]
  · have f1 := find_in_arc_ghost_false X a.b3 h1
    by_cases h2 : X ∈ a.b4
    · have f2 := find_in_arc_ghost_true X a.b4 h2
      rcases hp with hp | hp <;> subst hp <;>
        simp [step_a, f1, f2, h1, arc_remove_from_ghost_eq_erase]
    · have f2 := find_in_arc_ghost_false X a.b4 h2
      rcases hp with hp | hp <;> subst hp <;>
        simp [step_a, f1, f2, h1, List.erase_of_not_mem h2]

theorem inv_iff_inv_at (s : Sim) : s.inv ↔ s.inv_at s.current_time := sim_inv_iff s

theorem step_a_load_ok (pol : ReplacementPolicy) (N : Nat) (a : ARCState) (X : Nat) :
    load_ok pol (step_a pol N a X).actual_load_list_type
      (step_a pol N a X).ref_load_list_type := by
  cases pol
  case LRU =>
    obtain ⟨_, _, _, _, h5, h6⟩ := step_a_lru_family LRU (Or.inl rfl) N a X
    simp only [load_ok]; rw [h6]; simp only [if_true]; exact ⟨trivial, h5⟩
  case LRU_ARC =>
    obtain ⟨_, _, _, _, h5, h6⟩ := step_a_lru_family LRU_ARC (Or.inr rfl) N a X
    simp only [load_ok]; rw [h6]; simp only [reduceCtorEq, if_false]; exact h5
  case LFU =>
    obtain ⟨_, _, _, _, h5, h6⟩ := step_a_lfu_family LFU (Or.inl rfl) N a X
    simp only [load_ok]; rw [h6]; simp only [if_true]; exact ⟨trivial, h5⟩
  case LFU_ARC =>
    obtain ⟨_, _, _, _, h5, h6⟩ := step_a_lfu_family LFU_ARC (Or.inr rfl) N a X
    simp only [load_ok]; rw [h6]; simp only [reduceCtorEq, if_false]; exact h5
  all_goals trivial

theorem sizes_ok_congr (pol : ReplacementPolicy) (buf : List BufferFrame) (a a' : ARCState)
    (h : a'.t1_size = a.t1_size ∧ a'.t2_size = a.t2_size ∧ a'.t3_size = a.t3_size ∧
      a'.t4_size = a.t4_size) (hs : sizes_ok pol buf a) : sizes_ok pol buf a' := by
  unfold sizes_ok at hs ⊢
  rw [h.1, h.2.1, h.2.2.1, h.2.2.2]
  exact hs

theorem not_resident_in_sub (buf : List BufferFrame) (l l' : List Nat)
    (hsub : ∀ x ∈ l', x ∈ l) (h : not_resident_in buf l) : not_resident_in buf l' :=
  fun f hf hp hm => h f hf hp (hsub _ hm)

theorem step_a_ghosts (pol : ReplacementPolicy) (N : Nat) (a : ARCState) (X : Nat)
    (buf : List BufferFrame) (hok : arc_ok a N) (hg : ghosts_ok pol buf a) :
    ghosts_ok pol buf (step_a pol N a X).arc ∧
    (pol = LRU ∨ pol = LRU_ARC ∨ pol = LFU ∨ pol = LFU_ARC →
      X ∉ (step_a pol N a X).arc.b1 ∧ X ∉ (step_a pol N a X).arc.b2 ∧
      X ∉ (step_a pol N a X).arc.b3 ∧ X ∉ (step_a pol N a X).arc.b4) := by
  obtain ⟨⟨n1, _⟩, ⟨n2, _⟩, ⟨n3, _⟩, ⟨n4, _⟩, _⟩ := hok
  have hsub1 : ∀ x ∈ (if X ∈ a.b1 then a.b1.erase X else a.b1), x ∈ a.b1 := by
    intro x hx; split_ifs at hx
    · exact List.mem_of_mem_erase hx
    · exact hx
  have hsub3 : ∀ x ∈ (if X ∈ a.b3 then a.b3.erase X else a.b3), x ∈ a.b3 := by
    intro x hx; split_ifs at hx
    · exact List.mem_of_mem_erase hx
    · exact hx
  have hsub2 : ∀ x ∈ (if X ∈ a.b1 then a.b2 else a.b2.erase X), x ∈ a.b2 := by
    intro x hx; split_ifs at hx
    · exact hx
    · exact List.mem_of_mem_erase hx
  have hsub4 : ∀ x ∈ (if X ∈ a.b3 then a.b4 else a.b4.erase X), x ∈ a.b4 := by
    intro x hx; split_ifs at hx
    · exact hx
    · exact List.mem_of_mem_erase hx
  have hlru : pol = LRU ∨ pol = LRU_ARC →
      ghosts_ok pol buf (step_a pol N a X).arc ∧
      (X ∉ (step_a pol N a X).arc.b1 ∧ X ∉ (step_a pol N a X).arc.b2 ∧
        X ∉ (step_a pol N a X).arc.b3 ∧ X ∉ (step_a pol N a X).arc.b4) := by
    intro hp
    obtain ⟨e1, e2, e3, e4, _, _⟩ := step_a_lru_family pol hp N a X
    obtain ⟨c1, c2, c3, c4, c5⟩ := hg.1 hp
    have hnot : ¬ (pol = LFU ∨ pol = LFU_ARC) := by
      rcases hp with hp | hp <;> subst hp <;> simp
    refine ⟨⟨fun _ => ?_, fun h => absurd h hnot⟩, ?_⟩
    · rw [e1, e2, e3, e4]
      exact ⟨c1, c2, fun x hx hx2 => c3 x (hsub1 x hx) (hsub2 x hx2),
        not_resident_in_sub _ _ _ hsub1 c4, not_resident_in_sub _ _ _ hsub2 c5⟩
    · rw [e1, e2, e3, e4, c1, c2]
      refine ⟨?_, ?_, by simp, by simp⟩
      · split_ifs with hx
        · exact fun hm => ((List.Nodup.mem_erase_iff n1).1 hm).1 rfl
        · exact hx
      · split_ifs with hx
        · exact c3 X hx
        · exact fun hm => ((List.Nodup.mem_erase_iff n2).1 hm).1 rfl
  have hlfu : pol = LFU ∨ pol = LFU_ARC →
      ghosts_ok pol buf (step_a pol N a X).arc ∧
      (X ∉ (step_a pol N a X).arc.b1 ∧ X ∉ (step_a pol N a X).arc.b2 ∧
        X ∉ (step_a pol N a X).arc.b3 ∧ X ∉ (step_a pol N a X).arc.b4) := by
    intro hp
    obtain ⟨e1, e2, e3, e4, _, _⟩ := step_a_lfu_family pol hp N a X
    obtain ⟨c1, c2, c3, c4, c5⟩ := hg.2 hp
    have hnot : ¬ (pol = LRU ∨ pol = LRU_ARC) := by
      rcases hp with hp | hp <;> subst hp <;> simp
    refine ⟨⟨fun h => absurd h hnot, fun _ => ?_⟩, ?_⟩
    · rw [e1, e2, e3, e4]
      exact ⟨c1, c2, fun x hx hx2 => c3 x (hsub3 x hx) (hsub4 x hx2),
        not_resident_in_sub _ _ _ hsub3 c4, not_resident_in_sub _ _ _ hsub4 c5⟩
    · rw [e1, e2, e3, e4, c1, c2]
      refine ⟨by simp, by simp, ?_, ?_⟩
      · split_ifs with hx
        · exact fun hm => ((List.Nodup.mem_erase_iff n3).1 hm).1 rfl
        · exact hx
      · split_ifs with hx
        · exact c3 X hx
        · exact fun hm => ((List.Nodup.mem_erase_iff n4).1 hm).1 rfl
  by_cases h1 : pol = LRU ∨ pol = LRU_ARC
  · exact ⟨(hlru h1).1, fun _ => (hlru h1).2⟩
  · by_cases h2 : pol = LFU ∨ pol = LFU_ARC
    · exact ⟨(hlfu h2).1, fun _ => (hlfu h2).2⟩
    · exact ⟨⟨fun h => absurd h h1, fun h => absurd h h2⟩, fun h => by tauto⟩

theorem miss_begin_inv (s : Sim) (X T : Nat) (h : s.inv_at T)
    (hX : ∀ f ∈ s.buffer, f.page_id ≠ X) :
    (miss_begin s X).inv_at T ∧
    fresh s.current_policy (miss_begin s X).buffer (miss_begin s X).arc_state X := by
  obtain ⟨⟨h1, h2, h3, h4, h5, h6⟩, hok⟩ := h
  have hg := step_a_ghosts s.current_policy s.buffer.length s.arc_state X s.buffer hok h6
  have hs := step_a_sizes s.current_policy s.buffer.length s.arc_state X
  refine ⟨⟨⟨h1, h2, h3, h4, sizes_ok_congr _ _ _ _ hs h5, hg.1⟩, miss_begin_ok s X hok⟩,
    hX, hg.2⟩

/-! ### Loading the missed page -/

theorem load_page_eq (s : Sim) (slot X : Nat) (op : Op) (al rl : Nat) :
    load_page s slot X op al rl
      = { s with
          buffer := s.buffer.set slot
            (load_frame s.current_policy (frame_at s.buffer slot) s.current_time X op al rl)
          arc_state := load_arc s.current_policy s.arc_state s.buffer.length X al rl } := by
  obtain ⟨buf, pol, prev, time, hits, misses, arc, log, err, hand, zs, wp⟩ := s
  cases pol <;> rfl

theorem load_frame_fields (pol : ReplacementPolicy) (f0 : BufferFrame) (T X : Nat) (op : Op)
    (al rl : Nat) :
    (load_frame pol f0 T X op al rl).page_id = X ∧
    (load_frame pol f0 T X op al rl).load_time = T ∧
    (load_frame pol f0 T X op al rl).last_access_time = T ∧
    (load_frame pol f0 T X op al rl).access_count = 1 := by
  cases pol <;> exact ⟨rfl, rfl, rfl, rfl⟩

theorem load_frame_tag_ok (pol : ReplacementPolicy) (f0 : BufferFrame) (T X : Nat) (op : Op)
    (al rl : Nat) (h : load_ok pol al rl) : tag_ok pol (load_frame pol f0 T X op al rl) := by
  cases pol <;> simp only [load_ok, tag_ok, load_frame] at h ⊢ <;> first
    | exact h
    | trivial

theorem load_arc_ghosts (pol : ReplacementPolicy) (a : ARCState) (N X al rl : Nat)
    (hp : pol = LRU ∨ pol = LRU_ARC ∨ pol = LFU ∨ pol = LFU_ARC) :
    arc_ghosts (load_arc pol a N X al rl) = arc_ghosts a := by
  rcases hp with hp | hp | hp | hp <;> subst hp <;> simp only [load_arc] <;>
    split_ifs <;> rfl

theorem ghosts_ok_of_not_arc (pol : ReplacementPolicy) (buf : List BufferFrame) (a : ARCState)
    (hp : ¬ (pol = LRU ∨ pol = LRU_ARC ∨ pol = LFU ∨ pol = LFU_ARC)) : ghosts_ok pol buf a := by
  unfold ghosts_ok
  constructor <;> intro h <;> exact absurd (by tauto) hp

theorem count_tag_le_length (pol : ReplacementPolicy) (buf : List BufferFrame) (k : Nat) :
    count_tag pol buf k ≤ (buf.length : Int) := by
  unfold count_tag
  have := List.countP_le_length
    (fun f => decide (f.page_id ≠ INVALID_PAGE ∧ frame_tag pol f = k)) (l := buf)
  omega

theorem sizes_pre_of_ok (pol : ReplacementPolicy) (buf : List BufferFrame) (a : ARCState)
    (h : sizes_ok pol buf a) : sizes_pre pol buf a := by
  unfold sizes_pre
  split_ifs with h1 h2
  · subst h1
    simp only [sizes_ok, reduceCtorEq, if_false] at h
    exact ⟨Or.inl h.1, h.2⟩
  · subst h2
    simp only [sizes_ok, reduceCtorEq, if_false] at h
    exact ⟨h.1, h.2.1, Or.inl h.2.2.1, h.2.2.2⟩
  · exact h

theorem load_arc_move (pol : ReplacementPolicy) (f0 : BufferFrame) (T X : Nat) (op : Op)
    (al rl N : Nat) (a : ARCState) (hl : load_ok pol al rl) :
    load_move pol (frame_tag pol (load_frame pol f0 T X op al rl)) N a
      (load_arc pol a N X al rl) := by
  cases pol <;> simp only [load_ok] at hl <;>
    simp only [load_move, load_arc, load_frame, frame_tag, reduceCtorEq, or_self, or_true,
      true_or, if_true, if_false]
  case LRU => rcases hl.2 with h | h <;> subst h <;> simp
  case LFU => rcases hl.2 with h | h <;> subst h <;> simp
  case LRU_ARC => rcases hl with h | h <;> subst h <;> simp
  case LFU_ARC => rcases hl with h | h <;> subst h <;> simp
  case FIFO => simp
  all_goals (split_ifs <;> simp)

theorem sizes_ok_set_load (pol : ReplacementPolicy) (buf : List BufferFrame) (a a' : ARCState)
    (slot : Nat) (g : BufferFrame) (hslot : slot < buf.length)
    (hempty : (frame_at buf slot).page_id = INVALID_PAGE) (hg : g.page_id ≠ INVALID_PAGE)
    (hm : load_move pol (frame_tag pol g) buf.length a a') (h : sizes_pre pol buf a) :
    sizes_ok pol (buf.set slot g) a' := by
  have c1 := count_tag_set pol buf 1 slot g hslot
  have c2 := count_tag_set pol buf 2 slot g hslot
  have c3 := count_tag_set pol buf 3 slot g hslot
  have c4 := count_tag_set pol buf 4 slot g hslot
  have l1 := count_tag_le_length pol (buf.set slot g) 1
  have l3 := count_tag_le_length pol (buf.set slot g) 3
  rw [List.length_set] at l1 l3
  simp only [hempty, ne_eq, not_true_eq_false, false_and, if_false, hg, not_false_eq_true,
    true_and, sub_zero] at c1 c2 c3 c4
  unfold sizes_ok
  unfold sizes_pre sizes_ok at h
  generalize frame_tag pol g = k at hm c1 c2 c3 c4
  generalize count_tag pol (buf.set slot g) 1 = n1 at c1 l1 ⊢
  generalize count_tag pol (buf.set slot g) 2 = n2 at c2 ⊢
  generalize count_tag pol (buf.set slot g) 3 = n3 at c3 l3 ⊢
  generalize count_tag pol (buf.set slot g) 4 = n4 at c4 ⊢
  generalize count_tag pol buf 1 = m1 at c1 h
  generalize count_tag pol buf 2 = m2 at c2 h
  generalize count_tag pol buf 3 = m3 at c3 h
  generalize count_tag pol buf 4 = m4 at c4 h
  cases pol <;> simp only [load_move, reduceCtorEq, if_true, if_false] at hm h ⊢
  case FIFO =>
    obtain ⟨e1, e2, e3, e4⟩ := hm
    rw [e1, e2, e3, e4]; exact h
  case CLOCK_T1 =>
    obtain ⟨hk, e1, e2, e3, e4⟩ := hm
    subst hk
    simp only [if_true, OfNat.ofNat_ne_one, if_false, Nat.reduceEqDiff, OfNat.one_ne_ofNat]
      at c1 c2 c3 c4
    rw [e1, e2, e3, e4]
    split_ifs <;> omega
  case CLOCK_PRO_T1_B4_LOGS_B2 =>
    obtain ⟨hk, e1, e2, e3, e4⟩ := hm
    subst hk
    simp only [if_true, OfNat.ofNat_ne_one, if_false, Nat.reduceEqDiff, OfNat.one_ne_ofNat]
      at c1 c2 c3 c4
    rw [e1, e2, e3, e4]
    split_ifs <;> omega
  case CLOCK_T3 =>
    obtain ⟨hk, e1, e2, e3, e4⟩ := hm
    subst hk
    simp only [if_true, OfNat.ofNat_ne_one, if_false, Nat.reduceEqDiff, OfNat.one_ne_ofNat]
      at c1 c2 c3 c4
    rw [e1, e2, e3, e4]
    split_ifs <;> omega
  case CLOCK_PRO_T3_B2_LOGS_B4 =>
    obtain ⟨hk, e1, e2, e3, e4⟩ := hm
    subst hk
    simp only [if_true, OfNat.ofNat_ne_one, if_false, Nat.reduceEqDiff, OfNat.one_ne_ofNat]
      at c1 c2 c3 c4
    rw [e1, e2, e3, e4]
    split_ifs <;> omega
  all_goals
    obtain ⟨e1, e2, e3, e4⟩ := hm
    rw [e1, e2, e3, e4]
    omega

theorem load_page_wf (s : Sim) (slot X : Nat) (op : Op) (al rl : Nat) (h : s.wf)
    (hslot : slot < s.buffer.length)
    (hfresh : fresh s.current_policy s.buffer s.arc_state X) :
    (load_page s slot X op al rl).wf := by
  have hok := load_page_ok s slot X op al rl h.2.2
  rw [load_page_eq] at hok ⊢
  obtain ⟨hu, hg, _⟩ := h
  have hf := load_frame_fields s.current_policy (frame_at s.buffer slot) s.current_time X op al rl
  refine ⟨?_, ?_, hok⟩
  · refine pages_unique_set_new _ _ _ hslot ?_ hu
    intro f hfm
    rw [hf.1]; exact hfresh.1 f hfm
  · by_cases hp : s.current_policy = LRU ∨ s.current_policy = LRU_ARC ∨
        s.current_policy = LFU ∨ s.current_policy = LFU_ARC
    · refine ghosts_ok_set _ _ _ _ _ ?_
        (ghosts_ok_congr _ _ _ _ (load_arc_ghosts _ _ _ _ _ _ hp) hg)
      intro _
      have he := load_arc_ghosts s.current_policy s.arc_state s.buffer.length X al rl hp
      simp only [arc_ghosts, Prod.mk.injEq] at he
      obtain ⟨e1, e2, e3, e4, _, _⟩ := he
      show (load_frame s.current_policy (frame_at s.buffer slot) s.current_time X op al rl).page_id
          ∉ (load_arc s.current_policy s.arc_state s.buffer.length X al rl).b1 ∧ _
      rw [hf.1, e1, e2, e3, e4]
      exact hfresh.2 hp
    · exact ghosts_ok_of_not_arc _ _ _ hp

theorem load_page_sz (s : Sim) (slot X T : Nat) (op : Op) (al rl : Nat)
    (ht : tags_ok s.current_policy s.buffer) (hc : counts_le s.buffer)
    (htm : times_le s.buffer T) (hT : T ≤ s.current_time)
    (hs : sizes_pre s.current_policy s.buffer s.arc_state)
    (hslot : slot < s.buffer.length)
    (hempty : (frame_at s.buffer slot).page_id = INVALID_PAGE)
    (hX : X ≠ INVALID_PAGE) (hl : load_ok s.current_policy al rl) :
    buf_sz s.current_policy (load_page s slot X op al rl).arc_state s.current_time
      (load_page s slot X op al rl).buffer := by
  rw [load_page_eq]
  have hf := load_frame_fields s.current_policy (frame_at s.buffer slot) s.current_time X op al rl
  refine ⟨?_, ?_, ?_, ?_⟩
  · intro f hfm hp
    rcases List.mem_or_eq_of_mem_set hfm with hfm | hfm
    · exact ht f hfm hp
    · rw [hfm]; exact load_frame_tag_ok _ _ _ _ _ _ _ hl
  · intro f hfm hp
    rcases List.mem_or_eq_of_mem_set hfm with hfm | hfm
    · exact hc f hfm hp
    · rw [hfm, hf.2.2.2]; decide
  · intro f hfm hp
    rcases List.mem_or_eq_of_mem_set hfm with hfm | hfm
    · have := htm f hfm hp
      exact ⟨le_trans this.1 hT, le_trans this.2 hT⟩
    · rw [hfm, hf.2.1, hf.2.2.1]; exact ⟨le_refl _, le_refl _⟩
  · refine sizes_ok_set_load _ _ _ _ _ _ hslot hempty ?_ ?_ hs
    · rw [hf.1]; exact hX
    · exact load_arc_move _ _ _ _ _ _ _ _ _ hl

/-! ### Eviction -/

theorem pages_unique_mod_ref (b b' : List BufferFrame)
    (h : b'.map erase_ref = b.map erase_ref) (hu : pages_unique b) : pages_unique b' := by
  intro x hx
  rw [countP_mod_ref (fun f => decide (f.page_id = x)) (fun f => rfl) b b' h]
  exact hu x hx

theorem ghosts_ok_mod_ref (pol : ReplacementPolicy) (a : ARCState) (b b' : List BufferFrame)
    (h : b'.map erase_ref = b.map erase_ref) (hg : ghosts_ok pol b a) : ghosts_ok pol b' a := by
  unfold ghosts_ok at hg ⊢
  refine ⟨fun hp => ?_, fun hp => ?_⟩
  · obtain ⟨c1, c2, c3, c4, c5⟩ := hg.1 hp
    exact ⟨c1, c2, c3, not_resident_in_mod_ref b b' h _ c4, not_resident_in_mod_ref b b' h _ c5⟩
  · obtain ⟨c1, c2, c3, c4, c5⟩ := hg.2 hp
    exact ⟨c1, c2, c3, not_resident_in_mod_ref b b' h _ c4, not_resident_in_mod_ref b b' h _ c5⟩

theorem length_mod_ref (b b' : List BufferFrame) (h : b'.map erase_ref = b.map erase_ref) :
    b'.length = b.length := by
  have := congrArg List.length h
  simpa using this

theorem full_mod_ref (b b' : List BufferFrame) (h : b'.map erase_ref = b.map erase_ref)
    (hfull : ∀ f ∈ b, f.page_id ≠ INVALID_PAGE) : ∀ f ∈ b', f.page_id ≠ INVALID_PAGE := by
  intro f hf
  obtain ⟨g, hg, he⟩ := mem_mod_ref b b' h f hf
  have h1 : g.page_id = f.page_id := congrArg (fun x => x.page_id) he
  rw [← h1]; exact hfull g hg

theorem fresh_mod_ref (pol : ReplacementPolicy) (a : ARCState) (b b' : List BufferFrame)
    (X : Nat) (h : b'.map erase_ref = b.map erase_ref) (hf : fresh pol b a X) :
    fresh pol b' a X := by
  refine ⟨?_, hf.2⟩
  intro f hfm
  obtain ⟨g, hg, he⟩ := mem_mod_ref b b' h f hfm
  have h1 : g.page_id = f.page_id := congrArg (fun x => x.page_id) he
  rw [← h1]; exact hf.1 g hg

theorem not_resident_in_evict (buf : List BufferFrame) (v : Nat) (g : BufferFrame)
    (l : List Nat) (N : Nat) (hv : v < buf.length)
    (hres : (frame_at buf v).page_id ≠ INVALID_PAGE) (hg : g.page_id = INVALID_PAGE)
    (hu : pages_unique buf) (h : not_resident_in buf l) :
    not_resident_in (buf.set v g) (arc_add_to_ghost_mru (frame_at buf v).page_id l N) := by
  intro f hf hp hm
  have hne := pages_unique_evicted buf v g hv hg hres hu f hf
  rcases List.mem_or_eq_of_mem_set hf with hf1 | hf1
  · rcases mem_arc_add_to_ghost_mru _ _ _ _ hm with e | e
    · exact hne e
    · exact h f hf1 hp e
  · rw [hf1] at hp; exact hp hg

theorem not_resident_in_set_invalid (buf : List BufferFrame) (v : Nat) (g : BufferFrame)
    (l : List Nat) (hg : g.page_id = INVALID_PAGE) (h : not_resident_in buf l) :
    not_resident_in (buf.set v g) l :=
  not_resident_in_set buf v g l (fun hp => absurd hg hp) h

theorem ghosts_ok_evict (pol : ReplacementPolicy) (buf : List BufferFrame) (a a' : ARCState)
    (v : Nat) (g : BufferFrame) (N : Nat) (hv : v < buf.length)
    (hres : (frame_at buf v).page_id ≠ INVALID_PAGE) (hg : g.page_id = INVALID_PAGE)
    (hu : pages_unique buf) (h : ghosts_ok pol buf a)
    (hr : ghost_rel pol (frame_at buf v).page_id N a a') : ghosts_ok pol (buf.set v g) a' := by
  have hmem := frame_at_mem buf v hv
  rcases hr with hr | ⟨hp, e3, e4, hr⟩ | ⟨hp, e1, e2, hr⟩ | hr
  · exact ghosts_ok_set _ _ _ _ _ (fun hp => absurd hg hp) (ghosts_ok_congr _ _ _ _ hr h)
  · unfold ghosts_ok at h ⊢
    obtain ⟨c3, c4, cd, n1, n2⟩ := h.1 hp
    refine ⟨fun _ => ?_, fun hq => ?_⟩
    · rcases hr with ⟨e1, e2⟩ | ⟨e1, e2⟩
      · rw [e1, e2, e3, e4]
        refine ⟨c3, c4, ?_, not_resident_in_evict _ _ _ _ _ hv hres hg hu n1,
          not_resident_in_set_invalid _ _ _ _ hg n2⟩
        intro x hx
        rcases mem_arc_add_to_ghost_mru _ _ _ _ hx with e | e
        · rw [e]; exact n2 _ hmem hres
        · exact cd x e
      · rw [e1, e2, e3, e4]
        refine ⟨c3, c4, ?_, not_resident_in_set_invalid _ _ _ _ hg n1,
          not_resident_in_evict _ _ _ _ _ hv hres hg hu n2⟩
        intro x hx hx2
        rcases mem_arc_add_to_ghost_mru _ _ _ _ hx2 with e | e
        · rw [e] at hx; exact n1 _ hmem hres hx
        · exact cd x hx e
    · rcases hp with hp | hp <;> rcases hq with hq | hq <;> rw [hp] at hq <;> cases hq
  · unfold ghosts_ok at h ⊢
    obtain ⟨c1, c2, cd, n3, n4⟩ := h.2 hp
    refine ⟨fun hq => ?_, fun _ => ?_⟩
    · rcases hp with hp | hp <;> rcases hq with hq | hq <;> rw [hp] at hq <;> cases hq
    · rcases hr with ⟨e3, e4⟩ | ⟨e3, e4⟩
      · rw [e1, e2, e3, e4]
        refine ⟨c1, c2, ?_, not_resident_in_evict _ _ _ _ _ hv hres hg hu n3,
          not_resident_in_set_invalid _ _ _ _ hg n4⟩
        intro x hx
        rcases mem_arc_add_to_ghost_mru _ _ _ _ hx with e | e
        · rw [e]; exact n4 _ hmem hres
        · exact cd x e
      · rw [e1, e2, e3, e4]
        refine ⟨c1, c2, ?_, not_resident_in_set_invalid _ _ _ _ hg n3,
          not_resident_in_evict _ _ _ _ _ hv hres hg hu n4⟩
        intro x hx hx2
        rcases mem_arc_add_to_ghost_mru _ _ _ _ hx2 with e | e
        · rw [e] at hx; exact n3 _ hmem hres hx
        · exact cd x hx e
  · exact ghosts_ok_of_not_arc _ _ _ hr

theorem fresh_evict (pol : ReplacementPolicy) (buf : List BufferFrame) (a a' : ARCState)
    (v : Nat) (g : BufferFrame) (N X Y : Nat) (hX : X ≠ INVALID_PAGE) (hXY : X ≠ Y)
    (hg : g.page_id = INVALID_PAGE) (hf : fresh pol buf a X) (hr : ghost_rel pol Y N a a') :
    fresh pol (buf.set v g) a' X := by
  obtain ⟨f1, f2⟩ := hf
  refine ⟨?_, fun hp => ?_⟩
  · intro f hfm
    rcases List.mem_or_eq_of_mem_set hfm with hfm | hfm
    · exact f1 f hfm
    · rw [hfm, hg]; exact fun e => hX e.symm
  · obtain ⟨x1, x2, x3, x4⟩ := f2 hp
    have hadd : ∀ l : List Nat, X ∉ l → X ∉ arc_add_to_ghost_mru Y l N := by
      intro l hl hm
      rcases mem_arc_add_to_ghost_mru _ _ _ _ hm with e | e
      · exact hXY e
      · exact hl e
    rcases hr with hr | ⟨_, e3, e4, hr⟩ | ⟨_, e1, e2, hr⟩ | hr
    · simp only [arc_ghosts, Prod.mk.injEq] at hr
      obtain ⟨e1, e2, e3, e4, _, _⟩ := hr
      rw [e1, e2, e3, e4]; exact ⟨x1, x2, x3, x4⟩
    · rcases hr with ⟨e1, e2⟩ | ⟨e1, e2⟩ <;> rw [e1, e2, e3, e4]
      · exact ⟨hadd _ x1, x2, x3, x4⟩
      · exact ⟨x1, hadd _ x2, x3, x4⟩
    · rcases hr with ⟨e3, e4⟩ | ⟨e3, e4⟩ <;> rw [e1, e2, e3, e4]
      · exact ⟨x1, x2, hadd _ x3, x4⟩
      · exact ⟨x1, x2, x3, hadd _ x4⟩
    · exact absurd hp hr

theorem set_frame_at_self (buf : List BufferFrame) (v : Nat) (hv : v < buf.length) :
    buf.set v (frame_at buf v) = buf := by
  induction buf generalizing v with
  | nil => rfl
  | cons f rest ih =>
    cases v with
    | zero => rfl
    | succ v =>
      have := ih v (by simpa using hv)
      simp only [frame_at, List.getD_cons_succ, List.set_cons_succ] at this ⊢
      rw [this]

theorem handle_dirty_eviction_buffer (s : Sim) (v : Nat) (hv : v < s.buffer.length) :
    ∃ d, (handle_dirty_eviction s v).buffer
      = s.buffer.set v { frame_at s.buffer v with is_dirty := d } := by
  unfold handle_dirty_eviction
  simp only []
  split_ifs with h1 h2
  · exact absurd hv (by omega)
  · exact ⟨0, by simp [write_fio_log_buffer]⟩
  · exact ⟨(frame_at s.buffer v).is_dirty, (set_frame_at_self _ _ hv).symm⟩

theorem process_victim_spec (s : Sim) (v : Nat) (hv : v < s.buffer.length) :
    (process_victim s v).current_policy = s.current_policy ∧
    (process_victim s v).current_time = s.current_time ∧
    (∃ g, g.page_id = INVALID_PAGE ∧ (process_victim s v).buffer = s.buffer.set v g) ∧
    (process_victim s v).arc_state
      = evict_arc s.current_policy s.arc_state s.buffer.length (frame_at s.buffer v) := by
  obtain ⟨d, hb⟩ := handle_dirty_eviction_buffer s v hv
  have ha := handle_dirty_eviction_arc s v
  have hf := handle_dirty_eviction_fixed s v
  simp only [Sim.fixed, Prod.mk.injEq] at hf
  obtain ⟨hp, ht, _, _, _, _⟩ := hf
  refine ⟨?_, ?_, ?_, ?_⟩
  · simp only [process_victim]; exact hp
  · simp only [process_victim]; exact ht
  · refine ⟨{ frame_at (handle_dirty_eviction s v).buffer v with page_id := INVALID_PAGE },
      rfl, ?_⟩
    simp only [process_victim]
    rw [hb, List.set_set]
  · simp only [process_victim, ha, hp, hb, frame_at_set_eq _ _ _ hv, List.length_set]
    rfl

theorem evict_arc_ghost_rel (pol : ReplacementPolicy) (a : ARCState) (N : Nat)
    (f : BufferFrame) : ghost_rel pol f.page_id N a (evict_arc pol a N f) := by
  unfold evict_arc
  cases pol <;> simp only [reduceCtorEq, false_and, true_and, if_false]
  case LRU =>
    split_ifs
    · exact Or.inr (Or.inl ⟨Or.inl rfl, rfl, rfl, Or.inl ⟨rfl, rfl⟩⟩)
    · exact Or.inr (Or.inl ⟨Or.inl rfl, rfl, rfl, Or.inr ⟨rfl, rfl⟩⟩)
    · exact Or.inl rfl
    · exact Or.inl rfl
  case LFU =>
    split_ifs
    · exact Or.inr (Or.inr (Or.inl ⟨Or.inl rfl, rfl, rfl, Or.inl ⟨rfl, rfl⟩⟩))
    · exact Or.inr (Or.inr (Or.inl ⟨Or.inl rfl, rfl, rfl, Or.inr ⟨rfl, rfl⟩⟩))
    · exact Or.inl rfl
    · exact Or.inl rfl
  case LRU_ARC => exact Or.inl rfl
  case LFU_ARC => exact Or.inl rfl
  all_goals exact Or.inr (Or.inr (Or.inr (by simp)))

theorem evict_arc_same (pol : ReplacementPolicy) (a : ARCState) (N : Nat) (f : BufferFrame)
    (hp : pol = LRU_ARC ∨ pol = LFU_ARC ∨ pol = FIFO ∨ pol = CLOCK_T1 ∨ pol = CLOCK_T3) :
    evict_arc pol a N f = a := by
  unfold evict_arc
  rcases hp with hp | hp | hp | hp | hp <;> subst hp <;>
    simp only [reduceCtorEq, false_and, if_false]

theorem victim_fallback_eq (s : Sim) (v : Option Nat) :
    victim_fallback s v
      = if v = none ∧ s.buffer.length > 0 then
          match evict_fifo s.buffer with
          | none => (s, none)
          | some w =>
            if (frame_at s.buffer w).page_id ≠ INVALID_PAGE then
              ({ s with
                  arc_state :=
                    fallback_arc s.current_policy s.arc_state (frame_at s.buffer w).list_type },
                some w)
            else (s, some w)
        else (s, v) := rfl

theorem fallback_arc_ghosts (pol : ReplacementPolicy) (a : ARCState) (lt : Nat) :
    arc_ghosts (fallback_arc pol a lt) = arc_ghosts a := by
  cases pol <;> simp only [fallback_arc, reduceCtorEq, or_self, or_true, true_or, or_false,
    false_or, if_true, if_false] <;> (try split_ifs) <;> rfl

theorem victim_fallback_spec (s : Sim) (v : Option Nat) :
    (victim_fallback s v).1.current_policy = s.current_policy ∧
    (victim_fallback s v).1.current_time = s.current_time ∧
    (victim_fallback s v).1.buffer = s.buffer ∧
    arc_ghosts (victim_fallback s v).1.arc_state = arc_ghosts s.arc_state ∧
    (∀ w, v = some w → victim_fallback s v = (s, some w)) ∧
    (∀ w, (victim_fallback s v).2 = some w → v = some w ∨ w < s.buffer.length) := by
  rw [victim_fallback_eq]
  by_cases h1 : v = none ∧ s.buffer.length > 0
  · rw [if_pos h1]
    have hw0 : ∀ w, v = some w → False := by
      intro w hw; rw [h1.1] at hw; cases hw
    cases hE : evict_fifo s.buffer with
    | none =>
      refine ⟨rfl, rfl, rfl, rfl, fun w hw => (hw0 w hw).elim, ?_⟩
      intro w hw; cases hw
    | some u =>
      have hu := evict_fifo_lt _ _ hE
      simp only []
      split_ifs
      · exact ⟨rfl, rfl, rfl, fallback_arc_ghosts _ _ _, fun w hw => (hw0 w hw).elim,
          fun w hw => Or.inr (by simp only [Option.some.injEq] at hw; rw [← hw]; exact hu)⟩
      · exact ⟨rfl, rfl, rfl, rfl, fun w hw => (hw0 w hw).elim,
          fun w hw => Or.inr (by simp only [Option.some.injEq] at hw; rw [← hw]; exact hu)⟩
  · rw [if_neg h1]
    refine ⟨rfl, rfl, rfl, rfl, ?_, ?_⟩
    · intro w hw; rw [hw]
    · intro w hw; exact Or.inl hw

/-! ### Victim selection -/

theorem sel_plain_same (s : Sim) (o : Option Nat) (h : ∀ v, o = some v → v < s.buffer.length) :
    sel_plain s (s, o) := ⟨rfl, rfl, rfl, rfl, rfl, rfl, h⟩

theorem sel_plain_trans (s : Sim) (r r' : Sim × Option Nat) (h1 : sel_plain s r)
    (h2 : sel_plain r.1 r') : sel_plain s r' := by
  obtain ⟨a1, a2, a3, a4, a5, a6, _⟩ := h1
  obtain ⟨b1, b2, b3, b4, b5, b6, b7⟩ := h2
  refine ⟨b1.trans a1, b2.trans a2, b3.trans a3, b4.trans a4, b5.trans a5, b6.trans a6, ?_⟩
  intro v hv
  rw [← length_mod_ref _ _ a1]
  exact b7 v hv

theorem sel_plain_ite (s : Sim) (c : Prop) [Decidable c] (x y : Sim × Option Nat)
    (hx : sel_plain s x) (hy : sel_plain s y) : sel_plain s (if c then x else y) := by
  split_ifs <;> assumption

theorem sel_plain_warn (s : Sim) (r : Sim × Option Nat) (e : List ErrMsg)
    (h : sel_plain s r) : sel_plain s ({ r.1 with stderr := e }, none) := by
  obtain ⟨a1, a2, a3, a4, a5, a6, _⟩ := h
  exact ⟨a1, a2, a3, a4, a5, a6, fun v hv => by cases hv⟩

theorem sel_plain_clock_global (s : Sim) (filt : Bool) (target : Nat) :
    sel_plain s (clock_on_global_hand s filt target) := by
  obtain ⟨h1, h2, _⟩ := evict_via_clock_policy_spec s.global_clk_hand filt target s.buffer
  exact ⟨h1, rfl, rfl, rfl, rfl, rfl, h2⟩

theorem sel_plain_clock_p (s : Sim) (filt : Bool) (target : Nat) :
    sel_plain s (clock_on_p_hand s filt target) := by
  obtain ⟨h1, h2, _⟩ := evict_via_clock_policy_spec s.arc_state.p_clk_hand filt target s.buffer
  exact ⟨h1, rfl, rfl, rfl, rfl, rfl, h2⟩

theorem sel_plain_clock_q (s : Sim) (filt : Bool) (target : Nat) :
    sel_plain s (clock_on_q_hand s filt target) := by
  obtain ⟨h1, h2, _⟩ := evict_via_clock_policy_spec s.arc_state.q_clk_hand filt target s.buffer
  exact ⟨h1, rfl, rfl, rfl, rfl, rfl, h2⟩

theorem select_victim_plain (s : Sim) (X : Nat) (h1 : s.current_policy ≠ LRU_ARC)
    (h2 : s.current_policy ≠ LFU_ARC) : sel_plain s (select_victim s X) := by
  obtain ⟨buf, pol, prev, time, hits, misses, arc, log, err, hand, zs, wp⟩ := s
  cases pol <;> simp only [select_victim, reduceCtorEq, if_true, if_false]
  case FIFO => exact sel_plain_same _ _ (fun v hv => evict_fifo_lt _ _ hv)
  case LRU => exact sel_plain_same _ _ (fun v hv => (evict_arc_internal_lru_spec _ _ _ hv).1)
  case LFU => exact sel_plain_same _ _ (fun v hv => (evict_arc_internal_lfu_spec _ _ _ hv).1)
  case LRU_ARC => exact absurd rfl h1
  case LFU_ARC => exact absurd rfl h2
  case CLOCK_T1 => exact sel_plain_clock_global _ _ _
  case CLOCK_T3 => exact sel_plain_clock_global _ _ _
  case CLOCK_PRO_T1_B4_LOGS_B2 =>
    have c1 := sel_plain_clock_p
      { buffer := buf, current_policy := CLOCK_PRO_T1_B4_LOGS_B2,
        previous_policy_for_state_carryover := prev, current_time := time, hits := hits,
        misses := misses, arc_state := arc, log_file := log, stderr := err,
        global_clk_hand := hand, zone_size_pages_global := zs, zone_write_pointers := wp }
      true 1
    have c0 := sel_plain_same
      { buffer := buf, current_policy := CLOCK_PRO_T1_B4_LOGS_B2,
        previous_policy_for_state_carryover := prev, current_time := time, hits := hits,
        misses := misses, arc_state := arc, log_file := log, stderr := err,
        global_clk_hand := hand, zone_size_pages_global := zs, zone_write_pointers := wp }
      none (fun v hv => by cases hv)
    apply sel_plain_ite
    · refine sel_plain_trans _ _ _ ?_ (sel_plain_clock_p _ _ _)
      apply sel_plain_ite
      · apply sel_plain_ite
        · exact sel_plain_warn _ _ _ c1
        · exact c1
      · exact c0
    · apply sel_plain_ite
      · apply sel_plain_ite
        · exact sel_plain_warn _ _ _ c1
        · exact c1
      · exact c0
  case CLOCK_PRO_T3_B2_LOGS_B4 =>
    have c1 := sel_plain_clock_q
      { buffer := buf, current_policy := CLOCK_PRO_T3_B2_LOGS_B4,
        previous_policy_for_state_carryover := prev, current_time := time, hits := hits,
        misses := misses, arc_state := arc, log_file := log, stderr := err,
        global_clk_hand := hand, zone_size_pages_global := zs, zone_write_pointers := wp }
      true 3
    have c0 := sel_plain_same
      { buffer := buf, current_policy := CLOCK_PRO_T3_B2_LOGS_B4,
        previous_policy_for_state_carryover := prev, current_time := time, hits := hits,
        misses := misses, arc_state := arc, log_file := log, stderr := err,
        global_clk_hand := hand, zone_size_pages_global := zs, zone_write_pointers := wp }
      none (fun v hv => by cases hv)
    apply sel_plain_ite
    · refine sel_plain_trans _ _ _ ?_ (sel_plain_clock_q _ _ _)
      apply sel_plain_ite
      · apply sel_plain_ite
        · exact sel_plain_warn _ _ _ c1
        · exact c1
      · exact c0
    · apply sel_plain_ite
      · apply sel_plain_ite
        · exact sel_plain_warn _ _ _ c1
        · exact c1
      · exact c0

theorem arc_find_victim_lru_arc_eq (buf : List BufferFrame) (a : ARCState) (X : Nat) :
    arc_find_victim_lru_arc buf a X
      = match lru_arc_target a buf.length (find_in_arc_ghost X a.b2) with
        | none => (evict_fifo buf, a)
        | some k =>
          match evict_arc_internal_lru buf k with
          | some v =>
            if k = 1 then
              (some v,
                { a with b1 := arc_add_to_ghost_mru (frame_at buf v).page_id a.b1 buf.length
                         t1_size := if a.t1_size > 0 then a.t1_size - 1 else a.t1_size })
            else
              (some v,
                { a with b2 := arc_add_to_ghost_mru (frame_at buf v).page_id a.b2 buf.length
                         t2_size := if a.t2_size > 0 then a.t2_size - 1 else a.t2_size })
          | none =>
            match evict_fifo buf with
            | some v =>
              if (frame_at buf v).list_type = 1 ∧ a.t1_size > 0 then
                (some v, { a with t1_size := a.t1_size - 1 })
              else if (frame_at buf v).list_type = 2 ∧ a.t2_size > 0 then
                (some v, { a with t2_size := a.t2_size - 1 })
              else (some v, a)
            | none => (none, a) := rfl

theorem lru_arc_target_spec (a : ARCState) (N : Nat) (in_b2 : Bool) :
    (lru_arc_target a N in_b2 = none ∧
      ¬ (a.t1_size + a.t2_size = (N : Int) ∧ (0 < a.t1_size ∨ 0 < a.t2_size))) ∨
    (lru_arc_target a N in_b2 = some 1 ∧ 0 < a.t1_size) ∨
    (lru_arc_target a N in_b2 = some 2 ∧ 0 < a.t2_size) := by
  unfold lru_arc_target
  split_ifs <;> simp_all <;> omega

theorem arc_find_victim_lru_arc_lt (buf : List BufferFrame) (a : ARCState) (X : Nat) (v : Nat)
    (h : (arc_find_victim_lru_arc buf a X).1 = some v) : v < buf.length := by
  rw [arc_find_victim_lru_arc_eq] at h
  cases ht : lru_arc_target a buf.length (find_in_arc_ghost X a.b2) with
  | none => rw [ht] at h; exact evict_fifo_lt _ _ h
  | some k =>
    rw [ht] at h
    simp only [] at h
    cases hi : evict_arc_internal_lru buf k with
    | some w =>
      rw [hi] at h
      simp only [] at h
      have hw := (evict_arc_internal_lru_spec _ _ _ hi).1
      split_ifs at h <;> (simp only [Option.some.injEq] at h; rw [← h]; exact hw)
    | none =>
      rw [hi] at h
      simp only [] at h
      cases hf : evict_fifo buf with
      | none => rw [hf] at h; cases h
      | some w =>
        rw [hf] at h
        simp only [] at h
        have hw := evict_fifo_lt _ _ hf
        split_ifs at h <;> (simp only [Option.some.injEq] at h; rw [← h]; exact hw)

theorem arc_find_victim_lru_arc_spec (buf : List BufferFrame) (a : ARCState) (X : Nat) :
    lru_arc_outcome buf a (arc_find_victim_lru_arc buf a X) := by
  rw [arc_find_victim_lru_arc_eq]
  rcases lru_arc_target_spec a buf.length (find_in_arc_ghost X a.b2) with
    ⟨ht, hn⟩ | ⟨ht, hp⟩ | ⟨ht, hp⟩
  · rw [ht]
    exact Or.inl ⟨rfl, Or.inr hn⟩
  · rw [ht]
    simp only []
    cases hi : evict_arc_internal_lru buf 1 with
    | some w =>
      simp only [if_true, gt_iff_lt, hp]
      exact Or.inr (Or.inl ⟨w, rfl, evict_arc_internal_lru_spec _ _ _ hi, hp, rfl⟩)
    | none =>
      simp only []
      cases hf : evict_fifo buf with
      | none => exact Or.inl ⟨rfl, Or.inl rfl⟩
      | some w =>
        simp only []
        refine Or.inr (Or.inr (Or.inr ⟨?_, Or.inl ⟨hp, hi⟩⟩))
        split_ifs <;> rfl
  · rw [ht]
    simp only []
    cases hi : evict_arc_internal_lru buf 2 with
    | some w =>
      simp only [OfNat.ofNat_ne_one, if_false, gt_iff_lt, hp, if_true]
      exact Or.inr (Or.inr (Or.inl ⟨w, rfl, evict_arc_internal_lru_spec _ _ _ hi, hp, rfl⟩))
    | none =>
      simp only []
      cases hf : evict_fifo buf with
      | none => exact Or.inl ⟨rfl, Or.inl rfl⟩
      | some w =>
        simp only []
        refine Or.inr (Or.inr (Or.inr ⟨?_, Or.inr ⟨hp, hi⟩⟩))
        split_ifs <;> rfl

theorem arc_find_victim_lfu_arc_eq (buf : List BufferFrame) (a : ARCState) (X : Nat) :
    arc_find_victim_lfu_arc buf a X
      = match lfu_arc_target a buf.length (find_in_arc_ghost X a.b4) with
        | none => (evict_fifo buf, a)
        | some k =>
          match (if k = 3 then evict_arc_internal_lfu buf 3
            else evict_arc_internal_lru buf 4) with
          | some v =>
            if k = 3 then
              (some v,
                { a with b3 := arc_add_to_ghost_mru (frame_at buf v).page_id a.b3 buf.length
                         t3_size := if a.t3_size > 0 then a.t3_size - 1 else a.t3_size })
            else
              (some v,
                { a with b4 := arc_add_to_ghost_mru (frame_at buf v).page_id a.b4 buf.length
                         t4_size := if a.t4_size > 0 then a.t4_size - 1 else a.t4_size })
          | none =>
            match evict_fifo buf with
            | some v =>
              if (frame_at buf v).list_type = 3 ∧ a.t3_size > 0 then
                (some v, { a with t3_size := a.t3_size - 1 })
              else if (frame_at buf v).list_type = 4 ∧ a.t4_size > 0 then
                (some v, { a with t4_size := a.t4_size - 1 })
              else (some v, a)
            | none => (none, a) := rfl

theorem lfu_arc_target_spec (a : ARCState) (N : Nat) (in_b4 : Bool) :
    (lfu_arc_target a N in_b4 = none ∧
      ¬ (a.t3_size + a.t4_size = (N : Int) ∧ (0 < a.t3_size ∨ 0 < a.t4_size))) ∨
    (lfu_arc_target a N in_b4 = some 3 ∧ 0 < a.t3_size) ∨
    (lfu_arc_target a N in_b4 = some 4 ∧ 0 < a.t4_size) := by
  unfold lfu_arc_target
  split_ifs <;> simp_all <;> omega

theorem arc_find_victim_lfu_arc_lt (buf : List BufferFrame) (a : ARCState) (X : Nat) (v : Nat)
    (h : (arc_find_victim_lfu_arc buf a X).1 = some v) : v < buf.length := by
  rw [arc_find_victim_lfu_arc_eq] at h
  cases ht : lfu_arc_target a buf.length (find_in_arc_ghost X a.b4) with
  | none => rw [ht] at h; exact evict_fifo_lt _ _ h
  | some k =>
    rw [ht] at h
    simp only [] at h
    cases hi : (if k = 3 then evict_arc_internal_lfu buf 3
        else evict_arc_internal_lru buf 4) with
    | some w =>
      rw [hi] at h
      simp only [] at h
      have hw : w < buf.length := by
        split_ifs at hi
        · exact (evict_arc_internal_lfu_spec _ _ _ hi).1
        · exact (evict_arc_internal_lru_spec _ _ _ hi).1
      split_ifs at h <;> (simp only [Option.some.injEq] at h; rw [← h]; exact hw)
    | none =>
      rw [hi] at h
      simp only [] at h
      cases hf : evict_fifo buf with
      | none => rw [hf] at h; cases h
      | some w =>
        rw [hf] at h
        simp only [] at h
        have hw := evict_fifo_lt _ _ hf
        split_ifs at h <;> (simp only [Option.some.injEq] at h; rw [← h]; exact hw)

theorem arc_find_victim_lfu_arc_spec (buf : List BufferFrame) (a : ARCState) (X : Nat) :
    lfu_arc_outcome buf a (arc_find_victim_lfu_arc buf a X) := by
  rw [arc_find_victim_lfu_arc_eq]
  rcases lfu_arc_target_spec a buf.length (find_in_arc_ghost X a.b4) with
    ⟨ht, hn⟩ | ⟨ht, hp⟩ | ⟨ht, hp⟩
  · rw [ht]
    exact Or.inl ⟨rfl, Or.inr hn⟩
  · rw [ht]
    simp only [if_true]
    cases hi : evict_arc_internal_lfu buf 3 with
    | some w =>
      simp only [if_true, gt_iff_lt, hp]
      exact Or.inr (Or.inl ⟨w, rfl, evict_arc_internal_lfu_spec _ _ _ hi, hp, rfl⟩)
    | none =>
      simp only []
      cases hf : evict_fifo buf with
      | none => exact Or.inl ⟨rfl, Or.inl rfl⟩
      | some w =>
        simp only []
        refine Or.inr (Or.inr (Or.inr ⟨?_, Or.inl ⟨hp, hi⟩⟩))
        split_ifs <;> rfl
  · rw [ht]
    simp only [Nat.reduceEqDiff, if_false]
    cases hi : evict_arc_internal_lru buf 4 with
    | some w =>
      simp only [Nat.reduceEqDiff, if_false, gt_iff_lt, hp, if_true]
      exact Or.inr (Or.inr (Or.inl ⟨w, rfl, evict_arc_internal_lru_spec _ _ _ hi, hp, rfl⟩))
    | none =>
      simp only []
      cases hf : evict_fifo buf with
      | none => exact Or.inl ⟨rfl, Or.inl rfl⟩
      | some w =>
        simp only []
        refine Or.inr (Or.inr (Or.inr ⟨?_, Or.inr ⟨hp, hi⟩⟩))
        split_ifs <;> rfl

theorem ghost_rel_congr_left (pol : ReplacementPolicy) (Y N : Nat) (a a1 a' : ARCState)
    (h : arc_ghosts a1 = arc_ghosts a) (hr : ghost_rel pol Y N a1 a') :
    ghost_rel pol Y N a a' := by
  simp only [arc_ghosts, Prod.mk.injEq] at h
  obtain ⟨e1, e2, e3, e4, e5, e6⟩ := h
  unfold ghost_rel at hr ⊢
  simp only [arc_ghosts, Prod.mk.injEq] at hr ⊢
  rw [← e1, ← e2, ← e3, ← e4, ← e5, ← e6]
  exact hr

theorem ghost_rel_congr_right (pol : ReplacementPolicy) (Y N : Nat) (a a1 a' : ARCState)
    (h : arc_ghosts a' = arc_ghosts a1) (hr : ghost_rel pol Y N a a1) :
    ghost_rel pol Y N a a' := by
  simp only [arc_ghosts, Prod.mk.injEq] at h
  obtain ⟨e1, e2, e3, e4, e5, e6⟩ := h
  unfold ghost_rel at hr ⊢
  simp only [arc_ghosts, Prod.mk.injEq] at hr ⊢
  rw [e1, e2, e3, e4, e5, e6]
  exact hr

theorem lru_arc_outcome_ghost (buf : List BufferFrame) (a : ARCState)
    (r : Option Nat × ARCState) (h : lru_arc_outcome buf a r) :
    (r.1 = none → arc_ghosts r.2 = arc_ghosts a) ∧
    (∀ v, r.1 = some v → ghost_rel LRU_ARC (frame_at buf v).page_id buf.length a r.2) := by
  rcases h with ⟨h1, _⟩ | ⟨w, hw, _, _, h2⟩ | ⟨w, hw, _, _, h2⟩ | ⟨h1, _⟩
  · exact ⟨fun _ => by rw [h1], fun v _ => Or.inl (by rw [h1])⟩
  · refine ⟨fun hn => (by rw [hw] at hn; cases hn), fun v hv => ?_⟩
    rw [hw] at hv
    simp only [Option.some.injEq] at hv
    subst hv
    rw [h2]
    exact Or.inr (Or.inl ⟨Or.inr rfl, rfl, rfl, Or.inl ⟨rfl, rfl⟩⟩)
  · refine ⟨fun hn => (by rw [hw] at hn; cases hn), fun v hv => ?_⟩
    rw [hw] at hv
    simp only [Option.some.injEq] at hv
    subst hv
    rw [h2]
    exact Or.inr (Or.inl ⟨Or.inr rfl, rfl, rfl, Or.inr ⟨rfl, rfl⟩⟩)
  · exact ⟨fun _ => h1, fun v _ => Or.inl h1⟩

theorem lfu_arc_outcome_ghost (buf : List BufferFrame) (a : ARCState)
    (r : Option Nat × ARCState) (h : lfu_arc_outcome buf a r) :
    (r.1 = none → arc_ghosts r.2 = arc_ghosts a) ∧
    (∀ v, r.1 = some v → ghost_rel LFU_ARC (frame_at buf v).page_id buf.length a r.2) := by
  rcases h with ⟨h1, _⟩ | ⟨w, hw, _, _, h2⟩ | ⟨w, hw, _, _, h2⟩ | ⟨h1, _⟩
  · exact ⟨fun _ => by rw [h1], fun v _ => Or.inl (by rw [h1])⟩
  · refine ⟨fun hn => (by rw [hw] at hn; cases hn), fun v hv => ?_⟩
    rw [hw] at hv
    simp only [Option.some.injEq] at hv
    subst hv
    rw [h2]
    exact Or.inr (Or.inr (Or.inl ⟨Or.inr rfl, rfl, rfl, Or.inl ⟨rfl, rfl⟩⟩))
  · refine ⟨fun hn => (by rw [hw] at hn; cases hn), fun v hv => ?_⟩
    rw [hw] at hv
    simp only [Option.some.injEq] at hv
    subst hv
    rw [h2]
    exact Or.inr (Or.inr (Or.inl ⟨Or.inr rfl, rfl, rfl, Or.inr ⟨rfl, rfl⟩⟩))
  · exact ⟨fun _ => h1, fun v _ => Or.inl h1⟩

theorem select_victim_lru_arc (s : Sim) (X : Nat) (hp : s.current_policy = LRU_ARC) :
    select_victim s X
      = ({ s with arc_state := (arc_find_victim_lru_arc s.buffer s.arc_state X).2 },
          (arc_find_victim_lru_arc s.buffer s.arc_state X).1) := by
  obtain ⟨buf, pol, prev, time, hits, misses, arc, log, err, hand, zs, wp⟩ := s
  simp only at hp
  subst hp
  simp only [select_victim, reduceCtorEq, if_true, if_false]

theorem select_victim_lfu_arc (s : Sim) (X : Nat) (hp : s.current_policy = LFU_ARC) :
    select_victim s X
      = ({ s with arc_state := (arc_find_victim_lfu_arc s.buffer s.arc_state X).2 },
          (arc_find_victim_lfu_arc s.buffer s.arc_state X).1) := by
  obtain ⟨buf, pol, prev, time, hits, misses, arc, log, err, hand, zs, wp⟩ := s
  simp only at hp
  subst hp
  simp only [select_victim, reduceCtorEq, if_true, if_false]

/-- What victim selection does to frames and ghost lists, under every policy. -/
theorem select_victim_ghosts (s : Sim) (X : Nat) :
    (select_victim s X).1.buffer.map erase_ref = s.buffer.map erase_ref ∧
    (∀ v, (select_victim s X).2 = some v → v < s.buffer.length) ∧
    ((select_victim s X).2 = none →
      arc_ghosts (select_victim s X).1.arc_state = arc_ghosts s.arc_state) ∧
    (∀ v, (select_victim s X).2 = some v →
      ghost_rel s.current_policy (frame_at s.buffer v).page_id s.buffer.length s.arc_state
        (select_victim s X).1.arc_state) ∧
    (s.current_policy ≠ LRU_ARC → s.current_policy ≠ LFU_ARC →
      arc_ghosts (select_victim s X).1.arc_state = arc_ghosts s.arc_state) := by
  by_cases h1 : s.current_policy = LRU_ARC
  · rw [select_victim_lru_arc s X h1, h1]
    have ho := lru_arc_outcome_ghost _ _ _ (arc_find_victim_lru_arc_spec s.buffer s.arc_state X)
    exact ⟨rfl, fun v hv => arc_find_victim_lru_arc_lt _ _ _ _ hv, ho.1, ho.2,
      fun h => absurd rfl h⟩
  · by_cases h2 : s.current_policy = LFU_ARC
    · rw [select_victim_lfu_arc s X h2, h2]
      have ho := lfu_arc_outcome_ghost _ _ _
        (arc_find_victim_lfu_arc_spec s.buffer s.arc_state X)
      exact ⟨rfl, fun v hv => arc_find_victim_lfu_arc_lt _ _ _ _ hv, ho.1, ho.2,
        fun _ h => absurd rfl h⟩
    · obtain ⟨a1, a2, _, _, _, _, a7⟩ := select_victim_plain s X h1 h2
      exact ⟨a1, a7, fun _ => a2, fun v _ => Or.inl a2, fun _ _ => a2⟩

theorem chosen_fixed (s : Sim) (X : Nat) : (chosen s X).1.fixed = s.fixed := by
  unfold chosen
  rw [victim_fallback_fixed, select_victim_fixed]

theorem chosen_ok (s : Sim) (X : Nat) (h : s.ok) : (chosen s X).1.ok :=
  victim_fallback_ok _ _ (select_victim_ok _ _ h)

theorem chosen_spec (s : Sim) (X : Nat) :
    (chosen s X).1.buffer.map erase_ref = s.buffer.map erase_ref ∧
    (∀ v, (chosen s X).2 = some v → v < s.buffer.length) ∧
    ((chosen s X).2 = none →
      arc_ghosts (chosen s X).1.arc_state = arc_ghosts s.arc_state) ∧
    (∀ v, (chosen s X).2 = some v →
      ghost_rel s.current_policy (frame_at s.buffer v).page_id s.buffer.length s.arc_state
        (chosen s X).1.arc_state) ∧
    (s.current_policy ≠ LRU_ARC → s.current_policy ≠ LFU_ARC →
      arc_ghosts (chosen s X).1.arc_state = arc_ghosts s.arc_state) := by
  obtain ⟨g1, g2, g3, g4, g5⟩ := select_victim_ghosts s X
  obtain ⟨_, _, f3, f4, f5, f6⟩ :=
    victim_fallback_spec (select_victim s X).1 (select_victim s X).2
  have hlen := length_mod_ref _ _ g1
  unfold chosen
  refine ⟨by rw [f3]; exact g1, ?_, ?_, ?_, fun h1 h2 => f4.trans (g5 h1 h2)⟩
  · intro v hv
    rcases f6 v hv with h | h
    · exact g2 v h
    · rw [← hlen]; exact h
  · intro hn
    rcases Option.eq_none_or_eq_some (select_victim s X).2 with hs | ⟨w, hs⟩
    · exact f4.trans (g3 hs)
    · rw [f5 w hs] at hn
      cases hn
  · intro v hv
    rcases Option.eq_none_or_eq_some (select_victim s X).2 with hs | ⟨w, hs⟩
    · exact Or.inl (f4.trans (g3 hs))
    · have := f5 w hs
      rw [this] at hv ⊢
      simp only [Option.some.injEq] at hv
      subst hv
      exact g4 w hs

/-- With a full buffer of at least one frame, a victim is always chosen. -/
theorem chosen_exists (s : Sim) (X : Nat) (hN : 0 < s.buffer.length)
    (hfull : find_empty_slot s.buffer = none) : ∃ v, (chosen s X).2 = some v := by
  obtain ⟨g1, _, _, _, _⟩ := select_victim_ghosts s X
  unfold chosen
  rcases Option.eq_none_or_eq_some (select_victim s X).2 with hs | ⟨w, hs⟩
  · have hlen := length_mod_ref _ _ g1
    have hfull' : find_empty_slot (select_victim s X).1.buffer = none := by
      rw [find_empty_slot_mod_ref _ _ g1]; exact hfull
    obtain ⟨w, hw⟩ := evict_fifo_full _ (by rw [hlen]; exact hN) hfull'
    rw [victim_fallback_eq, if_pos ⟨hs, by rw [hlen]; exact hN⟩, hw]
    simp only []
    split_ifs <;> exact ⟨w, rfl⟩
  · obtain ⟨_, _, _, _, f5, _⟩ :=
      victim_fallback_spec (select_victim s X).1 (select_victim s X).2
    exact ⟨w, by rw [f5 w hs]⟩

theorem miss_finish_eq (s : Sim) (X : Nat) (op : Op) (al rl : Nat) :
    miss_finish s X op al rl
      = match find_empty_slot s.buffer with
        | some slot => load_page s slot X op al rl
        | none =>
          match (chosen s X).2 with
          | some v => load_page (process_victim (chosen s X).1 v) v X op al rl
          | none => (chosen s X).1 := rfl

theorem frame_at_mod_ref (b b' : List BufferFrame) (h : b'.map erase_ref = b.map erase_ref)
    (v : Nat) : erase_ref (frame_at b' v) = erase_ref (frame_at b v) := by
  induction b generalizing b' v with
  | nil =>
    cases b' with
    | nil => rfl
    | cons f rest => simp at h
  | cons g rest ih =>
    cases b' with
    | nil => simp at h
    | cons f rest' =>
      simp only [List.map_cons, List.cons.injEq] at h
      cases v with
      | zero => exact h.1
      | succ v =>
        have := ih rest' h.2 v
        simpa [frame_at] using this

theorem page_mod_ref (b b' : List BufferFrame) (h : b'.map erase_ref = b.map erase_ref)
    (v : Nat) : (frame_at b' v).page_id = (frame_at b v).page_id :=
  congrArg (fun x => x.page_id) (frame_at_mod_ref b b' h v)

theorem evicted_fixed (s : Sim) (X v : Nat) : (evicted s X v).fixed = s.fixed := by
  unfold evicted
  rw [process_victim_fixed, chosen_fixed]

theorem evicted_wf (s : Sim) (X v : Nat) (h : s.wf)
    (hfr : fresh s.current_policy s.buffer s.arc_state X)
    (hfull : find_empty_slot s.buffer = none) (hX : X ≠ INVALID_PAGE)
    (hv : (chosen s X).2 = some v) :
    v < s.buffer.length ∧ (evicted s X v).wf ∧
    fresh s.current_policy (evicted s X v).buffer (evicted s X v).arc_state X ∧
    (frame_at (evicted s X v).buffer v).page_id = INVALID_PAGE := by
  obtain ⟨hu, hg, hok⟩ := h
  obtain ⟨hb, hlt, _, hrel, hsame⟩ := chosen_spec s X
  have hvN := hlt v hv
  have hlen := length_mod_ref _ _ hb
  have hv' : v < (chosen s X).1.buffer.length := by rw [hlen]; exact hvN
  have hfix := chosen_fixed s X
  simp only [Sim.fixed, Prod.mk.injEq] at hfix
  have hpol := hfix.1
  obtain ⟨p1, _, ⟨g, hgi, hgb⟩, p4⟩ := process_victim_spec (chosen s X).1 v hv'
  have hfull' := full_mod_ref _ _ hb (find_empty_slot_none _ hfull)
  have hmem := frame_at_mem _ v hv'
  have hres := hfull' _ hmem
  have hpage := page_mod_ref _ _ hb v
  have hu' := pages_unique_mod_ref _ _ hb hu
  have hg' := ghosts_ok_mod_ref _ _ _ _ hb hg
  have hfr' := fresh_mod_ref _ _ _ _ X hb hfr
  have hXY : X ≠ (frame_at (chosen s X).1.buffer v).page_id :=
    fun e => hfr'.1 _ hmem e.symm
  have hr : ghost_rel s.current_policy (frame_at (chosen s X).1.buffer v).page_id
      (chosen s X).1.buffer.length s.arc_state (evicted s X v).arc_state := by
    unfold evicted
    rw [p4, hpol, hlen]
    by_cases hp : s.current_policy = LRU_ARC ∨ s.current_policy = LFU_ARC
    · rw [evict_arc_same _ _ _ _ (by tauto), hpage]
      exact hrel v hv
    · have hs := hsame (fun e => hp (Or.inl e)) (fun e => hp (Or.inr e))
      have := evict_arc_ghost_rel s.current_policy (chosen s X).1.arc_state s.buffer.length
        (frame_at (chosen s X).1.buffer v)
      exact ghost_rel_congr_left _ _ _ _ _ _ hs this
  have hbuf : (evicted s X v).buffer = (chosen s X).1.buffer.set v g := hgb
  refine ⟨hvN, ⟨?_, ?_, ?_⟩, ?_, ?_⟩
  · rw [hbuf]; exact pages_unique_set_invalid _ _ _ hv' hgi hu'
  · have hp2 : (evicted s X v).current_policy = s.current_policy := p1.trans hpol
    rw [hp2, hbuf]
    exact ghosts_ok_evict _ _ _ _ _ _ _ hv' hres hgi hu' hg' hr
  · exact process_victim_ok _ _ (chosen_ok _ _ hok)
  · rw [hbuf]
    exact fresh_evict _ _ _ _ _ _ _ _ _ hX hXY hgi hfr' hr
  · rw [hbuf, frame_at_set_eq _ _ _ hv']; exact hgi

theorem chosen_none_wf (s : Sim) (X : Nat) (h : s.wf) (hv : (chosen s X).2 = none) :
    (chosen s X).1.wf := by
  obtain ⟨hu, hg, hok⟩ := h
  obtain ⟨hb, _, hnone, _, _⟩ := chosen_spec s X
  have hfix := chosen_fixed s X
  simp only [Sim.fixed, Prod.mk.injEq] at hfix
  refine ⟨pages_unique_mod_ref _ _ hb hu, ?_, chosen_ok _ _ hok⟩
  rw [hfix.1]
  exact ghosts_ok_congr _ _ _ _ (hnone hv) (ghosts_ok_mod_ref _ _ _ _ hb hg)

theorem miss_finish_wf (s : Sim) (X : Nat) (op : Op) (al rl : Nat) (h : s.wf)
    (hfr : fresh s.current_policy s.buffer s.arc_state X) (hX : X ≠ INVALID_PAGE) :
    (miss_finish s X op al rl).wf := by
  rw [miss_finish_eq]
  rcases Option.eq_none_or_eq_some (find_empty_slot s.buffer) with he | ⟨slot, he⟩
  · rw [he]
    simp only []
    rcases Option.eq_none_or_eq_some (chosen s X).2 with hc | ⟨v, hc⟩
    · rw [hc]
      exact chosen_none_wf s X h hc
    · rw [hc]
      simp only []
      obtain ⟨hvN, hwf, hfr2, _⟩ := evicted_wf s X v h hfr he hX hc
      have hfix := evicted_fixed s X v
      simp only [Sim.fixed, Prod.mk.injEq] at hfix
      refine load_page_wf (evicted s X v) v X op al rl hwf ?_ ?_
      · rw [hfix.2.2.2.2.2]; exact hvN
      · rw [hfix.1]; exact hfr2
  · rw [he]
    exact load_page_wf s slot X op al rl h (find_empty_slot_some _ _ he).1 hfr

theorem access_hit_wf (s : Sim) (i : Nat) (op : Op) (h : s.wf) (hi : i < s.buffer.length) :
    (access_hit s i op).wf := by
  have hok := access_hit_ok s i op h.2.2
  rw [access_hit_eq] at hok ⊢
  obtain ⟨hu, hg, _⟩ := h
  have hb := hit_base_fields (frame_at s.buffer i) s.current_time op
  have hf := hit_frame_fields s.current_policy (hit_base (frame_at s.buffer i) s.current_time op)
  have hpage : (hit_frame s.current_policy
      (hit_base (frame_at s.buffer i) s.current_time op)).page_id
      = (frame_at s.buffer i).page_id := hf.1.trans hb.1
  exact ⟨pages_unique_set_same _ _ _ hi hpage hu,
    ghosts_ok_set_same _ _ _ _ _ hi hpage (ghosts_ok_congr _ _ _ _ (hit_arc_ghosts _ _ _) hg),
    hok⟩

theorem miss_begin_wf (s : Sim) (X : Nat) (h : s.wf) (hX : ∀ f ∈ s.buffer, f.page_id ≠ X) :
    (miss_begin s X).wf ∧
    fresh s.current_policy (miss_begin s X).buffer (miss_begin s X).arc_state X := by
  obtain ⟨hu, hg, hok⟩ := h
  have hgs := step_a_ghosts s.current_policy s.buffer.length s.arc_state X s.buffer hok hg
  exact ⟨⟨hu, hgs.1, miss_begin_ok s X hok⟩, hX, hgs.2⟩

theorem access_page_wf (s : Sim) (lba X : Nat) (op : Op) (h : s.wf) :
    (access_page s lba X op).wf := by
  unfold access_page
  simp only []
  split_ifs with hX
  · exact h
  · split
    · rename_i i hi
      exact access_hit_wf _ i op h (find_in_buffer_some _ _ _ hi).1
    · rename_i hn
      rw [access_miss_eq]
      have hb := miss_begin_wf { s with current_time := (s.current_time + 1) % U64 } X h
        (find_in_buffer_none _ _ hn)
      exact miss_finish_wf _ X op _ _ hb.1 hb.2 hX

/-! ### Policy switches and whole runs -/

theorem pages_unique_of_core (b b' : List BufferFrame)
    (h : b'.map frame_core = b.map frame_core) (hu : pages_unique b) : pages_unique b' := by
  intro x hx
  have e : ∀ l : List BufferFrame,
      l.countP (fun f => decide (f.page_id = x))
        = (l.map frame_core).countP (fun c => decide (c.1 = x)) := by
    intro l
    rw [List.countP_map]
    rfl
  rw [e b', h, ← e b]
  exact hu x hx

theorem not_resident_in_of_core (b b' : List BufferFrame)
    (h : b'.map frame_core = b.map frame_core) (l : List Nat) (hn : not_resident_in b l) :
    not_resident_in b' l := by
  intro f hf hp
  have hm : frame_core f ∈ b.map frame_core := by
    rw [← h]; exact List.mem_map_of_mem _ hf
  obtain ⟨g, hg, he⟩ := List.mem_map.1 hm
  have hpg : g.page_id = f.page_id := congrArg (fun c => c.1) he
  rw [← hpg] at hp ⊢
  exact hn g hg hp

theorem reset_flag_false (o n : ReplacementPolicy) (h : carries_over o n) :
    reset_flag o n = false := by
  unfold carries_over at h
  unfold reset_flag
  split_ifs with h1 h2
  · rfl
  · rfl
  · exfalso; tauto

theorem reset_flag_true (o n : ReplacementPolicy) (h : ¬ carries_over o n) :
    reset_flag o n = true := by
  unfold carries_over at h
  unfold reset_flag
  split_ifs with h1 h2
  · exfalso; tauto
  · exfalso; tauto
  · rfl

theorem switch_policy_eq (s : Sim) (new_policy : ReplacementPolicy) :
    switch_policy s new_policy
      = { s with
          previous_policy_for_state_carryover := s.current_policy
          current_policy := new_policy
          buffer := (relabel_loop s.current_policy new_policy s.buffer
            { initialize_arc_state (reset_flag s.current_policy new_policy) new_policy
                s.buffer.length s.arc_state with
              t1_size := 0, t2_size := 0, t3_size := 0, t4_size := 0 }).1
          arc_state :=
            { (relabel_loop s.current_policy new_policy s.buffer
                { initialize_arc_state (reset_flag s.current_policy new_policy) new_policy
                    s.buffer.length s.arc_state with
                  t1_size := 0, t2_size := 0, t3_size := 0, t4_size := 0 }).2 with
              p_clk_hand := 0, q_clk_hand := 0 }
          global_clk_hand := 0 } := rfl

theorem switch_policy_lists (s : Sim) (new_policy : ReplacementPolicy) :
    (carries_over s.current_policy new_policy ∧
      (switch_policy s new_policy).arc_state.b1 = s.arc_state.b1 ∧
      (switch_policy s new_policy).arc_state.b2 = s.arc_state.b2 ∧
      (switch_policy s new_policy).arc_state.b3 = s.arc_state.b3 ∧
      (switch_policy s new_policy).arc_state.b4 = s.arc_state.b4) ∨
    ((switch_policy s new_policy).arc_state.b1 = [] ∧
      (switch_policy s new_policy).arc_state.b2 = [] ∧
      (switch_policy s new_policy).arc_state.b3 = [] ∧
      (switch_policy s new_policy).arc_state.b4 = []) := by
  rw [switch_policy_eq]
  by_cases hc : carries_over s.current_policy new_policy
  · left
    rw [reset_flag_false _ _ hc]
    obtain ⟨_, _, e1, e2, e3, e4⟩ := relabel_loop_arc s.current_policy new_policy s.buffer
      { initialize_arc_state false new_policy s.buffer.length s.arc_state with
        t1_size := 0, t2_size := 0, t3_size := 0, t4_size := 0 }
    exact ⟨hc, e1, e2, e3, e4⟩
  · right
    rw [reset_flag_true _ _ hc]
    obtain ⟨_, _, e1, e2, e3, e4⟩ := relabel_loop_arc s.current_policy new_policy s.buffer
      { initialize_arc_state true new_policy s.buffer.length s.arc_state with
        t1_size := 0, t2_size := 0, t3_size := 0, t4_size := 0 }
    obtain ⟨g1, g2, g3, g4⟩ := initialize_arc_state_full_ghosts new_policy s.buffer.length
    exact ⟨e1.trans g1, e2.trans g2, e3.trans g3, e4.trans g4⟩

theorem ghosts_ok_empty (pol : ReplacementPolicy) (buf : List BufferFrame) (a : ARCState)
    (h1 : a.b1 = []) (h2 : a.b2 = []) (h3 : a.b3 = []) (h4 : a.b4 = []) :
    ghosts_ok pol buf a := by
  unfold ghosts_ok not_resident_in
  rw [h1, h2, h3, h4]
  simp

theorem switch_policy_wf (s : Sim) (new_policy : ReplacementPolicy) (h : s.wf) :
    (switch_policy s new_policy).wf := by
  obtain ⟨hu, hg, hok⟩ := h
  have hcore : (switch_policy s new_policy).buffer.map frame_core = s.buffer.map frame_core := by
    rw [switch_policy_eq]
    exact relabel_loop_core _ _ _ _
  have hpol : (switch_policy s new_policy).current_policy = new_policy := rfl
  refine ⟨pages_unique_of_core _ _ hcore hu, ?_, switch_policy_ok s new_policy hok⟩
  rw [hpol]
  rcases switch_policy_lists s new_policy with ⟨hc, e1, e2, e3, e4⟩ | ⟨e1, e2, e3, e4⟩
  · unfold ghosts_ok at hg ⊢
    rw [e1, e2, e3, e4]
    unfold carries_over at hc
    refine ⟨fun hp => ?_, fun hp => ?_⟩
    · have ho : s.current_policy = LRU ∨ s.current_policy = LRU_ARC := by
        rcases hc with ⟨a, b⟩ | ⟨a, b⟩ | ⟨a, b⟩ | ⟨a, b⟩ <;> rw [b] at hp <;> simp at hp <;>
          simp [a]
      obtain ⟨c1, c2, c3, c4, c5⟩ := hg.1 ho
      exact ⟨c1, c2, c3, not_resident_in_of_core _ _ hcore _ c4,
        not_resident_in_of_core _ _ hcore _ c5⟩
    · have ho : s.current_policy = LFU ∨ s.current_policy = LFU_ARC := by
        rcases hc with ⟨a, b⟩ | ⟨a, b⟩ | ⟨a, b⟩ | ⟨a, b⟩ <;> rw [b] at hp <;> simp at hp <;>
          simp [a]
      obtain ⟨c1, c2, c3, c4, c5⟩ := hg.2 ho
      exact ⟨c1, c2, c3, not_resident_in_of_core _ _ hcore _ c4,
        not_resident_in_of_core _ _ hcore _ c5⟩
  · exact ghosts_ok_empty _ _ _ e1 e2 e3 e4

theorem process_record_wf (s : Sim) (r : Record) (h : s.wf) : (process_record s r).wf := by
  cases r with
  | access lba op => exact access_page_wf s lba _ op h
  | policy_change code =>
    simp only [process_record]
    split_ifs
    · split
      · split_ifs
        · exact switch_policy_wf s _ h
        · exact h
      · exact h
    · exact h

theorem run_wf (trace : List Record) (s : Sim) (h : s.wf) : (run s trace).wf := by
  induction trace generalizing s with
  | nil => exact h
  | cons r rest ih => exact ih _ (process_record_wf s r h)

theorem init_sim_wf (N : Nat) (pol : ReplacementPolicy) (zs : Nat) : (init_sim N pol zs).wf := by
  refine ⟨?_, ?_, init_sim_ok N pol zs⟩
  · intro x hx
    have : (initialize_buffer N).countP (fun f => decide (f.page_id = x)) = 0 := by
      rw [List.countP_eq_zero]
      intro f hf
      unfold initialize_buffer at hf
      rw [List.eq_of_mem_replicate hf]
      simp only [empty_frame, decide_eq_true_eq]
      exact fun e => hx e.symm
    show (initialize_buffer N).countP (fun f => decide (f.page_id = x)) ≤ 1
    omega
  · obtain ⟨g1, g2, g3, g4⟩ := initialize_arc_state_full_ghosts pol N
    exact ghosts_ok_empty _ _ _ g1 g2 g3 g4

/-- C4: in every state reached from an initial state by any sequence of accesses and policy
switches whose active policy is LRU, LRU_ARC, LFU or LFU_ARC, no page resident in the buffer
occurs in any of the ghost lists B1, B2, B3, B4, no page of B1 is in B2, and no page of B3
is in B4. -/
theorem ghosts_hold_evicted_pages_only (N : Nat) (pol : ReplacementPolicy) (zs : Nat)
    (trace : List Record)
    (hp : (run (init_sim N pol zs) trace).current_policy = LRU ∨
      (run (init_sim N pol zs) trace).current_policy = LRU_ARC ∨
      (run (init_sim N pol zs) trace).current_policy = LFU ∨
      (run (init_sim N pol zs) trace).current_policy = LFU_ARC) :
    (∀ f ∈ (run (init_sim N pol zs) trace).buffer, f.page_id ≠ INVALID_PAGE →
      f.page_id ∉ (run (init_sim N pol zs) trace).arc_state.b1 ∧
      f.page_id ∉ (run (init_sim N pol zs) trace).arc_state.b2 ∧
      f.page_id ∉ (run (init_sim N pol zs) trace).arc_state.b3 ∧
      f.page_id ∉ (run (init_sim N pol zs) trace).arc_state.b4) ∧
    (∀ x ∈ (run (init_sim N pol zs) trace).arc_state.b1,
      x ∉ (run (init_sim N pol zs) trace).arc_state.b2) ∧
    (∀ x ∈ (run (init_sim N pol zs) trace).arc_state.b3,
      x ∉ (run (init_sim N pol zs) trace).arc_state.b4) := by
  have h := (run_wf trace _ (init_sim_wf N pol zs)).2.1
  refine ⟨fun f hf hr => ghosts_ok_frame _ _ _ h hp f hf hr, ?_, ?_⟩
  · unfold ghosts_ok at h
    rcases hp with hp | hp | hp | hp
    · exact (h.1 (Or.inl hp)).2.2.1
    · exact (h.1 (Or.inr hp)).2.2.1
    · rw [(h.2 (Or.inl hp)).1]; simp
    · rw [(h.2 (Or.inr hp)).1]; simp
  · unfold ghosts_ok at h
    rcases hp with hp | hp | hp | hp
    · rw [(h.1 (Or.inl hp)).1]; simp
    · rw [(h.1 (Or.inr hp)).1]; simp
    · exact (h.2 (Or.inl hp)).2.2.1
    · exact (h.2 (Or.inr hp)).2.2.1

theorem ghosts_hold_evicted_pages_only_witness :
    (run (init_sim 2 LRU 0)
        [Record.access 0 OP_READ, Record.access 8 OP_READ, Record.access 16 OP_READ,
          Record.policy_change 8, Record.access 24 OP_WRITE]).current_policy = LRU_ARC ∧
    (run (init_sim 2 LRU 0)
        [Record.access 0 OP_READ, Record.access 8 OP_READ, Record.access 16 OP_READ,
          Record.policy_change 8, Record.access 24 OP_WRITE]).arc_state.b1 = [0, 1] ∧
    ((∀ f ∈ (run (init_sim 2 LRU 0)
        [Record.access 0 OP_READ, Record.access 8 OP_READ, Record.access 16 OP_READ,
          Record.policy_change 8, Record.access 24 OP_WRITE]).buffer,
        f.page_id ≠ INVALID_PAGE →
      f.page_id ∉ (run (init_sim 2 LRU 0)
        [Record.access 0 OP_READ, Record.access 8 OP_READ, Record.access 16 OP_READ,
          Record.policy_change 8, Record.access 24 OP_WRITE]).arc_state.b1 ∧
      f.page_id ∉ (run (init_sim 2 LRU 0)
        [Record.access 0 OP_READ, Record.access 8 OP_READ, Record.access 16 OP_READ,
          Record.policy_change 8, Record.access 24 OP_WRITE]).arc_state.b2 ∧
      f.page_id ∉ (run (init_sim 2 LRU 0)
        [Record.access 0 OP_READ, Record.access 8 OP_READ, Record.access 16 OP_READ,
          Record.policy_change 8, Record.access 24 OP_WRITE]).arc_state.b3 ∧
      f.page_id ∉ (run (init_sim 2 LRU 0)
        [Record.access 0 OP_READ, Record.access 8 OP_READ, Record.access 16 OP_READ,
          Record.policy_change 8, Record.access 24 OP_WRITE]).arc_state.b4) ∧
    (∀ x ∈ (run (init_sim 2 LRU 0)
        [Record.access 0 OP_READ, Record.access 8 OP_READ, Record.access 16 OP_READ,
          Record.policy_change 8, Record.access 24 OP_WRITE]).arc_state.b1,
      x ∉ (run (init_sim 2 LRU 0)
        [Record.access 0 OP_READ, Record.access 8 OP_READ, Record.access 16 OP_READ,
          Record.policy_change 8, Record.access 24 OP_WRITE]).arc_state.b2) ∧
    (∀ x ∈ (run (init_sim 2 LRU 0)
        [Record.access 0 OP_READ, Record.access 8 OP_READ, Record.access 16 OP_READ,
          Record.policy_change 8, Record.access 24 OP_WRITE]).arc_state.b3,
      x ∉ (run (init_sim 2 LRU 0)
        [Record.access 0 OP_READ, Record.access 8 OP_READ, Record.access 16 OP_READ,
          Record.policy_change 8, Record.access 24 OP_WRITE]).arc_state.b4)) :=
  ⟨by decide, by decide,
    ghosts_hold_evicted_pages_only 2 LRU 0 _ (Or.inr (Or.inl (by decide)))⟩

/-! ## The end-to-end scenarios -/

/-- C13 (as stated): the run of the LRU scenario with N = 3 and ZNS off does not end with
2 hits and 4 misses. -/
theorem lru_scenario_counterexample :
    ¬ ((run (init_sim 3 LRU 0) lru_scenario).hits = 2 ∧
       (run (init_sim 3 LRU 0) lru_scenario).misses = 4) := by
  decide

/-- C13 (amended): from the initial state with policy LRU, N = 3 and ZNS off, the accesses
0 R, 8 R, 16 R, 0 R, 24 R, 8 R yield hits = 1 and misses = 5: the second access to LBA 0 is
the only hit (one hit after four records), the miss on page 3 evicts page 1, the least
recently used page (page 1 is not resident after five records, pages 0, 2 and 3 are), and
the second access to LBA 8 is a miss. -/
theorem lru_scenario_counts :
    (run (init_sim 3 LRU 0) lru_scenario).hits = 1 ∧
    (run (init_sim 3 LRU 0) lru_scenario).misses = 5 ∧
    (run (init_sim 3 LRU 0) (lru_scenario.take 3)).hits = 0 ∧
    (run (init_sim 3 LRU 0) (lru_scenario.take 4)).hits = 1 ∧
    (run (init_sim 3 LRU 0) (lru_scenario.take 5)).hits = 1 ∧
    find_in_buffer (run (init_sim 3 LRU 0) (lru_scenario.take 5)).buffer 1 = none ∧
    (run (init_sim 3 LRU 0) (lru_scenario.take 5)).buffer.map (fun f => f.page_id) = [0, 3, 2] := by
  decide

/-- C14 (as stated): in the run of 0 W, 8 R under LRU with N = 1 the device I/O is not
read of page 0, write of page 0, read of page 1 in that order. -/
theorem writeback_scenario_counterexample :
    (run (init_sim 1 LRU 0) writeback_scenario).log_file
      ≠ [{ op := OP_READ, start_lba := 0, num_sectors := 8 },
         { op := OP_WRITE, start_lba := 0, num_sectors := 8 },
         { op := OP_READ, start_lba := 8, num_sectors := 8 }] := by
  decide

/-- C14 (amended): from the initial state with policy LRU, N = 1 and ZNS off, 0 W then 8 R
yields hits = 0, misses = 2 and the device I/O, in order, read of page 0, read of page 1,
write of page 0 (the read of the missed page is logged before the dirty victim is written
back); the shutdown flush then emits nothing. -/
theorem writeback_scenario_io :
    (run (init_sim 1 LRU 0) writeback_scenario).hits = 0 ∧
    (run (init_sim 1 LRU 0) writeback_scenario).misses = 2 ∧
    (run (init_sim 1 LRU 0) writeback_scenario).log_file
      = [{ op := OP_READ, start_lba := 0, num_sectors := 8 },
         { op := OP_READ, start_lba := 8, num_sectors := 8 },
         { op := OP_WRITE, start_lba := 0, num_sectors := 8 }] ∧
    (simulate 1 LRU 0 writeback_scenario).log_file
      = (run (init_sim 1 LRU 0) writeback_scenario).log_file := by
  decide

/-! ## The ZNS check of one device write -/

/-- C16: for a device write (`num_sectors > 0` sectors from an LBA that fits 64 bits, that
is `n = num_pages_of num_sectors` pages from page `P = lba / 8`) with ZNS enabled (zone size
`zs`, `0 < zs < 2^64`) and zone `z = P / zs < MAX_ZONES`, `write_fio_log` leaves
`wp[z] = min(wp[z] + n, (z+1)*zs)` when `P = wp[z]` and `wp[z]` unchanged when `P ≠ wp[z]`,
leaves every other zone's pointer unchanged, and in both cases appends the write record to
the log.  Moreover, under FIFO with N = 1 and zs = 4, the trace 0 W, 8 W (with the shutdown
flush) ends with zone 0 pointer 2 and the writes of page 0 then page 1, and the trace
8 W, 0 W logs the write of page 1 while the pointer of zone 0 stays 0. -/
theorem write_moves_zone_pointer (s : Sim) (lba num_sectors : Nat) (hn : 0 < num_sectors)
    (hl : lba < U64) (h0 : 0 < s.zone_size_pages_global) (h64 : s.zone_size_pages_global < U64)
    (hz : lba_to_page_id lba / s.zone_size_pages_global < MAX_ZONES) :
    ((write_fio_log s lba num_sectors OP_WRITE).zone_write_pointers
        (lba_to_page_id lba / s.zone_size_pages_global)
      = if lba_to_page_id lba
            = s.zone_write_pointers (lba_to_page_id lba / s.zone_size_pages_global) then
          min (s.zone_write_pointers (lba_to_page_id lba / s.zone_size_pages_global)
              + num_pages_of num_sectors)
            ((lba_to_page_id lba / s.zone_size_pages_global + 1) * s.zone_size_pages_global)
        else s.zone_write_pointers (lba_to_page_id lba / s.zone_size_pages_global)) ∧
    (∀ z, z ≠ lba_to_page_id lba / s.zone_size_pages_global →
      (write_fio_log s lba num_sectors OP_WRITE).zone_write_pointers z
        = s.zone_write_pointers z) ∧
    (write_fio_log s lba num_sectors OP_WRITE).log_file
      = s.log_file ++ [{ op := OP_WRITE, start_lba := lba, num_sectors := num_sectors }] ∧
    ((simulate 1 FIFO 4 zns_in_order).zone_write_pointers 0 = 2 ∧
      written_pages (simulate 1 FIFO 4 zns_in_order).log_file = [0, 1]) ∧
    ((run (init_sim 1 FIFO 4) zns_out_of_order).zone_write_pointers 0 = 0 ∧
      written_pages (run (init_sim 1 FIFO 4) zns_out_of_order).log_file = [1]) := by
  have ht : lba_to_page_id lba < 2305843009213693952 := by
    unfold lba_to_page_id SECTORS_PER_PAGE; unfold U64 at hl; omega
  obtain ⟨ha1, ha2, ha3, ha4⟩ := zone_arith (lba_to_page_id lba) _ ht h0 h64
  have hmod : ((lba_to_page_id lba / s.zone_size_pages_global) * s.zone_size_pages_global) % U64
      = (lba_to_page_id lba / s.zone_size_pages_global) * s.zone_size_pages_global :=
    Nat.mod_eq_of_lt (by omega)
  have hmod2 : ((lba_to_page_id lba / s.zone_size_pages_global) * s.zone_size_pages_global
      + s.zone_size_pages_global) % U64
      = (lba_to_page_id lba / s.zone_size_pages_global) * s.zone_size_pages_global
        + s.zone_size_pages_global := Nat.mod_eq_of_lt ha3
  have hnp : num_pages_of num_sectors < 4294967296 := by
    unfold num_pages_of SECTORS_PER_PAGE U32
    split_ifs <;> omega
  have hn0 : num_sectors ≠ 0 := by omega
  have hzz : ¬ lba_to_page_id lba / s.zone_size_pages_global ≥ MAX_ZONES := by omega
  refine ⟨?_, ?_, ?_, by decide, by decide⟩
  · by_cases hseq : lba_to_page_id lba
        = s.zone_write_pointers (lba_to_page_id lba / s.zone_size_pages_global)
    · rw [if_pos hseq]
      have hmod3 : (s.zone_write_pointers (lba_to_page_id lba / s.zone_size_pages_global)
          + num_pages_of num_sectors) % U64
          = s.zone_write_pointers (lba_to_page_id lba / s.zone_size_pages_global)
            + num_pages_of num_sectors := by
        apply Nat.mod_eq_of_lt
        rw [← hseq]; unfold U64; omega
      unfold write_fio_log
      simp only [hn0, if_false, true_and, h0, if_true, hzz, hmod, hmod2]
      unfold num_pages_of at hmod3 ⊢
      rw [hmod3, ha4, Nat.min_def]
      split_ifs <;> simp <;> omega
    · rw [if_neg hseq]
      unfold write_fio_log
      simp only [hn0, if_false, true_and, h0, if_true, hzz, ne_eq, hseq, not_false_eq_true]
      split_ifs <;> rfl
  · intro z hne
    unfold write_fio_log
    simp only [hn0, if_false, true_and, h0, if_true, hzz]
    split_ifs <;> simp [hne]
  · unfold write_fio_log
    simp only [hn0, if_false, true_and, h0, if_true, hzz]
    split_ifs <;> simp

theorem write_moves_zone_pointer_witness :
    (0 < 8 ∧ 0 < U64 ∧ 0 < (init_sim 1 FIFO 4).zone_size_pages_global ∧
      (init_sim 1 FIFO 4).zone_size_pages_global < U64 ∧
      lba_to_page_id 0 / (init_sim 1 FIFO 4).zone_size_pages_global < MAX_ZONES) ∧
    (write_fio_log (init_sim 1 FIFO 4) 0 8 OP_WRITE).zone_write_pointers 0 = 1 := by
  have h := (write_moves_zone_pointer (init_sim 1 FIFO 4) 0 8 (by decide) (by decide)
    (by decide) (by decide) (by decide)).1
  exact ⟨by decide, h.trans (by decide)⟩

/-- C17: for a device write with ZNS enabled (zone size > 0) whose zone ID
`P / zone_size_pages` is at least MAX_ZONES, `write_fio_log` emits no log record and leaves
every zone write pointer unchanged (it changes nothing but the diagnostics). -/
theorem write_beyond_max_zones_skipped (s : Sim) (lba num_sectors : Nat)
    (h0 : 0 < s.zone_size_pages_global)
    (hz : MAX_ZONES ≤ lba_to_page_id lba / s.zone_size_pages_global) :
    (write_fio_log s lba num_sectors OP_WRITE).log_file = s.log_file ∧
    (write_fio_log s lba num_sectors OP_WRITE).zone_write_pointers = s.zone_write_pointers ∧
    (write_fio_log s lba num_sectors OP_WRITE).buffer = s.buffer ∧
    (write_fio_log s lba num_sectors OP_WRITE).arc_state = s.arc_state ∧
    (write_fio_log s lba num_sectors OP_WRITE).fixed = s.fixed := by
  have hzz : lba_to_page_id lba / s.zone_size_pages_global ≥ MAX_ZONES := hz
  unfold write_fio_log
  simp only [true_and, h0, if_true, hzz]
  split_ifs <;> simp [Sim.fixed]

theorem write_beyond_max_zones_skipped_witness :
    (0 < (init_sim 1 FIFO 1).zone_size_pages_global ∧
      MAX_ZONES ≤ lba_to_page_id 1048576 / (init_sim 1 FIFO 1).zone_size_pages_global) ∧
    (write_fio_log (init_sim 1 FIFO 1) 1048576 8 OP_WRITE).log_file
      = (init_sim 1 FIFO 1).log_file :=
  ⟨⟨by decide, by decide⟩,
    (write_beyond_max_zones_skipped (init_sim 1 FIFO 1) 1048576 8 (by decide) (by decide)).1⟩

/-! ## One access: the hit branch -/

theorem hit_frame_base (pol : ReplacementPolicy) (f0 : BufferFrame) (T : Nat) (op : Op) :
    (hit_frame pol (hit_base f0 T op)).page_id = f0.page_id ∧
    (hit_frame pol (hit_base f0 T op)).load_time = f0.load_time ∧
    (hit_frame pol (hit_base f0 T op)).last_access_time = T ∧
    (hit_frame pol (hit_base f0 T op)).access_count
      = (if f0.access_count < UINT_MAX then f0.access_count + 1 else f0.access_count) ∧
    (hit_frame pol (hit_base f0 T op)).is_dirty = (if op = OP_WRITE then 1 else f0.is_dirty) ∧
    (pol = FIFO →
      hit_frame pol (hit_base f0 T op)
        = { f0 with
            last_access_time := T
            access_count :=
              if f0.access_count < UINT_MAX then f0.access_count + 1 else f0.access_count
            is_dirty := if op = OP_WRITE then 1 else f0.is_dirty }) := by
  cases pol <;> simp only [hit_frame, hit_base, reduceCtorEq, false_implies, and_true] <;>
    split_ifs <;> simp

theorem hit_arc_fifo (f3 : BufferFrame) (a : ARCState) : hit_arc FIFO f3 a = a := rfl

/-- A hit on a valid page counts one hit and leaves the page in its frame. -/
theorem access_page_hit_page (s : Sim) (lba X : Nat) (op : Op) (i : Nat)
    (hX : X ≠ INVALID_PAGE) (hi : find_in_buffer s.buffer X = some i) :
    (access_page s lba X op).hits = s.hits + 1 ∧
    (frame_at (access_page s lba X op).buffer i).page_id = X := by
  obtain ⟨hlt, hpage⟩ := find_in_buffer_some _ _ _ hi
  have he : access_page s lba X op
      = access_hit { s with current_time := (s.current_time + 1) % U64 } i op := by
    unfold access_page
    simp only [hX, if_false, hi]
  rw [he, access_hit_eq]
  have hb := hit_frame_base s.current_policy (frame_at s.buffer i) ((s.current_time + 1) % U64) op
  simp only [frame_at_set_eq _ _ _ hlt]
  exact ⟨trivial, hb.1.trans hpage⟩

/-- C18: on a cache hit (the page is valid and `find_in_buffer` finds it in frame `i`),
under every policy, `access_page` increments `current_time` (modulo 2^64, as the C
increment does) and `hits` by one and leaves `misses`; the frame keeps its page and
`load_time`, its `last_access_time` is the new `current_time`, its `access_count` is
incremented unless it is already UINT_MAX or more (then it stays), `is_dirty` is 1 for a
write and as before for a read; no device I/O is emitted and no zone pointer moves; no
other frame changes; and under FIFO the frame changes in nothing else (`list_type`,
`ref_arc_list_type` and `ref_bit` included) and neither the ARC state nor the global hand
change. -/
theorem hit_effects (s : Sim) (lba X : Nat) (op : Op) (i : Nat) (hX : X ≠ INVALID_PAGE)
    (hi : find_in_buffer s.buffer X = some i) :
    (access_page s lba X op).current_time = (s.current_time + 1) % U64 ∧
    (access_page s lba X op).hits = s.hits + 1 ∧
    (access_page s lba X op).misses = s.misses ∧
    (frame_at (access_page s lba X op).buffer i).page_id = X ∧
    (frame_at (access_page s lba X op).buffer i).load_time = (frame_at s.buffer i).load_time ∧
    (frame_at (access_page s lba X op).buffer i).last_access_time
      = (s.current_time + 1) % U64 ∧
    (frame_at (access_page s lba X op).buffer i).access_count
      = (if (frame_at s.buffer i).access_count < UINT_MAX then
          (frame_at s.buffer i).access_count + 1
        else (frame_at s.buffer i).access_count) ∧
    (frame_at (access_page s lba X op).buffer i).is_dirty
      = (if op = OP_WRITE then 1 else (frame_at s.buffer i).is_dirty) ∧
    (access_page s lba X op).log_file = s.log_file ∧
    (access_page s lba X op).zone_write_pointers = s.zone_write_pointers ∧
    (access_page s lba X op).buffer.length = s.buffer.length ∧
    (∀ j, j ≠ i → frame_at (access_page s lba X op).buffer j = frame_at s.buffer j) ∧
    (s.current_policy = FIFO →
      frame_at (access_page s lba X op).buffer i
        = { frame_at s.buffer i with
            last_access_time := (s.current_time + 1) % U64
            access_count :=
              if (frame_at s.buffer i).access_count < UINT_MAX then
                (frame_at s.buffer i).access_count + 1
              else (frame_at s.buffer i).access_count
            is_dirty := if op = OP_WRITE then 1 else (frame_at s.buffer i).is_dirty } ∧
      (access_page s lba X op).arc_state = s.arc_state ∧
      (access_page s lba X op).global_clk_hand = s.global_clk_hand) := by
  obtain ⟨hlt, hpage⟩ := find_in_buffer_some _ _ _ hi
  have he : access_page s lba X op
      = access_hit { s with current_time := (s.current_time + 1) % U64 } i op := by
    unfold access_page
    simp only [hX, if_false, hi]
  rw [he, access_hit_eq]
  have hb := hit_frame_base s.current_policy (frame_at s.buffer i) ((s.current_time + 1) % U64) op
  simp only [frame_at_set_eq _ _ _ hlt, List.length_set]
  refine ⟨trivial, trivial, trivial, hb.1.trans hpage, hb.2.1, hb.2.2.1, hb.2.2.2.1,
    hb.2.2.2.2.1, trivial, trivial, trivial, ?_, ?_⟩
  · intro j hj
    exact frame_at_set_ne _ _ _ _ hj
  · intro hp
    refine ⟨hb.2.2.2.2.2 hp, ?_, trivial⟩
    rw [hp]
    rfl

theorem hit_effects_witness :
    (0 ≠ INVALID_PAGE ∧
      find_in_buffer (run (init_sim 2 FIFO 0) [Record.access 0 OP_READ]).buffer 0 = some 0) ∧
    (access_page (run (init_sim 2 FIFO 0) [Record.access 0 OP_READ]) 0 0 OP_WRITE).hits = 1 ∧
    (frame_at (access_page (run (init_sim 2 FIFO 0) [Record.access 0 OP_READ]) 0 0
      OP_WRITE).buffer 0).is_dirty = 1 := by
  have h := hit_effects (run (init_sim 2 FIFO 0) [Record.access 0 OP_READ]) 0 0 OP_WRITE 0
    (by decide) (by decide)
  exact ⟨⟨by decide, by decide⟩, h.2.1.trans (by decide), h.2.2.2.2.2.2.2.1.trans (by decide)⟩

/-! ## One access: the device I/O of a miss -/

theorem write_fio_log_log (s : Sim) (lba n : Nat) (op : Op) (hn : n ≠ 0) :
    (write_fio_log s lba n op).log_file
      = if op = OP_WRITE ∧ zns_rejects s lba then s.log_file
        else s.log_file ++ [{ op := op, start_lba := lba, num_sectors := n }] := by
  unfold write_fio_log zns_rejects
  simp only [hn, if_false]
  by_cases h1 : op = OP_WRITE ∧ s.zone_size_pages_global > 0
  · rw [if_pos h1]
    by_cases h2 : lba_to_page_id lba / s.zone_size_pages_global ≥ MAX_ZONES
    · have h3 : op = OP_WRITE ∧ 0 < s.zone_size_pages_global ∧
          MAX_ZONES ≤ lba_to_page_id lba / s.zone_size_pages_global := ⟨h1.1, h1.2, h2⟩
      rw [if_pos h2, if_pos h3]
      split_ifs <;> rfl
    · have h3 : ¬ (op = OP_WRITE ∧ 0 < s.zone_size_pages_global ∧
          MAX_ZONES ≤ lba_to_page_id lba / s.zone_size_pages_global) := fun h => h2 h.2.2
      rw [if_neg h2, if_neg h3]
      split_ifs <;> rfl
  · have h3 : ¬ (op = OP_WRITE ∧ 0 < s.zone_size_pages_global ∧
        MAX_ZONES ≤ lba_to_page_id lba / s.zone_size_pages_global) :=
      fun h => h1 ⟨h.1, h.2.1⟩
    rw [if_neg h1, if_neg h3]
    split_ifs <;> rfl

theorem write_fio_log_zs (s : Sim) (lba n : Nat) (op : Op) :
    (write_fio_log s lba n op).zone_size_pages_global = s.zone_size_pages_global := by
  have := write_fio_log_fixed s lba n op
  simp only [Sim.fixed, Prod.mk.injEq] at this
  exact this.2.2.2.2.1

theorem handle_dirty_eviction_log (s : Sim) (v : Nat) (hv : v < s.buffer.length)
    (hres : (frame_at s.buffer v).page_id ≠ INVALID_PAGE) :
    (handle_dirty_eviction s v).log_file
      = (if (frame_at s.buffer v).is_dirty ≠ 0 ∧
            ¬ zns_rejects s (((frame_at s.buffer v).page_id * SECTORS_PER_PAGE) % U64) then
          s.log_file ++ [victim_write_record (frame_at s.buffer v).page_id]
        else s.log_file) ∧
    (frame_at (handle_dirty_eviction s v).buffer v).is_dirty = 0 ∧
    (frame_at (handle_dirty_eviction s v).buffer v).page_id = (frame_at s.buffer v).page_id := by
  have hv' : ¬ v ≥ s.buffer.length := by omega
  unfold handle_dirty_eviction
  simp only [hv', if_false]
  by_cases hd : (frame_at s.buffer v).is_dirty ≠ 0
  · rw [if_pos ⟨hres, hd⟩]
    have hl := write_fio_log_log s (((frame_at s.buffer v).page_id * SECTORS_PER_PAGE) % U64)
      SECTORS_PER_PAGE OP_WRITE (by decide)
    have hb := write_fio_log_buffer s (((frame_at s.buffer v).page_id * SECTORS_PER_PAGE) % U64)
      SECTORS_PER_PAGE OP_WRITE
    simp only [true_and] at hl
    refine ⟨?_, ?_, ?_⟩
    · show (write_fio_log s _ _ _).log_file = _
      rw [hl]
      by_cases hz : zns_rejects s (((frame_at s.buffer v).page_id * SECTORS_PER_PAGE) % U64)
      · rw [if_pos hz, if_neg (fun h => h.2 hz)]
      · rw [if_neg hz, if_pos ⟨hd, hz⟩]; rfl
    · show (frame_at ((write_fio_log s _ _ _).buffer.set v _) v).is_dirty = 0
      rw [hb, frame_at_set_eq _ _ _ hv]
    · show (frame_at ((write_fio_log s _ _ _).buffer.set v _) v).page_id = _
      rw [hb, frame_at_set_eq _ _ _ hv]
  · rw [if_neg (fun h => hd h.2), if_neg (fun h => hd h.1)]
    exact ⟨rfl, not_not.1 hd, rfl⟩

theorem chosen_quiet (s : Sim) (X : Nat) : quiet_step s (chosen s X).1 :=
  quiet_step_trans _ _ _ (select_victim_quiet s X)
    (victim_fallback_quiet (select_victim s X).1 (select_victim s X).2)

theorem frame_at_resident (b : List BufferFrame) (hfull : find_empty_slot b = none) (v : Nat)
    (hv : v < b.length) : (frame_at b v).page_id ≠ INVALID_PAGE :=
  find_empty_slot_none b hfull _ (frame_at_mem b v hv)

theorem victim_resident (s : Sim) (X v : Nat) (hfull : find_empty_slot s.buffer = none)
    (hv : (chosen s X).2 = some v) :
    v < (chosen s X).1.buffer.length ∧
    (frame_at (chosen s X).1.buffer v).page_id ≠ INVALID_PAGE := by
  obtain ⟨hb, hlt, _, _, _⟩ := chosen_spec s X
  have hlen := length_mod_ref _ _ hb
  have hv' : v < (chosen s X).1.buffer.length := by rw [hlen]; exact hlt v hv
  exact ⟨hv', full_mod_ref _ _ hb (find_empty_slot_none _ hfull) _ (frame_at_mem _ v hv')⟩

/-- C19: on a cache miss (the page is valid and not resident), for reads and writes alike
and under every policy, `access_page` appends to the log exactly: the read record of the
missed page, followed by the write record of the victim's page if and only if a frame was
evicted, that frame was dirty and the ZNS check did not reject the write (zone ID within
MAX_ZONES); a victim is always a resident frame, and right after the write-back step its
dirty flag is 0 (also when the ZNS check rejected the write). -/
theorem miss_io (s : Sim) (lba X : Nat) (op : Op) (hX : X ≠ INVALID_PAGE)
    (hmiss : find_in_buffer s.buffer X = none) :
    (access_page s lba X op).log_file
      = s.log_file ++ miss_read_record X ::
          (match miss_victim s X with
           | none => []
           | some v =>
             if (victim_frame s X v).is_dirty ≠ 0 ∧
                 ¬ zns_rejects s (((victim_frame s X v).page_id * SECTORS_PER_PAGE) % U64) then
               [victim_write_record (victim_frame s X v).page_id]
             else []) ∧
    (∀ v, miss_victim s X = some v →
      (victim_frame s X v).page_id ≠ INVALID_PAGE ∧
      (frame_at (written_back s X v).buffer v).page_id = (victim_frame s X v).page_id ∧
      (frame_at (written_back s X v).buffer v).is_dirty = 0) := by
  have he : access_page s lba X op
      = miss_finish (miss_entry s X) X op
          (step_a s.current_policy s.buffer.length s.arc_state X).actual_load_list_type
          (step_a s.current_policy s.buffer.length s.arc_state X).ref_load_list_type := by
    unfold access_page
    simp only [hX, if_false, hmiss]
    rw [access_miss_eq]
    rfl
  have hlog : (miss_entry s X).log_file = s.log_file ++ [miss_read_record X] := rfl
  have hzs : (miss_entry s X).zone_size_pages_global = s.zone_size_pages_global := rfl
  rw [he, miss_finish_eq]
  unfold miss_victim
  rcases Option.eq_none_or_eq_some (find_empty_slot (miss_entry s X).buffer) with hf | ⟨slot, hf⟩
  · rw [hf]
    simp only []
    rcases Option.eq_none_or_eq_some (chosen (miss_entry s X) X).2 with hc | ⟨v, hc⟩
    · rw [hc]
      simp only []
      refine ⟨?_, fun v hv => by cases hv⟩
      rw [(chosen_quiet _ _).2.2.1, hlog]
    · rw [hc]
      simp only []
      obtain ⟨hv', hres⟩ := victim_resident _ X v hf hc
      obtain ⟨h1, h2, h3⟩ := handle_dirty_eviction_log (chosen (miss_entry s X) X).1 v hv' hres
      have hq := chosen_quiet (miss_entry s X) X
      have hrej : ∀ l, zns_rejects (chosen (miss_entry s X) X).1 l ↔ zns_rejects s l := by
        intro l
        unfold zns_rejects
        rw [hq.1, hzs]
      refine ⟨?_, ?_⟩
      · rw [(load_page_quiet _ _ _ _ _ _).2.2.1]
        show (handle_dirty_eviction (chosen (miss_entry s X) X).1 v).log_file = _
        rw [h1, hq.2.2.1, hlog]
        unfold victim_frame
        simp only [hrej]
        split_ifs <;> simp
      · intro w hw
        simp only [Option.some.injEq] at hw
        subst hw
        exact ⟨hres, h3, h2⟩
  · rw [hf]
    simp only []
    refine ⟨?_, fun v hv => by cases hv⟩
    rw [(load_page_quiet _ _ _ _ _ _).2.2.1, hlog]

theorem miss_io_witness :
    (1 ≠ INVALID_PAGE ∧
      find_in_buffer (run (init_sim 1 LRU 0) [Record.access 0 OP_WRITE]).buffer 1 = none) ∧
    (access_page (run (init_sim 1 LRU 0) [Record.access 0 OP_WRITE]) 8 1 OP_READ).log_file
      = [miss_read_record 0, miss_read_record 1, victim_write_record 0] := by
  have h := (miss_io (run (init_sim 1 LRU 0) [Record.access 0 OP_WRITE]) 8 1 OP_READ
    (by decide) (by decide)).1
  exact ⟨⟨by decide, by decide⟩, h.trans (by decide)⟩

/-! ## One access: the shape of a miss -/

theorem miss_finish_load (s : Sim) (X : Nat) (op : Op) (al rl : Nat) :
    miss_finish s X op al rl
      = match load_slot s X with
        | some slot => load_page (before_load s X) slot X op al rl
        | none => before_load s X := by
  rw [miss_finish_eq]
  unfold load_slot before_load
  rcases Option.eq_none_or_eq_some (find_empty_slot s.buffer) with hf | ⟨slot, hf⟩
  · rw [hf]
    simp only []
    rcases Option.eq_none_or_eq_some (chosen s X).2 with hc | ⟨v, hc⟩
    · rw [hc]
    · rw [hc]; rfl
  · rw [hf]

theorem before_load_fixed (s : Sim) (X : Nat) : (before_load s X).fixed = s.fixed := by
  unfold before_load
  split
  · rfl
  · split
    · exact evicted_fixed _ _ _
    · exact chosen_fixed _ _

theorem evicted_buffer (s : Sim) (X v : Nat) (hv : (chosen s X).2 = some v) :
    v < s.buffer.length ∧
    ∃ (b : List BufferFrame) (g : BufferFrame), b.map erase_ref = s.buffer.map erase_ref ∧
      g.page_id = INVALID_PAGE ∧
      (evicted s X v).buffer = b.set v g := by
  obtain ⟨hb, hlt, _, _, _⟩ := chosen_spec s X
  have hvN := hlt v hv
  have hv' : v < (chosen s X).1.buffer.length := by rw [length_mod_ref _ _ hb]; exact hvN
  obtain ⟨_, _, ⟨g, hgi, hgb⟩, _⟩ := process_victim_spec (chosen s X).1 v hv'
  exact ⟨hvN, _, g, hb, hgi, hgb⟩

theorem no_page_mod_ref (b b' : List BufferFrame) (h : b'.map erase_ref = b.map erase_ref)
    (X : Nat) (hX : ∀ f ∈ b, f.page_id ≠ X) : ∀ f ∈ b', f.page_id ≠ X := by
  intro f hf
  obtain ⟨g, hg, he⟩ := mem_mod_ref b b' h f hf
  have h1 : g.page_id = f.page_id := congrArg (fun x => x.page_id) he
  rw [← h1]; exact hX g hg

theorem before_load_no_page (s : Sim) (X : Nat) (hX : X ≠ INVALID_PAGE)
    (hno : ∀ f ∈ s.buffer, f.page_id ≠ X) : ∀ f ∈ (before_load s X).buffer, f.page_id ≠ X := by
  unfold before_load
  split
  · exact hno
  · split
    · rename_i v hv
      obtain ⟨_, b, g, hb, hgi, hgb⟩ := evicted_buffer s X v hv
      rw [hgb]
      intro f hf
      rcases List.mem_or_eq_of_mem_set hf with hf | hf
      · exact no_page_mod_ref _ _ hb X hno f hf
      · rw [hf, hgi]; exact fun e => hX e.symm
    · exact no_page_mod_ref _ _ (chosen_spec s X).1 X hno

theorem load_slot_lt (s : Sim) (X slot : Nat) (h : load_slot s X = some slot) :
    slot < (before_load s X).buffer.length ∧
    (frame_at (before_load s X).buffer slot).page_id = INVALID_PAGE := by
  have hfix := before_load_fixed s X
  simp only [Sim.fixed, Prod.mk.injEq] at hfix
  unfold load_slot at h
  unfold before_load at hfix ⊢
  rcases Option.eq_none_or_eq_some (find_empty_slot s.buffer) with hf | ⟨i, hf⟩
  · rw [hf] at h hfix ⊢
    simp only [] at h hfix ⊢
    rw [h] at hfix ⊢
    simp only [] at hfix ⊢
    obtain ⟨hvN, b, g, hb, hgi, hgb⟩ := evicted_buffer s X slot h
    refine ⟨by rw [hfix.2.2.2.2.2]; exact hvN, ?_⟩
    rw [hgb, frame_at_set_eq _ _ _ (by rw [length_mod_ref _ _ hb]; exact hvN)]
    exact hgi
  · rw [hf] at h ⊢
    simp only [Option.some.injEq] at h ⊢
    subst h
    exact find_empty_slot_some _ _ hf

theorem load_slot_exists (s : Sim) (X : Nat) (hN : 0 < s.buffer.length) :
    ∃ slot, load_slot s X = some slot := by
  unfold load_slot
  rcases Option.eq_none_or_eq_some (find_empty_slot s.buffer) with hf | ⟨i, hf⟩
  · rw [hf]
    exact chosen_exists s X hN hf
  · rw [hf]
    exact ⟨i, rfl⟩

/-- The entry state of the miss branch of `access_page` and the two list types step A
hands to the load. -/
theorem access_page_miss (s : Sim) (lba X : Nat) (op : Op) (hX : X ≠ INVALID_PAGE)
    (hmiss : find_in_buffer s.buffer X = none) :
    access_page s lba X op
      = match load_slot (miss_entry s X) X with
        | some slot =>
          load_page (before_load (miss_entry s X) X) slot X op
            (step_a s.current_policy s.buffer.length s.arc_state X).actual_load_list_type
            (step_a s.current_policy s.buffer.length s.arc_state X).ref_load_list_type
        | none => before_load (miss_entry s X) X := by
  rw [← miss_finish_load]
  unfold access_page
  simp only [hX, if_false, hmiss]
  rw [access_miss_eq]
  rfl

theorem miss_entry_fixed (s : Sim) (X : Nat) :
    (miss_entry s X).fixed
      = (s.current_policy, (s.current_time + 1) % U64, s.hits, s.misses + 1,
          s.zone_size_pages_global, s.buffer.length) := rfl

theorem miss_entry_buffer (s : Sim) (X : Nat) : (miss_entry s X).buffer = s.buffer := rfl

/-! ## LRU against LRU-ARC with the target p held at N -/

/-- C12 (as stated): with N = 2, on the accesses to pages 0, 0, 1, 2, 1, LRU-ARC with p
held at N (p is N before and after every access) misses the last access, which pure LRU
hits: on the miss of page 2 LRU-ARC evicts page 1, the only page of T1, where LRU evicts
page 0, the least recently used page. -/
theorem lru_arc_held_counterexample :
    p_sequence true (init_sim 2 LRU_ARC 0) lru_arc_split = [2, 2, 2, 2, 2] ∧
    hit_sequence true (init_sim 2 LRU_ARC 0) lru_arc_split
      = [false, true, false, false, false] ∧
    hit_sequence false (init_sim 2 LRU 0) lru_arc_split
      = [false, true, false, false, true] ∧
    hit_sequence true (init_sim 2 LRU_ARC 0) lru_arc_split
      ≠ hit_sequence false (init_sim 2 LRU 0) lru_arc_split := by
  decide

theorem find_in_buffer_of_none (buf : List BufferFrame) (X : Nat)
    (h : ∀ f ∈ buf, f.page_id ≠ X) : find_in_buffer buf X = none := by
  rcases Option.eq_none_or_eq_some (find_in_buffer buf X) with hn | ⟨i, hi⟩
  · exact hn
  · obtain ⟨hlt, hp⟩ := find_in_buffer_some _ _ _ hi
    exact absurd hp (h _ (frame_at_mem _ _ hlt))

/-- With a single frame, an access hits exactly when the frame holds the page, and
afterwards the frame holds the page accessed, whatever the policy and the ARC state. -/
theorem one_frame_access (s : Sim) (lba X : Nat) (op : Op) (h1 : s.buffer.length = 1) :
    (access_page s lba X op).buffer.length = 1 ∧
    (frame_at (access_page s lba X op).buffer 0).page_id
      = (if X = INVALID_PAGE then (frame_at s.buffer 0).page_id else X) ∧
    ((access_page s lba X op).hits = s.hits + 1 ↔
      X ≠ INVALID_PAGE ∧ (frame_at s.buffer 0).page_id = X) := by
  refine ⟨by rw [access_page_length]; exact h1, ?_⟩
  by_cases hX : X = INVALID_PAGE
  · rw [if_pos hX]
    have he : access_page s lba X op = { s with current_time := (s.current_time + 1) % U64 } := by
      unfold access_page
      simp only [hX, if_true]
    rw [he]
    refine ⟨rfl, ⟨fun h => ?_, fun h => absurd hX h.1⟩⟩
    have h' : s.hits = s.hits + 1 := h
    omega
  · rw [if_neg hX]
    rcases Option.eq_none_or_eq_some (find_in_buffer s.buffer X) with hn | ⟨i, hi⟩
    · have hno := find_in_buffer_none _ _ hn
      have h0 : (frame_at s.buffer 0).page_id ≠ X :=
        hno _ (frame_at_mem _ 0 (by rw [h1]; exact Nat.one_pos))
      rw [access_page_miss s lba X op hX hn]
      have hfix := before_load_fixed (miss_entry s X) X
      simp only [Sim.fixed, Prod.mk.injEq] at hfix
      have hlenE : (before_load (miss_entry s X) X).buffer.length = 1 := by
        rw [hfix.2.2.2.2.2]; exact h1
      obtain ⟨slot, hs⟩ := load_slot_exists (miss_entry s X) X (by
        show 0 < s.buffer.length
        rw [h1]; exact Nat.one_pos)
      obtain ⟨hslot, _⟩ := load_slot_lt _ _ _ hs
      have hs0 : slot = 0 := by omega
      subst hs0
      rw [hs]
      simp only []
      have hlf := load_page_fixed (before_load (miss_entry s X) X) 0 X op
        (step_a s.current_policy s.buffer.length s.arc_state X).actual_load_list_type
        (step_a s.current_policy s.buffer.length s.arc_state X).ref_load_list_type
      simp only [Sim.fixed, Prod.mk.injEq] at hlf
      refine ⟨?_, ?_⟩
      · rw [load_page_eq]
        simp only [frame_at_set_eq _ _ _ hslot]
        exact (load_frame_fields _ _ _ _ _ _ _).1
      · rw [hlf.2.2.1, hfix.2.2.1]
        have : (miss_entry s X).hits = s.hits := rfl
        rw [this]
        constructor
        · intro h; omega
        · intro h; exact absurd h.2 h0
    · obtain ⟨hlt, hp⟩ := find_in_buffer_some _ _ _ hi
      have hi0 : i = 0 := by omega
      subst hi0
      obtain ⟨e2, e4⟩ := access_page_hit_page s lba X op 0 hX hi
      exact ⟨e4, by rw [e2]; exact ⟨fun _ => ⟨hX, hp⟩, fun _ => rfl⟩⟩

theorem one_frame_sequences (hold1 hold2 : Bool) (tr : List (Nat × Op)) (s1 s2 : Sim)
    (h1 : s1.buffer.length = 1) (h2 : s2.buffer.length = 1)
    (hp : (frame_at s1.buffer 0).page_id = (frame_at s2.buffer 0).page_id) :
    hit_sequence hold1 s1 tr = hit_sequence hold2 s2 tr := by
  induction tr generalizing s1 s2 with
  | nil => rfl
  | cons r rest ih =>
    obtain ⟨lba, op⟩ := r
    have g1 : (if hold1 then hold_p s1 else s1).buffer.length = 1 := by
      split_ifs <;> exact h1
    have g2 : (if hold2 then hold_p s2 else s2).buffer.length = 1 := by
      split_ifs <;> exact h2
    have gp : (frame_at (if hold1 then hold_p s1 else s1).buffer 0).page_id
        = (frame_at (if hold2 then hold_p s2 else s2).buffer 0).page_id := by
      have e1 : (if hold1 then hold_p s1 else s1).buffer = s1.buffer := by split_ifs <;> rfl
      have e2 : (if hold2 then hold_p s2 else s2).buffer = s2.buffer := by split_ifs <;> rfl
      rw [e1, e2]; exact hp
    obtain ⟨a1, a2, a3⟩ := one_frame_access (if hold1 then hold_p s1 else s1) lba
      (lba_to_page_id lba) op g1
    obtain ⟨b1, b2, b3⟩ := one_frame_access (if hold2 then hold_p s2 else s2) lba
      (lba_to_page_id lba) op g2
    simp only [hit_sequence]
    congr 1
    · rw [Bool.eq_iff_iff, decide_eq_true_iff, decide_eq_true_iff, a3, b3, gp]
    · exact ih _ _ a1 b1 (by rw [a2, b2, gp])

/-- C12 (amended): with a single frame (N = 1), for every zone size and every trace of
access records, LRU-ARC with p forced to N before every access produces the same per-access
hit/miss sequence as pure LRU.  (For N = 2 the sequences differ on the trace
`lru_arc_split`.) -/
theorem lru_arc_held_single_frame (zs : Nat) (trace : List (Nat × Op)) :
    hit_sequence true (init_sim 1 LRU_ARC zs) trace
      = hit_sequence false (init_sim 1 LRU zs) trace :=
  one_frame_sequences true false trace _ _ (init_sim_length 1 LRU_ARC zs)
    (init_sim_length 1 LRU zs) rfl

/-! ## Policy switch: the shadow placement -/

/-- What the relabelling loop gives a resident frame on a switch to LRU, LRU_ARC, LFU or
LFU_ARC, whatever the old policy and the old tags: the first partition of the family. -/
theorem relabel_frame_first_list (o n : ReplacementPolicy) (f : BufferFrame) (a : ARCState)
    (hres : f.page_id ≠ INVALID_PAGE) :
    (n = LRU_ARC → (relabel_frame o n f a).1.list_type = 1) ∧
    (n = LRU → (relabel_frame o n f a).1.ref_arc_list_type = 1) ∧
    (n = LFU_ARC → (relabel_frame o n f a).1.list_type = 3) ∧
    (n = LFU → (relabel_frame o n f a).1.ref_arc_list_type = 3) := by
  refine ⟨fun h => ?_, fun h => ?_, fun h => ?_, fun h => ?_⟩ <;> subst h <;>
    simp [relabel_frame, hres]

/-- C11 (as stated) fails: under LRU with N = 2, after the accesses 0 R, 0 R, 8 R the shadow
tags of the two frames are 2 and 1 and (t1_size, t2_size) = (1, 1); after the switch P 8 to
LRU_ARC both frames have list_type 1 and (t1_size, t2_size) = (2, 0).  In the other
direction, under LRU_ARC the same accesses give list types 2 and 1 and sizes (1, 1); after
the switch P 7 to LRU both shadow tags are 1 and the sizes are (2, 0). -/
theorem switch_forgets_placement :
    ((run (init_sim 2 LRU 0) placement_trace).buffer.map (fun f => f.ref_arc_list_type) = [2, 1] ∧
      (run (init_sim 2 LRU 0) placement_trace).arc_state.t1_size = 1 ∧
      (run (init_sim 2 LRU 0) placement_trace).arc_state.t2_size = 1 ∧
      (process_record (run (init_sim 2 LRU 0) placement_trace)
        (Record.policy_change 8)).current_policy = LRU_ARC ∧
      (process_record (run (init_sim 2 LRU 0) placement_trace)
        (Record.policy_change 8)).buffer.map (fun f => f.list_type) = [1, 1] ∧
      (process_record (run (init_sim 2 LRU 0) placement_trace)
        (Record.policy_change 8)).arc_state.t1_size = 2 ∧
      (process_record (run (init_sim 2 LRU 0) placement_trace)
        (Record.policy_change 8)).arc_state.t2_size = 0) ∧
    ((run (init_sim 2 LRU_ARC 0) placement_trace).buffer.map (fun f => f.list_type) = [2, 1] ∧
      (run (init_sim 2 LRU_ARC 0) placement_trace).arc_state.t1_size = 1 ∧
      (run (init_sim 2 LRU_ARC 0) placement_trace).arc_state.t2_size = 1 ∧
      (process_record (run (init_sim 2 LRU_ARC 0) placement_trace)
        (Record.policy_change 7)).current_policy = LRU ∧
      (process_record (run (init_sim 2 LRU_ARC 0) placement_trace)
        (Record.policy_change 7)).buffer.map (fun f => f.ref_arc_list_type) = [1, 1] ∧
      (process_record (run (init_sim 2 LRU_ARC 0) placement_trace)
        (Record.policy_change 7)).arc_state.t1_size = 2 ∧
      (process_record (run (init_sim 2 LRU_ARC 0) placement_trace)
        (Record.policy_change 7)).arc_state.t2_size = 0) := by
  decide

/-! ## One access: the frame a miss loads -/

theorem step_a_lru_types (pol : ReplacementPolicy) (hp : pol = LRU ∨ pol = LRU_ARC) (N : Nat)
    (a : ARCState) (X : Nat) :
    (step_a pol N a X).ref_load_list_type = (if X ∈ a.b1 ∨ X ∈ a.b2 then 2 else 1) ∧
    (step_a pol N a X).actual_load_list_type
      = (if pol = LRU then 1 else if X ∈ a.b1 ∨ X ∈ a.b2 then 2 else 1) ∧
    (X ∈ a.b1 → (step_a pol N a X).arc.p
      = min (N : Int) (a.p + max 1 ((a.b2.length : Int) / (a.b1.length : Int)))) := by
  by_cases h1 : X ∈ a.b1
  · have f1 := find_in_arc_ghost_true X a.b1 h1
    have hpos : (0 : Int) < (a.b1.length : Int) := by
      have := List.length_pos_of_mem h1
      omega
    rcases hp with hp | hp <;> subst hp <;>
      simp [step_a, f1, h1, hpos]
  · have f1 := find_in_arc_ghost_false X a.b1 h1
    by_cases h2 : X ∈ a.b2
    · have f2 := find_in_arc_ghost_true X a.b2 h2
      rcases hp with hp | hp <;> subst hp <;>
        simp [step_a, f1, f2, h1, h2]
    · have f2 := find_in_arc_ghost_false X a.b2 h2
      rcases hp with hp | hp <;> subst hp <;>
        simp [step_a, f1, f2, h1, h2]

theorem step_a_lfu_types (pol : ReplacementPolicy) (hp : pol = LFU ∨ pol = LFU_ARC) (N : Nat)
    (a : ARCState) (X : Nat) :
    (step_a pol N a X).ref_load_list_type = (if X ∈ a.b3 ∨ X ∈ a.b4 then 4 else 3) ∧
    (step_a pol N a X).actual_load_list_type
      = (if pol = LFU then 3 else if X ∈ a.b3 ∨ X ∈ a.b4 then 4 else 3) := by
  by_cases h1 : X ∈ a.b3
  · have f1 := find_in_arc_ghost_true X a.b3 h1
    rcases hp with hp | hp <;> subst hp <;>
      simp [step_a, f1, h1]
  · have f1 := find_in_arc_ghost_false X a.b3 h1
    by_cases h2 : X ∈ a.b4
    · have f2 := find_in_arc_ghost_true X a.b4 h2
      rcases hp with hp | hp <;> subst hp <;>
        simp [step_a, f1, f2, h1, h2]
    · have f2 := find_in_arc_ghost_false X a.b4 h2
      rcases hp with hp | hp <;> subst hp <;>
        simp [step_a, f1, f2, h1, h2]

theorem load_frame_all (pol : ReplacementPolicy) (f0 : BufferFrame) (T X : Nat) (op : Op)
    (al rl : Nat) :
    (load_frame pol f0 T X op al rl).is_dirty = (if op = OP_WRITE then 1 else 0) ∧
    (load_frame pol f0 T X op al rl).ref_bit = (if pol = FIFO then 0 else 1) ∧
    (pol = LRU ∨ pol = LFU ∨ pol = LRU_ARC ∨ pol = LFU_ARC →
      (load_frame pol f0 T X op al rl).list_type = al) ∧
    (pol = LRU ∨ pol = LFU → (load_frame pol f0 T X op al rl).ref_arc_list_type = rl) ∧
    (pol = CLOCK_T1 ∨ pol = CLOCK_PRO_T1_B4_LOGS_B2 →
      (load_frame pol f0 T X op al rl).list_type = 1) ∧
    (pol = CLOCK_T3 ∨ pol = CLOCK_PRO_T3_B2_LOGS_B4 →
      (load_frame pol f0 T X op al rl).list_type = 3) ∧
    (pol = FIFO → (load_frame pol f0 T X op al rl).list_type = 0) := by
  cases pol <;> simp [load_frame]

theorem load_arc_sizes (pol : ReplacementPolicy) (a : ARCState) (N X al rl k : Nat)
    (hl : load_ok pol al rl)
    (hk : k = if pol = LRU ∨ pol = LFU then rl
      else if pol = LRU_ARC ∨ pol = LFU_ARC then al
      else if pol = CLOCK_T1 ∨ pol = CLOCK_PRO_T1_B4_LOGS_B2 then 1
      else if pol = CLOCK_T3 ∨ pol = CLOCK_PRO_T3_B2_LOGS_B4 then 3 else 0) :
    (pol = LRU ∨ pol = LRU_ARC ∨ pol = LFU ∨ pol = LFU_ARC →
      size_of (load_arc pol a N X al rl) k = size_of a k + 1) ∧
    (pol = CLOCK_T1 ∨ pol = CLOCK_T3 ∨ pol = CLOCK_PRO_T1_B4_LOGS_B2 ∨
        pol = CLOCK_PRO_T3_B2_LOGS_B4 →
      size_of (load_arc pol a N X al rl) k
        = if size_of a k < (N : Int) then size_of a k + 1 else size_of a k) ∧
    (pol = FIFO →
      (load_arc pol a N X al rl).t1_size = a.t1_size ∧
      (load_arc pol a N X al rl).t2_size = a.t2_size ∧
      (load_arc pol a N X al rl).t3_size = a.t3_size ∧
      (load_arc pol a N X al rl).t4_size = a.t4_size) := by
  cases pol <;> simp only [load_ok] at hl <;>
    simp only [reduceCtorEq, or_self, or_true, true_or, or_false, false_or, if_true,
      if_false] at hk <;> subst hk <;>
    simp only [reduceCtorEq, or_self, or_true, true_or, or_false, false_or, false_implies,
      true_implies, and_true, true_and, load_arc, size_of]
  case LRU => rcases hl.2 with h | h <;> rw [h] <;> simp
  case LFU => rcases hl.2 with h | h <;> rw [h] <;> simp
  case LRU_ARC => rcases hl with h | h <;> rw [h] <;> simp
  case LFU_ARC => rcases hl with h | h <;> rw [h] <;> simp
  all_goals (split_ifs <;> first | omega | simp)

theorem load_frame_tag (pol : ReplacementPolicy) (f0 : BufferFrame) (T X : Nat) (op : Op)
    (al rl : Nat) :
    frame_tag pol (load_frame pol f0 T X op al rl)
      = if pol = LRU ∨ pol = LFU then rl
        else if pol = LRU_ARC ∨ pol = LFU_ARC then al
        else if pol = CLOCK_T1 ∨ pol = CLOCK_PRO_T1_B4_LOGS_B2 then 1
        else if pol = CLOCK_T3 ∨ pol = CLOCK_PRO_T3_B2_LOGS_B4 then 3 else 0 := by
  cases pol <;> simp [frame_tag, load_frame]

/-- C20 (as stated) fails in its last sentence: under CLOCK_T1 with N = 1, when page 1 is
read while page 0 is resident, the eviction leaves t1_size at 1 and the load, which counts
only below N, leaves it at 1: the counter of the partition page 1 is placed in (T1) is not
one larger than after the eviction. -/
theorem loaded_frame_counterexample :
    find_in_buffer clock_full.buffer 1 = none ∧
    (frame_at (access_page clock_full 8 1 OP_READ).buffer 0).page_id = 1 ∧
    (frame_at (access_page clock_full 8 1 OP_READ).buffer 0).list_type = 1 ∧
    (before_load (miss_entry clock_full 1) 1).arc_state.t1_size = 1 ∧
    (access_page clock_full 8 1 OP_READ).arc_state.t1_size = 1 ∧
    ¬ ((access_page clock_full 8 1 OP_READ).arc_state.t1_size
        = (before_load (miss_entry clock_full 1) 1).arc_state.t1_size + 1) := by
  decide

/-- C20 (amended): after a miss on a valid page X with operation op (`s'` the state after
the access, `e` the state right before the block "load the new page", that is after the
eviction if there was one), every frame `g` that holds X has
load_time = last_access_time = current_time, access_count = 1, is_dirty = (op is Write),
ref_bit = 0 under FIFO and 1 under every other policy; under LRU its list_type is 1 and its
ref_arc_list_type is 2 if X was in B1 or B2 before the access and 1 otherwise (LFU:
list_type 3, shadow tag 4 if X was in B3 or B4, else 3); under LRU_ARC (LFU_ARC) its
list_type is 2 (4) if X was in B1 or B2 (B3 or B4) and 1 (3) otherwise; under the CLOCK
policies its list_type is 1 (T1 variants) or 3 (T3 variants), under FIFO 0.  The size
counter of the partition the frame was placed in is one larger than in `e` under LRU,
LRU_ARC, LFU and LFU_ARC; under the four CLOCK policies it is one larger only if it was below
N in `e` and is unchanged otherwise; under FIFO no size counter changes. -/
theorem loaded_frame (s : Sim) (lba X : Nat) (op : Op) (i : Nat) (s' e : Sim)
    (g : BufferFrame) (hX : X ≠ INVALID_PAGE) (hmiss : find_in_buffer s.buffer X = none)
    (hs' : s' = access_page s lba X op) (he : e = before_load (miss_entry s X) X)
    (hi : i < s.buffer.length) (hg : g = frame_at s'.buffer i) (hgX : g.page_id = X) :
    (g.load_time = s'.current_time ∧ g.last_access_time = s'.current_time ∧
      g.access_count = 1 ∧ g.is_dirty = (if op = OP_WRITE then 1 else 0) ∧
      g.ref_bit = (if s.current_policy = FIFO then 0 else 1)) ∧
    (s.current_policy = LRU →
      g.list_type = 1 ∧
      g.ref_arc_list_type = (if X ∈ s.arc_state.b1 ∨ X ∈ s.arc_state.b2 then 2 else 1)) ∧
    (s.current_policy = LFU →
      g.list_type = 3 ∧
      g.ref_arc_list_type = (if X ∈ s.arc_state.b3 ∨ X ∈ s.arc_state.b4 then 4 else 3)) ∧
    (s.current_policy = LRU_ARC →
      g.list_type = (if X ∈ s.arc_state.b1 ∨ X ∈ s.arc_state.b2 then 2 else 1)) ∧
    (s.current_policy = LFU_ARC →
      g.list_type = (if X ∈ s.arc_state.b3 ∨ X ∈ s.arc_state.b4 then 4 else 3)) ∧
    (s.current_policy = CLOCK_T1 ∨ s.current_policy = CLOCK_PRO_T1_B4_LOGS_B2 →
      g.list_type = 1) ∧
    (s.current_policy = CLOCK_T3 ∨ s.current_policy = CLOCK_PRO_T3_B2_LOGS_B4 →
      g.list_type = 3) ∧
    (s.current_policy = FIFO → g.list_type = 0) ∧
    (s.current_policy = LRU ∨ s.current_policy = LRU_ARC ∨ s.current_policy = LFU ∨
        s.current_policy = LFU_ARC →
      size_of s'.arc_state (frame_tag s.current_policy g)
        = size_of e.arc_state (frame_tag s.current_policy g) + 1) ∧
    (s.current_policy = CLOCK_T1 ∨ s.current_policy = CLOCK_T3 ∨
        s.current_policy = CLOCK_PRO_T1_B4_LOGS_B2 ∨
        s.current_policy = CLOCK_PRO_T3_B2_LOGS_B4 →
      size_of s'.arc_state (frame_tag s.current_policy g)
        = if size_of e.arc_state (frame_tag s.current_policy g) < (s.buffer.length : Int) then
            size_of e.arc_state (frame_tag s.current_policy g) + 1
          else size_of e.arc_state (frame_tag s.current_policy g)) ∧
    (s.current_policy = FIFO →
      s'.arc_state.t1_size = e.arc_state.t1_size ∧ s'.arc_state.t2_size = e.arc_state.t2_size ∧
      s'.arc_state.t3_size = e.arc_state.t3_size ∧
      s'.arc_state.t4_size = e.arc_state.t4_size) := by
  have hno := before_load_no_page (miss_entry s X) X hX (find_in_buffer_none _ _ hmiss)
  have hfix := before_load_fixed (miss_entry s X) X
  rw [miss_entry_fixed] at hfix
  simp only [Sim.fixed, Prod.mk.injEq] at hfix
  obtain ⟨hpol, htime, _, _, _, hlen⟩ := hfix
  rw [← he] at hno hpol htime hlen
  have hie : i < e.buffer.length := by rw [hlen]; exact hi
  rw [access_page_miss s lba X op hX hmiss, ← he] at hs'
  rcases Option.eq_none_or_eq_some (load_slot (miss_entry s X) X) with hn | ⟨slot, hsl⟩
  · rw [hn] at hs'
    simp only [] at hs'
    subst hs'
    rw [hg] at hgX
    exact absurd hgX (hno _ (frame_at_mem _ _ hie))
  · rw [hsl] at hs'
    simp only [] at hs'
    rw [load_page_eq] at hs'
    have hslot := (load_slot_lt _ _ _ hsl).1
    rw [← he] at hslot
    have hbuf : s'.buffer = e.buffer.set slot
        (load_frame e.current_policy (frame_at e.buffer slot) e.current_time X op
          (step_a s.current_policy s.buffer.length s.arc_state X).actual_load_list_type
          (step_a s.current_policy s.buffer.length s.arc_state X).ref_load_list_type) := by
      rw [hs']
    have harc : s'.arc_state = load_arc e.current_policy e.arc_state e.buffer.length X
          (step_a s.current_policy s.buffer.length s.arc_state X).actual_load_list_type
          (step_a s.current_policy s.buffer.length s.arc_state X).ref_load_list_type := by
      rw [hs']
    have ht' : s'.current_time = e.current_time := by rw [hs']
    by_cases his : i = slot
    · subst his
      rw [hbuf, frame_at_set_eq _ _ _ hslot, hpol] at hg
      have hf := load_frame_fields s.current_policy (frame_at e.buffer i) e.current_time X op
        (step_a s.current_policy s.buffer.length s.arc_state X).actual_load_list_type
        (step_a s.current_policy s.buffer.length s.arc_state X).ref_load_list_type
      have ha := load_frame_all s.current_policy (frame_at e.buffer i) e.current_time X op
        (step_a s.current_policy s.buffer.length s.arc_state X).actual_load_list_type
        (step_a s.current_policy s.buffer.length s.arc_state X).ref_load_list_type
      have htag := load_frame_tag s.current_policy (frame_at e.buffer i) e.current_time X op
        (step_a s.current_policy s.buffer.length s.arc_state X).actual_load_list_type
        (step_a s.current_policy s.buffer.length s.arc_state X).ref_load_list_type
      have hsz := load_arc_sizes s.current_policy e.arc_state e.buffer.length X
        (step_a s.current_policy s.buffer.length s.arc_state X).actual_load_list_type
        (step_a s.current_policy s.buffer.length s.arc_state X).ref_load_list_type
        (frame_tag s.current_policy g)
        (step_a_load_ok _ _ _ _) (by rw [hg]; exact htag)
      rw [← hg] at hf ha
      rw [hpol] at harc
      rw [← harc, hlen] at hsz
      obtain ⟨a1, a2, a3, a4, a5, a6, a7⟩ := ha
      refine ⟨⟨by rw [ht']; exact hf.2.1, by rw [ht']; exact hf.2.2.1, hf.2.2.2, a1, a2⟩,
        ?_, ?_, ?_, ?_, a5, a6, a7, hsz.1, hsz.2.1, hsz.2.2⟩
      · intro hp
        obtain ⟨t1, t2, _⟩ := step_a_lru_types s.current_policy (Or.inl hp) s.buffer.length
          s.arc_state X
        rw [a3 (Or.inl hp), a4 (Or.inl hp), t1, t2, if_pos hp]
        exact ⟨rfl, rfl⟩
      · intro hp
        obtain ⟨t1, t2⟩ := step_a_lfu_types s.current_policy (Or.inl hp) s.buffer.length
          s.arc_state X
        rw [a3 (Or.inr (Or.inl hp)), a4 (Or.inr hp), t1, t2, if_pos hp]
        exact ⟨rfl, rfl⟩
      · intro hp
        obtain ⟨_, t2, _⟩ := step_a_lru_types s.current_policy (Or.inr hp) s.buffer.length
          s.arc_state X
        rw [a3 (Or.inr (Or.inr (Or.inl hp))), t2, if_neg (by rw [hp]; decide)]
      · intro hp
        obtain ⟨_, t2⟩ := step_a_lfu_types s.current_policy (Or.inr hp) s.buffer.length
          s.arc_state X
        rw [a3 (Or.inr (Or.inr (Or.inr hp))), t2, if_neg (by rw [hp]; decide)]
    · rw [hbuf, frame_at_set_ne _ _ _ _ his] at hg
      rw [hg] at hgX
      exact absurd hgX (hno _ (frame_at_mem _ _ hie))

theorem loaded_frame_witness :
    (1 ≠ INVALID_PAGE ∧ find_in_buffer clock_full.buffer 1 = none ∧
      0 < clock_full.buffer.length ∧
      (frame_at (access_page clock_full 8 1 OP_WRITE).buffer 0).page_id = 1) ∧
    (frame_at (access_page clock_full 8 1 OP_WRITE).buffer 0).is_dirty = 1 ∧
    (frame_at (access_page clock_full 8 1 OP_WRITE).buffer 0).access_count = 1 := by
  have h := (loaded_frame clock_full 8 1 OP_WRITE 0 _ _ _ (by decide) (by decide) rfl rfl
    (by decide) rfl (by decide)).1
  exact ⟨⟨by decide, by decide, by decide, by decide⟩, h.2.2.2.1.trans (by decide), h.2.2.1⟩

/-! ## Ghost history across a switch -/

theorem lru_arc_outcome_pq (buf : List BufferFrame) (a : ARCState)
    (r : Option Nat × ARCState) (h : lru_arc_outcome buf a r) : r.2.p = a.p ∧ r.2.q = a.q := by
  rcases h with ⟨h1, _⟩ | ⟨w, _, _, _, h2⟩ | ⟨w, _, _, _, h2⟩ | ⟨h1, _⟩
  · rw [h1]; exact ⟨rfl, rfl⟩
  · rw [h2]; exact ⟨rfl, rfl⟩
  · rw [h2]; exact ⟨rfl, rfl⟩
  · simp only [arc_ghosts, Prod.mk.injEq] at h1
    exact ⟨h1.2.2.2.2.1, h1.2.2.2.2.2⟩

theorem lfu_arc_outcome_pq (buf : List BufferFrame) (a : ARCState)
    (r : Option Nat × ARCState) (h : lfu_arc_outcome buf a r) : r.2.p = a.p ∧ r.2.q = a.q := by
  rcases h with ⟨h1, _⟩ | ⟨w, _, _, _, h2⟩ | ⟨w, _, _, _, h2⟩ | ⟨h1, _⟩
  · rw [h1]; exact ⟨rfl, rfl⟩
  · rw [h2]; exact ⟨rfl, rfl⟩
  · rw [h2]; exact ⟨rfl, rfl⟩
  · simp only [arc_ghosts, Prod.mk.injEq] at h1
    exact ⟨h1.2.2.2.2.1, h1.2.2.2.2.2⟩

theorem select_victim_pq (s : Sim) (X : Nat) :
    (select_victim s X).1.arc_state.p = s.arc_state.p ∧
    (select_victim s X).1.arc_state.q = s.arc_state.q := by
  by_cases h1 : s.current_policy = LRU_ARC
  · rw [select_victim_lru_arc s X h1]
    exact lru_arc_outcome_pq _ _ _ (arc_find_victim_lru_arc_spec s.buffer s.arc_state X)
  · by_cases h2 : s.current_policy = LFU_ARC
    · rw [select_victim_lfu_arc s X h2]
      exact lfu_arc_outcome_pq _ _ _ (arc_find_victim_lfu_arc_spec s.buffer s.arc_state X)
    · obtain ⟨_, a2, _⟩ := select_victim_plain s X h1 h2
      simp only [arc_ghosts, Prod.mk.injEq] at a2
      exact ⟨a2.2.2.2.2.1, a2.2.2.2.2.2⟩

theorem chosen_pq (s : Sim) (X : Nat) :
    (chosen s X).1.arc_state.p = s.arc_state.p ∧ (chosen s X).1.arc_state.q = s.arc_state.q := by
  obtain ⟨_, _, _, f4, _, _⟩ := victim_fallback_spec (select_victim s X).1 (select_victim s X).2
  obtain ⟨g1, g2⟩ := select_victim_pq s X
  simp only [arc_ghosts, Prod.mk.injEq] at f4
  unfold chosen
  exact ⟨f4.2.2.2.2.1.trans g1, f4.2.2.2.2.2.trans g2⟩

theorem evict_arc_pq (pol : ReplacementPolicy) (a : ARCState) (N : Nat) (f : BufferFrame) :
    (evict_arc pol a N f).p = a.p ∧ (evict_arc pol a N f).q = a.q := by
  unfold evict_arc
  split_ifs <;> exact ⟨rfl, rfl⟩

theorem load_arc_pq (pol : ReplacementPolicy) (a : ARCState) (N X al rl : Nat) :
    (load_arc pol a N X al rl).p = a.p ∧ (load_arc pol a N X al rl).q = a.q := by
  cases pol <;> simp only [load_arc] <;> (try split_ifs) <;> simp

theorem before_load_pq (s : Sim) (X : Nat) :
    (before_load s X).arc_state.p = s.arc_state.p ∧
    (before_load s X).arc_state.q = s.arc_state.q := by
  unfold before_load
  split
  · exact ⟨rfl, rfl⟩
  · split
    · rename_i v hv
      obtain ⟨hb, hlt, _, _, _⟩ := chosen_spec s X
      have hv' : v < (chosen s X).1.buffer.length := by
        rw [length_mod_ref _ _ hb]; exact hlt v hv
      obtain ⟨_, _, _, p4⟩ := process_victim_spec (chosen s X).1 v hv'
      obtain ⟨c1, c2⟩ := chosen_pq s X
      obtain ⟨e1, e2⟩ := evict_arc_pq (chosen s X).1.current_policy (chosen s X).1.arc_state
        (chosen s X).1.buffer.length (frame_at (chosen s X).1.buffer v)
      unfold evicted
      rw [p4]
      exact ⟨e1.trans c1, e2.trans c2⟩
    · exact chosen_pq s X

theorem before_load_fresh (s : Sim) (X : Nat) (h : s.wf)
    (hfr : fresh s.current_policy s.buffer s.arc_state X) (hX : X ≠ INVALID_PAGE) :
    fresh s.current_policy (before_load s X).buffer (before_load s X).arc_state X := by
  unfold before_load
  rcases Option.eq_none_or_eq_some (find_empty_slot s.buffer) with hf | ⟨slot, hf⟩
  · rw [hf]
    simp only []
    rcases Option.eq_none_or_eq_some (chosen s X).2 with hc | ⟨v, hc⟩
    · rw [hc]
      simp only []
      obtain ⟨hb, _, hnone, _, _⟩ := chosen_spec s X
      have hg := hnone hc
      simp only [arc_ghosts, Prod.mk.injEq] at hg
      obtain ⟨e1, e2, e3, e4, _, _⟩ := hg
      refine ⟨no_page_mod_ref _ _ hb X hfr.1, fun hp => ?_⟩
      rw [e1, e2, e3, e4]
      exact hfr.2 hp
    · rw [hc]
      simp only []
      exact (evicted_wf s X v h hfr hf hX hc).2.2.1
  · rw [hf]
    exact hfr

theorem switch_policy_carry (s : Sim) (new_policy : ReplacementPolicy)
    (hc : carries_over s.current_policy new_policy) :
    arc_ghosts (switch_policy s new_policy).arc_state = arc_ghosts s.arc_state := by
  rw [switch_policy_eq, reset_flag_false _ _ hc]
  obtain ⟨e5, e6, e1, e2, e3, e4⟩ := relabel_loop_arc s.current_policy new_policy s.buffer
    { initialize_arc_state false new_policy s.buffer.length s.arc_state with
      t1_size := 0, t2_size := 0, t3_size := 0, t4_size := 0 }
  simp only [arc_ghosts, Prod.mk.injEq]
  exact ⟨e1, e2, e3, e4, e5, e6⟩

theorem no_page_of_core (b b' : List BufferFrame) (h : b'.map frame_core = b.map frame_core)
    (X : Nat) (hX : ∀ f ∈ b, f.page_id ≠ X) : ∀ f ∈ b', f.page_id ≠ X := by
  intro f hf
  have hm : frame_core f ∈ b.map frame_core := by
    rw [← h]; exact List.mem_map_of_mem _ hf
  obtain ⟨g, hg, he⟩ := List.mem_map.1 hm
  have hpg : g.page_id = f.page_id := congrArg (fun c => c.1) he
  rw [← hpg]
  exact hX g hg

/-- C15: ghost history built under LRU is usable after a switch to LRU_ARC.  Let `s` be a
state reached from an initial state by any records, with active policy LRU, in which the
page X of an LBA (below 2^64) is in B1 and not resident; let `s1` be the state after the
record P 8 and `s2` the state after the following access to that LBA.  Then `s1` runs
LRU_ARC with the ghost lists and p of `s`, the access is counted as a miss and not as a
hit, X is no longer in B1, p is min(N, p_before + max(1, b2_size / b1_size)) (the sizes
taken in `s`), and p > 0. -/
theorem ghost_history_after_switch (N : Nat) (pol : ReplacementPolicy) (zs : Nat)
    (trace : List Record) (lba : Nat) (op : Op) (s s1 s2 : Sim) (hl : lba < U64)
    (hs : s = run (init_sim N pol zs) trace) (hpol : s.current_policy = LRU)
    (hB1 : lba_to_page_id lba ∈ s.arc_state.b1)
    (hnr : ∀ f ∈ s.buffer, f.page_id ≠ lba_to_page_id lba)
    (hs1 : s1 = process_record s (Record.policy_change 8))
    (hs2 : s2 = process_record s1 (Record.access lba op)) :
    s1.current_policy = LRU_ARC ∧ arc_ghosts s1.arc_state = arc_ghosts s.arc_state ∧
    s2.misses = s1.misses + 1 ∧ s2.hits = s1.hits ∧
    lba_to_page_id lba ∉ s2.arc_state.b1 ∧
    s2.arc_state.p
      = min (N : Int)
          (s.arc_state.p + max 1 ((s.arc_state.b2.length : Int) / (s.arc_state.b1.length : Int))) ∧
    0 < s2.arc_state.p := by
  have hwf : s.wf := by rw [hs]; exact run_wf trace _ (init_sim_wf N pol zs)
  have hlen : s.buffer.length = N := by rw [hs, run_length, init_sim_length]
  have hX : lba_to_page_id lba ≠ INVALID_PAGE := by
    unfold lba_to_page_id SECTORS_PER_PAGE INVALID_PAGE ULLONG_MAX
    unfold U64 at hl
    omega
  have hsw : s1 = switch_policy s LRU_ARC := by
    rw [hs1]
    exact process_record_switch s 8 LRU_ARC (by decide) (by rw [hpol]; decide)
  have hcarry := switch_policy_carry s LRU_ARC (by rw [hpol]; exact Or.inl ⟨rfl, rfl⟩)
  rw [← hsw] at hcarry
  have hwf1 : s1.wf := by rw [hsw]; exact switch_policy_wf s LRU_ARC hwf
  have hpol1 : s1.current_policy = LRU_ARC := by rw [hsw]; rfl
  have hlen1 : s1.buffer.length = N := by
    rw [hsw, switch_policy_eq]
    simp only [relabel_loop_length]
    exact hlen
  have hcore : s1.buffer.map frame_core = s.buffer.map frame_core := by
    rw [hsw, switch_policy_eq]
    exact relabel_loop_core _ _ _ _
  have hnr1 := no_page_of_core _ _ hcore _ hnr
  have hg := hcarry
  simp only [arc_ghosts, Prod.mk.injEq] at hg
  obtain ⟨e1, e2, _, _, e5, _⟩ := hg
  have hB1' : lba_to_page_id lba ∈ s1.arc_state.b1 := by rw [e1]; exact hB1
  have hmiss := find_in_buffer_of_none _ _ hnr1
  have hacc : s2 = access_page s1 lba (lba_to_page_id lba) op := hs2
  rw [access_page_miss s1 lba _ op hX hmiss] at hacc
  have hfixb := before_load_fixed (miss_entry s1 (lba_to_page_id lba)) (lba_to_page_id lba)
  rw [miss_entry_fixed] at hfixb
  simp only [Sim.fixed, Prod.mk.injEq] at hfixb
  obtain ⟨hbpol, _, hbh, hbm, _, _⟩ := hfixb
  have hbpq := before_load_pq (miss_entry s1 (lba_to_page_id lba)) (lba_to_page_id lba)
  have hmb := miss_begin_wf { s1 with current_time := (s1.current_time + 1) % U64 }
    (lba_to_page_id lba) hwf1 hnr1
  have hbfr := before_load_fresh (miss_entry s1 (lba_to_page_id lba)) (lba_to_page_id lba)
    hmb.1 hmb.2 hX
  have hfam : s1.current_policy = LRU ∨ s1.current_policy = LRU_ARC ∨
      s1.current_policy = LFU ∨ s1.current_policy = LFU_ARC := Or.inr (Or.inl hpol1)
  have hXb1 := (hbfr.2 hfam).1
  have hp0 : (miss_entry s1 (lba_to_page_id lba)).arc_state.p
      = min (N : Int)
          (s.arc_state.p
            + max 1 ((s.arc_state.b2.length : Int) / (s.arc_state.b1.length : Int))) := by
    have h0 : (miss_entry s1 (lba_to_page_id lba)).arc_state.p
        = (step_a s1.current_policy s1.buffer.length s1.arc_state (lba_to_page_id lba)).arc.p :=
      rfl
    rw [h0, (step_a_lru_types s1.current_policy (Or.inr hpol1) s1.buffer.length s1.arc_state
      (lba_to_page_id lba)).2.2 hB1', hlen1, e1, e2, e5]
  have hok := hwf.2.2
  unfold Sim.ok arc_ok at hok
  obtain ⟨⟨_, hb1len⟩, _, _, _, hp0', _, _, _⟩ := hok
  have hNpos : 0 < N := by
    have := List.length_pos_of_mem hB1
    rw [hlen] at hb1len
    omega
  have hppos : 0 < min (N : Int)
      (s.arc_state.p
        + max 1 ((s.arc_state.b2.length : Int) / (s.arc_state.b1.length : Int))) := by
    have h1 : (1 : Int) ≤ max 1 ((s.arc_state.b2.length : Int) / (s.arc_state.b1.length : Int)) :=
      le_max_left _ _
    have h2 : (0 : Int) < (N : Int) := by omega
    rw [lt_min_iff]
    constructor
    · exact h2
    · omega
  rcases Option.eq_none_or_eq_some
      (load_slot (miss_entry s1 (lba_to_page_id lba)) (lba_to_page_id lba)) with hn | ⟨slot, hsl⟩
  · rw [hn] at hacc
    simp only [] at hacc
    rw [hacc]
    refine ⟨hpol1, hcarry, hbm, hbh, hXb1, ?_, ?_⟩
    · rw [hbpq.1, hp0]
    · rw [hbpq.1, hp0]; exact hppos
  · rw [hsl] at hacc
    simp only [] at hacc
    rw [hacc]
    have hlf := load_page_fixed (before_load (miss_entry s1 (lba_to_page_id lba))
      (lba_to_page_id lba)) slot (lba_to_page_id lba) op
      (step_a s1.current_policy s1.buffer.length s1.arc_state
        (lba_to_page_id lba)).actual_load_list_type
      (step_a s1.current_policy s1.buffer.length s1.arc_state
        (lba_to_page_id lba)).ref_load_list_type
    simp only [Sim.fixed, Prod.mk.injEq] at hlf
    obtain ⟨_, _, hlh, hlm, _, _⟩ := hlf
    refine ⟨hpol1, hcarry, hlm.trans hbm, hlh.trans hbh, ?_, ?_, ?_⟩
    · rw [load_page_eq]
      have hfamb := hfam
      rw [← hbpol] at hfamb
      have hlg := load_arc_ghosts _ (before_load (miss_entry s1 (lba_to_page_id lba))
        (lba_to_page_id lba)).arc_state (before_load (miss_entry s1 (lba_to_page_id lba))
        (lba_to_page_id lba)).buffer.length (lba_to_page_id lba)
        (step_a s1.current_policy s1.buffer.length s1.arc_state
          (lba_to_page_id lba)).actual_load_list_type
        (step_a s1.current_policy s1.buffer.length s1.arc_state
          (lba_to_page_id lba)).ref_load_list_type hfamb
      simp only [arc_ghosts, Prod.mk.injEq] at hlg
      show lba_to_page_id lba ∉ (load_arc _ _ _ _ _ _).b1
      rw [hlg.1]
      exact hXb1
    · rw [load_page_eq]
      show (load_arc _ _ _ _ _ _).p = _
      rw [(load_arc_pq _ _ _ _ _ _).1, hbpq.1, hp0]
    · rw [load_page_eq]
      show 0 < (load_arc _ _ _ _ _ _).p
      rw [(load_arc_pq _ _ _ _ _ _).1, hbpq.1, hp0]
      exact hppos

theorem ghost_history_after_switch_witness :
    (0 < U64 ∧ ghost_run.current_policy = LRU ∧
      lba_to_page_id 0 ∈ ghost_run.arc_state.b1 ∧
      ∀ f ∈ ghost_run.buffer, f.page_id ≠ lba_to_page_id 0) ∧
    (process_record (process_record ghost_run (Record.policy_change 8))
      (Record.access 0 OP_READ)).arc_state.p = 1 ∧
    0 < (process_record (process_record ghost_run (Record.policy_change 8))
      (Record.access 0 OP_READ)).arc_state.p := by
  have h := ghost_history_after_switch 2 LRU 0
    [Record.access 0 OP_READ, Record.access 8 OP_READ, Record.access 16 OP_READ] 0 OP_READ
    ghost_run (process_record ghost_run (Record.policy_change 8))
    (process_record (process_record ghost_run (Record.policy_change 8))
      (Record.access 0 OP_READ))
    (by decide) rfl (by decide) (by decide) (by decide) rfl rfl
  exact ⟨⟨by decide, by decide, by decide, by decide⟩, by decide, h.2.2.2.2.2.2⟩

/-! ### The size counters through an eviction -/

theorem count_tag_pos_exists (pol : ReplacementPolicy) (buf : List BufferFrame) (k : Nat)
    (h : 0 < count_tag pol buf k) :
    ∃ f ∈ buf, f.page_id ≠ INVALID_PAGE ∧ frame_tag pol f = k := by
  unfold count_tag at h
  have hp : 0 < buf.countP (fun f => decide (f.page_id ≠ INVALID_PAGE ∧ frame_tag pol f = k)) := by
    omega
  obtain ⟨f, hf, hd⟩ := List.countP_pos_iff.1 hp
  exact ⟨f, hf, by simpa using hd⟩

theorem count_tag_all (pol : ReplacementPolicy) (buf : List BufferFrame) (k : Nat)
    (h : ∀ f ∈ buf, f.page_id ≠ INVALID_PAGE ∧ frame_tag pol f = k) :
    count_tag pol buf k = (buf.length : Int) := by
  unfold count_tag
  have : buf.countP (fun f => decide (f.page_id ≠ INVALID_PAGE ∧ frame_tag pol f = k))
      = buf.length := by
    rw [List.countP_eq_length]
    intro f hf
    simpa using h f hf
  rw [this]

theorem count_tag_pos_of_mem (pol : ReplacementPolicy) (buf : List BufferFrame) (k : Nat)
    (f : BufferFrame) (hf : f ∈ buf) (hres : f.page_id ≠ INVALID_PAGE)
    (hk : frame_tag pol f = k) : 0 < count_tag pol buf k := by
  unfold count_tag
  have : 0 < buf.countP (fun f => decide (f.page_id ≠ INVALID_PAGE ∧ frame_tag pol f = k)) :=
    List.countP_pos_iff.2 ⟨f, hf, by simpa using ⟨hres, hk⟩⟩
  omega

theorem tag_ok_clock_t1 (f : BufferFrame) (h : tag_ok CLOCK_T1 f) : frame_tag CLOCK_T1 f = 1 := by
  simp only [tag_ok] at h
  simp [frame_tag, h]

theorem tag_ok_clock_t3 (f : BufferFrame) (h : tag_ok CLOCK_T3 f) : frame_tag CLOCK_T3 f = 3 := by
  simp only [tag_ok] at h
  simp [frame_tag, h]

theorem sizes_pre_set_evict (pol : ReplacementPolicy) (buf : List BufferFrame)
    (a a' : ARCState) (v : Nat) (g : BufferFrame) (hv : v < buf.length)
    (hfull : ∀ f ∈ buf, f.page_id ≠ INVALID_PAGE) (htags : tags_ok pol buf)
    (hg : g.page_id = INVALID_PAGE)
    (hm : evict_move pol (frame_tag pol (frame_at buf v)) a a') (h : sizes_ok pol buf a) :
    sizes_pre pol (buf.set v g) a' := by
  have hmem := frame_at_mem buf v hv
  have hres := hfull _ hmem
  have htag := htags _ hmem hres
  have c1 := count_tag_set pol buf 1 v g hv
  have c2 := count_tag_set pol buf 2 v g hv
  have c3 := count_tag_set pol buf 3 v g hv
  have c4 := count_tag_set pol buf 4 v g hv
  simp only [hres, hg, ne_eq, not_false_eq_true, true_and, not_true_eq_false, false_and,
    if_false, add_zero] at c1 c2 c3 c4
  have hlen : (buf.set v g).length = buf.length := List.length_set _ _ _
  unfold sizes_pre
  by_cases h1 : pol = CLOCK_T1
  · subst h1
    have hk := tag_ok_clock_t1 _ htag
    have hall := count_tag_all CLOCK_T1 buf 1
      (fun f hf => ⟨hfull f hf, tag_ok_clock_t1 f (htags f hf (hfull f hf))⟩)
    rw [hk] at c1 c2 c3 c4 hm
    simp only [evict_move, reduceCtorEq, or_true, true_or, if_true] at hm
    simp only [sizes_ok, reduceCtorEq, if_false] at h
    simp only [if_true, OfNat.ofNat_ne_one, if_false, Nat.reduceEqDiff, OfNat.one_ne_ofNat,
      sub_zero] at c1 c2 c3 c4
    rw [if_pos rfl, hlen, hm.1, hm.2.1, hm.2.2.1, hm.2.2.2, c1, c2, c3, c4]
    refine ⟨Or.inr ⟨?_, ?_⟩, h.2.1, h.2.2.1, h.2.2.2⟩
    · rw [h.1]; exact hall
    · rw [hall]; omega
  · rw [if_neg h1]
    by_cases h3 : pol = CLOCK_T3
    · subst h3
      have hk := tag_ok_clock_t3 _ htag
      have hall := count_tag_all CLOCK_T3 buf 3
        (fun f hf => ⟨hfull f hf, tag_ok_clock_t3 f (htags f hf (hfull f hf))⟩)
      rw [hk] at c1 c2 c3 c4 hm
      simp only [evict_move, reduceCtorEq, or_true, true_or, if_true] at hm
      simp only [sizes_ok, reduceCtorEq, if_false] at h
      simp only [if_true, OfNat.ofNat_ne_one, if_false, Nat.reduceEqDiff, OfNat.one_ne_ofNat,
        sub_zero] at c1 c2 c3 c4
      rw [if_pos rfl, hlen, hm.1, hm.2.1, hm.2.2.1, hm.2.2.2, c1, c2, c3, c4]
      refine ⟨h.1, h.2.1, Or.inr ⟨?_, ?_⟩, h.2.2.2⟩
      · rw [h.2.2.1]; exact hall
      · rw [hall]; omega
    · rw [if_neg h3]
      unfold sizes_ok at h ⊢
      by_cases hF : pol = FIFO
      · rw [if_pos hF] at h ⊢
        simp only [evict_move, hF, true_or, if_true] at hm
        rw [hm.1, hm.2.1, hm.2.2.1, hm.2.2.2]
        exact h
      · rw [if_neg hF] at h ⊢
        have hne : ¬ (pol = FIFO ∨ pol = CLOCK_T1 ∨ pol = CLOCK_T3) := by tauto
        simp only [evict_move, hne, if_false] at hm
        rw [hm.1, hm.2.1, hm.2.2.1, hm.2.2.2, c1, c2, c3, c4, h.1, h.2.1, h.2.2.1, h.2.2.2]
        exact ⟨rfl, rfl, rfl, rfl⟩

theorem evict_arc_move (pol : ReplacementPolicy) (a : ARCState) (N : Nat) (f : BufferFrame)
    (hp1 : pol ≠ LRU_ARC) (hp2 : pol ≠ LFU_ARC) (hres : f.page_id ≠ INVALID_PAGE)
    (htag : tag_ok pol f)
    (hpos : pol ≠ FIFO → 0 < size_of a (frame_tag pol f)) :
    evict_move pol (frame_tag pol f) a (evict_arc pol a N f) := by
  cases pol <;>
    simp only [ne_eq, reduceCtorEq, not_false_eq_true, not_true_eq_false, true_implies,
      false_implies] at hp1 hp2 hpos <;>
    simp only [tag_ok] at htag <;>
    simp only [evict_move, evict_arc, frame_tag, size_of, dec_if_pos, hres, reduceCtorEq,
      or_self, or_true, true_or, or_false, false_or, if_true, if_false, ne_eq,
      not_false_eq_true, and_true, true_and, false_and, and_self] at hpos ⊢
  case LRU =>
    rcases htag.2 with h | h <;> rw [h] at hpos ⊢ <;> simp at hpos ⊢ <;> simp [hpos]
  case LFU =>
    rcases htag.2 with h | h <;> rw [h] at hpos ⊢ <;> simp at hpos ⊢ <;> simp [hpos]
  case CLOCK_PRO_T1_B4_LOGS_B2 =>
    rw [htag] at hpos ⊢
    simp at hpos ⊢
    simp [hpos]
  case CLOCK_PRO_T3_B2_LOGS_B4 =>
    rw [htag] at hpos ⊢
    simp at hpos ⊢
    simp [hpos]

theorem select_victim_clock_pro_t1 (s : Sim) (X : Nat)
    (hp : s.current_policy = CLOCK_PRO_T1_B4_LOGS_B2) :
    ∃ r1, sel_plain s r1 ∧
      select_victim s X = if r1.2 = none then clock_on_p_hand r1.1 false 0 else r1 := by
  obtain ⟨buf, pol, prev, time, hits, misses, arc, log, err, hand, zs, wp⟩ := s
  simp only at hp
  subst hp
  simp only [select_victim, reduceCtorEq, if_true, if_false]
  refine ⟨_, ?_, rfl⟩
  have c1 := sel_plain_clock_p
    { buffer := buf, current_policy := CLOCK_PRO_T1_B4_LOGS_B2,
      previous_policy_for_state_carryover := prev, current_time := time, hits := hits,
      misses := misses, arc_state := arc, log_file := log, stderr := err,
      global_clk_hand := hand, zone_size_pages_global := zs, zone_write_pointers := wp }
    true 1
  apply sel_plain_ite
  · apply sel_plain_ite
    · exact sel_plain_warn _ _ _ c1
    · exact c1
  · exact sel_plain_same _ _ (fun v hv => by cases hv)

theorem select_victim_clock_pro_t3 (s : Sim) (X : Nat)
    (hp : s.current_policy = CLOCK_PRO_T3_B2_LOGS_B4) :
    ∃ r1, sel_plain s r1 ∧
      select_victim s X = if r1.2 = none then clock_on_q_hand r1.1 false 0 else r1 := by
  obtain ⟨buf, pol, prev, time, hits, misses, arc, log, err, hand, zs, wp⟩ := s
  simp only at hp
  subst hp
  simp only [select_victim, reduceCtorEq, if_true, if_false]
  refine ⟨_, ?_, rfl⟩
  have c1 := sel_plain_clock_q
    { buffer := buf, current_policy := CLOCK_PRO_T3_B2_LOGS_B4,
      previous_policy_for_state_carryover := prev, current_time := time, hits := hits,
      misses := misses, arc_state := arc, log_file := log, stderr := err,
      global_clk_hand := hand, zone_size_pages_global := zs, zone_write_pointers := wp }
    true 3
  apply sel_plain_ite
  · apply sel_plain_ite
    · exact sel_plain_warn _ _ _ c1
    · exact c1
  · exact sel_plain_same _ _ (fun v hv => by cases hv)

theorem ite_none_some (r1 c : Sim × Option Nat) (h : r1.2 = none → ∃ v, c.2 = some v) :
    ∃ v, (if r1.2 = none then c else r1).2 = some v := by
  split_ifs with hn
  · exact h hn
  · exact Option.ne_none_iff_exists'.1 hn

theorem select_victim_some_basic (s : Sim) (X T : Nat) (hp1 : s.current_policy ≠ LRU_ARC)
    (hp2 : s.current_policy ≠ LFU_ARC) (hq1 : s.current_policy ≠ CLOCK_PRO_T1_B4_LOGS_B2)
    (hq3 : s.current_policy ≠ CLOCK_PRO_T3_B2_LOGS_B4) (hN : 0 < s.buffer.length)
    (hfull : find_empty_slot s.buffer = none) (htags : tags_ok s.current_policy s.buffer)
    (hc : counts_le s.buffer) (ht : times_le s.buffer T) (hT : T < ULLONG_MAX) :
    ∃ v, (select_victim s X).2 = some v := by
  obtain ⟨buf, pol, prev, time, hits, misses, arc, log, err, hand, zs, wp⟩ := s
  simp only at hp1 hp2 hN hfull htags hc ht hq1 hq3
  have hall := find_empty_slot_none _ hfull
  have hm0 := frame_at_mem buf 0 hN
  have hr0 := hall _ hm0
  have ht0 := ht _ hm0 hr0
  have hc0 := hc _ hm0 hr0
  have hg0 := htags _ hm0 hr0
  cases pol <;> simp only [select_victim, reduceCtorEq, if_true, if_false]
  case FIFO => exact evict_fifo_full _ hN hfull
  case LRU =>
    simp only [tag_ok] at hg0
    exact evict_arc_internal_lru_exists _ _ _ hm0 hr0 hg0.1 (by omega)
  case LFU =>
    simp only [tag_ok] at hg0
    exact evict_arc_internal_lfu_exists _ _ _ hm0 hr0 hg0.1 hc0 (by omega)
  case LRU_ARC => exact absurd rfl hp1
  case LFU_ARC => exact absurd rfl hp2
  case CLOCK_T1 => exact (evict_via_clock_policy_spec hand false 0 buf).2.2 hN hfull
  case CLOCK_T3 => exact (evict_via_clock_policy_spec hand false 0 buf).2.2 hN hfull
  case CLOCK_PRO_T1_B4_LOGS_B2 => exact absurd rfl hq1
  case CLOCK_PRO_T3_B2_LOGS_B4 => exact absurd rfl hq3

/-- Under a policy that is not an ARC variant, with a full buffer of at least one frame
whose time stamps are below the end of the clock, victim selection finds a victim itself
(the fallback block is not entered). -/
theorem select_victim_some (s : Sim) (X T : Nat) (hp1 : s.current_policy ≠ LRU_ARC)
    (hp2 : s.current_policy ≠ LFU_ARC) (hN : 0 < s.buffer.length)
    (hfull : find_empty_slot s.buffer = none) (htags : tags_ok s.current_policy s.buffer)
    (hc : counts_le s.buffer) (ht : times_le s.buffer T) (hT : T < ULLONG_MAX) :
    ∃ v, (select_victim s X).2 = some v := by
  by_cases hq1 : s.current_policy = CLOCK_PRO_T1_B4_LOGS_B2
  · obtain ⟨r1, hr1, he⟩ := select_victim_clock_pro_t1 s X hq1
    rw [he]
    apply ite_none_some
    intro _
    have hlen := length_mod_ref _ _ hr1.1
    exact (evict_via_clock_policy_spec r1.1.arc_state.p_clk_hand false 0 r1.1.buffer).2.2
      (by rw [hlen]; exact hN) (by rw [find_empty_slot_mod_ref _ _ hr1.1]; exact hfull)
  · by_cases hq3 : s.current_policy = CLOCK_PRO_T3_B2_LOGS_B4
    · obtain ⟨r1, hr1, he⟩ := select_victim_clock_pro_t3 s X hq3
      rw [he]
      apply ite_none_some
      intro _
      have hlen := length_mod_ref _ _ hr1.1
      exact (evict_via_clock_policy_spec r1.1.arc_state.q_clk_hand false 0 r1.1.buffer).2.2
        (by rw [hlen]; exact hN) (by rw [find_empty_slot_mod_ref _ _ hr1.1]; exact hfull)
    · exact select_victim_some_basic s X T hp1 hp2 hq1 hq3 hN hfull htags hc ht hT

theorem tag_range (pol : ReplacementPolicy) (f : BufferFrame) (hF : pol ≠ FIFO)
    (h : tag_ok pol f) :
    frame_tag pol f = 1 ∨ frame_tag pol f = 2 ∨ frame_tag pol f = 3 ∨ frame_tag pol f = 4 := by
  cases pol <;> simp only [tag_ok] at h <;>
    simp only [frame_tag, reduceCtorEq, or_self, or_true, true_or, or_false, false_or, if_true,
      if_false]
  case LRU => rcases h.2 with h | h <;> simp [h]
  case LFU => rcases h.2 with h | h <;> simp [h]
  case LRU_ARC => rcases h with h | h <;> simp [h]
  case LFU_ARC => rcases h with h | h <;> simp [h]
  case FIFO => exact absurd rfl hF
  all_goals simp [h]

theorem count_tag_cons (pol : ReplacementPolicy) (f : BufferFrame) (rest : List BufferFrame)
    (k : Nat) :
    count_tag pol (f :: rest) k
      = count_tag pol rest k
        + (if f.page_id ≠ INVALID_PAGE ∧ frame_tag pol f = k then 1 else 0) := by
  unfold count_tag
  rw [List.countP_cons]
  simp only [decide_eq_true_eq]
  split_ifs <;> simp

theorem count_resident_cons (f : BufferFrame) (rest : List BufferFrame) :
    count_resident (f :: rest)
      = count_resident rest + (if f.page_id ≠ INVALID_PAGE then 1 else 0) := by
  unfold count_resident
  rw [List.countP_cons]
  simp only [decide_eq_true_eq]
  split_ifs <;> simp

/-- Under every policy but FIFO the four partitions cover the resident frames. -/
theorem count_sum (pol : ReplacementPolicy) (buf : List BufferFrame) (hF : pol ≠ FIFO)
    (h : tags_ok pol buf) :
    count_tag pol buf 1 + count_tag pol buf 2 + count_tag pol buf 3 + count_tag pol buf 4
      = count_resident buf := by
  induction buf with
  | nil => rfl
  | cons f rest ih =>
    have ih' := ih (fun g hg hr => h g (List.mem_cons_of_mem _ hg) hr)
    rw [count_tag_cons, count_tag_cons, count_tag_cons, count_tag_cons, count_resident_cons]
    by_cases hr : f.page_id ≠ INVALID_PAGE
    · have ht := tag_range pol f hF (h f (List.mem_cons_self _ _) hr)
      simp only [ne_eq, hr, not_false_eq_true, true_and, if_true]
      rcases ht with e | e | e | e <;> rw [e] <;> simp <;> omega
    · have hr' : f.page_id = INVALID_PAGE := not_not.1 hr
      simp only [hr', ne_eq, not_true_eq_false, false_and, if_false]
      omega

theorem count_resident_full (buf : List BufferFrame)
    (h : ∀ f ∈ buf, f.page_id ≠ INVALID_PAGE) : count_resident buf = (buf.length : Int) := by
  unfold count_resident
  have : buf.countP (fun f => decide (f.page_id ≠ INVALID_PAGE)) = buf.length := by
    rw [List.countP_eq_length]
    intro f hf
    simpa using h f hf
  rw [this]

theorem count_tag_none (pol : ReplacementPolicy) (buf : List BufferFrame) (k : Nat)
    (h : ∀ f ∈ buf, f.page_id ≠ INVALID_PAGE → frame_tag pol f ≠ k) :
    count_tag pol buf k = 0 := by
  unfold count_tag
  have : buf.countP (fun f => decide (f.page_id ≠ INVALID_PAGE ∧ frame_tag pol f = k)) = 0 := by
    rw [List.countP_eq_zero]
    intro f hf
    simp only [decide_eq_true_eq, not_and]
    exact fun hr => h f hf hr
  rw [this]
  rfl

theorem size_of_count (pol : ReplacementPolicy) (buf : List BufferFrame) (a : ARCState)
    (f : BufferFrame) (hF : pol ≠ FIFO) (hs : sizes_ok pol buf a) (ht : tag_ok pol f) :
    size_of a (frame_tag pol f) = count_tag pol buf (frame_tag pol f) := by
  unfold sizes_ok at hs
  rw [if_neg hF] at hs
  obtain ⟨h1, h2, h3, h4⟩ := hs
  rcases tag_range pol f hF ht with e | e | e | e <;> rw [e] <;> simp [size_of] <;> assumption

theorem evict_move_congr (pol : ReplacementPolicy) (k : Nat) (a a1 a' : ARCState)
    (h : a1.t1_size = a.t1_size ∧ a1.t2_size = a.t2_size ∧ a1.t3_size = a.t3_size ∧
      a1.t4_size = a.t4_size) (hm : evict_move pol k a1 a') : evict_move pol k a a' := by
  unfold evict_move at hm ⊢
  rw [← h.1, ← h.2.1, ← h.2.2.1, ← h.2.2.2]
  exact hm

theorem chosen_of_select (s : Sim) (X v : Nat) (h : (select_victim s X).2 = some v) :
    chosen s X = ((select_victim s X).1, some v) := by
  unfold chosen
  exact (victim_fallback_spec (select_victim s X).1 (select_victim s X).2).2.2.2.2.1 v h

theorem evicted_arc (s : Sim) (X v : Nat) (hv : v < (chosen s X).1.buffer.length) :
    (evicted s X v).arc_state
      = evict_arc (chosen s X).1.current_policy (chosen s X).1.arc_state
          (chosen s X).1.buffer.length (frame_at (chosen s X).1.buffer v) :=
  (process_victim_spec (chosen s X).1 v hv).2.2.2

/-- The eviction of a victim under a policy that is not an ARC variant. -/
theorem evicted_sizes_plain (m : Sim) (X T : Nat) (hp1 : m.current_policy ≠ LRU_ARC)
    (hp2 : m.current_policy ≠ LFU_ARC)
    (hinv : buf_inv m.current_policy m.arc_state T m.buffer) (hT : T < ULLONG_MAX)
    (hN : 0 < m.buffer.length) (hfull : find_empty_slot m.buffer = none) :
    ∃ v, (chosen m X).2 = some v ∧
      evict_move m.current_policy
        (frame_tag m.current_policy (frame_at (chosen m X).1.buffer v)) m.arc_state
        (evicted m X v).arc_state := by
  obtain ⟨htags, _, hc, htm, hsz, _⟩ := hinv
  obtain ⟨v, hsel⟩ := select_victim_some m X T hp1 hp2 hN hfull htags hc htm hT
  have hch := chosen_of_select m X v hsel
  obtain ⟨a1, _, a3, a4, a5, a6, a7⟩ := select_victim_plain m X hp1 hp2
  have hfixs := select_victim_fixed m X
  simp only [Sim.fixed, Prod.mk.injEq] at hfixs
  have hc1 : (chosen m X).1 = (select_victim m X).1 := by rw [hch]
  have hlen := length_mod_ref _ _ a1
  have hv' : v < (select_victim m X).1.buffer.length := by rw [hlen]; exact a7 v hsel
  refine ⟨v, by rw [hch], ?_⟩
  rw [evicted_arc m X v (by rw [hc1]; exact hv'), hc1, hfixs.1]
  have hmem := frame_at_mem _ v hv'
  have hall := full_mod_ref _ _ a1 (find_empty_slot_none _ hfull)
  have hres := hall _ hmem
  obtain ⟨g, hg, he⟩ := mem_mod_ref _ _ a1 _ hmem
  have hgres : g.page_id ≠ INVALID_PAGE := by
    have : g.page_id = (frame_at (select_victim m X).1.buffer v).page_id :=
      congrArg (fun x => x.page_id) he
    rw [this]; exact hres
  have htag : tag_ok m.current_policy (frame_at (select_victim m X).1.buffer v) :=
    tag_ok_erase_ref _ _ g he (htags g hg hgres)
  refine evict_move_congr _ _ _ _ _ ⟨a3, a4, a5, a6⟩
    (evict_arc_move _ _ _ _ hp1 hp2 hres htag ?_)
  intro hF
  have hsz' : sizes_ok m.current_policy (select_victim m X).1.buffer
      (select_victim m X).1.arc_state := by
    unfold sizes_ok at hsz ⊢
    rw [a3, a4, a5, a6]
    simp only [count_tag_mod_ref _ _ _ a1]
    exact hsz
  rw [size_of_count _ _ _ _ hF hsz' htag]
  exact count_tag_pos_of_mem _ _ _ _ hmem hres rfl

theorem arc_find_victim_lru_arc_none (buf : List BufferFrame) (a : ARCState) (X : Nat)
    (h : (arc_find_victim_lru_arc buf a X).1 = none) : evict_fifo buf = none := by
  rw [arc_find_victim_lru_arc_eq] at h
  cases ht : lru_arc_target a buf.length (find_in_arc_ghost X a.b2) with
  | none => rw [ht] at h; exact h
  | some k =>
    rw [ht] at h
    simp only [] at h
    cases hi : evict_arc_internal_lru buf k with
    | some w =>
      rw [hi] at h
      simp only [] at h
      split_ifs at h <;> cases h
    | none =>
      rw [hi] at h
      simp only [] at h
      cases hf : evict_fifo buf with
      | none => rfl
      | some w =>
        rw [hf] at h
        simp only [] at h
        split_ifs at h <;> cases h

theorem arc_find_victim_lfu_arc_none (buf : List BufferFrame) (a : ARCState) (X : Nat)
    (h : (arc_find_victim_lfu_arc buf a X).1 = none) : evict_fifo buf = none := by
  rw [arc_find_victim_lfu_arc_eq] at h
  cases ht : lfu_arc_target a buf.length (find_in_arc_ghost X a.b4) with
  | none => rw [ht] at h; exact h
  | some k =>
    rw [ht] at h
    simp only [] at h
    cases hi : (if k = 3 then evict_arc_internal_lfu buf 3
        else evict_arc_internal_lru buf 4) with
    | some w =>
      rw [hi] at h
      simp only [] at h
      split_ifs at h <;> cases h
    | none =>
      rw [hi] at h
      simp only [] at h
      cases hf : evict_fifo buf with
      | none => rfl
      | some w =>
        rw [hf] at h
        simp only [] at h
        split_ifs at h <;> cases h

theorem evicted_sizes_lru_arc (m : Sim) (X T : Nat) (hp : m.current_policy = LRU_ARC)
    (hinv : buf_inv m.current_policy m.arc_state T m.buffer) (hT : T < ULLONG_MAX)
    (hN : 0 < m.buffer.length) (hfull : find_empty_slot m.buffer = none) :
    ∃ v, (chosen m X).2 = some v ∧
      evict_move m.current_policy
        (frame_tag m.current_policy (frame_at (chosen m X).1.buffer v)) m.arc_state
        (evicted m X v).arc_state := by
  obtain ⟨htags, _, hc, htm, hsz, _⟩ := hinv
  have hall := find_empty_slot_none _ hfull
  have hsel := select_victim_lru_arc m X hp
  have hout := arc_find_victim_lru_arc_spec m.buffer m.arc_state X
  rw [hp] at htags hsz ⊢
  simp only [sizes_ok, reduceCtorEq, if_false] at hsz
  have h3 : count_tag LRU_ARC m.buffer 3 = 0 := count_tag_none _ _ _ (fun f hf hr => by
    have := htags f hf hr
    simp only [tag_ok] at this
    simp only [frame_tag, reduceCtorEq, or_self, if_false]
    omega)
  have h4 : count_tag LRU_ARC m.buffer 4 = 0 := count_tag_none _ _ _ (fun f hf hr => by
    have := htags f hf hr
    simp only [tag_ok] at this
    simp only [frame_tag, reduceCtorEq, or_self, if_false]
    omega)
  have hsum := count_sum LRU_ARC m.buffer (by decide) htags
  have hfc := count_resident_full m.buffer hall
  have hNi : (0 : Int) < (m.buffer.length : Int) := by exact_mod_cast hN
  have hs1 : (select_victim m X).1
      = { m with arc_state := (arc_find_victim_lru_arc m.buffer m.arc_state X).2 } := by
    rw [hsel]
  have key : ∀ v, (arc_find_victim_lru_arc m.buffer m.arc_state X).1 = some v →
      (chosen m X).2 = some v ∧ (chosen m X).1.buffer = m.buffer ∧
      (chosen m X).1.current_policy = LRU_ARC ∧
      (chosen m X).1.arc_state = (arc_find_victim_lru_arc m.buffer m.arc_state X).2 := by
    intro v hv
    have hsv : (select_victim m X).2 = some v := by rw [hsel]; exact hv
    have hch := chosen_of_select m X v hsv
    have hc1 : (chosen m X).1 = (select_victim m X).1 := by rw [hch]
    refine ⟨by rw [hch], by rw [hc1, hs1], ?_, by rw [hc1, hs1]⟩
    rw [hc1, hs1]; exact hp
  unfold lru_arc_outcome at hout
  rcases hout with ⟨_, h1 | h1⟩ | ⟨v, hv, hin, hpos, h2⟩ | ⟨v, hv, hin, hpos, h2⟩ |
    ⟨_, ⟨hpos, hnone⟩ | ⟨hpos, hnone⟩⟩
  · obtain ⟨w, hw⟩ := evict_fifo_full m.buffer hN hfull
    rw [arc_find_victim_lru_arc_none m.buffer m.arc_state X h1] at hw
    cases hw
  · exfalso
    apply h1
    constructor <;> omega
  · obtain ⟨k1, k2, k3, k4⟩ := key v hv
    refine ⟨v, k1, ?_⟩
    rw [evicted_arc m X v (by rw [k2]; exact hin.1), k3,
      evict_arc_same _ _ _ _ (Or.inl rfl), k4, k2, h2]
    simp only [evict_move, frame_tag, reduceCtorEq, or_self, if_false, hin.2.2]
    simp
  · obtain ⟨k1, k2, k3, k4⟩ := key v hv
    refine ⟨v, k1, ?_⟩
    rw [evicted_arc m X v (by rw [k2]; exact hin.1), k3,
      evict_arc_same _ _ _ _ (Or.inl rfl), k4, k2, h2]
    simp only [evict_move, frame_tag, reduceCtorEq, or_self, if_false, hin.2.2]
    simp
  · exfalso
    rw [hsz.1] at hpos
    obtain ⟨f, hf, hr, hk⟩ := count_tag_pos_exists _ _ _ hpos
    simp only [frame_tag, reduceCtorEq, or_self, if_false] at hk
    obtain ⟨w, hw⟩ := evict_arc_internal_lru_exists m.buffer 1 f hf hr hk
      (lt_of_le_of_lt (htm f hf hr).2 hT)
    rw [hnone] at hw
    cases hw
  · exfalso
    rw [hsz.2.1] at hpos
    obtain ⟨f, hf, hr, hk⟩ := count_tag_pos_exists _ _ _ hpos
    simp only [frame_tag, reduceCtorEq, or_self, if_false] at hk
    obtain ⟨w, hw⟩ := evict_arc_internal_lru_exists m.buffer 2 f hf hr hk
      (lt_of_le_of_lt (htm f hf hr).2 hT)
    rw [hnone] at hw
    cases hw

theorem evicted_sizes_lfu_arc (m : Sim) (X T : Nat) (hp : m.current_policy = LFU_ARC)
    (hinv : buf_inv m.current_policy m.arc_state T m.buffer) (hT : T < ULLONG_MAX)
    (hN : 0 < m.buffer.length) (hfull : find_empty_slot m.buffer = none) :
    ∃ v, (chosen m X).2 = some v ∧
      evict_move m.current_policy
        (frame_tag m.current_policy (frame_at (chosen m X).1.buffer v)) m.arc_state
        (evicted m X v).arc_state := by
  obtain ⟨htags, _, hc, htm, hsz, _⟩ := hinv
  have hall := find_empty_slot_none _ hfull
  have hsel := select_victim_lfu_arc m X hp
  have hout := arc_find_victim_lfu_arc_spec m.buffer m.arc_state X
  rw [hp] at htags hsz ⊢
  simp only [sizes_ok, reduceCtorEq, if_false] at hsz
  have h1 : count_tag LFU_ARC m.buffer 1 = 0 := count_tag_none _ _ _ (fun f hf hr => by
    have := htags f hf hr
    simp only [tag_ok] at this
    simp only [frame_tag, reduceCtorEq, or_self, if_false]
    omega)
  have h2 : count_tag LFU_ARC m.buffer 2 = 0 := count_tag_none _ _ _ (fun f hf hr => by
    have := htags f hf hr
    simp only [tag_ok] at this
    simp only [frame_tag, reduceCtorEq, or_self, if_false]
    omega)
  have hsum := count_sum LFU_ARC m.buffer (by decide) htags
  have hfc := count_resident_full m.buffer hall
  have hNi : (0 : Int) < (m.buffer.length : Int) := by exact_mod_cast hN
  have hs1 : (select_victim m X).1
      = { m with arc_state := (arc_find_victim_lfu_arc m.buffer m.arc_state X).2 } := by
    rw [hsel]
  have key : ∀ v, (arc_find_victim_lfu_arc m.buffer m.arc_state X).1 = some v →
      (chosen m X).2 = some v ∧ (chosen m X).1.buffer = m.buffer ∧
      (chosen m X).1.current_policy = LFU_ARC ∧
      (chosen m X).1.arc_state = (arc_find_victim_lfu_arc m.buffer m.arc_state X).2 := by
    intro v hv
    have hsv : (select_victim m X).2 = some v := by rw [hsel]; exact hv
    have hch := chosen_of_select m X v hsv
    have hc1 : (chosen m X).1 = (select_victim m X).1 := by rw [hch]
    refine ⟨by rw [hch], by rw [hc1, hs1], ?_, by rw [hc1, hs1]⟩
    rw [hc1, hs1]; exact hp
  unfold lfu_arc_outcome at hout
  rcases hout with ⟨_, h1 | h1⟩ | ⟨v, hv, hin, hpos, h2⟩ | ⟨v, hv, hin, hpos, h2⟩ |
    ⟨_, ⟨hpos, hnone⟩ | ⟨hpos, hnone⟩⟩
  · obtain ⟨w, hw⟩ := evict_fifo_full m.buffer hN hfull
    rw [arc_find_victim_lfu_arc_none m.buffer m.arc_state X h1] at hw
    cases hw
  · exfalso
    apply h1
    constructor <;> omega
  · obtain ⟨k1, k2, k3, k4⟩ := key v hv
    refine ⟨v, k1, ?_⟩
    rw [evicted_arc m X v (by rw [k2]; exact hin.1), k3,
      evict_arc_same _ _ _ _ (Or.inr (Or.inl rfl)), k4, k2, h2]
    simp only [evict_move, frame_tag, reduceCtorEq, or_self, if_false, hin.2.2]
    simp
  · obtain ⟨k1, k2, k3, k4⟩ := key v hv
    refine ⟨v, k1, ?_⟩
    rw [evicted_arc m X v (by rw [k2]; exact hin.1), k3,
      evict_arc_same _ _ _ _ (Or.inr (Or.inl rfl)), k4, k2, h2]
    simp only [evict_move, frame_tag, reduceCtorEq, or_self, if_false, hin.2.2]
    simp
  · exfalso
    rw [hsz.2.2.1] at hpos
    obtain ⟨f, hf, hr, hk⟩ := count_tag_pos_exists _ _ _ hpos
    simp only [frame_tag, reduceCtorEq, or_self, if_false] at hk
    obtain ⟨w, hw⟩ := evict_arc_internal_lfu_exists m.buffer 3 f hf hr hk (hc f hf hr)
      (lt_of_le_of_lt (htm f hf hr).1 hT)
    rw [hnone] at hw
    cases hw
  · exfalso
    rw [hsz.2.2.2] at hpos
    obtain ⟨f, hf, hr, hk⟩ := count_tag_pos_exists _ _ _ hpos
    simp only [frame_tag, reduceCtorEq, or_self, if_false] at hk
    obtain ⟨w, hw⟩ := evict_arc_internal_lru_exists m.buffer 4 f hf hr hk
      (lt_of_le_of_lt (htm f hf hr).2 hT)
    rw [hnone] at hw
    cases hw

/-- With a full buffer of at least one frame, a miss evicts a frame and the size counters
follow the victim's tag. -/
theorem evicted_sizes (m : Sim) (X T : Nat)
    (hinv : buf_inv m.current_policy m.arc_state T m.buffer) (hT : T < ULLONG_MAX)
    (hN : 0 < m.buffer.length) (hfull : find_empty_slot m.buffer = none) :
    ∃ v, (chosen m X).2 = some v ∧
      evict_move m.current_policy
        (frame_tag m.current_policy (frame_at (chosen m X).1.buffer v)) m.arc_state
        (evicted m X v).arc_state := by
  by_cases hp1 : m.current_policy = LRU_ARC
  · exact evicted_sizes_lru_arc m X T hp1 hinv hT hN hfull
  · by_cases hp2 : m.current_policy = LFU_ARC
    · exact evicted_sizes_lfu_arc m X T hp2 hinv hT hN hfull
    · exact evicted_sizes_plain m X T hp1 hp2 hinv hT hN hfull

theorem forall_set_invalid (P : BufferFrame → Prop) (buf : List BufferFrame) (v : Nat)
    (g : BufferFrame) (hg : g.page_id = INVALID_PAGE)
    (h : ∀ f ∈ buf, f.page_id ≠ INVALID_PAGE → P f) :
    ∀ f ∈ buf.set v g, f.page_id ≠ INVALID_PAGE → P f := by
  intro f hf hr
  rcases List.mem_or_eq_of_mem_set hf with hm | he
  · exact h f hm hr
  · rw [he] at hr
    exact absurd hg hr

/-- The clock-dependent part of the invariant through the second half of a miss: the
eviction, if the buffer is full, and the load. -/
theorem miss_finish_sz (s : Sim) (X T : Nat) (op : Op) (al rl : Nat)
    (h : buf_inv s.current_policy s.arc_state T s.buffer)
    (hT : T < ULLONG_MAX) (hTle : T ≤ s.current_time) (hN : 0 < s.buffer.length)
    (hX : X ≠ INVALID_PAGE) (hl : load_ok s.current_policy al rl) :
    buf_sz s.current_policy (miss_finish s X op al rl).arc_state s.current_time
      (miss_finish s X op al rl).buffer := by
  rw [miss_finish_eq]
  rcases Option.eq_none_or_eq_some (find_empty_slot s.buffer) with he | ⟨slot, he⟩
  · rw [he]
    simp only []
    obtain ⟨v, hv, hmove⟩ := evicted_sizes s X T h hT hN he
    rw [hv]
    simp only []
    obtain ⟨hb, hlt, _, _, _⟩ := chosen_spec s X
    have hvN := hlt v hv
    have hlen := length_mod_ref _ _ hb
    have hv' : v < (chosen s X).1.buffer.length := by rw [hlen]; exact hvN
    have hfixc := chosen_fixed s X
    simp only [Sim.fixed, Prod.mk.injEq] at hfixc
    have hfix := evicted_fixed s X v
    simp only [Sim.fixed, Prod.mk.injEq] at hfix
    obtain ⟨_, _, ⟨g, hgi, hgb⟩, _⟩ := process_victim_spec (chosen s X).1 v hv'
    have hgb' : (evicted s X v).buffer = (chosen s X).1.buffer.set v g := hgb
    obtain ⟨htags, _, hc, htm, hsz, _⟩ := buf_inv_mod_ref _ _ _ _ _ hb h
    have hfull' := full_mod_ref _ _ hb (find_empty_slot_none _ he)
    have hpre := sizes_pre_set_evict s.current_policy (chosen s X).1.buffer s.arc_state
      (evicted s X v).arc_state v g hv' hfull' htags hgi hmove hsz
    have key := load_page_sz (evicted s X v) v X T op al rl
      (by rw [hfix.1, hgb']; exact forall_set_invalid _ _ _ _ hgi htags)
      (by rw [hgb']; exact forall_set_invalid _ _ _ _ hgi hc)
      (by rw [hgb']; exact forall_set_invalid _ _ _ _ hgi htm)
      (by rw [hfix.2.1]; exact hTle)
      (by rw [hfix.1, hgb']; exact hpre)
      (by rw [hfix.2.2.2.2.2]; exact hvN)
      (by rw [hgb', frame_at_set_eq _ _ _ hv']; exact hgi)
      hX (by rw [hfix.1]; exact hl)
    rw [hfix.1, hfix.2.1] at key
    exact key
  · rw [he]
    simp only []
    obtain ⟨htags, _, hc, htm, hsz, _⟩ := h
    obtain ⟨hslot, hempty⟩ := find_empty_slot_some _ _ he
    exact load_page_sz s slot X T op al rl htags hc htm hTle (sizes_pre_of_ok _ _ _ hsz)
      hslot hempty hX hl

theorem times_le_mono (buf : List BufferFrame) (T T' : Nat) (hT : T ≤ T')
    (h : times_le buf T) : times_le buf T' := by
  intro f hf hr
  have := h f hf hr
  exact ⟨le_trans this.1 hT, le_trans this.2 hT⟩

theorem inv_of_wf_sz (s : Sim) (hw : s.wf)
    (hs : buf_sz s.current_policy s.arc_state s.current_time s.buffer) : s.inv :=
  ⟨hs.1, hw.1, hs.2.1, hs.2.2.1, hs.2.2.2, hw.2.1, hw.2.2⟩

theorem wf_of_inv (s : Sim) (h : s.inv) : s.wf := ⟨h.2.1, h.2.2.2.2.2.1, h.2.2.2.2.2.2⟩

/-- One access keeps the invariant as long as the clock has not reached its last value;
it advances the clock by one and keeps the number of frames. -/
theorem access_page_inv (s : Sim) (lba X : Nat) (op : Op) (h : s.inv)
    (hT : s.current_time < ULLONG_MAX) (hN : 0 < s.buffer.length) :
    (access_page s lba X op).inv ∧
    (access_page s lba X op).current_time = s.current_time + 1 := by
  have hmod : (s.current_time + 1) % U64 = s.current_time + 1 := by
    apply Nat.mod_eq_of_lt
    unfold ULLONG_MAX at hT
    unfold U64
    omega
  have hwf := access_page_wf s lba X op (wf_of_inv s h)
  obtain ⟨h1, h2, h3, h4, h5, h6, h7⟩ := h
  have hs1 : Sim.inv { s with current_time := (s.current_time + 1) % U64 } :=
    ⟨h1, h2, h3, times_le_mono s.buffer s.current_time ((s.current_time + 1) % U64)
      (by rw [hmod]; omega) h4, h5, h6, h7⟩
  unfold access_page at hwf ⊢
  simp only [] at hwf ⊢
  split_ifs with hX
  · exact ⟨hs1, hmod⟩
  · rw [if_neg hX] at hwf
    rcases Option.eq_none_or_eq_some (find_in_buffer s.buffer X) with hn | ⟨i, hi⟩
    · rw [hn] at hwf ⊢
      simp only [] at hwf ⊢
      have hfixm := access_miss_fixed { s with current_time := (s.current_time + 1) % U64 } X op
      simp only [Sim.fixed, Prod.mk.injEq] at hfixm
      refine ⟨?_, hfixm.2.1.trans hmod⟩
      apply inv_of_wf_sz _ hwf
      rw [hfixm.1, hfixm.2.1]
      rw [access_miss_eq]
      have hat : Sim.inv_at { s with current_time := (s.current_time + 1) % U64 }
          s.current_time := ⟨⟨h1, h2, h3, h4, h5, h6⟩, h7⟩
      obtain ⟨⟨hb, _⟩, _⟩ := miss_begin_inv _ X s.current_time hat (find_in_buffer_none _ _ hn)
      exact miss_finish_sz (miss_begin { s with current_time := (s.current_time + 1) % U64 } X)
        X s.current_time op _ _ hb hT (by
          show s.current_time ≤ (s.current_time + 1) % U64
          rw [hmod]; omega) hN hX (step_a_load_ok _ _ _ _)
    · rw [hi]
      simp only []
      obtain ⟨hlt, hp⟩ := find_in_buffer_some _ _ _ hi
      have hfixh := access_hit_fixed { s with current_time := (s.current_time + 1) % U64 } i op
      simp only [Sim.fixed, Prod.mk.injEq] at hfixh
      exact ⟨access_hit_inv _ i op hs1 hlt (by rw [hp]; exact hX), hfixh.2.1.trans hmod⟩

/-! ### The size counters through a policy switch -/

theorem relabel_frame_invalid (o n : ReplacementPolicy) (f : BufferFrame) (a : ARCState)
    (hr : f.page_id = INVALID_PAGE) : relabel_frame o n f a = (f, a) := by
  simp [relabel_frame, hr]

theorem relabel_frame_page (o n : ReplacementPolicy) (f : BufferFrame) (a : ARCState) :
    (relabel_frame o n f a).1.page_id = f.page_id :=
  congrArg (fun c => c.1) (relabel_frame_core o n f a)

theorem relabel_frame_tag_ok (o n : ReplacementPolicy) (f : BufferFrame) (a : ARCState)
    (hr : f.page_id ≠ INVALID_PAGE) : tag_ok n (relabel_frame o n f a).1 := by
  cases n <;> simp [relabel_frame, hr, tag_ok]

theorem relabel_frame_sizes (o n : ReplacementPolicy) (f : BufferFrame) (a : ARCState)
    (hF : n ≠ FIFO) (hr : f.page_id ≠ INVALID_PAGE) :
    (relabel_frame o n f a).2.t1_size
      = a.t1_size + (if frame_tag n (relabel_frame o n f a).1 = 1 then 1 else 0) ∧
    (relabel_frame o n f a).2.t2_size
      = a.t2_size + (if frame_tag n (relabel_frame o n f a).1 = 2 then 1 else 0) ∧
    (relabel_frame o n f a).2.t3_size
      = a.t3_size + (if frame_tag n (relabel_frame o n f a).1 = 3 then 1 else 0) ∧
    (relabel_frame o n f a).2.t4_size
      = a.t4_size + (if frame_tag n (relabel_frame o n f a).1 = 4 then 1 else 0) := by
  cases n <;> simp [relabel_frame, hr, frame_tag] at hF ⊢

theorem relabel_frame_fifo (o : ReplacementPolicy) (f : BufferFrame) (a : ARCState) :
    (relabel_frame o FIFO f a).2 = a := by
  simp only [relabel_frame, reduceCtorEq, if_false, or_self, if_true]
  split_ifs <;> rfl

theorem relabel_loop_cons (o n : ReplacementPolicy) (f : BufferFrame)
    (rest : List BufferFrame) (a : ARCState) :
    relabel_loop o n (f :: rest) a
      = ((relabel_frame o n f a).1 :: (relabel_loop o n rest (relabel_frame o n f a).2).1,
          (relabel_loop o n rest (relabel_frame o n f a).2).2) := rfl

theorem relabel_loop_tags (o n : ReplacementPolicy) (buf : List BufferFrame) (a : ARCState) :
    tags_ok n (relabel_loop o n buf a).1 := by
  induction buf generalizing a with
  | nil => intro f hf; cases hf
  | cons f rest ih =>
    rw [relabel_loop_cons]
    intro g hg hr
    rcases List.mem_cons.1 hg with e | hm
    · rw [e] at hr ⊢
      rw [relabel_frame_page] at hr
      exact relabel_frame_tag_ok o n f a hr
    · exact ih _ g hm hr

theorem relabel_loop_sizes (o n : ReplacementPolicy) (buf : List BufferFrame) (a : ARCState)
    (hF : n ≠ FIFO) :
    (relabel_loop o n buf a).2.t1_size = a.t1_size + count_tag n (relabel_loop o n buf a).1 1 ∧
    (relabel_loop o n buf a).2.t2_size = a.t2_size + count_tag n (relabel_loop o n buf a).1 2 ∧
    (relabel_loop o n buf a).2.t3_size = a.t3_size + count_tag n (relabel_loop o n buf a).1 3 ∧
    (relabel_loop o n buf a).2.t4_size
      = a.t4_size + count_tag n (relabel_loop o n buf a).1 4 := by
  induction buf generalizing a with
  | nil => simp [relabel_loop, count_tag]
  | cons f rest ih =>
    rw [relabel_loop_cons]
    obtain ⟨i1, i2, i3, i4⟩ := ih (relabel_frame o n f a).2
    simp only [count_tag_cons]
    rw [i1, i2, i3, i4]
    by_cases hr : f.page_id = INVALID_PAGE
    · rw [relabel_frame_invalid o n f a hr]
      simp [hr]
    · obtain ⟨s1, s2, s3, s4⟩ := relabel_frame_sizes o n f a hF hr
      have hp : (relabel_frame o n f a).1.page_id ≠ INVALID_PAGE := by
        rw [relabel_frame_page]; exact hr
      simp only [hp, ne_eq, not_false_eq_true, true_and]
      rw [s1, s2, s3, s4]
      refine ⟨?_, ?_, ?_, ?_⟩ <;> ring

theorem relabel_loop_fifo (o : ReplacementPolicy) (buf : List BufferFrame) (a : ARCState) :
    (relabel_loop o FIFO buf a).2 = a := by
  induction buf generalizing a with
  | nil => rfl
  | cons f rest ih =>
    rw [relabel_loop_cons]
    simp only []
    rw [ih, relabel_frame_fifo]

theorem bounds_of_core (b b' : List BufferFrame)
    (h : b'.map frame_core = b.map frame_core) (T : Nat) (hc : counts_le b)
    (ht : times_le b T) : counts_le b' ∧ times_le b' T := by
  have key : ∀ f ∈ b', ∃ g ∈ b, frame_core g = frame_core f := by
    intro f hf
    have hm : frame_core f ∈ b.map frame_core := by
      rw [← h]; exact List.mem_map_of_mem _ hf
    exact List.mem_map.1 hm
  constructor
  · intro f hf hp
    obtain ⟨g, hg, he⟩ := key f hf
    have e1 : g.page_id = f.page_id := congrArg (fun c => c.1) he
    have e2 : g.access_count = f.access_count := congrArg (fun c => c.2.2.2.1) he
    rw [← e2]
    exact hc g hg (by rw [e1]; exact hp)
  · intro f hf hp
    obtain ⟨g, hg, he⟩ := key f hf
    have e1 : g.page_id = f.page_id := congrArg (fun c => c.1) he
    have e2 : g.load_time = f.load_time := congrArg (fun c => c.2.1) he
    have e3 : g.last_access_time = f.last_access_time := congrArg (fun c => c.2.2.1) he
    rw [← e2, ← e3]
    exact ht g hg (by rw [e1]; exact hp)

/-- A policy switch keeps the invariant: the relabelling loop recounts the partitions. -/
theorem switch_policy_inv (s : Sim) (n : ReplacementPolicy) (h : s.inv) :
    (switch_policy s n).inv := by
  apply inv_of_wf_sz _ (switch_policy_wf s n (wf_of_inv s h))
  have hcore : (switch_policy s n).buffer.map frame_core = s.buffer.map frame_core := by
    rw [switch_policy_eq]
    exact relabel_loop_core _ _ _ _
  obtain ⟨hcl, htl⟩ := bounds_of_core _ _ hcore s.current_time h.2.2.1 h.2.2.2.1
  refine ⟨?_, hcl, htl, ?_⟩
  · rw [switch_policy_eq]
    exact relabel_loop_tags _ _ _ _
  · rw [switch_policy_eq]
    simp only []
    unfold sizes_ok
    by_cases hF : n = FIFO
    · subst hF
      rw [if_pos rfl, relabel_loop_fifo]
      exact ⟨rfl, rfl, rfl, rfl⟩
    · rw [if_neg hF]
      obtain ⟨s1, s2, s3, s4⟩ := relabel_loop_sizes s.current_policy n s.buffer
        { initialize_arc_state (reset_flag s.current_policy n) n s.buffer.length s.arc_state with
          t1_size := 0, t2_size := 0, t3_size := 0, t4_size := 0 } hF
      simp only [zero_add] at s1 s2 s3 s4
      exact ⟨s1, s2, s3, s4⟩

theorem init_sim_inv (N : Nat) (pol : ReplacementPolicy) (zs : Nat) : (init_sim N pol zs).inv := by
  apply inv_of_wf_sz _ (init_sim_wf N pol zs)
  have hall : ∀ f ∈ (init_sim N pol zs).buffer, f.page_id = INVALID_PAGE := by
    intro f hf
    have hf' : f ∈ initialize_buffer N := hf
    unfold initialize_buffer at hf'
    rw [List.eq_of_mem_replicate hf']
    rfl
  have hz : ∀ k, count_tag pol (init_sim N pol zs).buffer k = 0 := fun k =>
    count_tag_none _ _ _ (fun f hf hr => absurd (hall f hf) hr)
  refine ⟨fun f hf hr => absurd (hall f hf) hr, fun f hf hr => absurd (hall f hf) hr,
    fun f hf hr => absurd (hall f hf) hr, ?_⟩
  show sizes_ok pol (init_sim N pol zs).buffer (initialize_arc_state_full pol N)
  unfold sizes_ok
  simp only [hz]
  cases pol <;> simp [initialize_arc_state_full]

theorem process_record_inv (s : Sim) (r : Record) (h : s.inv)
    (hT : s.current_time + access_count_of [r] ≤ ULLONG_MAX) (hN : 0 < s.buffer.length) :
    (process_record s r).inv ∧
    (process_record s r).current_time = s.current_time + access_count_of [r] := by
  cases r with
  | access lba op =>
    simp only [access_count_of] at hT ⊢
    exact access_page_inv s lba _ op h (by omega) hN
  | policy_change code =>
    simp only [process_record, access_count_of, add_zero]
    split_ifs
    · split
      · split_ifs
        · exact ⟨switch_policy_inv s _ h, rfl⟩
        · exact ⟨h, rfl⟩
      · exact ⟨h, rfl⟩
    · exact ⟨h, rfl⟩

theorem access_count_of_cons (r : Record) (rest : List Record) :
    access_count_of (r :: rest) = access_count_of [r] + access_count_of rest := by
  cases r with
  | access lba op => simp only [access_count_of]; omega
  | policy_change code => simp only [access_count_of]; omega

theorem run_inv (trace : List Record) (s : Sim) (h : s.inv)
    (hT : s.current_time + access_count_of trace ≤ ULLONG_MAX) (hN : 0 < s.buffer.length) :
    (run s trace).inv := by
  induction trace generalizing s with
  | nil => exact h
  | cons r rest ih =>
    rw [access_count_of_cons] at hT
    obtain ⟨hi, ht⟩ := process_record_inv s r h (by omega) hN
    exact ih _ hi (by rw [ht]; omega) (by rw [process_record_length]; exact hN)

/-- The sum of the four size counters under the invariant. -/
theorem inv_sizes_sum (s : Sim) (h : s.inv) :
    (s.current_policy ≠ FIFO →
      s.arc_state.t1_size + s.arc_state.t2_size + s.arc_state.t3_size + s.arc_state.t4_size
        = count_resident s.buffer) ∧
    (s.current_policy = FIFO →
      s.arc_state.t1_size = 0 ∧ s.arc_state.t2_size = 0 ∧ s.arc_state.t3_size = 0 ∧
      s.arc_state.t4_size = 0) := by
  obtain ⟨h1, _, _, _, h5, _, _⟩ := h
  unfold sizes_ok at h5
  constructor
  · intro hF
    rw [if_neg hF] at h5
    rw [h5.1, h5.2.1, h5.2.2.1, h5.2.2.2]
    exact count_sum _ _ hF h1
  · intro hF
    rw [if_pos hF] at h5
    exact h5

/-- C2 (amended): for every buffer size N ≥ 1, every initial policy, every zone size and
every sequence of access and policy-switch records with at most ULLONG_MAX accesses (the
64-bit clock does not wrap), after the sequence: if the active policy is not FIFO,
t1_size + t2_size + t3_size + t4_size equals the number of frames whose page_id is not
INVALID_PAGE; if the active policy is FIFO, the four counters are all 0, whatever the
number of resident frames.  (A prefix of such a sequence is such a sequence, so this holds
after every record.) -/
theorem sizes_sum_resident (N : Nat) (pol : ReplacementPolicy) (zs : Nat)
    (trace : List Record) (hN : 1 ≤ N) (hlen : access_count_of trace ≤ ULLONG_MAX) :
    ((run (init_sim N pol zs) trace).current_policy ≠ FIFO →
      (run (init_sim N pol zs) trace).arc_state.t1_size
        + (run (init_sim N pol zs) trace).arc_state.t2_size
        + (run (init_sim N pol zs) trace).arc_state.t3_size
        + (run (init_sim N pol zs) trace).arc_state.t4_size
        = (((run (init_sim N pol zs) trace).buffer.countP
            fun f => decide (f.page_id ≠ INVALID_PAGE) : Nat) : Int)) ∧
    ((run (init_sim N pol zs) trace).current_policy = FIFO →
      (run (init_sim N pol zs) trace).arc_state.t1_size = 0 ∧
      (run (init_sim N pol zs) trace).arc_state.t2_size = 0 ∧
      (run (init_sim N pol zs) trace).arc_state.t3_size = 0 ∧
      (run (init_sim N pol zs) trace).arc_state.t4_size = 0) := by
  have h := run_inv trace (init_sim N pol zs) (init_sim_inv N pol zs)
    (by
      show 0 + access_count_of trace ≤ ULLONG_MAX
      omega)
    (by rw [init_sim_length]; omega)
  exact inv_sizes_sum _ h

theorem sizes_sum_resident_witness :
    (1 ≤ 2 ∧
      access_count_of [Record.access 0 OP_READ, Record.access 8 OP_READ,
        Record.policy_change 8, Record.access 16 OP_WRITE] ≤ ULLONG_MAX) ∧
    (run (init_sim 2 LRU 0) [Record.access 0 OP_READ, Record.access 8 OP_READ,
        Record.policy_change 8, Record.access 16 OP_WRITE]).arc_state.t1_size
      + (run (init_sim 2 LRU 0) [Record.access 0 OP_READ, Record.access 8 OP_READ,
        Record.policy_change 8, Record.access 16 OP_WRITE]).arc_state.t2_size
      + (run (init_sim 2 LRU 0) [Record.access 0 OP_READ, Record.access 8 OP_READ,
        Record.policy_change 8, Record.access 16 OP_WRITE]).arc_state.t3_size
      + (run (init_sim 2 LRU 0) [Record.access 0 OP_READ, Record.access 8 OP_READ,
        Record.policy_change 8, Record.access 16 OP_WRITE]).arc_state.t4_size = 2 :=
  ⟨⟨by decide, by decide⟩,
    ((sizes_sum_resident 2 LRU 0 [Record.access 0 OP_READ, Record.access 8 OP_READ,
        Record.policy_change 8, Record.access 16 OP_WRITE] (by decide) (by decide)).1
      (by decide)).trans (by decide)⟩

/-- C2 (as stated) fails under FIFO: with one frame, after the read of page 0 the frame
holds page 0, so one frame is resident, while the four size counters are all 0. -/
theorem sizes_sum_counterexample :
    (run (init_sim 1 FIFO 0) [Record.access 0 OP_READ]).current_policy = FIFO ∧
    (run (init_sim 1 FIFO 0) [Record.access 0 OP_READ]).arc_state.t1_size
      + (run (init_sim 1 FIFO 0) [Record.access 0 OP_READ]).arc_state.t2_size
      + (run (init_sim 1 FIFO 0) [Record.access 0 OP_READ]).arc_state.t3_size
      + (run (init_sim 1 FIFO 0) [Record.access 0 OP_READ]).arc_state.t4_size = 0 ∧
    ((run (init_sim 1 FIFO 0) [Record.access 0 OP_READ]).buffer.countP
      fun f => decide (f.page_id ≠ INVALID_PAGE)) = 1 := by
  decide

theorem add_mru_append_self (pid : Nat) (M : List Nat) (cap : Nat) (hM : pid ∉ M)
    (hlen : M.length < cap) (hp : pid ≠ INVALID_PAGE) :
    arc_add_to_ghost_mru pid (M ++ [pid]) cap = M ++ [pid] := by
  rw [arc_add_to_ghost_mru_eq]
  have he : (M ++ [pid]).erase pid = M := by
    rw [List.erase_append_right _ hM]
    simp
  have hc : ¬ (pid = INVALID_PAGE ∨ cap = 0) := by
    intro h
    rcases h with h | h
    · exact hp h
    · omega
  rw [if_neg hc, he, if_pos hlen]

theorem add_mru_cases (pid : Nat) (L : List Nat) (cap : Nat) (_hnd : L.Nodup)
    (hlen : L.length ≤ cap) (hcap : 0 < cap) (hp : pid ≠ INVALID_PAGE) :
    arc_add_to_ghost_mru pid L cap
      = (if pid ∉ L ∧ L.length = cap then L.tail ++ [pid] else L.erase pid ++ [pid]) := by
  rw [arc_add_to_ghost_mru_eq]
  have hc : ¬ (pid = INVALID_PAGE ∨ cap = 0) := by
    intro h
    rcases h with h | h
    · exact hp h
    · omega
  rw [if_neg hc]
  by_cases hm : pid ∈ L
  · have h1 : (L.erase pid).length < cap := by
      rw [List.length_erase_of_mem hm]
      have : 0 < L.length := List.length_pos_of_mem hm
      omega
    rw [if_pos h1, if_neg (fun h => h.1 hm)]
  · rw [List.erase_of_not_mem hm]
    by_cases hfull : L.length = cap
    · have h1 : ¬ L.length < cap := by omega
      rw [if_neg h1, if_pos ⟨hm, hfull⟩]
      have ht : L.take cap = L := List.take_of_length_le (by omega)
      have hd : L.drop cap = [] := List.drop_of_length_le (by omega)
      rw [ht, hd, List.append_nil, List.drop_one]
    · have h1 : L.length < cap := by omega
      rw [if_pos h1, if_neg (fun h => hfull h.2)]

theorem length_pos_int (x : Nat) (l : List Nat) (h : x ∈ l) : (0 : Int) < (l.length : Int) := by
  have := List.length_pos_of_mem h
  exact_mod_cast this

theorem step_a_lru_adapt (pol : ReplacementPolicy) (hp : pol = LRU ∨ pol = LRU_ARC) (N : Nat)
    (a : ARCState) (X : Nat) :
    (X ∈ a.b1 →
      (step_a pol N a X).arc.p
        = min (N : Int) (a.p + max 1 ((a.b2.length : Int) / (a.b1.length : Int))) ∧
      (step_a pol N a X).arc.b1 = a.b1.erase X ∧ (step_a pol N a X).arc.b2 = a.b2 ∧
      (step_a pol N a X).ref_load_list_type = 2 ∧
      (step_a pol N a X).actual_load_list_type = (if pol = LRU then 1 else 2)) ∧
    (X ∉ a.b1 → X ∈ a.b2 →
      (step_a pol N a X).arc.p
        = max 0 (a.p - max 1 ((a.b1.length : Int) / (a.b2.length : Int))) ∧
      (step_a pol N a X).arc.b1 = a.b1 ∧ (step_a pol N a X).arc.b2 = a.b2.erase X ∧
      (step_a pol N a X).ref_load_list_type = 2 ∧
      (step_a pol N a X).actual_load_list_type = (if pol = LRU then 1 else 2)) ∧
    (X ∉ a.b1 → X ∉ a.b2 →
      (step_a pol N a X).arc = a ∧
      (step_a pol N a X).ref_load_list_type = 1 ∧
      (step_a pol N a X).actual_load_list_type = 1) := by
  refine ⟨fun h1 => ?_, fun h1 h2 => ?_, fun h1 h2 => ?_⟩
  · have hpos := length_pos_int X a.b1 h1
    have f1 := find_in_arc_ghost_true X a.b1 h1
    rcases hp with rfl | rfl <;>
      simp [step_a, f1, hpos, arc_remove_from_ghost_eq_erase]
  · have hpos := length_pos_int X a.b2 h2
    have f1 := find_in_arc_ghost_false X a.b1 h1
    have f2 := find_in_arc_ghost_true X a.b2 h2
    rcases hp with rfl | rfl <;>
      simp [step_a, f1, f2, hpos, arc_remove_from_ghost_eq_erase]
  · have f1 := find_in_arc_ghost_false X a.b1 h1
    have f2 := find_in_arc_ghost_false X a.b2 h2
    rcases hp with rfl | rfl <;> simp [step_a, f1, f2]

theorem step_a_lfu_adapt (pol : ReplacementPolicy) (hp : pol = LFU ∨ pol = LFU_ARC) (N : Nat)
    (a : ARCState) (X : Nat) :
    (X ∈ a.b3 →
      (step_a pol N a X).arc.q
        = min (N : Int) (a.q + max 1 ((a.b4.length : Int) / (a.b3.length : Int))) ∧
      (step_a pol N a X).arc.b3 = a.b3.erase X ∧ (step_a pol N a X).arc.b4 = a.b4 ∧
      (step_a pol N a X).ref_load_list_type = 4 ∧
      (step_a pol N a X).actual_load_list_type = (if pol = LFU then 3 else 4)) ∧
    (X ∉ a.b3 → X ∈ a.b4 →
      (step_a pol N a X).arc.q
        = max 0 (a.q - max 1 ((a.b3.length : Int) / (a.b4.length : Int))) ∧
      (step_a pol N a X).arc.b3 = a.b3 ∧ (step_a pol N a X).arc.b4 = a.b4.erase X ∧
      (step_a pol N a X).ref_load_list_type = 4 ∧
      (step_a pol N a X).actual_load_list_type = (if pol = LFU then 3 else 4)) ∧
    (X ∉ a.b3 → X ∉ a.b4 →
      (step_a pol N a X).arc = a ∧
      (step_a pol N a X).ref_load_list_type = 3 ∧
      (step_a pol N a X).actual_load_list_type = 3) := by
  refine ⟨fun h1 => ?_, fun h1 h2 => ?_, fun h1 h2 => ?_⟩
  · have hpos := length_pos_int X a.b3 h1
    have f1 := find_in_arc_ghost_true X a.b3 h1
    rcases hp with rfl | rfl <;>
      simp [step_a, f1, hpos, arc_remove_from_ghost_eq_erase]
  · have hpos := length_pos_int X a.b4 h2
    have f1 := find_in_arc_ghost_false X a.b3 h1
    have f2 := find_in_arc_ghost_true X a.b4 h2
    rcases hp with rfl | rfl <;>
      simp [step_a, f1, f2, hpos, arc_remove_from_ghost_eq_erase]
  · have f1 := find_in_arc_ghost_false X a.b3 h1
    have f2 := find_in_arc_ghost_false X a.b4 h2
    rcases hp with rfl | rfl <;> simp [step_a, f1, f2]

theorem access_page_miss_pq (s : Sim) (lba X : Nat) (op : Op) (hX : X ≠ INVALID_PAGE)
    (hmiss : find_in_buffer s.buffer X = none) :
    (access_page s lba X op).arc_state.p = (miss_entry s X).arc_state.p ∧
    (access_page s lba X op).arc_state.q = (miss_entry s X).arc_state.q := by
  rw [access_page_miss s lba X op hX hmiss]
  have hb := before_load_pq (miss_entry s X) X
  rcases Option.eq_none_or_eq_some (load_slot (miss_entry s X) X) with hn | ⟨slot, hsl⟩
  · rw [hn]
    exact hb
  · rw [hsl]
    simp only []
    rw [load_page_eq]
    simp only []
    obtain ⟨l1, l2⟩ := load_arc_pq (before_load (miss_entry s X) X).current_policy
      (before_load (miss_entry s X) X).arc_state (before_load (miss_entry s X) X).buffer.length X
      (step_a s.current_policy s.buffer.length s.arc_state X).actual_load_list_type
      (step_a s.current_policy s.buffer.length s.arc_state X).ref_load_list_type
    exact ⟨l1.trans hb.1, l2.trans hb.2⟩

/-- C29: for a duplicate-free ghost list L of at most cap entries, cap > 0 and a valid
pid, `arc_add_to_ghost_mru` yields the last cap elements of (L with pid removed) followed
by pid: pid is the last (MRU) element; the elements before it are L without pid, in their
order, or, exactly when pid was absent and L was full, L without its first (LRU) element;
the result is duplicate-free and has at most cap entries; and adding pid again changes
nothing.  With pid = INVALID_PAGE or cap = 0 the list is returned unchanged. -/
theorem ghost_add_mru_contract (pid : Nat) (L : List Nat) (cap : Nat) :
    (L.Nodup → L.length ≤ cap → 0 < cap → pid ≠ INVALID_PAGE →
      arc_add_to_ghost_mru pid L cap = ghost_mru_spec pid L cap ∧
      (arc_add_to_ghost_mru pid L cap).getLast? = some pid ∧
      (arc_add_to_ghost_mru pid L cap).dropLast
        = (if pid ∉ L ∧ L.length = cap then L.tail else L.erase pid) ∧
      (arc_add_to_ghost_mru pid L cap).Nodup ∧
      (arc_add_to_ghost_mru pid L cap).length ≤ cap ∧
      arc_add_to_ghost_mru pid (arc_add_to_ghost_mru pid L cap) cap
        = arc_add_to_ghost_mru pid L cap) ∧
    (pid = INVALID_PAGE ∨ cap = 0 → arc_add_to_ghost_mru pid L cap = L) := by
  constructor
  · intro hnd hlen hcap hp
    have hcase := add_mru_cases pid L cap hnd hlen hcap hp
    have hM : ∃ M : List Nat, arc_add_to_ghost_mru pid L cap = M ++ [pid] ∧
        M = (if pid ∉ L ∧ L.length = cap then L.tail else L.erase pid) ∧
        pid ∉ M ∧ M.Nodup ∧ M.length < cap ∧
        M ++ [pid] = ghost_mru_spec pid L cap := by
      by_cases hc : pid ∉ L ∧ L.length = cap
      · rw [if_pos hc] at hcase
        refine ⟨L.tail, hcase, by rw [if_pos hc], fun h => hc.1 (List.mem_of_mem_tail h),
          hnd.tail, ?_, ?_⟩
        · rw [List.length_tail]; omega
        · unfold ghost_mru_spec
          rw [List.erase_of_not_mem hc.1, List.length_append, List.length_singleton, hc.2,
            Nat.add_sub_cancel_left, ← List.drop_one]
          cases L with
          | nil => simp at hc; omega
          | cons x rest => simp
      · rw [if_neg hc] at hcase
        have hl : (L.erase pid).length < cap := by
          by_cases hm : pid ∈ L
          · rw [List.length_erase_of_mem hm]
            have : 0 < L.length := List.length_pos_of_mem hm
            omega
          · rw [List.erase_of_not_mem hm]
            have : L.length ≠ cap := fun e => hc ⟨hm, e⟩
            omega
        refine ⟨L.erase pid, hcase, by rw [if_neg hc], ?_, hnd.erase pid, hl, ?_⟩
        · exact fun h => (List.Nodup.mem_erase_iff hnd).1 h |>.1 rfl
        · unfold ghost_mru_spec
          have : (L.erase pid ++ [pid]).length - cap = 0 := by
            rw [List.length_append, List.length_singleton]; omega
          rw [this, List.drop_zero]
    obtain ⟨M, hr, hM1, hM2, hM3, hM4, hM5⟩ := hM
    rw [hr]
    refine ⟨hM5, by simp, ?_, ?_, ?_, add_mru_append_self pid M cap hM2 hM4 hp⟩
    · rw [List.dropLast_concat]; exact hM1
    · rw [List.nodup_append]
      refine ⟨hM3, List.nodup_singleton _, ?_⟩
      intro x hx hx'
      rw [List.mem_singleton] at hx'
      exact hM2 (hx' ▸ hx)
    · rw [List.length_append, List.length_singleton]; omega
  · intro h
    rw [arc_add_to_ghost_mru_eq, if_pos h]

theorem ghost_add_mru_contract_witness :
    (([1, 2, 3] : List Nat).Nodup ∧ ([1, 2, 3] : List Nat).length ≤ 3 ∧ 0 < 3 ∧
      4 ≠ INVALID_PAGE) ∧
    arc_add_to_ghost_mru 4 [1, 2, 3] 3 = [2, 3, 4] ∧
    arc_add_to_ghost_mru 2 [1, 2, 3] 3 = [1, 3, 2] ∧
    arc_add_to_ghost_mru 4 [1, 2, 3] 0 = [1, 2, 3] :=
  ⟨⟨by decide, by decide, by decide, by decide⟩,
    ((ghost_add_mru_contract 4 [1, 2, 3] 3).1 (by decide) (by decide) (by decide)
      (by decide)).1.trans (by decide),
    ((ghost_add_mru_contract 2 [1, 2, 3] 3).1 (by decide) (by decide) (by decide)
      (by decide)).1.trans (by decide),
    (ghost_add_mru_contract 4 [1, 2, 3] 0).2 (Or.inr rfl)⟩

/-- C30: Step A of a miss on page X.  Let `a` be the ARC state before the miss, `a'` the ARC
state right after Step A, `al` and `rl` the list type and the shadow tag Step A hands to
the load, N the buffer size.  Under LRU or LRU_ARC: if X is in B1 then
p' = min(N, p + max(1, b2_size / b1_size)) with the sizes of `a` (integer division), X is
removed from B1 (first occurrence, order of the rest kept) and B2 is untouched; else if X is
in B2 then p' = max(0, p - max(1, b1_size / b2_size)), X is removed from B2 and B1 is
untouched; else the ARC state is unchanged.  In the first two cases the shadow tag is 2 and
the list type is 2 under LRU_ARC (1 under LRU); otherwise both are 1.  The same holds under
LFU or LFU_ARC with B3, B4, q, 4 and 3.  The targets p and q Step A leaves are those the
state has after the whole miss. -/
theorem step_a_adaptation (s : Sim) (X : Nat) (a a' : ARCState) (N : Int) (al rl : Nat)
    (ha : a = s.arc_state) (ha' : a' = (miss_entry s X).arc_state)
    (hN : N = (s.buffer.length : Int))
    (hal : al = (step_a s.current_policy s.buffer.length s.arc_state X).actual_load_list_type)
    (hrl : rl = (step_a s.current_policy s.buffer.length s.arc_state X).ref_load_list_type) :
    (s.current_policy = LRU ∨ s.current_policy = LRU_ARC →
      (X ∈ a.b1 →
        a'.p = min N (a.p + max 1 ((a.b2.length : Int) / (a.b1.length : Int))) ∧
        a'.b1 = a.b1.erase X ∧ a'.b2 = a.b2 ∧ rl = 2 ∧
        al = (if s.current_policy = LRU then 1 else 2)) ∧
      (X ∉ a.b1 → X ∈ a.b2 →
        a'.p = max 0 (a.p - max 1 ((a.b1.length : Int) / (a.b2.length : Int))) ∧
        a'.b1 = a.b1 ∧ a'.b2 = a.b2.erase X ∧ rl = 2 ∧
        al = (if s.current_policy = LRU then 1 else 2)) ∧
      (X ∉ a.b1 → X ∉ a.b2 → a' = a ∧ rl = 1 ∧ al = 1)) ∧
    (s.current_policy = LFU ∨ s.current_policy = LFU_ARC →
      (X ∈ a.b3 →
        a'.q = min N (a.q + max 1 ((a.b4.length : Int) / (a.b3.length : Int))) ∧
        a'.b3 = a.b3.erase X ∧ a'.b4 = a.b4 ∧ rl = 4 ∧
        al = (if s.current_policy = LFU then 3 else 4)) ∧
      (X ∉ a.b3 → X ∈ a.b4 →
        a'.q = max 0 (a.q - max 1 ((a.b3.length : Int) / (a.b4.length : Int))) ∧
        a'.b3 = a.b3 ∧ a'.b4 = a.b4.erase X ∧ rl = 4 ∧
        al = (if s.current_policy = LFU then 3 else 4)) ∧
      (X ∉ a.b3 → X ∉ a.b4 → a' = a ∧ rl = 3 ∧ al = 3)) ∧
    (∀ lba op, X ≠ INVALID_PAGE → find_in_buffer s.buffer X = none →
      (access_page s lba X op).arc_state.p = a'.p ∧
      (access_page s lba X op).arc_state.q = a'.q) := by
  have hm : (miss_entry s X).arc_state
      = (step_a s.current_policy s.buffer.length s.arc_state X).arc := rfl
  subst ha hN hal hrl
  rw [hm] at ha'
  subst ha'
  refine ⟨fun hp => step_a_lru_adapt _ hp _ _ _, fun hp => step_a_lfu_adapt _ hp _ _ _, ?_⟩
  intro lba op hX hmiss
  rw [← hm]
  exact access_page_miss_pq s lba X op hX hmiss

theorem step_a_adaptation_witness :
    (ghost_run.current_policy = LRU ∨ ghost_run.current_policy = LRU_ARC) ∧
    0 ∈ ghost_run.arc_state.b1 ∧
    (miss_entry ghost_run 0).arc_state.p = 1 ∧
    (miss_entry ghost_run 0).arc_state.b1 = [] ∧
    (access_page ghost_run 0 0 OP_READ).arc_state.p = 1 := by
  have h := step_a_adaptation ghost_run 0 ghost_run.arc_state (miss_entry ghost_run 0).arc_state
    ((ghost_run.buffer.length : Nat) : Int)
    (step_a ghost_run.current_policy ghost_run.buffer.length ghost_run.arc_state
      0).actual_load_list_type
    (step_a ghost_run.current_policy ghost_run.buffer.length ghost_run.arc_state
      0).ref_load_list_type rfl rfl rfl rfl rfl
  have hpol : ghost_run.current_policy = LRU ∨ ghost_run.current_policy = LRU_ARC :=
    Or.inl (by decide)
  have hb : 0 ∈ ghost_run.arc_state.b1 := by decide
  obtain ⟨e1, e2, _⟩ := (h.1 hpol).1 hb
  refine ⟨hpol, hb, e1.trans (by decide), e2.trans (by decide), ?_⟩
  exact ((h.2.2 0 OP_READ (by decide) (by decide)).1).trans (e1.trans (by decide))

theorem dirty_valid_mod_ref (b b' : List BufferFrame)
    (h : b'.map erase_ref = b.map erase_ref) (hd : dirty_valid b) : dirty_valid b' := by
  intro f hf hdirty
  obtain ⟨g, hg, he⟩ := mem_mod_ref b b' h f hf
  have e1 : g.page_id = f.page_id := congrArg (fun x => x.page_id) he
  have e2 : g.is_dirty = f.is_dirty := congrArg (fun x => x.is_dirty) he
  rw [← e1]
  exact hd g hg (by rw [e2]; exact hdirty)

theorem dirty_valid_of_core (b b' : List BufferFrame)
    (h : b'.map frame_core = b.map frame_core) (hd : dirty_valid b) : dirty_valid b' := by
  intro f hf hdirty
  have hm : frame_core f ∈ b.map frame_core := by
    rw [← h]; exact List.mem_map_of_mem _ hf
  obtain ⟨g, hg, he⟩ := List.mem_map.1 hm
  have e1 : g.page_id = f.page_id := congrArg (fun c => c.1) he
  have e2 : g.is_dirty = f.is_dirty := congrArg (fun c => c.2.2.2.2) he
  rw [← e1]
  exact hd g hg (by rw [e2]; exact hdirty)

theorem dirty_valid_set (buf : List BufferFrame) (i : Nat) (g : BufferFrame)
    (hd : dirty_valid buf) (hg : g.is_dirty ≠ 0 → g.page_id ≠ INVALID_PAGE) :
    dirty_valid (buf.set i g) := by
  intro f hf hdirty
  rcases List.mem_or_eq_of_mem_set hf with hm | he
  · exact hd f hm hdirty
  · rw [he] at hdirty ⊢
    exact hg hdirty

theorem handle_dirty_eviction_clean (s : Sim) (v : Nat) (hv : v < s.buffer.length)
    (hd : dirty_valid s.buffer) :
    dirty_valid (handle_dirty_eviction s v).buffer ∧
    (frame_at (handle_dirty_eviction s v).buffer v).is_dirty = 0 := by
  unfold handle_dirty_eviction
  simp only []
  split_ifs with h1 h2
  · exact absurd hv (by omega)
  · simp only [write_fio_log_buffer]
    exact ⟨dirty_valid_set _ _ _ hd (fun h => absurd rfl h), by rw [frame_at_set_eq _ _ _ hv]⟩
  · refine ⟨hd, ?_⟩
    by_contra hne
    exact h2 ⟨hd _ (frame_at_mem _ v hv) hne, hne⟩

theorem process_victim_buffer (s : Sim) (v : Nat) :
    (process_victim s v).buffer
      = (handle_dirty_eviction s v).buffer.set v
          { frame_at (handle_dirty_eviction s v).buffer v with page_id := INVALID_PAGE } := rfl

theorem process_victim_dirty (s : Sim) (v : Nat) (hv : v < s.buffer.length)
    (hd : dirty_valid s.buffer) : dirty_valid (process_victim s v).buffer := by
  obtain ⟨h1, h2⟩ := handle_dirty_eviction_clean s v hv hd
  rw [process_victim_buffer]
  exact dirty_valid_set _ _ _ h1 (fun h => absurd h2 h)

theorem load_page_dirty (s : Sim) (slot X : Nat) (op : Op) (al rl : Nat)
    (hX : X ≠ INVALID_PAGE) (hd : dirty_valid s.buffer) :
    dirty_valid (load_page s slot X op al rl).buffer := by
  rw [load_page_eq]
  exact dirty_valid_set _ _ _ hd (fun _ => by rw [(load_frame_fields _ _ _ _ _ _ _).1]; exact hX)

theorem miss_finish_dirty (s : Sim) (X : Nat) (op : Op) (al rl : Nat)
    (hX : X ≠ INVALID_PAGE) (hd : dirty_valid s.buffer) :
    dirty_valid (miss_finish s X op al rl).buffer := by
  rw [miss_finish_eq]
  obtain ⟨hb, hlt, _, _, _⟩ := chosen_spec s X
  have hdc := dirty_valid_mod_ref _ _ hb hd
  rcases Option.eq_none_or_eq_some (find_empty_slot s.buffer) with he | ⟨slot, he⟩
  · rw [he]
    simp only []
    rcases Option.eq_none_or_eq_some (chosen s X).2 with hc | ⟨v, hc⟩
    · rw [hc]
      exact hdc
    · rw [hc]
      simp only []
      have hv : v < (chosen s X).1.buffer.length := by
        rw [length_mod_ref _ _ hb]; exact hlt v hc
      exact load_page_dirty _ v X op al rl hX (process_victim_dirty _ v hv hdc)
  · rw [he]
    exact load_page_dirty s slot X op al rl hX hd

theorem access_hit_dirty (s : Sim) (i : Nat) (op : Op)
    (hres : (frame_at s.buffer i).page_id ≠ INVALID_PAGE) (hd : dirty_valid s.buffer) :
    dirty_valid (access_hit s i op).buffer := by
  rw [access_hit_eq]
  refine dirty_valid_set _ _ _ hd (fun _ => ?_)
  rw [(hit_frame_fields _ _).1, (hit_base_fields _ _ _).1]
  exact hres

theorem access_page_dirty (s : Sim) (lba X : Nat) (op : Op) (hd : dirty_valid s.buffer) :
    dirty_valid (access_page s lba X op).buffer := by
  unfold access_page
  simp only []
  split_ifs with hX
  · exact hd
  · split
    · rename_i i hi
      obtain ⟨_, hp⟩ := find_in_buffer_some _ _ _ hi
      exact access_hit_dirty _ i op (by
        show (frame_at s.buffer i).page_id ≠ INVALID_PAGE
        rw [hp]; exact hX) hd
    · rw [access_miss_eq]
      exact miss_finish_dirty _ X op _ _ hX hd

theorem process_record_dirty (s : Sim) (r : Record) (hd : dirty_valid s.buffer) :
    dirty_valid (process_record s r).buffer := by
  cases r with
  | access lba op => exact access_page_dirty s lba _ op hd
  | policy_change code => exact dirty_valid_of_core _ _ (process_switch_core s code).1 hd

theorem run_dirty (trace : List Record) (s : Sim) (hd : dirty_valid s.buffer) :
    dirty_valid (run s trace).buffer := by
  induction trace generalizing s with
  | nil => exact hd
  | cons r rest ih => exact ih _ (process_record_dirty s r hd)

theorem init_sim_dirty (N : Nat) (pol : ReplacementPolicy) (zs : Nat) :
    dirty_valid (init_sim N pol zs).buffer := by
  intro f hf hdirty
  have hf' : f ∈ initialize_buffer N := hf
  unfold initialize_buffer at hf'
  rw [List.eq_of_mem_replicate hf'] at hdirty
  exact absurd rfl hdirty

/-! ### The shutdown flush -/

theorem flush_writes_congr (s s' : Sim) (buf : List BufferFrame)
    (h : s'.zone_size_pages_global = s.zone_size_pages_global) :
    flush_writes s' buf = flush_writes s buf := by
  simp only [flush_writes, zns_rejects, h]

theorem flush_writes_cons (s : Sim) (f : BufferFrame) (rest : List BufferFrame) :
    flush_writes s (f :: rest)
      = (if f.page_id ≠ INVALID_PAGE ∧ f.is_dirty ≠ 0 ∧
            ¬ zns_rejects s ((f.page_id * SECTORS_PER_PAGE) % U64) then
          [victim_write_record f.page_id] else []) ++ flush_writes s rest := by
  unfold flush_writes
  rw [List.filter_cons]
  split_ifs with h1 h2 h2
  · rfl
  · simp only [decide_eq_true_eq] at h1; exact absurd h1 h2
  · simp only [decide_eq_true_eq] at h1; exact absurd h2 h1
  · rfl

theorem set_append_length (pre : List BufferFrame) (f g : BufferFrame)
    (rest : List BufferFrame) : (pre ++ f :: rest).set pre.length g = pre ++ g :: rest := by
  induction pre with
  | nil => rfl
  | cons x xs ih => simp [ih]

theorem shutdown_flush_loop_spec (n : Nat) (s : Sim) (pre rest : List BufferFrame)
    (hb : s.buffer = pre ++ rest) (hn : rest.length = n) :
    (shutdown_flush_loop n pre.length s).buffer = pre ++ rest.map flushed_frame ∧
    (shutdown_flush_loop n pre.length s).log_file = s.log_file ++ flush_writes s rest := by
  induction n generalizing s pre rest with
  | zero =>
    have : rest = [] := List.length_eq_zero.1 hn
    subst this
    simp [shutdown_flush_loop, hb, flush_writes]
  | succ n ih =>
    cases rest with
    | nil => simp at hn
    | cons f rest' =>
      have hlen : rest'.length = n := by simpa using hn
      have hfa : frame_at s.buffer pre.length = f := by
        rw [hb]; exact frame_at_append_length pre f rest'
      have hv : pre.length < s.buffer.length := by
        rw [hb, List.length_append, List.length_cons]; omega
      simp only [shutdown_flush_loop, hfa]
      rw [flush_writes_cons, List.map_cons]
      by_cases hc : f.page_id ≠ INVALID_PAGE ∧ f.is_dirty ≠ 0
      · rw [if_pos hc]
        have hlog := handle_dirty_eviction_log s pre.length hv (by rw [hfa]; exact hc.1)
        rw [hfa] at hlog
        have hbuf : (handle_dirty_eviction s pre.length).buffer
            = (pre ++ [({ f with is_dirty := 0 } : BufferFrame)]) ++ rest' := by
          have hv' : ¬ pre.length ≥ s.buffer.length := by omega
          unfold handle_dirty_eviction
          simp only [hv', if_false, hfa]
          rw [if_pos hc]
          simp only [write_fio_log_buffer]
          rw [hb, set_append_length]
          simp
        have hfix := handle_dirty_eviction_fixed s pre.length
        simp only [Sim.fixed, Prod.mk.injEq] at hfix
        have hi := ih (handle_dirty_eviction s pre.length)
          (pre ++ [({ f with is_dirty := 0 } : BufferFrame)]) rest' hbuf hlen
        have hl1 : (pre ++ [({ f with is_dirty := 0 } : BufferFrame)]).length
            = pre.length + 1 := by simp
        rw [hl1] at hi
        rw [hi.1, hi.2, hlog.1, flush_writes_congr s _ rest' hfix.2.2.2.2.1]
        constructor
        · simp [flushed_frame, hc]
        · by_cases hz : zns_rejects s ((f.page_id * SECTORS_PER_PAGE) % U64)
          · rw [if_neg (fun h => h.2 hz), if_neg (fun h => h.2.2 hz)]
            simp
          · rw [if_pos ⟨hc.2, hz⟩, if_pos ⟨hc.1, hc.2, hz⟩]
            simp
      · rw [if_neg hc]
        have hb' : s.buffer = (pre ++ [f]) ++ rest' := by rw [hb]; simp
        have hi := ih s (pre ++ [f]) rest' hb' hlen
        have hl1 : (pre ++ [f]).length = pre.length + 1 := by simp
        rw [hl1] at hi
        rw [hi.1, hi.2]
        constructor
        · simp [flushed_frame, hc]
        · rw [if_neg (fun h => hc ⟨h.1, h.2.1⟩)]
          simp

theorem shutdown_flush_spec (s : Sim) :
    (shutdown_flush s).buffer = s.buffer.map flushed_frame ∧
    (shutdown_flush s).log_file = s.log_file ++ flush_writes s s.buffer := by
  have h := shutdown_flush_loop_spec s.buffer.length s [] s.buffer rfl rfl
  exact h

theorem flushed_frame_page (f : BufferFrame) : (flushed_frame f).page_id = f.page_id := by
  unfold flushed_frame
  split_ifs <;> rfl

theorem flushed_frame_clean (f : BufferFrame) (h : f.is_dirty ≠ 0 → f.page_id ≠ INVALID_PAGE) :
    (flushed_frame f).is_dirty = 0 := by
  unfold flushed_frame
  split_ifs with hc
  · rfl
  · by_contra hne
    exact hc ⟨h hne, hne⟩

/-- C21: in every state reached from an initial state by any sequence of access and
policy-switch records, and in the state the shutdown flush leaves, every frame whose
is_dirty flag is set holds a valid page (page_id ≠ INVALID_PAGE). -/
theorem dirty_frames_hold_pages (N : Nat) (pol : ReplacementPolicy) (zs : Nat)
    (trace : List Record) :
    (∀ f ∈ (run (init_sim N pol zs) trace).buffer,
      f.is_dirty ≠ 0 → f.page_id ≠ INVALID_PAGE) ∧
    (∀ f ∈ (simulate N pol zs trace).buffer, f.is_dirty ≠ 0 → f.page_id ≠ INVALID_PAGE) := by
  have h := run_dirty trace (init_sim N pol zs) (init_sim_dirty N pol zs)
  refine ⟨h, ?_⟩
  intro f hf hdirty
  exfalso
  apply hdirty
  have hb := (shutdown_flush_spec (run (init_sim N pol zs) trace)).1
  have hf' : f ∈ (shutdown_flush (run (init_sim N pol zs) trace)).buffer := hf
  rw [hb] at hf'
  obtain ⟨g, hg, he⟩ := List.mem_map.1 hf'
  rw [← he]
  exact flushed_frame_clean g (h g hg)

/-- C22: the shutdown flush applied to a state `s` reached from an initial state by any
records.  The device log grows by exactly the write records of `flush_writes`: going
through the frames in index order, one write of 8 sectors at the page's LBA for every
resident dirty frame whose write the ZNS check does not reject (zone ID out of range), and
nothing for a clean or an empty frame.  Afterwards no frame is dirty, every frame holds the
page it held, and nothing else of a frame has changed (the frames are those of `s` with the
dirty flag of the resident dirty ones cleared). -/
theorem shutdown_flush_contract (N : Nat) (pol : ReplacementPolicy) (zs : Nat)
    (trace : List Record) :
    (simulate N pol zs trace).log_file
      = (run (init_sim N pol zs) trace).log_file
        ++ flush_writes (run (init_sim N pol zs) trace)
            (run (init_sim N pol zs) trace).buffer ∧
    (∀ f ∈ (simulate N pol zs trace).buffer, f.is_dirty = 0) ∧
    (simulate N pol zs trace).buffer.map (fun f => f.page_id)
      = (run (init_sim N pol zs) trace).buffer.map (fun f => f.page_id) ∧
    (simulate N pol zs trace).buffer
      = (run (init_sim N pol zs) trace).buffer.map flushed_frame := by
  have h := run_dirty trace (init_sim N pol zs) (init_sim_dirty N pol zs)
  obtain ⟨hb, hl⟩ := shutdown_flush_spec (run (init_sim N pol zs) trace)
  have hb' : (simulate N pol zs trace).buffer
      = (run (init_sim N pol zs) trace).buffer.map flushed_frame := hb
  refine ⟨hl, ?_, ?_, hb'⟩
  · intro f hf
    rw [hb'] at hf
    obtain ⟨g, hg, he⟩ := List.mem_map.1 hf
    rw [← he]
    exact flushed_frame_clean g (h g hg)
  · rw [hb', List.map_map]
    apply List.map_congr_left
    intro f _
    exact flushed_frame_page f

/-! ### The log and history lists of the CLOCK-Pro variants -/

theorem add_mru_mem_self (pid : Nat) (l : List Nat) (N : Nat) (hp : pid ≠ INVALID_PAGE)
    (hN : 0 < N) : pid ∈ arc_add_to_ghost_mru pid l N := by
  rw [arc_add_to_ghost_mru_eq]
  have hc : ¬ (pid = INVALID_PAGE ∨ N = 0) := by
    intro h
    rcases h with h | h
    · exact hp h
    · omega
  rw [if_neg hc]
  split_ifs <;> simp

theorem add_mru_last (pid : Nat) (l : List Nat) (N : Nat) (hp : pid ≠ INVALID_PAGE)
    (hN : 0 < N) (hl : l.length ≤ N) :
    (arc_add_to_ghost_mru pid l N).getLast? = some pid := by
  rw [arc_add_to_ghost_mru_eq]
  have hc : ¬ (pid = INVALID_PAGE ∨ N = 0) := by
    intro h
    rcases h with h | h
    · exact hp h
    · omega
  rw [if_neg hc]
  have hle : (l.erase pid).length ≤ N := le_trans (List.length_erase_le pid l) hl
  split_ifs
  · exact List.getLast?_concat _
  · rw [List.drop_of_length_le hle, List.append_nil]
    exact List.getLast?_concat _

theorem add_mru_keeps_last (X Y : Nat) (l : List Nat) (N : Nat) (hXY : X ≠ Y)
    (hlast : l.getLast? = some Y) (hl : l.length ≤ N) (hN : 2 ≤ N) :
    Y ∈ arc_add_to_ghost_mru X l N := by
  rw [arc_add_to_ghost_mru_eq]
  obtain ⟨M, hM⟩ := List.getLast?_eq_some_iff.1 hlast
  have he : ∃ M' : List Nat, l.erase X = M' ++ [Y] := by
    rw [hM]
    by_cases hm : X ∈ M
    · exact ⟨M.erase X, List.erase_append_left _ hm⟩
    · refine ⟨M, ?_⟩
      rw [List.erase_append_right _ hm]
      have : [Y].erase X = [Y] := List.erase_of_not_mem (by simpa using hXY)
      rw [this]
  obtain ⟨M', hM'⟩ := he
  have hle : (l.erase X).length ≤ N := le_trans (List.length_erase_le X l) hl
  split_ifs with h1 h2
  · rw [hM]; simp
  · rw [hM']; simp
  · rw [List.drop_of_length_le hle, List.append_nil, List.take_of_length_le hle, hM']
    have hlen : (M' ++ [Y]).length = N := by
      rw [← hM']; omega
    have hpos : 1 ≤ M'.length := by
      rw [List.length_append, List.length_singleton] at hlen; omega
    rw [List.drop_append_of_le_length hpos]
    simp

theorem before_load_ok (s : Sim) (X : Nat) (h : s.ok) : (before_load s X).ok := by
  unfold before_load
  rcases Option.eq_none_or_eq_some (find_empty_slot s.buffer) with he | ⟨slot, he⟩
  · rw [he]
    simp only []
    rcases Option.eq_none_or_eq_some (chosen s X).2 with hc | ⟨v, hc⟩
    · rw [hc]
      exact chosen_ok s X h
    · rw [hc]
      exact process_victim_ok _ v (chosen_ok s X h)
  · rw [he]
    exact h

theorem load_arc_pro_t1 (a : ARCState) (N X al rl : Nat) :
    (load_arc CLOCK_PRO_T1_B4_LOGS_B2 a N X al rl).b2 = arc_add_to_ghost_mru X a.b2 N ∧
    (load_arc CLOCK_PRO_T1_B4_LOGS_B2 a N X al rl).b4 = a.b4 := by
  simp only [load_arc]
  split_ifs <;> exact ⟨rfl, rfl⟩

theorem load_arc_pro_t3 (a : ARCState) (N X al rl : Nat) :
    (load_arc CLOCK_PRO_T3_B2_LOGS_B4 a N X al rl).b4 = arc_add_to_ghost_mru X a.b4 N ∧
    (load_arc CLOCK_PRO_T3_B2_LOGS_B4 a N X al rl).b2 = a.b2 := by
  simp only [load_arc]
  split_ifs <;> exact ⟨rfl, rfl⟩

theorem evict_arc_pro_t1 (a : ARCState) (N : Nat) (f : BufferFrame)
    (hres : f.page_id ≠ INVALID_PAGE) :
    (evict_arc CLOCK_PRO_T1_B4_LOGS_B2 a N f).b4 = arc_add_to_ghost_mru f.page_id a.b4 N ∧
    (evict_arc CLOCK_PRO_T1_B4_LOGS_B2 a N f).b2 = arc_add_to_ghost_mru f.page_id a.b2 N := by
  simp [evict_arc, hres]

theorem evict_arc_pro_t3 (a : ARCState) (N : Nat) (f : BufferFrame)
    (hres : f.page_id ≠ INVALID_PAGE) :
    (evict_arc CLOCK_PRO_T3_B2_LOGS_B4 a N f).b4 = arc_add_to_ghost_mru f.page_id a.b4 N ∧
    (evict_arc CLOCK_PRO_T3_B2_LOGS_B4 a N f).b2 = arc_add_to_ghost_mru f.page_id a.b2 N := by
  simp [evict_arc, hres]

/-- The shape of a miss with at least one frame: the load goes into a slot of the state
`before_load`, and if the miss evicts frame `v`, that state is `evicted` and the victim
frame is resident and does not hold the missed page. -/
theorem miss_shape (s : Sim) (lba X : Nat) (op : Op) (hN : 0 < s.buffer.length)
    (hX : X ≠ INVALID_PAGE) (hmiss : find_in_buffer s.buffer X = none) :
    (∃ slot, slot < s.buffer.length ∧
      access_page s lba X op
        = load_page (before_load (miss_entry s X) X) slot X op
            (step_a s.current_policy s.buffer.length s.arc_state X).actual_load_list_type
            (step_a s.current_policy s.buffer.length s.arc_state X).ref_load_list_type) ∧
    (∀ v, miss_victim s X = some v →
      before_load (miss_entry s X) X = evicted (miss_entry s X) X v ∧
      v < (chosen (miss_entry s X) X).1.buffer.length ∧
      (victim_frame s X v).page_id ≠ INVALID_PAGE ∧ (victim_frame s X v).page_id ≠ X) := by
  constructor
  · obtain ⟨slot, hsl⟩ := load_slot_exists (miss_entry s X) X hN
    have hslot := (load_slot_lt _ _ _ hsl).1
    have hfix := before_load_fixed (miss_entry s X) X
    rw [miss_entry_fixed] at hfix
    simp only [Sim.fixed, Prod.mk.injEq] at hfix
    refine ⟨slot, by rw [← hfix.2.2.2.2.2]; exact hslot, ?_⟩
    rw [access_page_miss s lba X op hX hmiss, hsl]
  · intro v hv
    unfold miss_victim at hv
    rcases Option.eq_none_or_eq_some (find_empty_slot (miss_entry s X).buffer) with hf | ⟨sl, hf⟩
    · rw [hf] at hv
      simp only [] at hv
      obtain ⟨hvlt, hres⟩ := victim_resident (miss_entry s X) X v hf hv
      obtain ⟨hb, _, _, _, _⟩ := chosen_spec (miss_entry s X) X
      refine ⟨?_, hvlt, hres, ?_⟩
      · unfold before_load
        rw [hf]
        simp only []
        rw [hv]
      · show (frame_at (chosen (miss_entry s X) X).1.buffer v).page_id ≠ X
        rw [page_mod_ref _ _ hb v]
        have hvs : v < s.buffer.length := by
          have := length_mod_ref _ _ hb
          rw [this] at hvlt
          exact hvlt
        exact find_in_buffer_none _ _ hmiss _ (frame_at_mem s.buffer v hvs)
    · rw [hf] at hv
      simp only [] at hv
      cases hv

theorem clock_pro_t1_miss (s : Sim) (lba X : Nat) (op : Op) (hok : s.ok)
    (hpol : s.current_policy = CLOCK_PRO_T1_B4_LOGS_B2) (hN : 0 < s.buffer.length)
    (hX : X ≠ INVALID_PAGE) (hmiss : find_in_buffer s.buffer X = none) :
    (∃ i, i < s.buffer.length ∧ (frame_at (access_page s lba X op).buffer i).page_id = X) ∧
    (access_page s lba X op).arc_state.b2.getLast? = some X ∧
    ∀ v, miss_victim s X = some v →
      (victim_frame s X v).page_id ∈ (access_page s lba X op).arc_state.b4 ∧
      (2 ≤ s.buffer.length →
        (victim_frame s X v).page_id ∈ (access_page s lba X op).arc_state.b2) := by
  have hmok : (miss_entry s X).ok := miss_begin_ok _ X hok
  have heok := before_load_ok (miss_entry s X) X hmok
  have hfix := before_load_fixed (miss_entry s X) X
  rw [miss_entry_fixed] at hfix
  simp only [Sim.fixed, Prod.mk.injEq] at hfix
  obtain ⟨hpolE, _, _, _, _, hlenE⟩ := hfix
  obtain ⟨⟨slot, hslot, hs'⟩, hvic⟩ := miss_shape s lba X op hN hX hmiss
  rw [load_page_eq] at hs'
  have hbuf : (access_page s lba X op).buffer
      = (before_load (miss_entry s X) X).buffer.set slot
          (load_frame (before_load (miss_entry s X) X).current_policy
            (frame_at (before_load (miss_entry s X) X).buffer slot)
            (before_load (miss_entry s X) X).current_time X op
            (step_a s.current_policy s.buffer.length s.arc_state X).actual_load_list_type
            (step_a s.current_policy s.buffer.length s.arc_state X).ref_load_list_type) := by
    rw [hs']
  have harc : (access_page s lba X op).arc_state
      = load_arc CLOCK_PRO_T1_B4_LOGS_B2 (before_load (miss_entry s X) X).arc_state
          s.buffer.length X
          (step_a s.current_policy s.buffer.length s.arc_state X).actual_load_list_type
          (step_a s.current_policy s.buffer.length s.arc_state X).ref_load_list_type := by
    rw [hs']
    simp only []
    rw [hpolE, hpol, hlenE]
  obtain ⟨hb2, hb4⟩ := load_arc_pro_t1 (before_load (miss_entry s X) X).arc_state
    s.buffer.length X
    (step_a s.current_policy s.buffer.length s.arc_state X).actual_load_list_type
    (step_a s.current_policy s.buffer.length s.arc_state X).ref_load_list_type
  have hle2 : (before_load (miss_entry s X) X).arc_state.b2.length ≤ s.buffer.length := by
    have := heok.2.1.2
    rw [hlenE] at this
    exact this
  refine ⟨⟨slot, hslot, ?_⟩, ?_, ?_⟩
  · rw [hbuf, frame_at_set_eq _ _ _ (by rw [hlenE]; exact hslot)]
    exact (load_frame_fields _ _ _ _ _ _ _).1
  · rw [harc, hb2]
    exact add_mru_last X _ _ hX hN hle2
  · intro v hv
    obtain ⟨hbl, hvlt, hres, hne⟩ := hvic v hv
    have hcf := chosen_fixed (miss_entry s X) X
    rw [miss_entry_fixed] at hcf
    simp only [Sim.fixed, Prod.mk.injEq] at hcf
    have hcok := chosen_ok (miss_entry s X) X hmok
    have hea := evicted_arc (miss_entry s X) X v hvlt
    rw [← hbl, hcf.1, hpol, hcf.2.2.2.2.2] at hea
    obtain ⟨e4, e2⟩ := evict_arc_pro_t1 (chosen (miss_entry s X) X).1.arc_state s.buffer.length
      (frame_at (chosen (miss_entry s X) X).1.buffer v) hres
    have hY : (victim_frame s X v).page_id
        = (frame_at (chosen (miss_entry s X) X).1.buffer v).page_id := rfl
    constructor
    · rw [harc, hb4, hea, e4, hY]
      exact add_mru_mem_self _ _ _ hres hN
    · intro h2
      rw [harc, hb2]
      refine add_mru_keeps_last X _ _ _ (fun e => hne e.symm) ?_ hle2 h2
      rw [hea, e2, hY]
      refine add_mru_last _ _ _ hres hN ?_
      have := hcok.2.1.2
      rw [hcf.2.2.2.2.2] at this
      exact this

theorem clock_pro_t3_miss (s : Sim) (lba X : Nat) (op : Op) (hok : s.ok)
    (hpol : s.current_policy = CLOCK_PRO_T3_B2_LOGS_B4) (hN : 0 < s.buffer.length)
    (hX : X ≠ INVALID_PAGE) (hmiss : find_in_buffer s.buffer X = none) :
    (∃ i, i < s.buffer.length ∧ (frame_at (access_page s lba X op).buffer i).page_id = X) ∧
    (access_page s lba X op).arc_state.b4.getLast? = some X ∧
    ∀ v, miss_victim s X = some v →
      (victim_frame s X v).page_id ∈ (access_page s lba X op).arc_state.b2 ∧
      (2 ≤ s.buffer.length →
        (victim_frame s X v).page_id ∈ (access_page s lba X op).arc_state.b4) := by
  have hmok : (miss_entry s X).ok := miss_begin_ok _ X hok
  have heok := before_load_ok (miss_entry s X) X hmok
  have hfix := before_load_fixed (miss_entry s X) X
  rw [miss_entry_fixed] at hfix
  simp only [Sim.fixed, Prod.mk.injEq] at hfix
  obtain ⟨hpolE, _, _, _, _, hlenE⟩ := hfix
  obtain ⟨⟨slot, hslot, hs'⟩, hvic⟩ := miss_shape s lba X op hN hX hmiss
  rw [load_page_eq] at hs'
  have hbuf : (access_page s lba X op).buffer
      = (before_load (miss_entry s X) X).buffer.set slot
          (load_frame (before_load (miss_entry s X) X).current_policy
            (frame_at (before_load (miss_entry s X) X).buffer slot)
            (before_load (miss_entry s X) X).current_time X op
            (step_a s.current_policy s.buffer.length s.arc_state X).actual_load_list_type
            (step_a s.current_policy s.buffer.length s.arc_state X).ref_load_list_type) := by
    rw [hs']
  have harc : (access_page s lba X op).arc_state
      = load_arc CLOCK_PRO_T3_B2_LOGS_B4 (before_load (miss_entry s X) X).arc_state
          s.buffer.length X
          (step_a s.current_policy s.buffer.length s.arc_state X).actual_load_list_type
          (step_a s.current_policy s.buffer.length s.arc_state X).ref_load_list_type := by
    rw [hs']
    simp only []
    rw [hpolE, hpol, hlenE]
  obtain ⟨hb4, hb2⟩ := load_arc_pro_t3 (before_load (miss_entry s X) X).arc_state
    s.buffer.length X
    (step_a s.current_policy s.buffer.length s.arc_state X).actual_load_list_type
    (step_a s.current_policy s.buffer.length s.arc_state X).ref_load_list_type
  have hle4 : (before_load (miss_entry s X) X).arc_state.b4.length ≤ s.buffer.length := by
    have := heok.2.2.2.1.2
    rw [hlenE] at this
    exact this
  refine ⟨⟨slot, hslot, ?_⟩, ?_, ?_⟩
  · rw [hbuf, frame_at_set_eq _ _ _ (by rw [hlenE]; exact hslot)]
    exact (load_frame_fields _ _ _ _ _ _ _).1
  · rw [harc, hb4]
    exact add_mru_last X _ _ hX hN hle4
  · intro v hv
    obtain ⟨hbl, hvlt, hres, hne⟩ := hvic v hv
    have hcf := chosen_fixed (miss_entry s X) X
    rw [miss_entry_fixed] at hcf
    simp only [Sim.fixed, Prod.mk.injEq] at hcf
    have hcok := chosen_ok (miss_entry s X) X hmok
    have hea := evicted_arc (miss_entry s X) X v hvlt
    rw [← hbl, hcf.1, hpol, hcf.2.2.2.2.2] at hea
    obtain ⟨e4, e2⟩ := evict_arc_pro_t3 (chosen (miss_entry s X) X).1.arc_state s.buffer.length
      (frame_at (chosen (miss_entry s X) X).1.buffer v) hres
    have hY : (victim_frame s X v).page_id
        = (frame_at (chosen (miss_entry s X) X).1.buffer v).page_id := rfl
    constructor
    · rw [harc, hb2, hea, e2, hY]
      exact add_mru_mem_self _ _ _ hres hN
    · intro h2
      rw [harc, hb4]
      refine add_mru_keeps_last X _ _ _ (fun e => hne e.symm) ?_ hle4 h2
      rw [hea, e4, hY]
      refine add_mru_last _ _ _ hres hN ?_
      have := hcok.2.2.2.1.2
      rw [hcf.2.2.2.2.2] at this
      exact this

/-- C23 (as stated) fails for N = 1: under CLOCK_PRO_T1_B4_LOGS_B2 with one frame holding
page 0, the miss on page 1 evicts page 0 and pushes it to B4 and B2, but the load then
pushes page 1 to B2, whose capacity is 1: after the miss B4 = [0] and B2 = [1], so the
evicted page is not in B2. -/
theorem clock_pro_log_counterexample :
    clock_pro_full.current_policy = CLOCK_PRO_T1_B4_LOGS_B2 ∧
    find_in_buffer clock_pro_full.buffer 1 = none ∧
    miss_victim clock_pro_full 1 = some 0 ∧
    (victim_frame clock_pro_full 1 0).page_id = 0 ∧
    (access_page clock_pro_full 8 1 OP_READ).arc_state.b4 = [0] ∧
    (access_page clock_pro_full 8 1 OP_READ).arc_state.b2 = [1] ∧
    (victim_frame clock_pro_full 1 0).page_id
      ∉ (access_page clock_pro_full 8 1 OP_READ).arc_state.b2 := by
  decide

/-- C23 (amended): let `s` be a state reached from an initial state with N ≥ 1 frames by any
records, and `s'` the state after a miss on a valid page X.  Under
CLOCK_PRO_T1_B4_LOGS_B2 the page X is resident in `s'` and is the last (MRU) element of the
log list B2 (so the log list is not disjoint from the resident set), and the page of a
frame evicted by that miss is in the history list B4 and, when N ≥ 2, also in B2.  Under
CLOCK_PRO_T3_B2_LOGS_B4 the same holds with log list B4 and history list B2. -/
theorem clock_pro_log_lists (N : Nat) (pol : ReplacementPolicy) (zs : Nat)
    (trace : List Record) (s s' : Sim) (lba X : Nat) (op : Op)
    (hs : s = run (init_sim N pol zs) trace) (hN : 1 ≤ N) (hX : X ≠ INVALID_PAGE)
    (hmiss : find_in_buffer s.buffer X = none) (hs' : s' = access_page s lba X op) :
    (s.current_policy = CLOCK_PRO_T1_B4_LOGS_B2 →
      (∃ i, i < N ∧ (frame_at s'.buffer i).page_id = X) ∧
      s'.arc_state.b2.getLast? = some X ∧
      ∀ v, miss_victim s X = some v →
        (victim_frame s X v).page_id ∈ s'.arc_state.b4 ∧
        (2 ≤ N → (victim_frame s X v).page_id ∈ s'.arc_state.b2)) ∧
    (s.current_policy = CLOCK_PRO_T3_B2_LOGS_B4 →
      (∃ i, i < N ∧ (frame_at s'.buffer i).page_id = X) ∧
      s'.arc_state.b4.getLast? = some X ∧
      ∀ v, miss_victim s X = some v →
        (victim_frame s X v).page_id ∈ s'.arc_state.b2 ∧
        (2 ≤ N → (victim_frame s X v).page_id ∈ s'.arc_state.b4)) := by
  have hok : s.ok := by rw [hs]; exact run_ok trace _ (init_sim_ok N pol zs)
  have hlen : s.buffer.length = N := by rw [hs, run_length, init_sim_length]
  have hpos : 0 < s.buffer.length := by omega
  constructor
  · intro hp
    have h := clock_pro_t1_miss s lba X op hok hp hpos hX hmiss
    rw [hlen, ← hs'] at h
    exact h
  · intro hp
    have h := clock_pro_t3_miss s lba X op hok hp hpos hX hmiss
    rw [hlen, ← hs'] at h
    exact h

theorem clock_pro_log_lists_witness :
    (1 ≤ 2 ∧ 2 ≠ INVALID_PAGE ∧ find_in_buffer clock_pro_two.buffer 2 = none ∧
      clock_pro_two.current_policy = CLOCK_PRO_T1_B4_LOGS_B2 ∧
      miss_victim clock_pro_two 2 = some 0) ∧
    (access_page clock_pro_two 16 2 OP_READ).arc_state.b2.getLast? = some 2 ∧
    (victim_frame clock_pro_two 2 0).page_id
      ∈ (access_page clock_pro_two 16 2 OP_READ).arc_state.b4 ∧
    (victim_frame clock_pro_two 2 0).page_id
      ∈ (access_page clock_pro_two 16 2 OP_READ).arc_state.b2 := by
  have h := (clock_pro_log_lists 2 CLOCK_PRO_T1_B4_LOGS_B2 0
    [Record.access 0 OP_READ, Record.access 8 OP_READ] clock_pro_two
    (access_page clock_pro_two 16 2 OP_READ) 16 2 OP_READ rfl (by decide) (by decide)
    (by decide) rfl).1 (by decide)
  have hv : miss_victim clock_pro_two 2 = some 0 := by decide
  exact ⟨⟨by decide, by decide, by decide, by decide, hv⟩, h.2.1, (h.2.2 0 hv).1,
    (h.2.2 0 hv).2 (by decide)⟩

/-! ### The scans for a victim: what they return -/

theorem lt_succ_cases (j n : Nat) (h : j < n + 1) : j < n ∨ j = n := by omega

theorem evict_arc_internal_lru_loop_min (t : Nat) (buf pre : List BufferFrame)
    (vic : Option Nat) (m : Nat)
    (hA : ∀ j, j < pre.length → in_list (pre ++ buf) t j →
      m ≤ (frame_at (pre ++ buf) j).last_access_time)
    (hB : ∀ v, vic = some v → v < pre.length ∧ in_list (pre ++ buf) t v ∧
      (frame_at (pre ++ buf) v).last_access_time = m ∧
      ∀ j, j < v → in_list (pre ++ buf) t j → m < (frame_at (pre ++ buf) j).last_access_time)
    (r : Nat) (h : evict_arc_internal_lru_loop t buf pre.length vic m = some r) :
    in_list (pre ++ buf) t r ∧
    (∀ j, in_list (pre ++ buf) t j →
      (frame_at (pre ++ buf) r).last_access_time ≤ (frame_at (pre ++ buf) j).last_access_time) ∧
    (∀ j, j < r → in_list (pre ++ buf) t j →
      (frame_at (pre ++ buf) r).last_access_time
        < (frame_at (pre ++ buf) j).last_access_time) := by
  induction buf generalizing pre vic m with
  | nil =>
    unfold evict_arc_internal_lru_loop at h
    obtain ⟨b1, b2, b3, b4⟩ := hB r h
    rw [b3]
    refine ⟨b2, fun j hj => hA j ?_ hj, b4⟩
    have := hj.1
    simpa using this
  | cons f rest ih =>
    unfold evict_arc_internal_lru_loop at h
    have hl : (pre ++ [f]).length = pre.length + 1 := by simp
    have happ : pre ++ f :: rest = (pre ++ [f]) ++ rest := by simp
    have hf : frame_at (pre ++ f :: rest) pre.length = f := frame_at_append_length pre f rest
    have hin : pre.length < (pre ++ f :: rest).length := by simp
    rw [← hl] at h
    split_ifs at h with h1 h2
    · have key := ih (pre ++ [f]) (some pre.length) f.last_access_time
        (fun j hj hjl => by
          rw [← happ] at hjl ⊢
          rw [hl] at hj
          rcases lt_succ_cases _ _ hj with hj | hj
          · exact le_of_lt (lt_of_lt_of_le h2 (hA j hj hjl))
          · rw [hj, hf])
        (fun v hv => by
          simp only [Option.some.injEq] at hv
          subst hv
          rw [← happ, hl]
          refine ⟨Nat.lt_succ_self _, ⟨hin, by rw [hf]; exact h1.1, by rw [hf]; exact h1.2⟩,
            by rw [hf], fun j hj hjl => ?_⟩
          exact lt_of_lt_of_le h2 (hA j hj hjl)) h
      rw [← happ] at key
      exact key
    · have key := ih (pre ++ [f]) vic m
        (fun j hj hjl => by
          rw [← happ] at hjl ⊢
          rw [hl] at hj
          rcases lt_succ_cases _ _ hj with hj | hj
          · exact hA j hj hjl
          · rw [hj, hf]; omega)
        (fun v hv => by
          rw [← happ, hl]
          obtain ⟨b1, b2, b3, b4⟩ := hB v hv
          exact ⟨by omega, b2, b3, b4⟩) h
      rw [← happ] at key
      exact key
    · have key := ih (pre ++ [f]) vic m
        (fun j hj hjl => by
          rw [← happ] at hjl ⊢
          rw [hl] at hj
          rcases lt_succ_cases _ _ hj with hj | hj
          · exact hA j hj hjl
          · exfalso
            rw [hj] at hjl
            apply h1
            have h2 := hjl.2
            rw [hf] at h2
            exact h2)
        (fun v hv => by
          rw [← happ, hl]
          obtain ⟨b1, b2, b3, b4⟩ := hB v hv
          exact ⟨by omega, b2, b3, b4⟩) h
      rw [← happ] at key
      exact key

theorem evict_arc_internal_lru_min (buf : List BufferFrame) (t r : Nat)
    (h : evict_arc_internal_lru buf t = some r) :
    in_list buf t r ∧
    (∀ j, in_list buf t j →
      (frame_at buf r).last_access_time ≤ (frame_at buf j).last_access_time) ∧
    (∀ j, j < r → in_list buf t j →
      (frame_at buf r).last_access_time < (frame_at buf j).last_access_time) := by
  have := evict_arc_internal_lru_loop_min t buf [] none ULLONG_MAX
    (fun j hj => absurd hj (by simp)) (fun v hv => by cases hv) r h
  simpa using this

theorem in_list_mem (buf : List BufferFrame) (t j : Nat) (h : in_list buf t j) :
    frame_at buf j ∈ buf ∧ (frame_at buf j).page_id ≠ INVALID_PAGE ∧
    (frame_at buf j).list_type = t :=
  ⟨frame_at_mem buf j h.1, h.2.1, h.2.2⟩

theorem mem_in_list (buf : List BufferFrame) (t : Nat) (f : BufferFrame) (hf : f ∈ buf)
    (hr : f.page_id ≠ INVALID_PAGE) (hl : f.list_type = t) :
    ∃ j, in_list buf t j ∧ frame_at buf j = f := by
  obtain ⟨j, hj, he⟩ := List.getElem_of_mem hf
  refine ⟨j, ?_, ?_⟩
  · have e : frame_at buf j = f := by
      unfold frame_at
      rw [List.getD_eq_getElem _ _ hj]
      exact he
    exact ⟨hj, by rw [e]; exact hr, by rw [e]; exact hl⟩
  · unfold frame_at
    rw [List.getD_eq_getElem _ _ hj]
    exact he

theorem evict_arc_internal_lfu_loop_min (t : Nat) (buf pre : List BufferFrame)
    (vic : Option Nat) (mc ol : Nat)
    (hA : ∀ j, j < pre.length → in_list (pre ++ buf) t j →
      mc ≤ (frame_at (pre ++ buf) j).access_count ∧
      ((frame_at (pre ++ buf) j).access_count = mc → ol ≤ (frame_at (pre ++ buf) j).load_time))
    (hB : ∀ v, vic = some v → v < pre.length ∧ in_list (pre ++ buf) t v ∧
      (frame_at (pre ++ buf) v).access_count = mc ∧ (frame_at (pre ++ buf) v).load_time = ol)
    (r : Nat) (h : evict_arc_internal_lfu_loop t buf pre.length vic mc ol = some r) :
    in_list (pre ++ buf) t r ∧
    ∀ j, in_list (pre ++ buf) t j →
      (frame_at (pre ++ buf) r).access_count ≤ (frame_at (pre ++ buf) j).access_count ∧
      ((frame_at (pre ++ buf) j).access_count = (frame_at (pre ++ buf) r).access_count →
        (frame_at (pre ++ buf) r).load_time ≤ (frame_at (pre ++ buf) j).load_time) := by
  induction buf generalizing pre vic mc ol with
  | nil =>
    unfold evict_arc_internal_lfu_loop at h
    obtain ⟨b1, b2, b3, b4⟩ := hB r h
    rw [b3, b4]
    refine ⟨b2, fun j hj => hA j ?_ hj⟩
    have := hj.1
    simpa using this
  | cons f rest ih =>
    unfold evict_arc_internal_lfu_loop at h
    have hl : (pre ++ [f]).length = pre.length + 1 := by simp
    have happ : pre ++ f :: rest = (pre ++ [f]) ++ rest := by simp
    have hf : frame_at (pre ++ f :: rest) pre.length = f := frame_at_append_length pre f rest
    have hin : pre.length < (pre ++ f :: rest).length := by simp
    have keep : ∀ v, vic = some v → v < (pre ++ [f]).length ∧
        in_list ((pre ++ [f]) ++ rest) t v ∧
        (frame_at ((pre ++ [f]) ++ rest) v).access_count = mc ∧
        (frame_at ((pre ++ [f]) ++ rest) v).load_time = ol := by
      intro v hv
      rw [← happ, hl]
      obtain ⟨b1, b2, b3, b4⟩ := hB v hv
      exact ⟨by omega, b2, b3, b4⟩
    rw [← hl] at h
    split_ifs at h with h1 h2 h3 h4
    · have key := ih (pre ++ [f]) (some pre.length) f.access_count f.load_time
        (fun j hj hjl => by
          rw [← happ] at hjl ⊢
          rw [hl] at hj
          rcases lt_succ_cases _ _ hj with hj | hj
          · have := hA j hj hjl
            exact ⟨by omega, fun e => by omega⟩
          · rw [hj, hf]
            exact ⟨le_refl _, fun _ => le_refl _⟩)
        (fun v hv => by
          simp only [Option.some.injEq] at hv
          subst hv
          rw [← happ, hl]
          exact ⟨Nat.lt_succ_self _,
            ⟨hin, by rw [hf]; exact h1.1, by rw [hf]; exact h1.2⟩, by rw [hf], by rw [hf]⟩) h
      rw [← happ] at key
      exact key
    · have key := ih (pre ++ [f]) (some pre.length) mc f.load_time
        (fun j hj hjl => by
          rw [← happ] at hjl ⊢
          rw [hl] at hj
          rcases lt_succ_cases _ _ hj with hj | hj
          · have := hA j hj hjl
            exact ⟨this.1, fun e => by have := this.2 e; omega⟩
          · rw [hj, hf]
            exact ⟨by omega, fun _ => le_refl _⟩)
        (fun v hv => by
          simp only [Option.some.injEq] at hv
          subst hv
          rw [← happ, hl]
          exact ⟨Nat.lt_succ_self _,
            ⟨hin, by rw [hf]; exact h1.1, by rw [hf]; exact h1.2⟩, by rw [hf]; exact h3,
            by rw [hf]⟩) h
      rw [← happ] at key
      exact key
    · have key := ih (pre ++ [f]) vic mc ol
        (fun j hj hjl => by
          rw [← happ] at hjl ⊢
          rw [hl] at hj
          rcases lt_succ_cases _ _ hj with hj | hj
          · exact hA j hj hjl
          · rw [hj, hf]
            exact ⟨by omega, fun _ => by omega⟩) keep h
      rw [← happ] at key
      exact key
    · have key := ih (pre ++ [f]) vic mc ol
        (fun j hj hjl => by
          rw [← happ] at hjl ⊢
          rw [hl] at hj
          rcases lt_succ_cases _ _ hj with hj | hj
          · exact hA j hj hjl
          · rw [hj, hf]
            exact ⟨by omega, fun e => absurd e h3⟩) keep h
      rw [← happ] at key
      exact key
    · have key := ih (pre ++ [f]) vic mc ol
        (fun j hj hjl => by
          rw [← happ] at hjl ⊢
          rw [hl] at hj
          rcases lt_succ_cases _ _ hj with hj | hj
          · exact hA j hj hjl
          · exfalso
            rw [hj] at hjl
            apply h1
            have h2 := hjl.2
            rw [hf] at h2
            exact h2) keep h
      rw [← happ] at key
      exact key

theorem evict_arc_internal_lfu_min (buf : List BufferFrame) (t r : Nat)
    (h : evict_arc_internal_lfu buf t = some r) :
    in_list buf t r ∧
    ∀ j, in_list buf t j →
      (frame_at buf r).access_count ≤ (frame_at buf j).access_count ∧
      ((frame_at buf j).access_count = (frame_at buf r).access_count →
        (frame_at buf r).load_time ≤ (frame_at buf j).load_time) := by
  have := evict_arc_internal_lfu_loop_min t buf [] none UINT_MAX ULLONG_MAX
    (fun j hj => absurd hj (by simp)) (fun v hv => by cases hv) r h
  simpa using this

theorem evict_fifo_loop_min (buf pre : List BufferFrame) (vic : Option Nat) (m : Nat)
    (hA : ∀ j, j < pre.length → resident_at (pre ++ buf) j →
      m ≤ (frame_at (pre ++ buf) j).load_time)
    (hB : ∀ v, vic = some v → v < pre.length ∧ resident_at (pre ++ buf) v ∧
      (frame_at (pre ++ buf) v).load_time = m ∧
      ∀ j, j < v → resident_at (pre ++ buf) j → m < (frame_at (pre ++ buf) j).load_time)
    (r : Nat) (h : evict_fifo_loop buf pre.length vic m = some r) :
    resident_at (pre ++ buf) r ∧
    (∀ j, resident_at (pre ++ buf) j →
      (frame_at (pre ++ buf) r).load_time ≤ (frame_at (pre ++ buf) j).load_time) ∧
    (∀ j, j < r → resident_at (pre ++ buf) j →
      (frame_at (pre ++ buf) r).load_time < (frame_at (pre ++ buf) j).load_time) := by
  induction buf generalizing pre vic m with
  | nil =>
    unfold evict_fifo_loop at h
    obtain ⟨b1, b2, b3, b4⟩ := hB r h
    rw [b3]
    refine ⟨b2, fun j hj => hA j ?_ hj, b4⟩
    have := hj.1
    simpa using this
  | cons f rest ih =>
    unfold evict_fifo_loop at h
    have hl : (pre ++ [f]).length = pre.length + 1 := by simp
    have happ : pre ++ f :: rest = (pre ++ [f]) ++ rest := by simp
    have hf : frame_at (pre ++ f :: rest) pre.length = f := frame_at_append_length pre f rest
    have hin : pre.length < (pre ++ f :: rest).length := by simp
    rw [← hl] at h
    split_ifs at h with h1
    · have key := ih (pre ++ [f]) (some pre.length) f.load_time
        (fun j hj hjl => by
          rw [← happ] at hjl ⊢
          rw [hl] at hj
          rcases lt_succ_cases _ _ hj with hj | hj
          · exact le_of_lt (lt_of_lt_of_le h1.2 (hA j hj hjl))
          · rw [hj, hf])
        (fun v hv => by
          simp only [Option.some.injEq] at hv
          subst hv
          rw [← happ, hl]
          refine ⟨Nat.lt_succ_self _, ⟨hin, by rw [hf]; exact h1.1⟩, by rw [hf],
            fun j hj hjl => ?_⟩
          exact lt_of_lt_of_le h1.2 (hA j hj hjl)) h
      rw [← happ] at key
      exact key
    · have key := ih (pre ++ [f]) vic m
        (fun j hj hjl => by
          rw [← happ] at hjl ⊢
          rw [hl] at hj
          rcases lt_succ_cases _ _ hj with hj | hj
          · exact hA j hj hjl
          · rw [hj] at hjl ⊢
            rw [hf]
            have h2 := hjl.2
            rw [hf] at h2
            by_contra hlt
            exact h1 ⟨h2, by omega⟩)
        (fun v hv => by
          rw [← happ, hl]
          obtain ⟨b1, b2, b3, b4⟩ := hB v hv
          exact ⟨by omega, b2, b3, b4⟩) h
      rw [← happ] at key
      exact key

theorem evict_fifo_loop_none (buf : List BufferFrame) (i : Nat) (vic : Option Nat) (m : Nat)
    (h : evict_fifo_loop buf i vic m = none) :
    vic = none ∧ ∀ f ∈ buf, f.page_id ≠ INVALID_PAGE → m ≤ f.load_time := by
  induction buf generalizing i vic m with
  | nil => unfold evict_fifo_loop at h; exact ⟨h, by simp⟩
  | cons f rest ih =>
    unfold evict_fifo_loop at h
    split_ifs at h with h1
    · exact absurd (ih _ _ _ h).1 (by simp)
    · obtain ⟨hv, hr⟩ := ih _ _ _ h
      refine ⟨hv, fun g hg => ?_⟩
      rcases List.mem_cons.1 hg with hg | hg
      · subst hg
        intro hp
        by_contra hlt
        exact h1 ⟨hp, by omega⟩
      · exact hr g hg

theorem resident_at_mem (buf : List BufferFrame) (j : Nat) (h : resident_at buf j) :
    frame_at buf j ∈ buf ∧ (frame_at buf j).page_id ≠ INVALID_PAGE :=
  ⟨frame_at_mem buf j h.1, h.2⟩

theorem evict_fifo_eq (buf : List BufferFrame) :
    evict_fifo buf
      = if buf.length = 0 then none
        else if evict_fifo_loop buf 0 none ULLONG_MAX = none ∧ find_empty_slot buf = none ∧
            buf.length > 0 then some 0
        else evict_fifo_loop buf 0 none ULLONG_MAX := rfl

theorem evict_fifo_loop_start (buf : List BufferFrame) (r : Nat)
    (h : evict_fifo_loop buf 0 none ULLONG_MAX = some r) :
    resident_at buf r ∧
    (∀ j, resident_at buf j → (frame_at buf r).load_time ≤ (frame_at buf j).load_time) ∧
    (∀ j, j < r → resident_at buf j →
      (frame_at buf r).load_time < (frame_at buf j).load_time) := by
  have := evict_fifo_loop_min buf [] none ULLONG_MAX
    (fun j hj => absurd hj (by simp)) (fun v hv => by cases hv) r h
  simpa using this

/-- What `evict_fifo` returns when it has a frame to offer: the first resident frame of
least load time. -/
theorem evict_fifo_min (buf : List BufferFrame)
    (h : (∃ f ∈ buf, f.page_id ≠ INVALID_PAGE ∧ f.load_time < ULLONG_MAX) ∨
      (buf ≠ [] ∧ find_empty_slot buf = none ∧ ∀ f ∈ buf, f.load_time ≤ ULLONG_MAX)) :
    ∃ v, evict_fifo buf = some v ∧ resident_at buf v ∧
      (∀ j, resident_at buf j → (frame_at buf v).load_time ≤ (frame_at buf j).load_time) ∧
      (∀ j, j < v → resident_at buf j →
        (frame_at buf v).load_time < (frame_at buf j).load_time) := by
  have hne : buf.length ≠ 0 := by
    rcases h with ⟨f, hf, _⟩ | ⟨hb, _⟩
    · exact Nat.ne_of_gt (List.length_pos_of_mem hf)
    · exact fun e => hb (List.length_eq_zero.1 e)
  rw [evict_fifo_eq, if_neg hne]
  rcases Option.eq_none_or_eq_some (evict_fifo_loop buf 0 none ULLONG_MAX) with hn | ⟨v, hv⟩
  · obtain ⟨_, hall⟩ := evict_fifo_loop_none buf 0 none ULLONG_MAX hn
    rcases h with ⟨f, hf, hr, hlt⟩ | ⟨_, hfull, hle⟩
    · have := hall f hf hr
      omega
    · have hpos : buf.length > 0 := Nat.pos_of_ne_zero hne
      rw [if_pos ⟨hn, hfull, hpos⟩]
      have h0 : resident_at buf 0 :=
        ⟨hpos, find_empty_slot_none buf hfull _ (frame_at_mem buf 0 hpos)⟩
      refine ⟨0, rfl, h0, fun j hj => ?_, fun j hj => absurd hj (by omega)⟩
      obtain ⟨m1, m2⟩ := resident_at_mem buf j hj
      have a1 := hall _ m1 m2
      have a2 := hle _ (frame_at_mem buf 0 hpos)
      omega
  · rw [hv, if_neg (fun hc => by cases hc.1)]
    exact ⟨v, rfl, evict_fifo_loop_start buf v hv⟩

theorem evict_fifo_empty (buf : List BufferFrame) (h : ∀ f ∈ buf, f.page_id = INVALID_PAGE) :
    evict_fifo buf = none := by
  rw [evict_fifo_eq]
  split_ifs with h0 h1
  · rfl
  · exfalso
    have hpos : 0 < buf.length := h1.2.2
    exact find_empty_slot_none buf h1.2.1 _ (frame_at_mem buf 0 hpos)
      (h _ (frame_at_mem buf 0 hpos))
  · rcases Option.eq_none_or_eq_some (evict_fifo_loop buf 0 none ULLONG_MAX) with hn | ⟨v, hv⟩
    · exact hn
    · obtain ⟨hr, _⟩ := evict_fifo_loop_start buf v hv
      exact absurd (h _ (frame_at_mem buf v hr.1)) hr.2

theorem fifo_miss_victim (s : Sim) (X v : Nat) (hp : s.current_policy = FIFO)
    (hv : miss_victim s X = some v) :
    find_empty_slot s.buffer = none ∧ evict_fifo s.buffer = some v := by
  unfold miss_victim at hv
  have hbuf : (miss_entry s X).buffer = s.buffer := rfl
  rcases Option.eq_none_or_eq_some (find_empty_slot (miss_entry s X).buffer) with hf | ⟨sl, hf⟩
  · rw [hf] at hv
    simp only [] at hv
    obtain ⟨_, hlt, _, _, _⟩ := chosen_spec (miss_entry s X) X
    have hvl := hlt v hv
    rw [hbuf] at hvl hf
    obtain ⟨w, hw⟩ := evict_fifo_full s.buffer (by omega) hf
    have hsel : select_victim (miss_entry s X) X = (miss_entry s X, evict_fifo s.buffer) := by
      have hp' : (miss_entry s X).current_policy = FIFO := hp
      unfold select_victim
      rw [if_pos hp']
      rfl
    have hsel2 : (select_victim (miss_entry s X) X).2 = some w := by rw [hsel]; exact hw
    have hch := chosen_of_select (miss_entry s X) X w hsel2
    rw [hch] at hv
    simp only [Option.some.injEq] at hv
    subst hv
    exact ⟨hf, hw⟩
  · rw [hf] at hv
    simp only [] at hv
    cases hv

theorem hit_keeps_load_time (s : Sim) (lba X : Nat) (op : Op) (i : Nat)
    (hX : X ≠ INVALID_PAGE) (hi : find_in_buffer s.buffer X = some i) (j : Nat) :
    (frame_at (access_page s lba X op).buffer j).load_time = (frame_at s.buffer j).load_time := by
  obtain ⟨hlt, _⟩ := find_in_buffer_some _ _ _ hi
  have he : access_page s lba X op
      = access_hit { s with current_time := (s.current_time + 1) % U64 } i op := by
    unfold access_page
    simp only [hX, if_false, hi]
  rw [he, access_hit_eq]
  simp only []
  by_cases hj : j = i
  · subst hj
    rw [frame_at_set_eq _ _ _ hlt]
    exact (hit_frame_base _ _ _ _).2.1
  · rw [frame_at_set_ne _ _ _ _ hj]

/-- C25: `evict_arc_internal_lru(t)` on a buffer in which every resident frame of list `t`
has last_access_time below ULLONG_MAX: it returns -1 exactly when no resident frame has
list_type t; an index it returns is that of a resident frame of list t whose
last_access_time is least among these frames, and the lowest such index.  The function
reads the frames only: under pure LRU victim selection is this scan of list 1 and leaves the
simulator state as it was. -/
theorem lru_scan_contract (buf : List BufferFrame) (t : Nat)
    (hlat : ∀ f ∈ buf, f.page_id ≠ INVALID_PAGE → f.list_type = t →
      f.last_access_time < ULLONG_MAX) :
    (evict_arc_internal_lru buf t = none ↔
      ∀ f ∈ buf, ¬ (f.page_id ≠ INVALID_PAGE ∧ f.list_type = t)) ∧
    (∀ v, evict_arc_internal_lru buf t = some v →
      in_list buf t v ∧
      (∀ j, in_list buf t j →
        (frame_at buf v).last_access_time ≤ (frame_at buf j).last_access_time) ∧
      (∀ j, j < v → in_list buf t j →
        (frame_at buf v).last_access_time < (frame_at buf j).last_access_time)) ∧
    (∀ (s : Sim) (X : Nat), s.current_policy = LRU →
      select_victim s X = (s, evict_arc_internal_lru s.buffer 1)) := by
  refine ⟨⟨fun hn f hf hm => ?_, fun hall => ?_⟩,
    fun v hv => evict_arc_internal_lru_min buf t v hv, fun s X hp => ?_⟩
  · have := (evict_arc_internal_lru_loop_none t buf 0 none ULLONG_MAX hn).2 f hf hm.1 hm.2
    exact this (hlat f hf hm.1 hm.2)
  · rcases Option.eq_none_or_eq_some (evict_arc_internal_lru buf t) with hn | ⟨v, hv⟩
    · exact hn
    · obtain ⟨m1, m2, m3⟩ := in_list_mem buf t v (evict_arc_internal_lru_spec buf t v hv)
      exact absurd ⟨m2, m3⟩ (hall _ m1)
  · unfold select_victim
    rw [if_neg (by rw [hp]; decide), if_pos hp]

theorem lru_scan_contract_witness :
    (∀ f ∈ ghost_run.buffer, f.page_id ≠ INVALID_PAGE → f.list_type = 1 →
      f.last_access_time < ULLONG_MAX) ∧
    evict_arc_internal_lru ghost_run.buffer 1 = some 1 ∧
    in_list ghost_run.buffer 1 1 ∧
    (frame_at ghost_run.buffer 1).last_access_time = 2 ∧
    (frame_at ghost_run.buffer 0).last_access_time = 3 := by
  have hlat : ∀ f ∈ ghost_run.buffer, f.page_id ≠ INVALID_PAGE → f.list_type = 1 →
      f.last_access_time < ULLONG_MAX := by decide
  have hv : evict_arc_internal_lru ghost_run.buffer 1 = some 1 := by decide
  exact ⟨hlat, hv, ((lru_scan_contract ghost_run.buffer 1 hlat).2.1 1 hv).1, by decide,
    by decide⟩

/-- C26: an index `evict_arc_internal_lfu(t)` returns is that of a resident frame of list t
whose access_count is least among the resident frames of list t and whose load_time is
least among those of that access count.  If it returns -1, every resident frame of list t
(if there is one) has access_count ≥ UINT_MAX and, if its access_count is UINT_MAX,
load_time ≥ ULLONG_MAX; with access counts in the range of `unsigned int`, every resident
frame of list t has access_count = UINT_MAX. -/
theorem lfu_scan_contract (buf : List BufferFrame) (t : Nat) :
    (∀ v, evict_arc_internal_lfu buf t = some v →
      in_list buf t v ∧
      ∀ j, in_list buf t j →
        (frame_at buf v).access_count ≤ (frame_at buf j).access_count ∧
        ((frame_at buf j).access_count = (frame_at buf v).access_count →
          (frame_at buf v).load_time ≤ (frame_at buf j).load_time)) ∧
    (evict_arc_internal_lfu buf t = none →
      ∀ f ∈ buf, f.page_id ≠ INVALID_PAGE → f.list_type = t →
        UINT_MAX ≤ f.access_count ∧ (f.access_count = UINT_MAX → ULLONG_MAX ≤ f.load_time)) ∧
    (evict_arc_internal_lfu buf t = none → (∀ f ∈ buf, f.access_count ≤ UINT_MAX) →
      ∀ f ∈ buf, f.page_id ≠ INVALID_PAGE → f.list_type = t → f.access_count = UINT_MAX) := by
  have hnone : evict_arc_internal_lfu buf t = none →
      ∀ f ∈ buf, f.page_id ≠ INVALID_PAGE → f.list_type = t →
        UINT_MAX ≤ f.access_count ∧
        (f.access_count = UINT_MAX → ULLONG_MAX ≤ f.load_time) := by
    intro hn f hf hr hl
    have := (evict_arc_internal_lfu_loop_none t buf 0 none UINT_MAX ULLONG_MAX hn).2 f hf hr hl
    exact ⟨by omega, fun e => by
      have h2 := this.2
      by_contra hlt
      exact h2 ⟨e, by omega⟩⟩
  refine ⟨fun v hv => evict_arc_internal_lfu_min buf t v hv, hnone, ?_⟩
  intro hn hle f hf hr hl
  have := (hnone hn f hf hr hl).1
  have := hle f hf
  omega

theorem lfu_scan_contract_witness :
    evict_arc_internal_lfu lfu_sample_buffer 3 = some 2 ∧
    in_list lfu_sample_buffer 3 2 ∧
    (frame_at lfu_sample_buffer 2).access_count ≤ (frame_at lfu_sample_buffer 1).access_count ∧
    (frame_at lfu_sample_buffer 2).load_time ≤ (frame_at lfu_sample_buffer 1).load_time := by
  have hv : evict_arc_internal_lfu lfu_sample_buffer 3 = some 2 := by decide
  have h := (lfu_scan_contract lfu_sample_buffer 3).1 2 hv
  have h1 : in_list lfu_sample_buffer 3 1 := ⟨by decide, by decide, by decide⟩
  exact ⟨hv, h.1, (h.2 1 h1).1, (h.2 1 h1).2 (by decide)⟩

theorem ring_inj (hand N i k : Nat) (h1 : i < k) (h2 : k < i + N) :
    (hand + i) % N ≠ (hand + k) % N := by
  intro e
  have hm : (hand + i) ≡ (hand + k) [MOD N] := e
  have hd := (Nat.modEq_iff_dvd' (by omega : hand + i ≤ hand + k)).1 hm
  have hle := Nat.le_of_dvd (by omega) hd
  omega

theorem ring_surj (hand N j : Nat) (hj : j < N) : ∃ i, i < N ∧ (hand + i) % N = j := by
  have hN : 0 < N := by omega
  have hh : hand % N < N := Nat.mod_lt _ hN
  by_cases hc : hand % N ≤ j
  · refine ⟨j - hand % N, by omega, ?_⟩
    rw [Nat.add_mod, Nat.mod_eq_of_lt (by omega : j - hand % N < N)]
    have : hand % N + (j - hand % N) = j := by omega
    rw [this, Nat.mod_eq_of_lt hj]
  · refine ⟨j + N - hand % N, by omega, ?_⟩
    rw [Nat.add_mod, Nat.mod_eq_of_lt (by omega : j + N - hand % N < N)]
    have : hand % N + (j + N - hand % N) = j + N := by omega
    rw [this, Nat.add_mod_right, Nat.mod_eq_of_lt hj]

theorem clock_match_erase_ref (filt : Bool) (t : Nat) (f : BufferFrame) :
    clock_match filt t (erase_ref f) ↔ clock_match filt t f := Iff.rfl

theorem clock_pass_zero (hand : Nat) (filt : Bool) (t pass i : Nat) (b : List BufferFrame) :
    clock_pass hand filt t pass 0 i b = (none, b) ∧
    clock_pass_steps hand filt t pass 0 i b = 0 := ⟨rfl, rfl⟩

theorem clock_pass_succ (hand : Nat) (filt : Bool) (t pass n i : Nat) (b : List BufferFrame) :
    clock_pass hand filt t pass (n + 1) i b
      = (if clock_match filt t (frame_at b ((hand + i) % b.length)) then
          if (frame_at b ((hand + i) % b.length)).ref_bit = 0 then
            (some ((hand + i) % b.length), b)
          else if pass = 0 then
            clock_pass hand filt t pass n (i + 1)
              (b.set ((hand + i) % b.length) (erase_ref (frame_at b ((hand + i) % b.length))))
          else clock_pass hand filt t pass n (i + 1) b
        else clock_pass hand filt t pass n (i + 1) b) := by
  rw [clock_pass]
  simp only [clock_match, erase_ref]
  split_ifs <;> first | rfl | (exfalso; tauto)

theorem clock_pass_steps_succ (hand : Nat) (filt : Bool) (t pass n i : Nat)
    (b : List BufferFrame) :
    clock_pass_steps hand filt t pass (n + 1) i b
      = (if clock_match filt t (frame_at b ((hand + i) % b.length)) then
          if (frame_at b ((hand + i) % b.length)).ref_bit = 0 then 1
          else if pass = 0 then
            1 + clock_pass_steps hand filt t pass n (i + 1)
              (b.set ((hand + i) % b.length) (erase_ref (frame_at b ((hand + i) % b.length))))
          else 1 + clock_pass_steps hand filt t pass n (i + 1) b
        else 1 + clock_pass_steps hand filt t pass n (i + 1) b) := by
  rw [clock_pass_steps]
  simp only [clock_match, erase_ref]
  split_ifs <;> first | rfl | (exfalso; tauto)

/-- One pass of the sweep from loop counter `i` with `n` iterations left: it stops at the
first ring offset `K` whose frame is considered and has its reference bit clear, or runs to
the end; the considered frames before `K` have their reference bit set and, in pass 0, are
the frames whose reference bit the pass clears. -/
theorem clock_pass_spec (hand : Nat) (filt : Bool) (t pass : Nat) (n i : Nat)
    (b : List BufferFrame) (hN : 0 < b.length) (hin : i + n ≤ b.length) :
    ∃ K, i ≤ K ∧ K ≤ i + n ∧
      (∀ i', i ≤ i' → i' < K → clock_match filt t (frame_at b ((hand + i') % b.length)) →
        (frame_at b ((hand + i') % b.length)).ref_bit ≠ 0) ∧
      (pass = 0 → ∀ j,
        (swept hand filt t b i K j →
          frame_at (clock_pass hand filt t pass n i b).2 j = erase_ref (frame_at b j)) ∧
        (¬ swept hand filt t b i K j →
          frame_at (clock_pass hand filt t pass n i b).2 j = frame_at b j)) ∧
      (((clock_pass hand filt t pass n i b).1 = none ∧ K = i + n ∧
          clock_pass_steps hand filt t pass n i b = n) ∨
        (K < i + n ∧ (clock_pass hand filt t pass n i b).1 = some ((hand + K) % b.length) ∧
          clock_match filt t (frame_at b ((hand + K) % b.length)) ∧
          (frame_at b ((hand + K) % b.length)).ref_bit = 0 ∧
          clock_pass_steps hand filt t pass n i b = K - i + 1)) := by
  induction n generalizing i b with
  | zero =>
    refine ⟨i, le_refl _, by omega, fun i' h1 h2 => absurd h2 (by omega), fun _ j => ?_,
      Or.inl ⟨rfl, rfl, rfl⟩⟩
    refine ⟨fun hs => ?_, fun _ => rfl⟩
    obtain ⟨i', a1, a2, _⟩ := hs
    exact absurd a2 (by omega)
  | succ n ih =>
    rw [clock_pass_succ, clock_pass_steps_succ]
    have hidx : (hand + i) % b.length < b.length := Nat.mod_lt _ hN
    by_cases hM : clock_match filt t (frame_at b ((hand + i) % b.length))
    · rw [if_pos hM, if_pos hM]
      by_cases href : (frame_at b ((hand + i) % b.length)).ref_bit = 0
      · rw [if_pos href, if_pos href]
        refine ⟨i, le_refl _, by omega, fun i' h1 h2 => absurd h2 (by omega), fun _ j => ?_,
          Or.inr ⟨by omega, rfl, hM, href, by omega⟩⟩
        refine ⟨fun hs => ?_, fun _ => rfl⟩
        obtain ⟨i', a1, a2, _⟩ := hs
        exact absurd a2 (by omega)
      · rw [if_neg href, if_neg href]
        by_cases hp : pass = 0
        · rw [if_pos hp, if_pos hp]
          have hlen' : (b.set ((hand + i) % b.length)
              (erase_ref (frame_at b ((hand + i) % b.length)))).length = b.length :=
            List.length_set _ _ _
          have hfe := frame_at_set_eq b ((hand + i) % b.length)
            (erase_ref (frame_at b ((hand + i) % b.length))) hidx
          have hfn : ∀ j, j ≠ (hand + i) % b.length →
              frame_at (b.set ((hand + i) % b.length)
                (erase_ref (frame_at b ((hand + i) % b.length)))) j = frame_at b j :=
            fun j hj => frame_at_set_ne b _ j _ hj
          have hring : ∀ i', i + 1 ≤ i' → i' < i + 1 + n →
              (hand + i') % b.length ≠ (hand + i) % b.length :=
            fun i' c1 c2 => (ring_inj hand b.length i i' (by omega) (by omega)).symm
          obtain ⟨K, h1, h2, h3, h4, h5⟩ := ih (i + 1)
            (b.set ((hand + i) % b.length) (erase_ref (frame_at b ((hand + i) % b.length))))
            (by rw [hlen']; exact hN) (by rw [hlen']; omega)
          rw [hlen'] at h3 h5
          refine ⟨K, by omega, by omega, ?_, ?_, ?_⟩
          · intro i' c1 c2 hm
            by_cases hi : i' = i
            · rw [hi]; exact href
            · have hne := hring i' (by omega) (by omega)
              have := h3 i' (by omega) c2
              rw [hfn _ hne] at this
              exact this hm
          · intro hp0 j
            obtain ⟨f1, f2⟩ := h4 hp0 j
            constructor
            · intro hsw
              obtain ⟨i', a1, a2, a3, a4⟩ := hsw
              by_cases hj : j = (hand + i) % b.length
              · have hns : ¬ swept hand filt t (b.set ((hand + i) % b.length)
                    (erase_ref (frame_at b ((hand + i) % b.length)))) (i + 1) K j := by
                  rintro ⟨i'', c1, c2, c3, _⟩
                  rw [hlen'] at c3
                  exact hring i'' c1 (by omega) (c3.trans hj)
                rw [f2 hns, hj, hfe]
              · have hi' : i + 1 ≤ i' := by
                  by_contra hc
                  have : i' = i := by omega
                  rw [this] at a3
                  exact hj a3.symm
                have hs' : swept hand filt t (b.set ((hand + i) % b.length)
                    (erase_ref (frame_at b ((hand + i) % b.length)))) (i + 1) K j :=
                  ⟨i', hi', a2, by rw [hlen']; exact a3, by rw [hfn j hj]; exact a4⟩
                rw [f1 hs', hfn j hj]
            · intro hns
              have hj : j ≠ (hand + i) % b.length := by
                intro e
                apply hns
                exact ⟨i, le_refl _, by omega, e.symm, by rw [e]; exact hM⟩
              have hns' : ¬ swept hand filt t (b.set ((hand + i) % b.length)
                  (erase_ref (frame_at b ((hand + i) % b.length)))) (i + 1) K j := by
                rintro ⟨i'', c1, c2, c3, c4⟩
                apply hns
                rw [hlen'] at c3
                rw [hfn j hj] at c4
                exact ⟨i'', by omega, c2, c3, c4⟩
              rw [f2 hns', hfn j hj]
          · rcases h5 with ⟨e1, e2, e3⟩ | ⟨e1, e2, e3, e4, e5⟩
            · left
              exact ⟨e1, by omega, by rw [e3]; omega⟩
            · right
              have hne := hring K h1 e1
              rw [hfn _ hne] at e3 e4
              exact ⟨by omega, e2, e3, e4, by rw [e5]; omega⟩
        · rw [if_neg hp, if_neg hp]
          obtain ⟨K, h1, h2, h3, h4, h5⟩ := ih (i + 1) b hN (by omega)
          refine ⟨K, by omega, by omega, ?_, fun hp0 => absurd hp0 hp, ?_⟩
          · intro i' c1 c2 hm
            by_cases hi : i' = i
            · rw [hi]; exact href
            · exact h3 i' (by omega) c2 hm
          · rcases h5 with ⟨e1, e2, e3⟩ | ⟨e1, e2, e3, e4, e5⟩
            · left
              exact ⟨e1, by omega, by rw [e3]; omega⟩
            · right
              exact ⟨by omega, e2, e3, e4, by rw [e5]; omega⟩
    · rw [if_neg hM, if_neg hM]
      obtain ⟨K, h1, h2, h3, h4, h5⟩ := ih (i + 1) b hN (by omega)
      refine ⟨K, by omega, by omega, ?_, ?_, ?_⟩
      · intro i' c1 c2 hm
        by_cases hi : i' = i
        · rw [hi] at hm; exact absurd hm hM
        · exact h3 i' (by omega) c2 hm
      · intro hp0 j
        obtain ⟨f1, f2⟩ := h4 hp0 j
        constructor
        · intro hsw
          obtain ⟨i', a1, a2, a3, a4⟩ := hsw
          have hi' : i + 1 ≤ i' := by
            by_contra hc
            have : i' = i := by omega
            rw [this] at a3
            rw [← a3] at a4
            exact hM a4
          exact f1 ⟨i', hi', a2, a3, a4⟩
        · intro hns
          apply f2
          rintro ⟨i'', c1, c2, c3, c4⟩
          exact hns ⟨i'', by omega, c2, c3, c4⟩
      · rcases h5 with ⟨e1, e2, e3⟩ | ⟨e1, e2, e3, e4, e5⟩
        · left
          exact ⟨e1, by omega, by rw [e3]; omega⟩
        · right
          exact ⟨by omega, e2, e3, e4, by rw [e5]; omega⟩

theorem clock_pass_one_buf (hand : Nat) (filt : Bool) (t pass : Nat) (hp : pass ≠ 0)
    (n i : Nat) (b : List BufferFrame) : (clock_pass hand filt t pass n i b).2 = b := by
  induction n generalizing i with
  | zero => rfl
  | succ n ih =>
    rw [clock_pass_succ]
    split_ifs
    · rfl
    · exact ih _
    · exact ih _

theorem clock_force_none (hand : Nat) (filt : Bool) (t : Nat) (b : List BufferFrame)
    (hno : ∀ j, ¬ clock_match filt t (frame_at b j)) (n i : Nat) :
    clock_force hand filt t b n i = none ∧ clock_force_steps hand filt t b n i = n := by
  induction n generalizing i with
  | zero => exact ⟨rfl, rfl⟩
  | succ n ih =>
    have hm := hno ((hand + i) % b.length)
    unfold clock_match at hm
    rw [clock_force, clock_force_steps]
    split_ifs with h1 h2
    · exact ⟨(ih _).1, by rw [(ih _).2]; omega⟩
    · exfalso
      apply hm
      refine ⟨h1, fun hf => ?_⟩
      by_contra hne
      exact h2 ⟨hf, hne⟩
    · exact ⟨(ih _).1, by rw [(ih _).2]; omega⟩

theorem clock_force_steps_le (hand : Nat) (filt : Bool) (t : Nat) (b : List BufferFrame)
    (n i : Nat) : clock_force_steps hand filt t b n i ≤ n := by
  induction n generalizing i with
  | zero => exact le_refl _
  | succ n ih =>
    rw [clock_force_steps]
    have := ih (i + 1)
    split_ifs <;> omega

theorem clock_pass_steps_le (hand : Nat) (filt : Bool) (t pass : Nat) (n i : Nat)
    (b : List BufferFrame) : clock_pass_steps hand filt t pass n i b ≤ n := by
  induction n generalizing i b with
  | zero => exact le_refl _
  | succ n ih =>
    rw [clock_pass_steps_succ]
    have h1 := ih (i + 1) b
    have h2 := ih (i + 1)
      (b.set ((hand + i) % b.length) (erase_ref (frame_at b ((hand + i) % b.length))))
    split_ifs <;> omega

theorem evict_via_clock_policy_eq (hand : Nat) (filt : Bool) (t : Nat) (buf : List BufferFrame)
    (hN : buf.length ≠ 0) :
    evict_via_clock_policy hand filt t buf
      = match (clock_pass hand filt t 0 buf.length 0 buf).1 with
        | some idx =>
          { victim := some idx, hand := (idx + 1) % buf.length
            buf := (clock_pass hand filt t 0 buf.length 0 buf).2, msgs := [] }
        | none =>
          match (clock_pass hand filt t 1 buf.length 0
              (clock_pass hand filt t 0 buf.length 0 buf).2).1 with
          | some idx =>
            { victim := some idx, hand := (idx + 1) % buf.length
              buf := (clock_pass hand filt t 1 buf.length 0
                (clock_pass hand filt t 0 buf.length 0 buf).2).2, msgs := [] }
          | none =>
            match clock_force hand filt t
                (clock_pass hand filt t 1 buf.length 0
                  (clock_pass hand filt t 0 buf.length 0 buf).2).2 buf.length 0 with
            | some idx =>
              { victim := some idx, hand := (idx + 1) % buf.length
                buf := (clock_pass hand filt t 1 buf.length 0
                  (clock_pass hand filt t 0 buf.length 0 buf).2).2
                msgs := [ErrMsg.clock_force_evict
                  (frame_at (clock_pass hand filt t 1 buf.length 0
                    (clock_pass hand filt t 0 buf.length 0 buf).2).2 idx).page_id idx] }
            | none =>
              { victim := evict_fifo (clock_pass hand filt t 1 buf.length 0
                  (clock_pass hand filt t 0 buf.length 0 buf).2).2
                hand := hand
                buf := (clock_pass hand filt t 1 buf.length 0
                  (clock_pass hand filt t 0 buf.length 0 buf).2).2
                msgs := [ErrMsg.clock_fallback_fifo] } := by
  unfold evict_via_clock_policy
  rw [if_neg hN]
  rcases h0 : clock_pass hand filt t 0 buf.length 0 buf with ⟨o0, b1⟩
  cases o0 with
  | some v => rfl
  | none =>
    simp only []
    rcases h1 : clock_pass hand filt t 1 buf.length 0 b1 with ⟨o1, b2⟩
    cases o1 with
    | some v => rfl
    | none => rfl

theorem clock_sweep_inspections_eq (hand : Nat) (filt : Bool) (t : Nat)
    (buf : List BufferFrame) (hN : buf.length ≠ 0) :
    clock_sweep_inspections hand filt t buf
      = clock_pass_steps hand filt t 0 buf.length 0 buf +
        (match (clock_pass hand filt t 0 buf.length 0 buf).1 with
         | some _ => 0
         | none =>
           clock_pass_steps hand filt t 1 buf.length 0
             (clock_pass hand filt t 0 buf.length 0 buf).2 +
           (match (clock_pass hand filt t 1 buf.length 0
               (clock_pass hand filt t 0 buf.length 0 buf).2).1 with
            | some _ => 0
            | none =>
              clock_force_steps hand filt t
                (clock_pass hand filt t 1 buf.length 0
                  (clock_pass hand filt t 0 buf.length 0 buf).2).2 buf.length 0)) := by
  unfold clock_sweep_inspections
  rw [if_neg hN]
  rcases h0 : clock_pass hand filt t 0 buf.length 0 buf with ⟨o0, b1⟩
  cases o0 with
  | some v => rfl
  | none =>
    simp only []
    rcases h1 : clock_pass hand filt t 1 buf.length 0 b1 with ⟨o1, b2⟩
    cases o1 with
    | some v => rfl
    | none => rfl

theorem frame_at_ext (b b' : List BufferFrame) (hlen : b'.length = b.length)
    (h : ∀ j, frame_at b' j = frame_at b j) : b' = b := by
  apply List.ext_getElem hlen
  intro i h1 h2
  have := h i
  unfold frame_at at this
  rw [List.getD_eq_getElem _ _ h1, List.getD_eq_getElem _ _ h2] at this
  exact this

theorem clock_match_lt (filt : Bool) (t : Nat) (b : List BufferFrame) (j : Nat)
    (h : clock_match filt t (frame_at b j)) : j < b.length := by
  by_contra hc
  have : frame_at b j = empty_frame := by
    unfold frame_at
    exact List.getD_eq_default _ _ (by omega)
  rw [this] at h
  exact h.1 rfl

/-- Case A of the sweep: some considered frame has its reference bit clear; `k` is the ring
offset of the first such frame. -/
theorem clock_first_clear (hand : Nat) (filt : Bool) (t : Nat) (buf : List BufferFrame)
    (k : Nat) (hN : 0 < buf.length) (hk : k < buf.length)
    (hm : clock_match filt t (frame_at buf ((hand + k) % buf.length)))
    (href : (frame_at buf ((hand + k) % buf.length)).ref_bit = 0)
    (hbefore : ∀ i, i < k → clock_match filt t (frame_at buf ((hand + i) % buf.length)) →
      (frame_at buf ((hand + i) % buf.length)).ref_bit ≠ 0) :
    (evict_via_clock_policy hand filt t buf).victim = some ((hand + k) % buf.length) ∧
    (evict_via_clock_policy hand filt t buf).hand
      = ((hand + k) % buf.length + 1) % buf.length ∧
    (evict_via_clock_policy hand filt t buf).msgs = [] ∧
    (∀ j,
      (swept hand filt t buf 0 k j →
        frame_at (evict_via_clock_policy hand filt t buf).buf j = erase_ref (frame_at buf j)) ∧
      (¬ swept hand filt t buf 0 k j →
        frame_at (evict_via_clock_policy hand filt t buf).buf j = frame_at buf j)) ∧
    clock_sweep_inspections hand filt t buf = k + 1 := by
  obtain ⟨K, h1, h2, h3, h4, h5⟩ :=
    clock_pass_spec hand filt t 0 buf.length 0 buf hN (by omega)
  have hne : buf.length ≠ 0 := by omega
  rcases h5 with ⟨e1, e2, e3⟩ | ⟨e1, e2, e3, e4, e5⟩
  · exfalso
    exact h3 k (by omega) (by omega) hm href
  · have hK : K = k := by
      rcases Nat.lt_trichotomy K k with hlt | heq | hgt
      · exact absurd e4 (hbefore K hlt e3)
      · exact heq
      · exact absurd href (h3 k (by omega) hgt hm)
    subst hK
    have hr : evict_via_clock_policy hand filt t buf
        = { victim := some ((hand + K) % buf.length)
            hand := ((hand + K) % buf.length + 1) % buf.length
            buf := (clock_pass hand filt t 0 buf.length 0 buf).2, msgs := [] } := by
      rw [evict_via_clock_policy_eq hand filt t buf hne, e2]
    have hs : clock_sweep_inspections hand filt t buf
        = clock_pass_steps hand filt t 0 buf.length 0 buf + 0 := by
      rw [clock_sweep_inspections_eq hand filt t buf hne, e2]
    rw [hr, hs]
    exact ⟨rfl, rfl, rfl, h4 rfl, by rw [e5]; omega⟩

/-- Case B of the sweep: considered frames exist and all have their reference bit set; `k`
is the ring offset of the first considered frame. -/
theorem clock_all_set (hand : Nat) (filt : Bool) (t : Nat) (buf : List BufferFrame)
    (k : Nat) (hN : 0 < buf.length) (hk : k < buf.length)
    (hm : clock_match filt t (frame_at buf ((hand + k) % buf.length)))
    (hleast : ∀ i, i < k → ¬ clock_match filt t (frame_at buf ((hand + i) % buf.length)))
    (hall : ∀ j, clock_match filt t (frame_at buf j) → (frame_at buf j).ref_bit ≠ 0) :
    (evict_via_clock_policy hand filt t buf).victim = some ((hand + k) % buf.length) ∧
    (evict_via_clock_policy hand filt t buf).hand
      = ((hand + k) % buf.length + 1) % buf.length ∧
    (evict_via_clock_policy hand filt t buf).msgs = [] ∧
    (∀ j,
      (clock_match filt t (frame_at buf j) →
        frame_at (evict_via_clock_policy hand filt t buf).buf j = erase_ref (frame_at buf j)) ∧
      (¬ clock_match filt t (frame_at buf j) →
        frame_at (evict_via_clock_policy hand filt t buf).buf j = frame_at buf j)) ∧
    clock_sweep_inspections hand filt t buf = buf.length + (k + 1) := by
  obtain ⟨K, h1, h2, h3, h4, h5⟩ :=
    clock_pass_spec hand filt t 0 buf.length 0 buf hN (by omega)
  have hne : buf.length ≠ 0 := by omega
  rcases h5 with ⟨e1, e2, e3⟩ | ⟨e1, e2, e3, e4, e5⟩
  · -- pass 0 ran to the end and cleared every considered frame
    have hK : K = buf.length := by omega
    subst hK
    have hlen1 : (clock_pass hand filt t 0 buf.length 0 buf).2.length = buf.length :=
      clock_pass_length _ _ _ _ _ _ _
    have hsw : ∀ j, swept hand filt t buf 0 buf.length j ↔ clock_match filt t (frame_at buf j) := by
      intro j
      constructor
      · rintro ⟨_, _, _, _, c4⟩
        exact c4
      · intro hj
        obtain ⟨i, hi, hri⟩ := ring_surj hand buf.length j (clock_match_lt _ _ _ _ hj)
        exact ⟨i, by omega, hi, hri, hj⟩
    have hfr : ∀ j,
        (clock_match filt t (frame_at buf j) →
          frame_at (clock_pass hand filt t 0 buf.length 0 buf).2 j
            = erase_ref (frame_at buf j)) ∧
        (¬ clock_match filt t (frame_at buf j) →
          frame_at (clock_pass hand filt t 0 buf.length 0 buf).2 j = frame_at buf j) := by
      intro j
      obtain ⟨f1, f2⟩ := h4 rfl j
      exact ⟨fun hj => f1 ((hsw j).2 hj), fun hj => f2 (fun hs => hj ((hsw j).1 hs))⟩
    have hM1 : ∀ j, clock_match filt t (frame_at (clock_pass hand filt t 0 buf.length 0 buf).2 j)
        ↔ clock_match filt t (frame_at buf j) := by
      intro j
      by_cases hj : clock_match filt t (frame_at buf j)
      · rw [(hfr j).1 hj]
        exact clock_match_erase_ref _ _ _
      · rw [(hfr j).2 hj]
    have hR1 : ∀ j, clock_match filt t (frame_at buf j) →
        (frame_at (clock_pass hand filt t 0 buf.length 0 buf).2 j).ref_bit = 0 := by
      intro j hj
      rw [(hfr j).1 hj]
      rfl
    obtain ⟨K1, g1, g2, g3, _, g5⟩ := clock_pass_spec hand filt t 1 buf.length 0
      (clock_pass hand filt t 0 buf.length 0 buf).2 (by rw [hlen1]; exact hN)
      (by rw [hlen1]; omega)
    rw [hlen1] at g3 g5
    have hb2 := clock_pass_one_buf hand filt t 1 (by decide) buf.length 0
      (clock_pass hand filt t 0 buf.length 0 buf).2
    rcases g5 with ⟨d1, d2, d3⟩ | ⟨d1, d2, d3, d4, d5⟩
    · exfalso
      have hK1 : K1 = buf.length := by omega
      subst hK1
      exact g3 k (by omega) hk ((hM1 _).2 hm) (hR1 _ hm)
    · have hK1 : K1 = k := by
        rcases Nat.lt_trichotomy K1 k with hlt | heq | hgt
        · exact absurd ((hM1 _).1 d3) (hleast K1 hlt)
        · exact heq
        · exact absurd (hR1 _ hm) (g3 k (by omega) hgt ((hM1 _).2 hm))
      subst hK1
      have hr : evict_via_clock_policy hand filt t buf
          = { victim := some ((hand + K1) % buf.length)
              hand := ((hand + K1) % buf.length + 1) % buf.length
              buf := (clock_pass hand filt t 0 buf.length 0 buf).2, msgs := [] } := by
        rw [evict_via_clock_policy_eq hand filt t buf hne, e1]
        simp only []
        rw [d2]
        simp only []
        rw [hb2]
      have hs : clock_sweep_inspections hand filt t buf
          = clock_pass_steps hand filt t 0 buf.length 0 buf +
            (clock_pass_steps hand filt t 1 buf.length 0
              (clock_pass hand filt t 0 buf.length 0 buf).2 + 0) := by
        rw [clock_sweep_inspections_eq hand filt t buf hne, e1]
        simp only []
        rw [d2]
      rw [hr, hs]
      exact ⟨rfl, rfl, rfl, hfr, by rw [e3, d5]; omega⟩
  · exfalso
    exact hall _ e3 e4

/-- The sweep when no frame is considered: all three loops run to the end and the function
returns `evict_fifo()`. -/
theorem clock_no_match (hand : Nat) (filt : Bool) (t : Nat) (buf : List BufferFrame)
    (hN : 0 < buf.length) (hno : ∀ j, ¬ clock_match filt t (frame_at buf j)) :
    (evict_via_clock_policy hand filt t buf).victim = evict_fifo buf ∧
    (evict_via_clock_policy hand filt t buf).hand = hand ∧
    (evict_via_clock_policy hand filt t buf).msgs = [ErrMsg.clock_fallback_fifo] ∧
    (evict_via_clock_policy hand filt t buf).buf = buf ∧
    clock_sweep_inspections hand filt t buf = 3 * buf.length := by
  obtain ⟨K, h1, h2, h3, h4, h5⟩ :=
    clock_pass_spec hand filt t 0 buf.length 0 buf hN (by omega)
  have hne : buf.length ≠ 0 := by omega
  rcases h5 with ⟨e1, e2, e3⟩ | ⟨e1, e2, e3, e4, e5⟩
  · have hlen1 : (clock_pass hand filt t 0 buf.length 0 buf).2.length = buf.length :=
      clock_pass_length _ _ _ _ _ _ _
    have hb1 : (clock_pass hand filt t 0 buf.length 0 buf).2 = buf := by
      apply frame_at_ext _ _ hlen1
      intro j
      refine (h4 rfl j).2 ?_
      rintro ⟨_, _, _, _, c4⟩
      exact hno j c4
    obtain ⟨K1, g1, g2, g3, _, g5⟩ := clock_pass_spec hand filt t 1 buf.length 0 buf hN
      (by omega)
    have hb2 := clock_pass_one_buf hand filt t 1 (by decide) buf.length 0 buf
    obtain ⟨c1, c2⟩ := clock_force_none hand filt t buf hno buf.length 0
    rcases g5 with ⟨d1, d2, d3⟩ | ⟨d1, d2, d3, d4, d5⟩
    · have hr : evict_via_clock_policy hand filt t buf
          = { victim := evict_fifo buf, hand := hand, buf := buf
              msgs := [ErrMsg.clock_fallback_fifo] } := by
        rw [evict_via_clock_policy_eq hand filt t buf hne, e1]
        simp only []
        rw [hb1, d1]
        simp only []
        rw [hb2, c1]
      have hs : clock_sweep_inspections hand filt t buf
          = clock_pass_steps hand filt t 0 buf.length 0 buf +
            (clock_pass_steps hand filt t 1 buf.length 0 buf +
              clock_force_steps hand filt t buf buf.length 0) := by
        rw [clock_sweep_inspections_eq hand filt t buf hne, e1]
        simp only []
        rw [hb1, d1]
        simp only []
        rw [hb2]
      rw [hr, hs]
      exact ⟨rfl, rfl, rfl, rfl, by rw [e3, d3, c2]; omega⟩
    · exact absurd d3 (hno _)
  · exact absurd e3 (hno _)

theorem clock_inspections_quiet (hand : Nat) (filt : Bool) (t : Nat) (buf : List BufferFrame)
    (h : (evict_via_clock_policy hand filt t buf).msgs = []) :
    clock_inspections hand filt t buf = clock_sweep_inspections hand filt t buf := by
  unfold clock_inspections
  rw [h, if_neg (by simp)]
  rfl

theorem clock_sweep_le (hand : Nat) (filt : Bool) (t : Nat) (buf : List BufferFrame) :
    clock_sweep_inspections hand filt t buf ≤ 3 * buf.length := by
  by_cases hN : buf.length = 0
  · unfold clock_sweep_inspections
    rw [if_pos hN]
    omega
  · rw [clock_sweep_inspections_eq hand filt t buf hN]
    have a := clock_pass_steps_le hand filt t 0 buf.length 0 buf
    have b := clock_pass_steps_le hand filt t 1 buf.length 0
      (clock_pass hand filt t 0 buf.length 0 buf).2
    have c := clock_force_steps_le hand filt t
      (clock_pass hand filt t 1 buf.length 0
        (clock_pass hand filt t 0 buf.length 0 buf).2).2 buf.length 0
    rcases Option.eq_none_or_eq_some (clock_pass hand filt t 0 buf.length 0 buf).1
      with h0 | ⟨v0, h0⟩
    · rw [h0]
      simp only []
      rcases Option.eq_none_or_eq_some (clock_pass hand filt t 1 buf.length 0
        (clock_pass hand filt t 0 buf.length 0 buf).2).1 with h1 | ⟨v1, h1⟩
      · rw [h1]
        show clock_pass_steps hand filt t 0 buf.length 0 buf +
          (clock_pass_steps hand filt t 1 buf.length 0
            (clock_pass hand filt t 0 buf.length 0 buf).2 +
          clock_force_steps hand filt t
            (clock_pass hand filt t 1 buf.length 0
              (clock_pass hand filt t 0 buf.length 0 buf).2).2 buf.length 0)
          ≤ 3 * buf.length
        omega
      · rw [h1]
        show clock_pass_steps hand filt t 0 buf.length 0 buf +
          (clock_pass_steps hand filt t 1 buf.length 0
            (clock_pass hand filt t 0 buf.length 0 buf).2 + 0) ≤ 3 * buf.length
        omega
    · rw [h0]
      show clock_pass_steps hand filt t 0 buf.length 0 buf + 0 ≤ 3 * buf.length
      omega

theorem clock_match_kept (hand : Nat) (filt : Bool) (t : Nat) (buf : List BufferFrame)
    (v : Nat) (h : clock_match filt t (frame_at buf v)) :
    clock_match filt t (frame_at (evict_via_clock_policy hand filt t buf).buf v) := by
  have hb := (evict_via_clock_policy_spec hand filt t buf).1
  have he := frame_at_mod_ref _ _ hb v
  have e1 : (frame_at (evict_via_clock_policy hand filt t buf).buf v).page_id
      = (frame_at buf v).page_id := congrArg (fun f => f.page_id) he
  have e2 : (frame_at (evict_via_clock_policy hand filt t buf).buf v).list_type
      = (frame_at buf v).list_type := congrArg (fun f => f.list_type) he
  unfold clock_match
  rw [e1, e2]
  exact h

/-- A sweep over a buffer with a considered frame returns a considered frame within the two
reference-bit passes. -/
theorem clock_finds_match (hand : Nat) (filt : Bool) (t : Nat) (buf : List BufferFrame)
    (hex : ∃ j, clock_match filt t (frame_at buf j)) :
    ∃ v, (evict_via_clock_policy hand filt t buf).victim = some v ∧ v < buf.length ∧
      clock_match filt t (frame_at buf v) ∧
      (evict_via_clock_policy hand filt t buf).msgs = [] ∧
      clock_sweep_inspections hand filt t buf ≤ 2 * buf.length := by
  classical
  obtain ⟨j0, hj0⟩ := hex
  have hj0lt := clock_match_lt _ _ _ _ hj0
  have hN : 0 < buf.length := by omega
  obtain ⟨i0, hi0, hr0⟩ := ring_surj hand buf.length j0 hj0lt
  by_cases hclear : ∃ k, k < buf.length ∧
      clock_match filt t (frame_at buf ((hand + k) % buf.length)) ∧
      (frame_at buf ((hand + k) % buf.length)).ref_bit = 0
  · obtain ⟨hk, hm, href⟩ := Nat.find_spec hclear
    have hmin : ∀ i, i < Nat.find hclear →
        clock_match filt t (frame_at buf ((hand + i) % buf.length)) →
        (frame_at buf ((hand + i) % buf.length)).ref_bit ≠ 0 :=
      fun i hi hmi hri => Nat.find_min hclear hi ⟨by omega, hmi, hri⟩
    obtain ⟨r1, _, r3, _, r5⟩ :=
      clock_first_clear hand filt t buf (Nat.find hclear) hN hk hm href hmin
    exact ⟨_, r1, Nat.mod_lt _ hN, hm, r3, by rw [r5]; omega⟩
  · have hall : ∀ j, clock_match filt t (frame_at buf j) → (frame_at buf j).ref_bit ≠ 0 := by
      intro j hj hr
      obtain ⟨i, hi, hri⟩ := ring_surj hand buf.length j (clock_match_lt _ _ _ _ hj)
      exact hclear ⟨i, hi, by rw [hri]; exact hj, by rw [hri]; exact hr⟩
    have hexm : ∃ k, k < buf.length ∧
        clock_match filt t (frame_at buf ((hand + k) % buf.length)) :=
      ⟨i0, hi0, by rw [hr0]; exact hj0⟩
    obtain ⟨hk, hm⟩ := Nat.find_spec hexm
    have hmin : ∀ i, i < Nat.find hexm →
        ¬ clock_match filt t (frame_at buf ((hand + i) % buf.length)) :=
      fun i hi hmi => Nat.find_min hexm hi ⟨by omega, hmi⟩
    obtain ⟨r1, _, r3, _, r5⟩ :=
      clock_all_set hand filt t buf (Nat.find hexm) hN hk hm hmin hall
    exact ⟨_, r1, Nat.mod_lt _ hN, hm, r3, by rw [r5]; omega⟩

/-- Example of the fallback path: on the two resident frames of `clock_two` (list type 1)
with the filter set to list type 3 no frame is considered; the three loops inspect
3N = 6 frames, and the function ends in `return evict_fifo()`, whose own scan goes through
the N = 2 frames once more. -/
theorem clock_no_match_example :
    clock_two.buffer.length = 2 ∧
    (∀ j, j < 2 → ¬ clock_match true 3 (frame_at clock_two.buffer j)) ∧
    clock_sweep_inspections 0 true 3 clock_two.buffer = 6 ∧
    (evict_via_clock_policy 0 true 3 clock_two.buffer).msgs = [ErrMsg.clock_fallback_fifo] ∧
    (evict_via_clock_policy 0 true 3 clock_two.buffer).victim = evict_fifo clock_two.buffer ∧
    clock_inspections 0 true 3 clock_two.buffer = 8 ∧
    ¬ clock_inspections 0 true 3 clock_two.buffer ≤ 3 * clock_two.buffer.length := by
  decide

/-- C27: for every buffer of N ≥ 1 frames, every hand, every filter and every assignment
of reference bits, `evict_via_clock_policy` is a total function whose three loops (the two
reference-bit passes and the force-evict pass) inspect at most 3N frames.  If a resident
frame passes the filter, it returns the index of a resident frame that passes the filter,
found in the two reference-bit passes after at most 2N inspections, without the force-evict
diagnostics and without the FIFO fallback.  If no resident frame passes the filter, the
three loops inspect exactly 3N frames and the function hands over to `evict_fifo()`, whose
own scan of the N frames brings the number of frames looked at to 4N. -/
theorem clock_sweep_bound (hand : Nat) (filt : Bool) (t : Nat) (buf : List BufferFrame)
    (hN : 1 ≤ buf.length) :
    clock_sweep_inspections hand filt t buf ≤ 3 * buf.length ∧
    clock_inspections hand filt t buf ≤ 4 * buf.length ∧
    ((∃ j, clock_match filt t (frame_at buf j)) →
      ∃ v, (evict_via_clock_policy hand filt t buf).victim = some v ∧ v < buf.length ∧
        clock_match filt t (frame_at buf v) ∧
        clock_match filt t (frame_at (evict_via_clock_policy hand filt t buf).buf v) ∧
        (evict_via_clock_policy hand filt t buf).msgs = [] ∧
        clock_inspections hand filt t buf = clock_sweep_inspections hand filt t buf ∧
        clock_inspections hand filt t buf ≤ 2 * buf.length) ∧
    ((∀ j, ¬ clock_match filt t (frame_at buf j)) →
      clock_sweep_inspections hand filt t buf = 3 * buf.length ∧
      (evict_via_clock_policy hand filt t buf).victim = evict_fifo buf ∧
      (evict_via_clock_policy hand filt t buf).msgs = [ErrMsg.clock_fallback_fifo] ∧
      clock_inspections hand filt t buf = 4 * buf.length) := by
  have hle := clock_sweep_le hand filt t buf
  refine ⟨hle, ?_, ?_, ?_⟩
  · unfold clock_inspections
    split_ifs <;> omega
  · intro hex
    obtain ⟨v, h1, h2, h3, h4, h5⟩ := clock_finds_match hand filt t buf hex
    have hq := clock_inspections_quiet hand filt t buf h4
    exact ⟨v, h1, h2, h3, clock_match_kept hand filt t buf v h3, h4, hq, by rw [hq]; exact h5⟩
  · intro hno
    obtain ⟨r1, _, r3, _, r5⟩ := clock_no_match hand filt t buf (by omega) hno
    refine ⟨r5, r1, r3, ?_⟩
    unfold clock_inspections
    rw [r3, if_pos rfl, r5]
    omega

theorem clock_sweep_bound_witness :
    (1 ≤ clock_two.buffer.length ∧ clock_match false 0 (frame_at clock_two.buffer 0)) ∧
    (evict_via_clock_policy 0 false 0 clock_two.buffer).victim = some 0 ∧
    clock_inspections 0 false 0 clock_two.buffer = 3 ∧
    ∃ v, (evict_via_clock_policy 0 false 0 clock_two.buffer).victim = some v ∧
      clock_match false 0 (frame_at clock_two.buffer v) := by
  have h := (clock_sweep_bound 0 false 0 clock_two.buffer (by decide)).2.2.1
    ⟨0, by decide⟩
  obtain ⟨v, h1, _, h3, _⟩ := h
  exact ⟨⟨by decide, by decide⟩, by decide, by decide, v, h1, h3⟩

/-- Example of a sweep over frames whose reference bits are all set: on the two frames of
`clock_two` (both resident, reference bit 1) with hand 0 and no filter, the first pass goes
once round the ring and clears both reference bits, the second pass selects frame 0, the
first frame from the hand, and the hand is left at 1. -/
theorem clock_all_set_example :
    (frame_at clock_two.buffer 0).ref_bit = 1 ∧ (frame_at clock_two.buffer 1).ref_bit = 1 ∧
    (evict_via_clock_policy 0 false 0 clock_two.buffer).victim = some 0 ∧
    (evict_via_clock_policy 0 false 0 clock_two.buffer).hand = 1 ∧
    (frame_at (evict_via_clock_policy 0 false 0 clock_two.buffer).buf 0).ref_bit = 0 ∧
    (frame_at (evict_via_clock_policy 0 false 0 clock_two.buffer).buf 1).ref_bit = 0 ∧
    (frame_at (evict_via_clock_policy 0 false 0 clock_two.buffer).buf 1).ref_bit
      ≠ (frame_at clock_two.buffer 1).ref_bit := by
  decide

/-- C28: second-chance semantics of `evict_via_clock_policy`.  Let the buffer have N ≥ 1
frames and let the frame at ring offset k < N from the hand, frame v = (hand + k) mod N, be
resident and pass the filter.
(A) If v has ref_bit 0 and every resident matching frame at an offset before k has its
ref_bit set (v is the first resident matching frame with ref_bit 0), then v is the victim,
the hand is (v + 1) mod N on return, the resident matching frames passed over on the way to
v, those at the offsets before k, have ref_bit 0, and nothing else of any frame has changed.
(B) If no frame at an offset before k is resident and matching and every resident matching
frame of the buffer has its ref_bit set (v is the first resident matching frame from the
hand), then v is the victim and the hand is (v + 1) mod N on return; the first pass has gone
once round the ring, so the frames passed over before v is chosen are all the resident
matching frames, v among them: they have ref_bit 0, and nothing else of any frame has
changed. -/
theorem clock_second_chance (hand : Nat) (filt : Bool) (t : Nat) (buf : List BufferFrame)
    (k : Nat) (hN : 0 < buf.length) (hk : k < buf.length)
    (hm : clock_match filt t (frame_at buf ((hand + k) % buf.length))) :
    ((frame_at buf ((hand + k) % buf.length)).ref_bit = 0 →
      (∀ i, i < k → clock_match filt t (frame_at buf ((hand + i) % buf.length)) →
        (frame_at buf ((hand + i) % buf.length)).ref_bit ≠ 0) →
      (evict_via_clock_policy hand filt t buf).victim = some ((hand + k) % buf.length) ∧
      (evict_via_clock_policy hand filt t buf).hand
        = ((hand + k) % buf.length + 1) % buf.length ∧
      (evict_via_clock_policy hand filt t buf).buf.length = buf.length ∧
      ∀ j,
        (swept hand filt t buf 0 k j →
          frame_at (evict_via_clock_policy hand filt t buf).buf j
            = { frame_at buf j with ref_bit := 0 }) ∧
        (¬ swept hand filt t buf 0 k j →
          frame_at (evict_via_clock_policy hand filt t buf).buf j = frame_at buf j)) ∧
    ((∀ i, i < k → ¬ clock_match filt t (frame_at buf ((hand + i) % buf.length))) →
      (∀ j, clock_match filt t (frame_at buf j) → (frame_at buf j).ref_bit ≠ 0) →
      (evict_via_clock_policy hand filt t buf).victim = some ((hand + k) % buf.length) ∧
      (evict_via_clock_policy hand filt t buf).hand
        = ((hand + k) % buf.length + 1) % buf.length ∧
      (evict_via_clock_policy hand filt t buf).buf.length = buf.length ∧
      ∀ j,
        (clock_match filt t (frame_at buf j) →
          frame_at (evict_via_clock_policy hand filt t buf).buf j
            = { frame_at buf j with ref_bit := 0 }) ∧
        (¬ clock_match filt t (frame_at buf j) →
          frame_at (evict_via_clock_policy hand filt t buf).buf j = frame_at buf j)) := by
  have hlen := evict_via_clock_policy_length hand filt t buf
  constructor
  · intro href hbefore
    obtain ⟨r1, r2, _, r4, _⟩ := clock_first_clear hand filt t buf k hN hk hm href hbefore
    exact ⟨r1, r2, hlen, r4⟩
  · intro hleast hall
    obtain ⟨r1, r2, _, r4, _⟩ := clock_all_set hand filt t buf k hN hk hm hleast hall
    exact ⟨r1, r2, hlen, r4⟩

theorem clock_second_chance_witness :
    (0 < clock_three.buffer.length ∧ 1 < clock_three.buffer.length ∧
      clock_match false 0 (frame_at clock_three.buffer ((0 + 1) % clock_three.buffer.length)) ∧
      (frame_at clock_three.buffer ((0 + 1) % clock_three.buffer.length)).ref_bit = 0 ∧
      (frame_at clock_three.buffer 0).ref_bit = 1) ∧
    (evict_via_clock_policy 0 false 0 clock_three.buffer).victim = some 1 ∧
    (evict_via_clock_policy 0 false 0 clock_three.buffer).hand = 0 ∧
    (frame_at (evict_via_clock_policy 0 false 0 clock_three.buffer).buf 0).ref_bit = 0 := by
  have h := (clock_second_chance 0 false 0 clock_three.buffer 1 (by decide) (by decide)
    (by decide)).1 (by decide) (by decide)
  refine ⟨⟨by decide, by decide, by decide, by decide, by decide⟩, h.1.trans (by decide),
    h.2.1.trans (by decide), ?_⟩
  have h0 := (h.2.2.2 0).1 ⟨0, by decide, by decide, by decide, by decide⟩
  rw [h0]

theorem clock_victim_ref (hand : Nat) (filt : Bool) (t : Nat) (buf : List BufferFrame)
    (hex : ∃ j, clock_match filt t (frame_at buf j)) :
    ∃ v, (evict_via_clock_policy hand filt t buf).victim = some v ∧
      clock_match filt t (frame_at buf v) ∧
      (frame_at (evict_via_clock_policy hand filt t buf).buf v).ref_bit = 0 ∧
      (evict_via_clock_policy hand filt t buf).msgs = [] := by
  classical
  obtain ⟨j0, hj0⟩ := hex
  have hj0lt := clock_match_lt _ _ _ _ hj0
  have hN : 0 < buf.length := by omega
  obtain ⟨i0, hi0, hr0⟩ := ring_surj hand buf.length j0 hj0lt
  by_cases hclear : ∃ k, k < buf.length ∧
      clock_match filt t (frame_at buf ((hand + k) % buf.length)) ∧
      (frame_at buf ((hand + k) % buf.length)).ref_bit = 0
  · obtain ⟨hk, hm, href⟩ := Nat.find_spec hclear
    have hmin : ∀ i, i < Nat.find hclear →
        clock_match filt t (frame_at buf ((hand + i) % buf.length)) →
        (frame_at buf ((hand + i) % buf.length)).ref_bit ≠ 0 :=
      fun i hi hmi hri => Nat.find_min hclear hi ⟨by omega, hmi, hri⟩
    obtain ⟨r1, _, r3, r4, _⟩ :=
      clock_first_clear hand filt t buf (Nat.find hclear) hN hk hm href hmin
    refine ⟨_, r1, hm, ?_, r3⟩
    have hns : ¬ swept hand filt t buf 0 (Nat.find hclear)
        ((hand + Nat.find hclear) % buf.length) := by
      rintro ⟨i, _, hi, hri, _⟩
      exact ring_inj hand buf.length i (Nat.find hclear) hi (by omega) hri
    rw [(r4 _).2 hns]
    exact href
  · have hall : ∀ j, clock_match filt t (frame_at buf j) → (frame_at buf j).ref_bit ≠ 0 := by
      intro j hj hr
      obtain ⟨i, hi, hri⟩ := ring_surj hand buf.length j (clock_match_lt _ _ _ _ hj)
      exact hclear ⟨i, hi, by rw [hri]; exact hj, by rw [hri]; exact hr⟩
    have hexm : ∃ k, k < buf.length ∧
        clock_match filt t (frame_at buf ((hand + k) % buf.length)) :=
      ⟨i0, hi0, by rw [hr0]; exact hj0⟩
    obtain ⟨hk, hm⟩ := Nat.find_spec hexm
    have hmin : ∀ i, i < Nat.find hexm →
        ¬ clock_match filt t (frame_at buf ((hand + i) % buf.length)) :=
      fun i hi hmi => Nat.find_min hexm hi ⟨by omega, hmi⟩
    obtain ⟨r1, _, r3, r4, _⟩ :=
      clock_all_set hand filt t buf (Nat.find hexm) hN hk hm hmin hall
    refine ⟨_, r1, hm, ?_, r3⟩
    rw [(r4 _).1 hm]
    rfl

theorem force_pass_entered_eq (hand : Nat) (filt : Bool) (t : Nat) (buf : List BufferFrame)
    (h : force_pass_entered hand filt t buf) :
    evict_via_clock_policy hand filt t buf
      = match force_pass_result hand filt t buf with
        | some idx =>
          { victim := some idx, hand := (idx + 1) % buf.length
            buf := (clock_pass hand filt t 1 buf.length 0
              (clock_pass hand filt t 0 buf.length 0 buf).2).2
            msgs := [ErrMsg.clock_force_evict
              (frame_at (clock_pass hand filt t 1 buf.length 0
                (clock_pass hand filt t 0 buf.length 0 buf).2).2 idx).page_id idx] }
        | none =>
          { victim := evict_fifo (clock_pass hand filt t 1 buf.length 0
              (clock_pass hand filt t 0 buf.length 0 buf).2).2
            hand := hand
            buf := (clock_pass hand filt t 1 buf.length 0
              (clock_pass hand filt t 0 buf.length 0 buf).2).2
            msgs := [ErrMsg.clock_fallback_fifo] } := by
  obtain ⟨h0, h1, h2⟩ := h
  rw [evict_via_clock_policy_eq hand filt t buf h0, h1]
  simp only []
  rw [h2]
  rfl

theorem ref_pass_return (hand : Nat) (filt : Bool) (t : Nat) (buf : List BufferFrame)
    (h0 : buf.length ≠ 0) (h : ¬ force_pass_entered hand filt t buf) :
    (evict_via_clock_policy hand filt t buf).msgs = [] ∧
    ((clock_pass hand filt t 0 buf.length 0 buf).1
        = (evict_via_clock_policy hand filt t buf).victim ∨
      (clock_pass hand filt t 1 buf.length 0 (clock_pass hand filt t 0 buf.length 0 buf).2).1
        = (evict_via_clock_policy hand filt t buf).victim) ∧
    (evict_via_clock_policy hand filt t buf).victim ≠ none := by
  rw [evict_via_clock_policy_eq hand filt t buf h0]
  rcases Option.eq_none_or_eq_some (clock_pass hand filt t 0 buf.length 0 buf).1
    with h1 | ⟨v, h1⟩
  · rcases Option.eq_none_or_eq_some (clock_pass hand filt t 1 buf.length 0
        (clock_pass hand filt t 0 buf.length 0 buf).2).1 with h2 | ⟨v, h2⟩
    · exact absurd ⟨h0, h1, h2⟩ h
    · rw [h1]
      simp only []
      rw [h2]
      exact ⟨rfl, Or.inr rfl, by simp⟩
  · rw [h1]
    exact ⟨rfl, Or.inl rfl, by simp⟩

/-- C38: in `evict_via_clock_policy` the force-evict pass never selects a victim.  The
function never prints the force-evict warning.  Whenever a resident frame passes the
filter, the force-evict loop is not reached: the function returns from one of the two
reference-bit passes, and the frame it returns passes the filter and has ref_bit 0 in the
buffer the function leaves.  When the force-evict loop is reached, no resident frame passes
the filter, the loop finds no frame either, and the function returns what `evict_fifo()`
returns, after the message of the FIFO fallback. -/
theorem force_pass_never_selects (hand : Nat) (filt : Bool) (t : Nat)
    (buf : List BufferFrame) :
    (∀ p i, ErrMsg.clock_force_evict p i ∉ (evict_via_clock_policy hand filt t buf).msgs) ∧
    ((∃ j, clock_match filt t (frame_at buf j)) →
      ¬ force_pass_entered hand filt t buf ∧
      ∃ v, (evict_via_clock_policy hand filt t buf).victim = some v ∧
        ((clock_pass hand filt t 0 buf.length 0 buf).1 = some v ∨
          (clock_pass hand filt t 1 buf.length 0
            (clock_pass hand filt t 0 buf.length 0 buf).2).1 = some v) ∧
        clock_match filt t (frame_at buf v) ∧
        (frame_at (evict_via_clock_policy hand filt t buf).buf v).ref_bit = 0 ∧
        (evict_via_clock_policy hand filt t buf).msgs = []) ∧
    (force_pass_entered hand filt t buf →
      (∀ j, ¬ clock_match filt t (frame_at buf j)) ∧
      force_pass_result hand filt t buf = none ∧
      (evict_via_clock_policy hand filt t buf).victim = evict_fifo buf ∧
      (evict_via_clock_policy hand filt t buf).buf = buf ∧
      (evict_via_clock_policy hand filt t buf).msgs = [ErrMsg.clock_fallback_fifo]) := by
  have hent : force_pass_entered hand filt t buf →
      (∀ j, ¬ clock_match filt t (frame_at buf j)) ∧
      force_pass_result hand filt t buf = none ∧
      (evict_via_clock_policy hand filt t buf).victim = evict_fifo buf ∧
      (evict_via_clock_policy hand filt t buf).buf = buf ∧
      (evict_via_clock_policy hand filt t buf).msgs = [ErrMsg.clock_fallback_fifo] := by
    intro he
    have heq := force_pass_entered_eq hand filt t buf he
    have hno : ∀ j, ¬ clock_match filt t (frame_at buf j) := by
      intro j hj
      obtain ⟨v, _, _, _, hm⟩ := clock_victim_ref hand filt t buf ⟨j, hj⟩
      rw [heq] at hm
      rcases Option.eq_none_or_eq_some (force_pass_result hand filt t buf) with h | ⟨w, h⟩
      · rw [h] at hm
        simp at hm
      · rw [h] at hm
        simp at hm
    obtain ⟨r1, _, r3, r4, _⟩ := clock_no_match hand filt t buf (Nat.pos_of_ne_zero he.1) hno
    refine ⟨hno, ?_, r1, r4, r3⟩
    rcases Option.eq_none_or_eq_some (force_pass_result hand filt t buf) with h | ⟨w, h⟩
    · exact h
    · rw [heq, h] at r3
      simp at r3
  refine ⟨?_, ?_, hent⟩
  · intro p i hmem
    by_cases h0 : buf.length = 0
    · unfold evict_via_clock_policy at hmem
      rw [if_pos h0] at hmem
      simp at hmem
    · by_cases he : force_pass_entered hand filt t buf
      · rw [(hent he).2.2.2.2] at hmem
        simp at hmem
      · rw [(ref_pass_return hand filt t buf h0 he).1] at hmem
        simp at hmem
  · intro hex
    obtain ⟨v, h1, h2, h3, h4⟩ := clock_victim_ref hand filt t buf hex
    have hne : ¬ force_pass_entered hand filt t buf := by
      intro he
      obtain ⟨j, hj⟩ := hex
      exact (hent he).1 j hj
    have h0 : buf.length ≠ 0 := by
      obtain ⟨j, hj⟩ := hex
      have := clock_match_lt _ _ _ _ hj
      omega
    obtain ⟨_, hr, _⟩ := ref_pass_return hand filt t buf h0 hne
    rw [h1] at hr
    exact ⟨hne, v, h1, hr, h2, h3, h4⟩

theorem handle_dirty_eviction_rejected (s : Sim) (v : Nat) (hv : v < s.buffer.length)
    (hres : (frame_at s.buffer v).page_id ≠ INVALID_PAGE)
    (hd : (frame_at s.buffer v).is_dirty ≠ 0)
    (hrej : zns_rejects s (((frame_at s.buffer v).page_id * SECTORS_PER_PAGE) % U64)) :
    handle_dirty_eviction s v
      = { s with
          stderr := s.stderr ++
            [ErrMsg.zns_zone_id_error
              (lba_to_page_id (((frame_at s.buffer v).page_id * SECTORS_PER_PAGE) % U64)
                / s.zone_size_pages_global)
              (lba_to_page_id (((frame_at s.buffer v).page_id * SECTORS_PER_PAGE) % U64))]
          buffer := s.buffer.set v { frame_at s.buffer v with is_dirty := 0 } } := by
  obtain ⟨h0, hz⟩ := hrej
  unfold handle_dirty_eviction
  rw [if_neg (by omega), if_pos ⟨hres, hd⟩]
  unfold write_fio_log
  simp only [SECTORS_PER_PAGE, SECTOR_SIZE, UINT_MAX] at hz ⊢
  simp only [show ¬ (8 = 0) by decide, if_false, show ¬ (8 * 512 > 4294967295) by decide,
    true_and, gt_iff_lt, h0, if_true, ge_iff_le, hz]

theorem flush_writes_not_rejected (s : Sim) (buf : List BufferFrame) (r : IoRec)
    (h : r ∈ flush_writes s buf) : r.op = OP_WRITE ∧ ¬ zns_rejects s r.start_lba := by
  unfold flush_writes at h
  rw [List.mem_map] at h
  obtain ⟨f, hf, rfl⟩ := h
  rw [List.mem_filter] at hf
  have h2 := of_decide_eq_true hf.2
  exact ⟨rfl, h2.2.2⟩

theorem frame_at_map (g : BufferFrame → BufferFrame) (buf : List BufferFrame) (v : Nat)
    (hv : v < buf.length) : frame_at (buf.map g) v = g (frame_at buf v) := by
  unfold frame_at
  rw [List.getD_eq_getElem _ _ (by rw [List.length_map]; exact hv),
    List.getD_eq_getElem _ _ hv, List.getElem_map]

/-- C39: let frame `v` of a state hold a dirty page whose zone ID is at least MAX_ZONES
(zones being on).  `handle_dirty_eviction(v)` prints the zone-ID error, appends nothing to
the device log, leaves the zone write pointers alone and clears the dirty flag of the frame,
which keeps its page.  The shutdown flush of such a state emits no write record for that
page (none of the records it emits is one the ZNS check rejects) and leaves the frame
clean. -/
theorem rejected_write_ends_clean (s : Sim) (v : Nat) (hv : v < s.buffer.length)
    (hres : (frame_at s.buffer v).page_id ≠ INVALID_PAGE)
    (hd : (frame_at s.buffer v).is_dirty ≠ 0)
    (hrej : zns_rejects s (((frame_at s.buffer v).page_id * SECTORS_PER_PAGE) % U64)) :
    ((handle_dirty_eviction s v).log_file = s.log_file ∧
      (handle_dirty_eviction s v).zone_write_pointers = s.zone_write_pointers ∧
      (∃ z p, (handle_dirty_eviction s v).stderr = s.stderr ++ [ErrMsg.zns_zone_id_error z p]) ∧
      (handle_dirty_eviction s v).buffer
        = s.buffer.set v { frame_at s.buffer v with is_dirty := 0 } ∧
      (frame_at (handle_dirty_eviction s v).buffer v).is_dirty = 0 ∧
      (frame_at (handle_dirty_eviction s v).buffer v).page_id = (frame_at s.buffer v).page_id) ∧
    ((shutdown_flush s).log_file = s.log_file ++ flush_writes s s.buffer ∧
      victim_write_record (frame_at s.buffer v).page_id ∉ flush_writes s s.buffer ∧
      (∀ r ∈ flush_writes s s.buffer, r.op = OP_WRITE ∧ ¬ zns_rejects s r.start_lba) ∧
      (frame_at (shutdown_flush s).buffer v).is_dirty = 0 ∧
      (frame_at (shutdown_flush s).buffer v).page_id = (frame_at s.buffer v).page_id) := by
  have heq := handle_dirty_eviction_rejected s v hv hres hd hrej
  have hfl := shutdown_flush_spec s
  refine ⟨?_, hfl.2, ?_, fun r hr => flush_writes_not_rejected s s.buffer r hr, ?_, ?_⟩
  · rw [heq]
    refine ⟨rfl, rfl, ⟨_, _, rfl⟩, rfl, ?_, ?_⟩
    · show (frame_at (s.buffer.set v _) v).is_dirty = 0
      rw [frame_at_set_eq _ _ _ hv]
    · show (frame_at (s.buffer.set v _) v).page_id = _
      rw [frame_at_set_eq _ _ _ hv]
  · intro hmem
    exact (flush_writes_not_rejected s s.buffer _ hmem).2 hrej
  · rw [hfl.1, frame_at_map _ _ _ hv]
    unfold flushed_frame
    rw [if_pos ⟨hres, hd⟩]
  · rw [hfl.1, frame_at_map _ _ _ hv]
    exact flushed_frame_page _

theorem rejected_write_ends_clean_witness :
    (0 < (run (init_sim 1 FIFO 1) [Record.access 1048576 OP_WRITE]).buffer.length ∧
      (frame_at (run (init_sim 1 FIFO 1) [Record.access 1048576 OP_WRITE]).buffer 0).page_id
        = 131072 ∧
      (frame_at (run (init_sim 1 FIFO 1) [Record.access 1048576 OP_WRITE]).buffer 0).is_dirty
        = 1) ∧
    (handle_dirty_eviction (run (init_sim 1 FIFO 1) [Record.access 1048576 OP_WRITE]) 0).log_file
      = [miss_read_record 131072] ∧
    (simulate 1 FIFO 1 [Record.access 1048576 OP_WRITE]).log_file = [miss_read_record 131072] ∧
    (simulate 1 FIFO 1 beyond_zones_trace).log_file
      = [miss_read_record 131072, miss_read_record 0] ∧
    (∀ f ∈ (simulate 1 FIFO 1 beyond_zones_trace).buffer, f.is_dirty = 0) := by
  have h := rejected_write_ends_clean (run (init_sim 1 FIFO 1) [Record.access 1048576 OP_WRITE])
    0 (by decide) (by decide) (by decide) (by decide)
  refine ⟨⟨by decide, by decide, by decide⟩, h.1.1.trans (by decide), by decide, by decide,
    by decide⟩

theorem find_in_buffer_of_frame (buf : List BufferFrame) (X i : Nat) (hi : i < buf.length)
    (h : (frame_at buf i).page_id = X) :
    ∃ k, find_in_buffer buf X = some k ∧ k < buf.length ∧ (frame_at buf k).page_id = X := by
  rcases Option.eq_none_or_eq_some (find_in_buffer buf X) with hn | ⟨k, hk⟩
  · exact absurd h (find_in_buffer_none buf X hn _ (frame_at_mem buf i hi))
  · exact ⟨k, hk, find_in_buffer_some buf X k hk⟩

theorem miss_victim_exists (s : Sim) (X : Nat) (hN : 0 < s.buffer.length)
    (hfull : find_empty_slot s.buffer = none) :
    ∃ v, miss_victim s X = some v ∧ v < s.buffer.length ∧
      load_slot (miss_entry s X) X = some v := by
  have hb : (miss_entry s X).buffer = s.buffer := rfl
  obtain ⟨v, hv⟩ := chosen_exists (miss_entry s X) X (by rw [hb]; exact hN)
    (by rw [hb]; exact hfull)
  have hlt := (chosen_spec (miss_entry s X) X).2.1 v hv
  rw [hb] at hlt
  refine ⟨v, ?_, hlt, ?_⟩
  · unfold miss_victim
    rw [hb, hfull]
    exact hv
  · unfold load_slot
    rw [hb, hfull]
    exact hv

theorem access_page_resident (s : Sim) (lba X : Nat) (op : Op) (hN : 0 < s.buffer.length)
    (hX : X ≠ INVALID_PAGE) :
    ∃ i, i < s.buffer.length ∧ (frame_at (access_page s lba X op).buffer i).page_id = X := by
  rcases Option.eq_none_or_eq_some (find_in_buffer s.buffer X) with hmiss | ⟨i, hi⟩
  · have hb : (miss_entry s X).buffer = s.buffer := rfl
    obtain ⟨slot, hslot⟩ := load_slot_exists (miss_entry s X) X (by rw [hb]; exact hN)
    have hlt := (load_slot_lt (miss_entry s X) X slot hslot).1
    have hfix := before_load_fixed (miss_entry s X) X
    have hlen : (before_load (miss_entry s X) X).buffer.length = s.buffer.length := by
      have h2 := congrArg (fun p => p.2.2.2.2.2) hfix
      exact h2
    rw [access_page_miss s lba X op hX hmiss, hslot]
    simp only []
    rw [load_page_eq]
    refine ⟨slot, by rw [← hlen]; exact hlt, ?_⟩
    show (frame_at (List.set _ slot _) slot).page_id = X
    rw [frame_at_set_eq _ _ _ hlt]
    exact (load_frame_fields _ _ _ _ _ _ _).1
  · exact ⟨i, (find_in_buffer_some _ _ _ hi).1, (access_page_hit_page s lba X op i hX hi).2⟩

/-- C34: for every buffer size N ≥ 1, every initial policy, zone size and sequence of
records, and every access record with an LBA in the 64-bit range: after `access_page` has
processed the access, the page is resident, `find_in_buffer` returns the index of a frame
that holds it.  On a miss with a full buffer victim selection together with the FIFO
fallback yields a victim, whose frame is the slot the page is loaded into. -/
theorem accessed_page_resident (N : Nat) (pol : ReplacementPolicy) (zs : Nat)
    (trace : List Record) (lba : Nat) (op : Op) (hN : 1 ≤ N) (hlba : lba < U64) :
    (∃ i, find_in_buffer
        (process_record (run (init_sim N pol zs) trace) (Record.access lba op)).buffer
        (lba_to_page_id lba) = some i ∧ i < N ∧
      (frame_at (process_record (run (init_sim N pol zs) trace)
        (Record.access lba op)).buffer i).page_id = lba_to_page_id lba) ∧
    (find_in_buffer (run (init_sim N pol zs) trace).buffer (lba_to_page_id lba) = none →
      find_empty_slot (run (init_sim N pol zs) trace).buffer = none →
      ∃ v, miss_victim (run (init_sim N pol zs) trace) (lba_to_page_id lba) = some v ∧
        v < N ∧
        load_slot (miss_entry (run (init_sim N pol zs) trace) (lba_to_page_id lba))
          (lba_to_page_id lba) = some v) := by
  have hlen : (run (init_sim N pol zs) trace).buffer.length = N := by
    rw [run_length, init_sim_length]
  have hX := lba_to_page_id_valid lba hlba
  constructor
  · obtain ⟨i, hi, hp⟩ := access_page_resident (run (init_sim N pol zs) trace) lba
      (lba_to_page_id lba) op (by omega) hX
    have hl2 := access_page_length (run (init_sim N pol zs) trace) lba (lba_to_page_id lba) op
    obtain ⟨k, hk, hklt, hkp⟩ := find_in_buffer_of_frame _ _ i (by rw [hl2]; exact hi) hp
    exact ⟨k, hk, by rw [hl2, hlen] at hklt; exact hklt, hkp⟩
  · intro _ hfull
    obtain ⟨v, h1, h2, h3⟩ := miss_victim_exists (run (init_sim N pol zs) trace)
      (lba_to_page_id lba) (by omega) hfull
    exact ⟨v, h1, by rw [hlen] at h2; exact h2, h3⟩

theorem accessed_page_resident_witness :
    (1 ≤ 2 ∧ 16 < U64) ∧
    find_in_buffer (process_record (run (init_sim 2 LRU_ARC 0)
      [Record.access 0 OP_READ, Record.access 8 OP_WRITE]) (Record.access 16 OP_READ)).buffer
      (lba_to_page_id 16) = some 0 ∧
    ∃ i, find_in_buffer (process_record (run (init_sim 2 LRU_ARC 0)
      [Record.access 0 OP_READ, Record.access 8 OP_WRITE]) (Record.access 16 OP_READ)).buffer
      (lba_to_page_id 16) = some i := by
  obtain ⟨i, hi, _⟩ := (accessed_page_resident 2 LRU_ARC 0
    [Record.access 0 OP_READ, Record.access 8 OP_WRITE] 16 OP_READ (by decide) (by decide)).1
  exact ⟨⟨by decide, by decide⟩, by decide, i, hi⟩

theorem count_tag_list_type (pol : ReplacementPolicy) (buf : List BufferFrame) (k : Nat)
    (h : ¬ (pol = LRU ∨ pol = LFU)) : count_tag pol buf k = count_list_type buf k := by
  unfold count_tag count_list_type frame_tag
  simp only [if_neg h]

theorem count_tag_ref_type (pol : ReplacementPolicy) (buf : List BufferFrame) (k : Nat)
    (h : pol = LRU ∨ pol = LFU) : count_tag pol buf k = count_ref_type buf k := by
  unfold count_tag count_ref_type frame_tag
  simp only [if_pos h]

theorem count_list_type_all (buf : List BufferFrame) (k : Nat)
    (h : ∀ f ∈ buf, f.page_id ≠ INVALID_PAGE → f.list_type = k) :
    count_list_type buf k = count_resident buf := by
  unfold count_list_type count_resident
  congr 1
  apply List.countP_congr
  intro f hf
  simp only [decide_eq_true_eq]
  exact ⟨fun hx => hx.1, fun hx => ⟨hx, h f hf hx⟩⟩

theorem inv_sizes_labels (s : Sim) (h : s.inv) :
    (s.current_policy = LRU_ARC →
      s.arc_state.t1_size = count_list_type s.buffer 1 ∧
      s.arc_state.t2_size = count_list_type s.buffer 2) ∧
    (s.current_policy = LFU_ARC →
      s.arc_state.t3_size = count_list_type s.buffer 3 ∧
      s.arc_state.t4_size = count_list_type s.buffer 4) ∧
    (s.current_policy = LRU →
      s.arc_state.t1_size = count_ref_type s.buffer 1 ∧
      s.arc_state.t2_size = count_ref_type s.buffer 2 ∧
      ∀ f ∈ s.buffer, f.page_id ≠ INVALID_PAGE → f.list_type = 1) ∧
    (s.current_policy = LFU →
      s.arc_state.t3_size = count_ref_type s.buffer 3 ∧
      s.arc_state.t4_size = count_ref_type s.buffer 4 ∧
      ∀ f ∈ s.buffer, f.page_id ≠ INVALID_PAGE → f.list_type = 3) ∧
    (s.current_policy = CLOCK_T1 ∨ s.current_policy = CLOCK_PRO_T1_B4_LOGS_B2 →
      s.arc_state.t1_size = count_resident s.buffer) ∧
    (s.current_policy = CLOCK_T3 ∨ s.current_policy = CLOCK_PRO_T3_B2_LOGS_B4 →
      s.arc_state.t3_size = count_resident s.buffer) := by
  obtain ⟨htags, _, _, _, hsz, _, _⟩ := h
  unfold sizes_ok at hsz
  refine ⟨?_, ?_, ?_, ?_, ?_, ?_⟩
  · intro hp
    rw [hp] at hsz htags
    rw [if_neg (by decide)] at hsz
    rw [count_tag_list_type _ _ _ (by decide), count_tag_list_type _ _ _ (by decide)] at hsz
    exact ⟨hsz.1, hsz.2.1⟩
  · intro hp
    rw [hp] at hsz htags
    rw [if_neg (by decide)] at hsz
    rw [count_tag_list_type _ _ 3 (by decide), count_tag_list_type _ _ 4 (by decide)] at hsz
    exact ⟨hsz.2.2.1, hsz.2.2.2⟩
  · intro hp
    rw [hp] at hsz htags
    rw [if_neg (by decide)] at hsz
    rw [count_tag_ref_type _ _ 1 (by decide), count_tag_ref_type _ _ 2 (by decide)] at hsz
    exact ⟨hsz.1, hsz.2.1, fun f hf hr => (htags f hf hr).1⟩
  · intro hp
    rw [hp] at hsz htags
    rw [if_neg (by decide)] at hsz
    rw [count_tag_ref_type _ _ 3 (by decide), count_tag_ref_type _ _ 4 (by decide)] at hsz
    exact ⟨hsz.2.2.1, hsz.2.2.2, fun f hf hr => (htags f hf hr).1⟩
  · intro hp
    rcases hp with hp | hp
    · rw [hp] at hsz htags
      rw [if_neg (by decide)] at hsz
      rw [count_tag_list_type _ _ 1 (by decide)] at hsz
      rw [hsz.1]
      exact count_list_type_all _ _ (fun f hf hr => htags f hf hr)
    · rw [hp] at hsz htags
      rw [if_neg (by decide)] at hsz
      rw [count_tag_list_type _ _ 1 (by decide)] at hsz
      rw [hsz.1]
      exact count_list_type_all _ _ (fun f hf hr => htags f hf hr)
  · intro hp
    rcases hp with hp | hp
    · rw [hp] at hsz htags
      rw [if_neg (by decide)] at hsz
      rw [count_tag_list_type _ _ 3 (by decide)] at hsz
      rw [hsz.2.2.1]
      exact count_list_type_all _ _ (fun f hf hr => htags f hf hr)
    · rw [hp] at hsz htags
      rw [if_neg (by decide)] at hsz
      rw [count_tag_list_type _ _ 3 (by decide)] at hsz
      rw [hsz.2.2.1]
      exact count_list_type_all _ _ (fun f hf hr => htags f hf hr)

/-- C33: for every buffer size N ≥ 1, every initial policy, zone size and sequence of
access and policy-switch records with at most ULLONG_MAX accesses (the 64-bit clock does
not wrap), in the state after the sequence, whether its last record is an access or a
policy switch: under LRU_ARC t1_size and t2_size are the numbers of resident frames with
list_type 1 and 2; under LFU_ARC t3_size and t4_size are the numbers with list_type 3 and
4; under LRU (LFU) t1_size and t2_size (t3_size and t4_size) are the numbers of resident
frames with ref_arc_list_type 1 and 2 (3 and 4) and every resident frame has list_type 1
(3); under CLOCK_T1 and CLOCK_PRO_T1 t1_size, and under CLOCK_T3 and CLOCK_PRO_T3 t3_size,
is the number of resident frames. -/
theorem sizes_match_labels (N : Nat) (pol : ReplacementPolicy) (zs : Nat)
    (trace : List Record) (hN : 1 ≤ N) (hlen : access_count_of trace ≤ ULLONG_MAX) :
    ((run (init_sim N pol zs) trace).current_policy = LRU_ARC →
      (run (init_sim N pol zs) trace).arc_state.t1_size
        = count_list_type (run (init_sim N pol zs) trace).buffer 1 ∧
      (run (init_sim N pol zs) trace).arc_state.t2_size
        = count_list_type (run (init_sim N pol zs) trace).buffer 2) ∧
    ((run (init_sim N pol zs) trace).current_policy = LFU_ARC →
      (run (init_sim N pol zs) trace).arc_state.t3_size
        = count_list_type (run (init_sim N pol zs) trace).buffer 3 ∧
      (run (init_sim N pol zs) trace).arc_state.t4_size
        = count_list_type (run (init_sim N pol zs) trace).buffer 4) ∧
    ((run (init_sim N pol zs) trace).current_policy = LRU →
      (run (init_sim N pol zs) trace).arc_state.t1_size
        = count_ref_type (run (init_sim N pol zs) trace).buffer 1 ∧
      (run (init_sim N pol zs) trace).arc_state.t2_size
        = count_ref_type (run (init_sim N pol zs) trace).buffer 2 ∧
      ∀ f ∈ (run (init_sim N pol zs) trace).buffer,
        f.page_id ≠ INVALID_PAGE → f.list_type = 1) ∧
    ((run (init_sim N pol zs) trace).current_policy = LFU →
      (run (init_sim N pol zs) trace).arc_state.t3_size
        = count_ref_type (run (init_sim N pol zs) trace).buffer 3 ∧
      (run (init_sim N pol zs) trace).arc_state.t4_size
        = count_ref_type (run (init_sim N pol zs) trace).buffer 4 ∧
      ∀ f ∈ (run (init_sim N pol zs) trace).buffer,
        f.page_id ≠ INVALID_PAGE → f.list_type = 3) ∧
    ((run (init_sim N pol zs) trace).current_policy = CLOCK_T1 ∨
        (run (init_sim N pol zs) trace).current_policy = CLOCK_PRO_T1_B4_LOGS_B2 →
      (run (init_sim N pol zs) trace).arc_state.t1_size
        = count_resident (run (init_sim N pol zs) trace).buffer) ∧
    ((run (init_sim N pol zs) trace).current_policy = CLOCK_T3 ∨
        (run (init_sim N pol zs) trace).current_policy = CLOCK_PRO_T3_B2_LOGS_B4 →
      (run (init_sim N pol zs) trace).arc_state.t3_size
        = count_resident (run (init_sim N pol zs) trace).buffer) := by
  have h := run_inv trace (init_sim N pol zs) (init_sim_inv N pol zs)
    (by
      show 0 + access_count_of trace ≤ ULLONG_MAX
      omega)
    (by rw [init_sim_length]; omega)
  exact inv_sizes_labels _ h

theorem sizes_match_labels_witness :
    (1 ≤ 2 ∧ access_count_of switch_trace ≤ ULLONG_MAX) ∧
    (run (init_sim 2 LRU 0) switch_trace).current_policy = LRU_ARC ∧
    (run (init_sim 2 LRU 0) switch_trace).arc_state.t1_size = 2 ∧
    (run (init_sim 2 LRU 0) switch_trace).arc_state.t2_size = 0 ∧
    (run (init_sim 2 LRU 0) switch_trace).arc_state.t1_size
      = count_list_type (run (init_sim 2 LRU 0) switch_trace).buffer 1 := by
  have h := (sizes_match_labels 2 LRU 0 switch_trace (by decide) (by decide)).1 (by decide)
  exact ⟨⟨by decide, by decide⟩, by decide, by decide, by decide, h.1⟩

theorem count_list_type_pos (buf : List BufferFrame) (k : Nat)
    (h : 0 < count_list_type buf k) :
    ∃ f ∈ buf, f.page_id ≠ INVALID_PAGE ∧ f.list_type = k := by
  rw [← count_tag_list_type LRU_ARC buf k (by decide)] at h
  obtain ⟨f, hf, hr, ht⟩ := count_tag_pos_exists LRU_ARC buf k h
  refine ⟨f, hf, hr, ?_⟩
  unfold frame_tag at ht
  rw [if_neg (by decide)] at ht
  exact ht

theorem lru_scan_some (buf : List BufferFrame) (t : Nat) (hc : 0 < count_list_type buf t)
    (hlat : ∀ f ∈ buf, f.page_id ≠ INVALID_PAGE → f.list_type = t →
      f.last_access_time < ULLONG_MAX) :
    ∃ v, evict_arc_internal_lru buf t = some v ∧ lru_frame_of buf t v := by
  obtain ⟨f, hf, hr, ht⟩ := count_list_type_pos buf t hc
  obtain ⟨v, hv⟩ := evict_arc_internal_lru_exists buf t f hf hr ht (hlat f hf hr ht)
  exact ⟨v, hv, evict_arc_internal_lru_min buf t v hv⟩

theorem lfu_scan_some (buf : List BufferFrame) (t : Nat) (hc : 0 < count_list_type buf t)
    (hcnt : ∀ f ∈ buf, f.page_id ≠ INVALID_PAGE → f.list_type = t →
      f.access_count ≤ UINT_MAX)
    (hlt : ∀ f ∈ buf, f.page_id ≠ INVALID_PAGE → f.list_type = t →
      f.load_time < ULLONG_MAX) :
    ∃ v, evict_arc_internal_lfu buf t = some v ∧ lfu_frame_of buf t v := by
  obtain ⟨f, hf, hr, ht⟩ := count_list_type_pos buf t hc
  obtain ⟨v, hv⟩ := evict_arc_internal_lfu_exists buf t f hf hr ht (hcnt f hf hr ht)
    (hlt f hf hr ht)
  exact ⟨v, hv, evict_arc_internal_lfu_min buf t v hv⟩

theorem lru_arc_of_target (buf : List BufferFrame) (a : ARCState) (X k v : Nat)
    (ht : lru_arc_target a buf.length (find_in_arc_ghost X a.b2) = some k)
    (hs : evict_arc_internal_lru buf k = some v) :
    arc_find_victim_lru_arc buf a X
      = if k = 1 then
          (some v,
            { a with b1 := arc_add_to_ghost_mru (frame_at buf v).page_id a.b1 buf.length
                     t1_size := if a.t1_size > 0 then a.t1_size - 1 else a.t1_size })
        else
          (some v,
            { a with b2 := arc_add_to_ghost_mru (frame_at buf v).page_id a.b2 buf.length
                     t2_size := if a.t2_size > 0 then a.t2_size - 1 else a.t2_size }) := by
  rw [arc_find_victim_lru_arc_eq, ht]
  simp only []
  rw [hs]

theorem lfu_arc_of_target (buf : List BufferFrame) (a : ARCState) (X k v : Nat)
    (ht : lfu_arc_target a buf.length (find_in_arc_ghost X a.b4) = some k)
    (hs : (if k = 3 then evict_arc_internal_lfu buf 3 else evict_arc_internal_lru buf 4)
      = some v) :
    arc_find_victim_lfu_arc buf a X
      = if k = 3 then
          (some v,
            { a with b3 := arc_add_to_ghost_mru (frame_at buf v).page_id a.b3 buf.length
                     t3_size := if a.t3_size > 0 then a.t3_size - 1 else a.t3_size })
        else
          (some v,
            { a with b4 := arc_add_to_ghost_mru (frame_at buf v).page_id a.b4 buf.length
                     t4_size := if a.t4_size > 0 then a.t4_size - 1 else a.t4_size }) := by
  rw [arc_find_victim_lfu_arc_eq, ht]
  simp only []
  rw [hs]

/-- The list `arc_find_victim_lru_arc` evicts from when the counters add up to the buffer
size: T2 in the branch that prefers it, else T1 if it is not empty, else T2. -/
theorem lru_arc_target_eq (a : ARCState) (N : Nat) (in_b2 : Bool) (hN : 1 ≤ N)
    (hsum : a.t1_size + a.t2_size = (N : Int)) (h1 : 0 ≤ a.t1_size) (h2 : 0 ≤ a.t2_size) :
    lru_arc_target a N in_b2
      = if in_b2 = true ∧ a.t1_size = a.p ∧ 0 < a.t2_size then some 2
        else if 0 < a.t1_size then some 1 else some 2 := by
  unfold lru_arc_target
  rw [if_pos hsum]
  split_ifs <;> first | rfl | (exfalso; omega) | (exfalso; tauto)

theorem lfu_arc_target_eq (a : ARCState) (N : Nat) (in_b4 : Bool) (hN : 1 ≤ N)
    (hsum : a.t3_size + a.t4_size = (N : Int)) (h3 : 0 ≤ a.t3_size) (h4 : 0 ≤ a.t4_size) :
    lfu_arc_target a N in_b4
      = if in_b4 = true ∧ a.t3_size = a.q ∧ 0 < a.t4_size then some 4
        else if 0 < a.t3_size then some 3 else some 4 := by
  unfold lfu_arc_target
  rw [if_pos hsum]
  split_ifs <;> first | rfl | (exfalso; omega) | (exfalso; tauto)

theorem count_list_type_nonneg (buf : List BufferFrame) (k : Nat) :
    0 ≤ count_list_type buf k := by
  unfold count_list_type
  exact Int.natCast_nonneg _

/-- Eviction from T1 by `arc_find_victim_lru_arc`. -/
theorem lru_arc_from_t1 (buf : List BufferFrame) (a : ARCState) (X : Nat)
    (ht : lru_arc_target a buf.length (find_in_arc_ghost X a.b2) = some 1)
    (h1 : a.t1_size = count_list_type buf 1) (hpos : 0 < a.t1_size)
    (hlat : ∀ f ∈ buf, f.page_id ≠ INVALID_PAGE → f.last_access_time < ULLONG_MAX) :
    ∃ v, (arc_find_victim_lru_arc buf a X).1 = some v ∧
      evict_arc_internal_lru buf 1 = some v ∧ lru_frame_of buf 1 v ∧
      (arc_find_victim_lru_arc buf a X).2
        = { a with b1 := arc_add_to_ghost_mru (frame_at buf v).page_id a.b1 buf.length
                   t1_size := a.t1_size - 1 } := by
  obtain ⟨v, hv, hmin⟩ := lru_scan_some buf 1 (by rw [← h1]; exact hpos)
    (fun f hf hr _ => hlat f hf hr)
  rw [lru_arc_of_target buf a X 1 v ht hv, if_pos rfl]
  refine ⟨v, rfl, hv, hmin, ?_⟩
  show ({ a with b1 := _, t1_size := if a.t1_size > 0 then a.t1_size - 1 else a.t1_size }
    : ARCState) = _
  rw [if_pos hpos]

/-- Eviction from T2 by `arc_find_victim_lru_arc`. -/
theorem lru_arc_from_t2 (buf : List BufferFrame) (a : ARCState) (X : Nat)
    (ht : lru_arc_target a buf.length (find_in_arc_ghost X a.b2) = some 2)
    (h2 : a.t2_size = count_list_type buf 2) (hpos : 0 < a.t2_size)
    (hlat : ∀ f ∈ buf, f.page_id ≠ INVALID_PAGE → f.last_access_time < ULLONG_MAX) :
    ∃ v, (arc_find_victim_lru_arc buf a X).1 = some v ∧
      evict_arc_internal_lru buf 2 = some v ∧ lru_frame_of buf 2 v ∧
      (arc_find_victim_lru_arc buf a X).2
        = { a with b2 := arc_add_to_ghost_mru (frame_at buf v).page_id a.b2 buf.length
                   t2_size := a.t2_size - 1 } := by
  obtain ⟨v, hv, hmin⟩ := lru_scan_some buf 2 (by rw [← h2]; exact hpos)
    (fun f hf hr _ => hlat f hf hr)
  rw [lru_arc_of_target buf a X 2 v ht hv, if_neg (by decide)]
  refine ⟨v, rfl, hv, hmin, ?_⟩
  show ({ a with b2 := _, t2_size := if a.t2_size > 0 then a.t2_size - 1 else a.t2_size }
    : ARCState) = _
  rw [if_pos hpos]

/-- Eviction from T3 by `arc_find_victim_lfu_arc`: the scan is `evict_arc_internal_lfu`. -/
theorem lfu_arc_from_t3 (buf : List BufferFrame) (a : ARCState) (X : Nat)
    (ht : lfu_arc_target a buf.length (find_in_arc_ghost X a.b4) = some 3)
    (h3 : a.t3_size = count_list_type buf 3) (hpos : 0 < a.t3_size)
    (hcnt : ∀ f ∈ buf, f.page_id ≠ INVALID_PAGE → f.access_count ≤ UINT_MAX)
    (hlt : ∀ f ∈ buf, f.page_id ≠ INVALID_PAGE → f.load_time < ULLONG_MAX) :
    ∃ v, (arc_find_victim_lfu_arc buf a X).1 = some v ∧
      evict_arc_internal_lfu buf 3 = some v ∧ lfu_frame_of buf 3 v ∧
      (arc_find_victim_lfu_arc buf a X).2
        = { a with b3 := arc_add_to_ghost_mru (frame_at buf v).page_id a.b3 buf.length
                   t3_size := a.t3_size - 1 } := by
  obtain ⟨v, hv, hmin⟩ := lfu_scan_some buf 3 (by rw [← h3]; exact hpos)
    (fun f hf hr _ => hcnt f hf hr) (fun f hf hr _ => hlt f hf hr)
  rw [lfu_arc_of_target buf a X 3 v ht (by rw [if_pos rfl]; exact hv), if_pos rfl]
  refine ⟨v, rfl, hv, hmin, ?_⟩
  show ({ a with b3 := _, t3_size := if a.t3_size > 0 then a.t3_size - 1 else a.t3_size }
    : ARCState) = _
  rw [if_pos hpos]

/-- Eviction from T4 by `arc_find_victim_lfu_arc`: the scan is `evict_arc_internal_lru`. -/
theorem lfu_arc_from_t4 (buf : List BufferFrame) (a : ARCState) (X : Nat)
    (ht : lfu_arc_target a buf.length (find_in_arc_ghost X a.b4) = some 4)
    (h4 : a.t4_size = count_list_type buf 4) (hpos : 0 < a.t4_size)
    (hlat : ∀ f ∈ buf, f.page_id ≠ INVALID_PAGE → f.last_access_time < ULLONG_MAX) :
    ∃ v, (arc_find_victim_lfu_arc buf a X).1 = some v ∧
      evict_arc_internal_lru buf 4 = some v ∧ lru_frame_of buf 4 v ∧
      (arc_find_victim_lfu_arc buf a X).2
        = { a with b4 := arc_add_to_ghost_mru (frame_at buf v).page_id a.b4 buf.length
                   t4_size := a.t4_size - 1 } := by
  obtain ⟨v, hv, hmin⟩ := lru_scan_some buf 4 (by rw [← h4]; exact hpos)
    (fun f hf hr _ => hlat f hf hr)
  rw [lfu_arc_of_target buf a X 4 v ht (by rw [if_neg (by decide)]; exact hv),
    if_neg (by decide)]
  refine ⟨v, rfl, hv, hmin, ?_⟩
  show ({ a with b4 := _, t4_size := if a.t4_size > 0 then a.t4_size - 1 else a.t4_size }
    : ARCState) = _
  rw [if_pos hpos]

/-- C31: `arc_find_victim_lru_arc(X)` on a buffer of N ≥ 1 frames whose counters satisfy
t1_size + t2_size = N and agree with the list_type labels of the resident frames, the
ghost lists being within their capacity N and the time stamps below ULLONG_MAX (the
proviso of the scan `evict_arc_internal_lru`).  If X is in B2, t1_size = p and t2_size > 0,
the victim is the least recently accessed frame of T2, the ARC state changes only in that
the victim's page is added at the MRU end of B2 and t2_size goes down by one.  Otherwise,
if T1 is not empty the victim is the least recently accessed frame of T1, its page is added
at the MRU end of B1 and t1_size goes down by one; if T1 is empty the victim is the least
recently accessed frame of T2 (page to B2, t2_size down by one). -/
theorem lru_arc_victim_contract (buf : List BufferFrame) (a : ARCState) (X : Nat)
    (hN : 1 ≤ buf.length) (hsum : a.t1_size + a.t2_size = (buf.length : Int))
    (h1 : a.t1_size = count_list_type buf 1) (h2 : a.t2_size = count_list_type buf 2)
    (hb1 : a.b1.length ≤ buf.length) (hb2 : a.b2.length ≤ buf.length)
    (hlat : ∀ f ∈ buf, f.page_id ≠ INVALID_PAGE → f.last_access_time < ULLONG_MAX) :
    (X ∈ a.b2 ∧ a.t1_size = a.p ∧ 0 < a.t2_size →
      ∃ v, (arc_find_victim_lru_arc buf a X).1 = some v ∧ lru_frame_of buf 2 v ∧
        (arc_find_victim_lru_arc buf a X).2
          = { a with b2 := arc_add_to_ghost_mru (frame_at buf v).page_id a.b2 buf.length
                     t2_size := a.t2_size - 1 } ∧
        (arc_find_victim_lru_arc buf a X).2.b2.getLast? = some (frame_at buf v).page_id) ∧
    (¬ (X ∈ a.b2 ∧ a.t1_size = a.p ∧ 0 < a.t2_size) → 0 < a.t1_size →
      ∃ v, (arc_find_victim_lru_arc buf a X).1 = some v ∧ lru_frame_of buf 1 v ∧
        (arc_find_victim_lru_arc buf a X).2
          = { a with b1 := arc_add_to_ghost_mru (frame_at buf v).page_id a.b1 buf.length
                     t1_size := a.t1_size - 1 } ∧
        (arc_find_victim_lru_arc buf a X).2.b1.getLast? = some (frame_at buf v).page_id) ∧
    (¬ (X ∈ a.b2 ∧ a.t1_size = a.p ∧ 0 < a.t2_size) → a.t1_size = 0 →
      ∃ v, (arc_find_victim_lru_arc buf a X).1 = some v ∧ lru_frame_of buf 2 v ∧
        (arc_find_victim_lru_arc buf a X).2
          = { a with b2 := arc_add_to_ghost_mru (frame_at buf v).page_id a.b2 buf.length
                     t2_size := a.t2_size - 1 } ∧
        (arc_find_victim_lru_arc buf a X).2.b2.getLast? = some (frame_at buf v).page_id) := by
  have hn1 : 0 ≤ a.t1_size := by rw [h1]; exact count_list_type_nonneg _ _
  have hn2 : 0 ≤ a.t2_size := by rw [h2]; exact count_list_type_nonneg _ _
  have ht := lru_arc_target_eq a buf.length (find_in_arc_ghost X a.b2) hN hsum hn1 hn2
  simp only [find_in_arc_ghost_iff] at ht
  refine ⟨?_, ?_, ?_⟩
  · intro hc
    rw [if_pos hc] at ht
    obtain ⟨v, r1, _, r3, r4⟩ := lru_arc_from_t2 buf a X ht h2 hc.2.2 hlat
    refine ⟨v, r1, r3, r4, ?_⟩
    rw [r4]
    exact add_mru_last _ _ _ r3.1.2.1 (by omega) hb2
  · intro hc hpos
    rw [if_neg hc, if_pos hpos] at ht
    obtain ⟨v, r1, _, r3, r4⟩ := lru_arc_from_t1 buf a X ht h1 hpos hlat
    refine ⟨v, r1, r3, r4, ?_⟩
    rw [r4]
    exact add_mru_last _ _ _ r3.1.2.1 (by omega) hb1
  · intro hc hz
    rw [if_neg hc, if_neg (by omega)] at ht
    obtain ⟨v, r1, _, r3, r4⟩ := lru_arc_from_t2 buf a X ht h2 (by omega) hlat
    refine ⟨v, r1, r3, r4, ?_⟩
    rw [r4]
    exact add_mru_last _ _ _ r3.1.2.1 (by omega) hb2

theorem lru_arc_victim_contract_witness :
    (1 ≤ lru_arc_mixed.buffer.length ∧
      lru_arc_prefers_t2.t1_size + lru_arc_prefers_t2.t2_size
        = (lru_arc_mixed.buffer.length : Int) ∧
      lru_arc_prefers_t2.t1_size = count_list_type lru_arc_mixed.buffer 1 ∧
      lru_arc_prefers_t2.t2_size = count_list_type lru_arc_mixed.buffer 2 ∧
      5 ∈ lru_arc_prefers_t2.b2 ∧ lru_arc_prefers_t2.t1_size = lru_arc_prefers_t2.p ∧
      0 < lru_arc_prefers_t2.t2_size) ∧
    (arc_find_victim_lru_arc lru_arc_mixed.buffer lru_arc_prefers_t2 5).1 = some 0 ∧
    (frame_at lru_arc_mixed.buffer 0).list_type = 2 ∧
    (arc_find_victim_lru_arc lru_arc_mixed.buffer lru_arc_prefers_t2 5).2.b2 = [5, 0] ∧
    ∃ v, (arc_find_victim_lru_arc lru_arc_mixed.buffer lru_arc_prefers_t2 5).1 = some v ∧
      lru_frame_of lru_arc_mixed.buffer 2 v := by
  have h := (lru_arc_victim_contract lru_arc_mixed.buffer lru_arc_prefers_t2 5 (by decide)
    (by decide) (by decide) (by decide) (by decide) (by decide) (by decide)).1
    ⟨by decide, by decide, by decide⟩
  obtain ⟨v, hv, hl, _⟩ := h
  exact ⟨⟨by decide, by decide, by decide, by decide, by decide, by decide, by decide⟩,
    by decide, by decide, by decide, v, hv, hl⟩

/-- C40: `arc_find_victim_lfu_arc(X)` on a buffer of N ≥ 1 frames whose counters satisfy
t3_size + t4_size = N and agree with the list_type labels of the resident frames, access
counts being in the range of `unsigned int` and time stamps below ULLONG_MAX.  When it
evicts from T3 (X is not in B4, or t3_size is not q, or T4 is empty; and T3 is not empty)
the victim is the frame of T3 with the least access_count and, among those, the least
load_time: the scan is `evict_arc_internal_lfu(3)`.  When it evicts from T4 (X is in B4,
t3_size = q and T4 is not empty; or T3 is empty) the victim is the frame of T4 with the
least last_access_time, lowest index on ties, its access_count playing no part: the scan
is `evict_arc_internal_lru(4)`. -/
theorem lfu_arc_victim_orders (buf : List BufferFrame) (a : ARCState) (X : Nat)
    (hN : 1 ≤ buf.length) (hsum : a.t3_size + a.t4_size = (buf.length : Int))
    (h3 : a.t3_size = count_list_type buf 3) (h4 : a.t4_size = count_list_type buf 4)
    (hcnt : ∀ f ∈ buf, f.page_id ≠ INVALID_PAGE → f.access_count ≤ UINT_MAX)
    (hlt : ∀ f ∈ buf, f.page_id ≠ INVALID_PAGE → f.load_time < ULLONG_MAX)
    (hlat : ∀ f ∈ buf, f.page_id ≠ INVALID_PAGE → f.last_access_time < ULLONG_MAX) :
    (¬ (X ∈ a.b4 ∧ a.t3_size = a.q ∧ 0 < a.t4_size) → 0 < a.t3_size →
      ∃ v, (arc_find_victim_lfu_arc buf a X).1 = some v ∧
        evict_arc_internal_lfu buf 3 = some v ∧ lfu_frame_of buf 3 v ∧
        (arc_find_victim_lfu_arc buf a X).2
          = { a with b3 := arc_add_to_ghost_mru (frame_at buf v).page_id a.b3 buf.length
                     t3_size := a.t3_size - 1 }) ∧
    ((X ∈ a.b4 ∧ a.t3_size = a.q ∧ 0 < a.t4_size) ∨ a.t3_size = 0 →
      ∃ v, (arc_find_victim_lfu_arc buf a X).1 = some v ∧
        evict_arc_internal_lru buf 4 = some v ∧ lru_frame_of buf 4 v ∧
        (arc_find_victim_lfu_arc buf a X).2
          = { a with b4 := arc_add_to_ghost_mru (frame_at buf v).page_id a.b4 buf.length
                     t4_size := a.t4_size - 1 }) := by
  have hn3 : 0 ≤ a.t3_size := by rw [h3]; exact count_list_type_nonneg _ _
  have hn4 : 0 ≤ a.t4_size := by rw [h4]; exact count_list_type_nonneg _ _
  have ht := lfu_arc_target_eq a buf.length (find_in_arc_ghost X a.b4) hN hsum hn3 hn4
  simp only [find_in_arc_ghost_iff] at ht
  refine ⟨?_, ?_⟩
  · intro hc hpos
    rw [if_neg hc, if_pos hpos] at ht
    exact lfu_arc_from_t3 buf a X ht h3 hpos hcnt hlt
  · intro hc
    by_cases hc1 : X ∈ a.b4 ∧ a.t3_size = a.q ∧ 0 < a.t4_size
    · rw [if_pos hc1] at ht
      exact lfu_arc_from_t4 buf a X ht h4 hc1.2.2 hlat
    · have hz : a.t3_size = 0 := by
        rcases hc with hc | hc
        · exact absurd hc hc1
        · exact hc
      rw [if_neg hc1, if_neg (by omega)] at ht
      exact lfu_arc_from_t4 buf a X ht h4 (by omega) hlat

theorem lfu_arc_victim_orders_witness :
    (1 ≤ lfu_arc_both_t4.buffer.length ∧ lfu_arc_both_t4.arc_state.t3_size = 0 ∧
      lfu_arc_both_t4.arc_state.t4_size = 2) ∧
    (arc_find_victim_lfu_arc lfu_arc_both_t4.buffer lfu_arc_both_t4.arc_state 2).1 = some 0 ∧
    (frame_at lfu_arc_both_t4.buffer 0).list_type = 4 ∧
    (frame_at lfu_arc_both_t4.buffer 1).list_type = 4 ∧
    (frame_at lfu_arc_both_t4.buffer 0).last_access_time = 3 ∧
    (frame_at lfu_arc_both_t4.buffer 1).last_access_time = 5 ∧
    (frame_at lfu_arc_both_t4.buffer 0).access_count = 3 ∧
    (frame_at lfu_arc_both_t4.buffer 1).access_count = 2 ∧
    evict_arc_internal_lfu lfu_arc_both_t4.buffer 4 = some 1 ∧
    ∃ v, (arc_find_victim_lfu_arc lfu_arc_both_t4.buffer lfu_arc_both_t4.arc_state 2).1
        = some v ∧ lru_frame_of lfu_arc_both_t4.buffer 4 v := by
  have h := (lfu_arc_victim_orders lfu_arc_both_t4.buffer lfu_arc_both_t4.arc_state 2
    (by decide) (by decide) (by decide) (by decide) (by decide) (by decide) (by decide)).2
    (Or.inr (by decide))
  obtain ⟨v, hv, _, hl, _⟩ := h
  exact ⟨⟨by decide, by decide, by decide⟩, by decide, by decide, by decide, by decide,
    by decide, by decide, by decide, by decide, v, hv, hl⟩

theorem run_inv_time (trace : List Record) (s : Sim) (h : s.inv)
    (hT : s.current_time + access_count_of trace ≤ ULLONG_MAX) (hN : 0 < s.buffer.length) :
    (run s trace).inv ∧
    (run s trace).current_time = s.current_time + access_count_of trace := by
  induction trace generalizing s with
  | nil => exact ⟨h, rfl⟩
  | cons r rest ih =>
    rw [access_count_of_cons] at hT ⊢
    obtain ⟨hi, ht⟩ := process_record_inv s r h (by omega) hN
    obtain ⟨h1, h2⟩ := ih _ hi (by rw [ht]; omega) (by rw [process_record_length]; exact hN)
    refine ⟨h1, ?_⟩
    show (run (process_record s r) rest).current_time = _
    rw [h2, ht]
    omega

/-- The state after a trace with fewer than ULLONG_MAX accesses, run from an initial state
with at least one frame: the invariant holds, the clock counts the accesses and has not
reached its last value, and the buffer has its N frames. -/
theorem reach_facts (N : Nat) (pol : ReplacementPolicy) (zs : Nat) (trace : List Record)
    (hN : 1 ≤ N) (hlen : access_count_of trace < ULLONG_MAX) :
    (run (init_sim N pol zs) trace).inv ∧
    (run (init_sim N pol zs) trace).current_time = access_count_of trace ∧
    (run (init_sim N pol zs) trace).current_time < ULLONG_MAX ∧
    (run (init_sim N pol zs) trace).buffer.length = N := by
  have h := run_inv_time trace (init_sim N pol zs) (init_sim_inv N pol zs)
    (by
      show 0 + access_count_of trace ≤ ULLONG_MAX
      omega)
    (by rw [init_sim_length]; omega)
  have ht : (run (init_sim N pol zs) trace).current_time = access_count_of trace := by
    rw [h.2]
    show 0 + access_count_of trace = _
    omega
  exact ⟨h.1, ht, by rw [ht]; exact hlen, by rw [run_length, init_sim_length]⟩

/-- Under the invariant, with the clock below its last value, the time stamps of the
resident frames are below ULLONG_MAX and the access counts are in range. -/
theorem inv_bounds (s : Sim) (h : s.inv) (hT : s.current_time < ULLONG_MAX) :
    (∀ f ∈ s.buffer, f.page_id ≠ INVALID_PAGE → f.last_access_time < ULLONG_MAX) ∧
    (∀ f ∈ s.buffer, f.page_id ≠ INVALID_PAGE → f.load_time < ULLONG_MAX) ∧
    (∀ f ∈ s.buffer, f.page_id ≠ INVALID_PAGE → f.access_count ≤ UINT_MAX) := by
  obtain ⟨_, _, hc, ht, _⟩ := h
  refine ⟨fun f hf hr => ?_, fun f hf hr => ?_, fun f hf hr => hc f hf hr⟩
  · have := (ht f hf hr).2
    omega
  · have := (ht f hf hr).1
    omega

theorem full_counts_lru_arc (buf : List BufferFrame) (a : ARCState)
    (htags : tags_ok LRU_ARC buf) (hs : sizes_ok LRU_ARC buf a)
    (hfull : ∀ f ∈ buf, f.page_id ≠ INVALID_PAGE) :
    a.t1_size + a.t2_size = (buf.length : Int) ∧ a.t1_size = count_list_type buf 1 ∧
    a.t2_size = count_list_type buf 2 := by
  unfold sizes_ok at hs
  rw [if_neg (by decide)] at hs
  have hsum := count_sum LRU_ARC buf (by decide) htags
  have h3 : count_tag LRU_ARC buf 3 = 0 := by
    apply count_tag_none
    intro f hf hr
    have := htags f hf hr
    unfold frame_tag
    rw [if_neg (by decide)]
    rcases this with h | h <;> rw [h] <;> decide
  have h4 : count_tag LRU_ARC buf 4 = 0 := by
    apply count_tag_none
    intro f hf hr
    have := htags f hf hr
    unfold frame_tag
    rw [if_neg (by decide)]
    rcases this with h | h <;> rw [h] <;> decide
  rw [count_resident_full buf hfull, h3, h4] at hsum
  refine ⟨by rw [hs.1, hs.2.1]; omega, ?_, ?_⟩
  · rw [hs.1, count_tag_list_type _ _ _ (by decide)]
  · rw [hs.2.1, count_tag_list_type _ _ _ (by decide)]

theorem full_counts_lfu_arc (buf : List BufferFrame) (a : ARCState)
    (htags : tags_ok LFU_ARC buf) (hs : sizes_ok LFU_ARC buf a)
    (hfull : ∀ f ∈ buf, f.page_id ≠ INVALID_PAGE) :
    a.t3_size + a.t4_size = (buf.length : Int) ∧ a.t3_size = count_list_type buf 3 ∧
    a.t4_size = count_list_type buf 4 := by
  unfold sizes_ok at hs
  rw [if_neg (by decide)] at hs
  have hsum := count_sum LFU_ARC buf (by decide) htags
  have h1 : count_tag LFU_ARC buf 1 = 0 := by
    apply count_tag_none
    intro f hf hr
    have := htags f hf hr
    unfold frame_tag
    rw [if_neg (by decide)]
    rcases this with h | h <;> rw [h] <;> decide
  have h2 : count_tag LFU_ARC buf 2 = 0 := by
    apply count_tag_none
    intro f hf hr
    have := htags f hf hr
    unfold frame_tag
    rw [if_neg (by decide)]
    rcases this with h | h <;> rw [h] <;> decide
  rw [count_resident_full buf hfull, h1, h2] at hsum
  refine ⟨by rw [hs.2.2.1, hs.2.2.2]; omega, ?_, ?_⟩
  · rw [hs.2.2.1, count_tag_list_type _ _ _ (by decide)]
  · rw [hs.2.2.2, count_tag_list_type _ _ _ (by decide)]

/-- Victim selection of LRU_ARC when the missed page is not in B2: T1 first. -/
theorem lru_arc_chosen (m : Sim) (X : Nat) (hp : m.current_policy = LRU_ARC)
    (hN : 1 ≤ m.buffer.length)
    (hsum : m.arc_state.t1_size + m.arc_state.t2_size = (m.buffer.length : Int))
    (h1 : m.arc_state.t1_size = count_list_type m.buffer 1)
    (h2 : m.arc_state.t2_size = count_list_type m.buffer 2)
    (hX2 : X ∉ m.arc_state.b2)
    (hlat : ∀ f ∈ m.buffer, f.page_id ≠ INVALID_PAGE → f.last_access_time < ULLONG_MAX) :
    ∃ v, (chosen m X).2 = some v ∧
      (0 < count_list_type m.buffer 1 →
        evict_arc_internal_lru m.buffer 1 = some v ∧ lru_frame_of m.buffer 1 v) ∧
      (count_list_type m.buffer 1 = 0 →
        evict_arc_internal_lru m.buffer 2 = some v ∧ lru_frame_of m.buffer 2 v) := by
  have hn1 : 0 ≤ m.arc_state.t1_size := by rw [h1]; exact count_list_type_nonneg _ _
  have hn2 : 0 ≤ m.arc_state.t2_size := by rw [h2]; exact count_list_type_nonneg _ _
  have ht := lru_arc_target_eq m.arc_state m.buffer.length
    (find_in_arc_ghost X m.arc_state.b2) hN hsum hn1 hn2
  simp only [find_in_arc_ghost_iff] at ht
  rw [if_neg (fun h => hX2 h.1)] at ht
  have hsel := select_victim_lru_arc m X hp
  by_cases hpos : 0 < m.arc_state.t1_size
  · rw [if_pos hpos] at ht
    obtain ⟨v, r1, r2, r3, _⟩ := lru_arc_from_t1 m.buffer m.arc_state X ht h1 hpos hlat
    have hsv : (select_victim m X).2 = some v := by rw [hsel]; exact r1
    refine ⟨v, by rw [chosen_of_select m X v hsv], fun _ => ⟨r2, r3⟩, fun hz => ?_⟩
    rw [← h1] at hz
    omega
  · rw [if_neg hpos] at ht
    obtain ⟨v, r1, r2, r3, _⟩ := lru_arc_from_t2 m.buffer m.arc_state X ht h2 (by omega) hlat
    have hsv : (select_victim m X).2 = some v := by rw [hsel]; exact r1
    refine ⟨v, by rw [chosen_of_select m X v hsv], fun hz => ?_, fun _ => ⟨r2, r3⟩⟩
    rw [← h1] at hz
    omega

/-- Victim selection of LFU_ARC when the missed page is not in B4: T3 first. -/
theorem lfu_arc_chosen (m : Sim) (X : Nat) (hp : m.current_policy = LFU_ARC)
    (hN : 1 ≤ m.buffer.length)
    (hsum : m.arc_state.t3_size + m.arc_state.t4_size = (m.buffer.length : Int))
    (h3 : m.arc_state.t3_size = count_list_type m.buffer 3)
    (h4 : m.arc_state.t4_size = count_list_type m.buffer 4)
    (hX4 : X ∉ m.arc_state.b4)
    (hcnt : ∀ f ∈ m.buffer, f.page_id ≠ INVALID_PAGE → f.access_count ≤ UINT_MAX)
    (hlt : ∀ f ∈ m.buffer, f.page_id ≠ INVALID_PAGE → f.load_time < ULLONG_MAX)
    (hlat : ∀ f ∈ m.buffer, f.page_id ≠ INVALID_PAGE → f.last_access_time < ULLONG_MAX) :
    ∃ v, (chosen m X).2 = some v ∧
      (0 < count_list_type m.buffer 3 →
        evict_arc_internal_lfu m.buffer 3 = some v ∧ lfu_frame_of m.buffer 3 v) ∧
      (count_list_type m.buffer 3 = 0 →
        evict_arc_internal_lru m.buffer 4 = some v ∧ lru_frame_of m.buffer 4 v) := by
  have hn3 : 0 ≤ m.arc_state.t3_size := by rw [h3]; exact count_list_type_nonneg _ _
  have hn4 : 0 ≤ m.arc_state.t4_size := by rw [h4]; exact count_list_type_nonneg _ _
  have ht := lfu_arc_target_eq m.arc_state m.buffer.length
    (find_in_arc_ghost X m.arc_state.b4) hN hsum hn3 hn4
  simp only [find_in_arc_ghost_iff] at ht
  rw [if_neg (fun h => hX4 h.1)] at ht
  have hsel := select_victim_lfu_arc m X hp
  by_cases hpos : 0 < m.arc_state.t3_size
  · rw [if_pos hpos] at ht
    obtain ⟨v, r1, r2, r3, _⟩ := lfu_arc_from_t3 m.buffer m.arc_state X ht h3 hpos hcnt hlt
    have hsv : (select_victim m X).2 = some v := by rw [hsel]; exact r1
    refine ⟨v, by rw [chosen_of_select m X v hsv], fun _ => ⟨r2, r3⟩, fun hz => ?_⟩
    rw [← h3] at hz
    omega
  · rw [if_neg hpos] at ht
    obtain ⟨v, r1, r2, r3, _⟩ := lfu_arc_from_t4 m.buffer m.arc_state X ht h4 (by omega) hlat
    have hsv : (select_victim m X).2 = some v := by rw [hsel]; exact r1
    refine ⟨v, by rw [chosen_of_select m X v hsv], fun hz => ?_, fun _ => ⟨r2, r3⟩⟩
    rw [← h3] at hz
    omega

/-- After step A of a miss on X under LRU or LRU_ARC, X is not in B2, whatever p is. -/
theorem step_a_clears_b2 (pol : ReplacementPolicy) (hp : pol = LRU ∨ pol = LRU_ARC) (N : Nat)
    (a : ARCState) (X : Nat) (p' : Int) (hnd : a.b2.Nodup) (hdis : ∀ x ∈ a.b1, x ∉ a.b2) :
    X ∉ (step_a pol N { a with p := p' } X).arc.b2 := by
  rw [(step_a_lru_family pol hp N { a with p := p' } X).2.1]
  show X ∉ (if X ∈ a.b1 then a.b2 else a.b2.erase X)
  by_cases h : X ∈ a.b1
  · rw [if_pos h]
    exact hdis X h
  · rw [if_neg h]
    exact hnd.not_mem_erase

theorem step_a_clears_b4 (pol : ReplacementPolicy) (hp : pol = LFU ∨ pol = LFU_ARC) (N : Nat)
    (a : ARCState) (X : Nat) (q' : Int) (hnd : a.b4.Nodup) (hdis : ∀ x ∈ a.b3, x ∉ a.b4) :
    X ∉ (step_a pol N { a with q := q' } X).arc.b4 := by
  rw [(step_a_lfu_family pol hp N { a with q := q' } X).2.1]
  show X ∉ (if X ∈ a.b3 then a.b4 else a.b4.erase X)
  by_cases h : X ∈ a.b3
  · rw [if_pos h]
    exact hdis X h
  · rw [if_neg h]
    exact hnd.not_mem_erase

theorem find_in_arc_ghost_not_mem (X : Nat) (l : List Nat) (h : X ∉ l) :
    find_in_arc_ghost X l = false := by
  rcases Bool.eq_false_or_eq_true (find_in_arc_ghost X l) with h1 | h1
  · exact absurd ((find_in_arc_ghost_iff X l).1 h1) h
  · exact h1

/-- The victim of a miss under LRU_ARC in a state that satisfies the invariant, with any
value put in place of p. -/
theorem lru_arc_miss_victim (s : Sim) (X : Nat) (p' : Int) (h : s.inv)
    (hT : s.current_time < ULLONG_MAX) (hN : 1 ≤ s.buffer.length)
    (hp : s.current_policy = LRU_ARC) (hfull : find_empty_slot s.buffer = none) :
    X ∉ (miss_entry (with_p s p') X).arc_state.b2 ∧
    ∃ v, miss_victim (with_p s p') X = some v ∧
      (0 < count_list_type s.buffer 1 →
        evict_arc_internal_lru s.buffer 1 = some v ∧ lru_frame_of s.buffer 1 v) ∧
      (count_list_type s.buffer 1 = 0 →
        evict_arc_internal_lru s.buffer 2 = some v ∧ lru_frame_of s.buffer 2 v) := by
  have hb : (miss_entry (with_p s p') X).buffer = s.buffer := rfl
  have hpol : (miss_entry (with_p s p') X).current_policy = s.current_policy := rfl
  have harc : (miss_entry (with_p s p') X).arc_state
      = (step_a s.current_policy s.buffer.length { s.arc_state with p := p' } X).arc := rfl
  have hsz := step_a_sizes s.current_policy s.buffer.length { s.arc_state with p := p' } X
  obtain ⟨htags, _, _, _, hsizes, hg, hok⟩ := h
  rw [hp] at htags hsizes
  have hfull2 := find_empty_slot_none s.buffer hfull
  obtain ⟨c1, c2, c3⟩ := full_counts_lru_arc s.buffer s.arc_state htags hsizes hfull2
  have hX2 : X ∉ (miss_entry (with_p s p') X).arc_state.b2 := by
    rw [harc]
    exact step_a_clears_b2 _ (Or.inr hp) _ _ _ _ hok.2.1.1 ((hg.1 (Or.inr hp)).2.2.1)
  refine ⟨hX2, ?_⟩
  have hb1 := (inv_bounds s ⟨by rw [hp]; exact htags, ‹_›, ‹_›, ‹_›, by rw [hp]; exact hsizes,
    hg, hok⟩ hT).1
  obtain ⟨v, r1, r2, r3⟩ := lru_arc_chosen (miss_entry (with_p s p') X) X (hpol.trans hp)
    (by rw [hb]; exact hN)
    (by rw [harc, hsz.1, hsz.2.1, hb]; exact c1)
    (by rw [harc, hsz.1, hb]; exact c2)
    (by rw [harc, hsz.2.1, hb]; exact c3) hX2 (by rw [hb]; exact hb1)
  rw [hb] at r2 r3
  refine ⟨v, ?_, r2, r3⟩
  unfold miss_victim
  rw [hb, hfull]
  exact r1

/-- The victim of a miss under LFU_ARC in a state that satisfies the invariant, with any
value put in place of q. -/
theorem lfu_arc_miss_victim (s : Sim) (X : Nat) (q' : Int) (h : s.inv)
    (hT : s.current_time < ULLONG_MAX) (hN : 1 ≤ s.buffer.length)
    (hp : s.current_policy = LFU_ARC) (hfull : find_empty_slot s.buffer = none) :
    X ∉ (miss_entry (with_q s q') X).arc_state.b4 ∧
    ∃ v, miss_victim (with_q s q') X = some v ∧
      (0 < count_list_type s.buffer 3 →
        evict_arc_internal_lfu s.buffer 3 = some v ∧ lfu_frame_of s.buffer 3 v) ∧
      (count_list_type s.buffer 3 = 0 →
        evict_arc_internal_lru s.buffer 4 = some v ∧ lru_frame_of s.buffer 4 v) := by
  have hb : (miss_entry (with_q s q') X).buffer = s.buffer := rfl
  have hpol : (miss_entry (with_q s q') X).current_policy = s.current_policy := rfl
  have harc : (miss_entry (with_q s q') X).arc_state
      = (step_a s.current_policy s.buffer.length { s.arc_state with q := q' } X).arc := rfl
  have hsz := step_a_sizes s.current_policy s.buffer.length { s.arc_state with q := q' } X
  have hbounds := inv_bounds s h hT
  obtain ⟨htags, _, _, _, hsizes, hg, hok⟩ := h
  rw [hp] at htags hsizes
  have hfull2 := find_empty_slot_none s.buffer hfull
  obtain ⟨c1, c2, c3⟩ := full_counts_lfu_arc s.buffer s.arc_state htags hsizes hfull2
  have hX4 : X ∉ (miss_entry (with_q s q') X).arc_state.b4 := by
    rw [harc]
    exact step_a_clears_b4 _ (Or.inr hp) _ _ _ _ hok.2.2.2.1.1 ((hg.2 (Or.inr hp)).2.2.1)
  refine ⟨hX4, ?_⟩
  obtain ⟨v, r1, r2, r3⟩ := lfu_arc_chosen (miss_entry (with_q s q') X) X (hpol.trans hp)
    (by rw [hb]; exact hN)
    (by rw [harc, hsz.2.2.1, hsz.2.2.2, hb]; exact c1)
    (by rw [harc, hsz.2.2.1, hb]; exact c2)
    (by rw [harc, hsz.2.2.2, hb]; exact c3) hX4 (by rw [hb]; exact hbounds.2.2)
    (by rw [hb]; exact hbounds.2.1) (by rw [hb]; exact hbounds.1)
  rw [hb] at r2 r3
  refine ⟨v, ?_, r2, r3⟩
  unfold miss_victim
  rw [hb, hfull]
  exact r1

theorem with_p_self (s : Sim) : with_p s s.arc_state.p = s := rfl

theorem with_q_self (s : Sim) : with_q s s.arc_state.q = s := rfl

/-- C37: let a state be reached from an initial state with N ≥ 1 frames by any records with
fewer than ULLONG_MAX accesses (the 64-bit clock has not wrapped), and let its buffer be
full.  Under LRU_ARC a miss on page X evicts the least recently accessed frame of T1 if T1
holds a frame, and the least recently accessed frame of T2 only if T1 is empty: once step A
has run, X is not in B2, so the lookup in B2 at the head of `arc_find_victim_lru_arc` fails
and the branch that prefers T2 is not taken; the victim is the same whatever value p has
before the miss.  Under LFU_ARC the victim is the frame of T3 the LFU scan selects if T3
holds a frame, and the least recently accessed frame of T4 only if T3 is empty; X is not in
B4 once step A has run, and the victim is the same whatever value q has. -/
theorem arc_victim_ignores_target (N : Nat) (pol : ReplacementPolicy) (zs : Nat)
    (trace : List Record) (X : Nat) (hN : 1 ≤ N) (hlen : access_count_of trace < ULLONG_MAX)
    (hfull : find_empty_slot (run (init_sim N pol zs) trace).buffer = none) :
    ((run (init_sim N pol zs) trace).current_policy = LRU_ARC →
      ∃ v, miss_victim (run (init_sim N pol zs) trace) X = some v ∧
        find_in_arc_ghost X (miss_entry (run (init_sim N pol zs) trace) X).arc_state.b2
          = false ∧
        (0 < count_list_type (run (init_sim N pol zs) trace).buffer 1 →
          lru_frame_of (run (init_sim N pol zs) trace).buffer 1 v) ∧
        (count_list_type (run (init_sim N pol zs) trace).buffer 1 = 0 →
          lru_frame_of (run (init_sim N pol zs) trace).buffer 2 v) ∧
        ∀ p', miss_victim (with_p (run (init_sim N pol zs) trace) p') X = some v) ∧
    ((run (init_sim N pol zs) trace).current_policy = LFU_ARC →
      ∃ v, miss_victim (run (init_sim N pol zs) trace) X = some v ∧
        find_in_arc_ghost X (miss_entry (run (init_sim N pol zs) trace) X).arc_state.b4
          = false ∧
        (0 < count_list_type (run (init_sim N pol zs) trace).buffer 3 →
          lfu_frame_of (run (init_sim N pol zs) trace).buffer 3 v) ∧
        (count_list_type (run (init_sim N pol zs) trace).buffer 3 = 0 →
          lru_frame_of (run (init_sim N pol zs) trace).buffer 4 v) ∧
        ∀ q', miss_victim (with_q (run (init_sim N pol zs) trace) q') X = some v) := by
  obtain ⟨hinv, _, hT, hlenN⟩ := reach_facts N pol zs trace hN hlen
  constructor
  · intro hp
    obtain ⟨hX, v, hv, h1, h2⟩ := lru_arc_miss_victim (run (init_sim N pol zs) trace) X
      (run (init_sim N pol zs) trace).arc_state.p hinv hT (by omega) hp hfull
    rw [with_p_self] at hX hv
    refine ⟨v, hv, find_in_arc_ghost_not_mem _ _ hX, fun hc => (h1 hc).2,
      fun hc => (h2 hc).2, fun p' => ?_⟩
    obtain ⟨_, v', hv', h1', h2'⟩ := lru_arc_miss_victim (run (init_sim N pol zs) trace) X
      p' hinv hT (by omega) hp hfull
    have hnn := count_list_type_nonneg (run (init_sim N pol zs) trace).buffer 1
    have hvv : v' = v := by
      by_cases hc : 0 < count_list_type (run (init_sim N pol zs) trace).buffer 1
      · have e1 := (h1 hc).1
        rw [(h1' hc).1] at e1
        exact Option.some.inj e1
      · have hz : count_list_type (run (init_sim N pol zs) trace).buffer 1 = 0 := by omega
        have e1 := (h2 hz).1
        rw [(h2' hz).1] at e1
        exact Option.some.inj e1
    rw [hv', hvv]
  · intro hp
    obtain ⟨hX, v, hv, h1, h2⟩ := lfu_arc_miss_victim (run (init_sim N pol zs) trace) X
      (run (init_sim N pol zs) trace).arc_state.q hinv hT (by omega) hp hfull
    rw [with_q_self] at hX hv
    refine ⟨v, hv, find_in_arc_ghost_not_mem _ _ hX, fun hc => (h1 hc).2,
      fun hc => (h2 hc).2, fun q' => ?_⟩
    obtain ⟨_, v', hv', h1', h2'⟩ := lfu_arc_miss_victim (run (init_sim N pol zs) trace) X
      q' hinv hT (by omega) hp hfull
    have hnn := count_list_type_nonneg (run (init_sim N pol zs) trace).buffer 3
    have hvv : v' = v := by
      by_cases hc : 0 < count_list_type (run (init_sim N pol zs) trace).buffer 3
      · have e1 := (h1 hc).1
        rw [(h1' hc).1] at e1
        exact Option.some.inj e1
      · have hz : count_list_type (run (init_sim N pol zs) trace).buffer 3 = 0 := by omega
        have e1 := (h2 hz).1
        rw [(h2' hz).1] at e1
        exact Option.some.inj e1
    rw [hv', hvv]

theorem arc_victim_ignores_target_witness :
    (1 ≤ 2 ∧ find_empty_slot lru_arc_ghost_hit.buffer = none ∧
      lru_arc_ghost_hit.current_policy = LRU_ARC ∧
      1 ∈ lru_arc_ghost_hit.arc_state.b2 ∧
      lru_arc_ghost_hit.arc_state.t1_size = lru_arc_ghost_hit.arc_state.p ∧
      0 < lru_arc_ghost_hit.arc_state.t2_size) ∧
    miss_victim lru_arc_ghost_hit 1 = some 0 ∧
    (frame_at lru_arc_ghost_hit.buffer 0).list_type = 1 ∧
    (frame_at lru_arc_ghost_hit.buffer 1).list_type = 2 ∧
    miss_victim (with_p lru_arc_ghost_hit 0) 1 = some 0 ∧
    ∃ v, miss_victim lru_arc_ghost_hit 1 = some v ∧ lru_frame_of lru_arc_ghost_hit.buffer 1 v := by
  have h := (arc_victim_ignores_target 2 LRU_ARC 0
    [Record.access 0 OP_READ, Record.access 0 OP_READ, Record.access 8 OP_READ,
      Record.access 16 OP_READ, Record.access 8 OP_READ, Record.access 16 OP_READ,
      Record.access 0 OP_READ, Record.access 24 OP_READ] 1 (by decide) (by decide)
    (by decide)).1 (by decide)
  obtain ⟨v, hv, _, h1, _, _⟩ := h
  exact ⟨⟨by decide, by decide, by decide, by decide, by decide, by decide⟩, by decide,
    by decide, by decide, by decide, v, hv, h1 (by decide)⟩

theorem dec_if_pos_of_pos (x : Int) (h : 0 < x) : dec_if_pos x = x - 1 := by
  unfold dec_if_pos
  rw [if_pos h]

theorem evicted_of_chosen (m : Sim) (X v : Nat) (m' : Sim) (h : chosen m X = (m', some v))
    (hv : v < m'.buffer.length) :
    (evicted m X v).arc_state
      = evict_arc m'.current_policy m'.arc_state m'.buffer.length (frame_at m'.buffer v) := by
  have h1 : (chosen m X).1 = m' := by rw [h]
  have := evicted_arc m X v (by rw [h1]; exact hv)
  rw [h1] at this
  exact this

/-- The eviction of a miss under pure LRU. -/
theorem evicted_lru (m : Sim) (X : Nat) (hp : m.current_policy = LRU)
    (hN : 1 ≤ m.buffer.length) (hfull : find_empty_slot m.buffer = none)
    (htags : tags_ok LRU m.buffer) (hsz : sizes_ok LRU m.buffer m.arc_state)
    (hlat : ∀ f ∈ m.buffer, f.page_id ≠ INVALID_PAGE → f.last_access_time < ULLONG_MAX) :
    ∃ v, chosen m X = (m, some v) ∧ lru_frame_of m.buffer 1 v ∧
      (((frame_at m.buffer v).ref_arc_list_type = 1 ∧
          (evicted m X v).arc_state
            = { m.arc_state with
                b1 := arc_add_to_ghost_mru (frame_at m.buffer v).page_id m.arc_state.b1
                  m.buffer.length
                t1_size := m.arc_state.t1_size - 1 }) ∨
        ((frame_at m.buffer v).ref_arc_list_type = 2 ∧
          (evicted m X v).arc_state
            = { m.arc_state with
                b2 := arc_add_to_ghost_mru (frame_at m.buffer v).page_id m.arc_state.b2
                  m.buffer.length
                t2_size := m.arc_state.t2_size - 1 })) := by
  have hfull2 := find_empty_slot_none m.buffer hfull
  have h0 := frame_at_mem m.buffer 0 (by omega)
  obtain ⟨v, hv⟩ := evict_arc_internal_lru_exists m.buffer 1 _ h0 (hfull2 _ h0)
    (htags _ h0 (hfull2 _ h0)).1 (hlat _ h0 (hfull2 _ h0))
  have hmin := evict_arc_internal_lru_min m.buffer 1 v hv
  have hsel : select_victim m X = (m, some v) := by
    unfold select_victim
    rw [if_neg (by rw [hp]; decide), if_pos hp, hv]
  have hch : chosen m X = (m, some v) := by
    rw [chosen_of_select m X v (by rw [hsel]), hsel]
  have hvlt := hmin.1.1
  have hres := hmin.1.2.1
  have harc := evicted_of_chosen m X v m hch hvlt
  have hmem := frame_at_mem m.buffer v hvlt
  have htag := (htags _ hmem hres).2
  unfold sizes_ok at hsz
  rw [if_neg (by decide)] at hsz
  refine ⟨v, hch, hmin, ?_⟩
  rw [harc, hp]
  unfold evict_arc
  rw [if_pos ⟨rfl, hres⟩]
  rcases htag with ht | ht
  · left
    have hpos : 0 < m.arc_state.t1_size := by
      rw [hsz.1]
      exact count_tag_pos_of_mem LRU m.buffer 1 _ hmem hres
        (by unfold frame_tag; rw [if_pos (Or.inl rfl)]; exact ht)
    rw [if_pos ht, dec_if_pos_of_pos _ hpos]
    exact ⟨ht, rfl⟩
  · right
    have hpos : 0 < m.arc_state.t2_size := by
      rw [hsz.2.1]
      exact count_tag_pos_of_mem LRU m.buffer 2 _ hmem hres
        (by unfold frame_tag; rw [if_pos (Or.inl rfl)]; exact ht)
    rw [if_neg (by rw [ht]; decide), if_pos ht, dec_if_pos_of_pos _ hpos]
    exact ⟨ht, rfl⟩

/-- The eviction of a miss under pure LFU. -/
theorem evicted_lfu (m : Sim) (X : Nat) (hp : m.current_policy = LFU)
    (hN : 1 ≤ m.buffer.length) (hfull : find_empty_slot m.buffer = none)
    (htags : tags_ok LFU m.buffer) (hsz : sizes_ok LFU m.buffer m.arc_state)
    (hcnt : ∀ f ∈ m.buffer, f.page_id ≠ INVALID_PAGE → f.access_count ≤ UINT_MAX)
    (hlt : ∀ f ∈ m.buffer, f.page_id ≠ INVALID_PAGE → f.load_time < ULLONG_MAX) :
    ∃ v, chosen m X = (m, some v) ∧ lfu_frame_of m.buffer 3 v ∧
      (((frame_at m.buffer v).ref_arc_list_type = 3 ∧
          (evicted m X v).arc_state
            = { m.arc_state with
                b3 := arc_add_to_ghost_mru (frame_at m.buffer v).page_id m.arc_state.b3
                  m.buffer.length
                t3_size := m.arc_state.t3_size - 1 }) ∨
        ((frame_at m.buffer v).ref_arc_list_type = 4 ∧
          (evicted m X v).arc_state
            = { m.arc_state with
                b4 := arc_add_to_ghost_mru (frame_at m.buffer v).page_id m.arc_state.b4
                  m.buffer.length
                t4_size := m.arc_state.t4_size - 1 })) := by
  have hfull2 := find_empty_slot_none m.buffer hfull
  have h0 := frame_at_mem m.buffer 0 (by omega)
  obtain ⟨v, hv⟩ := evict_arc_internal_lfu_exists m.buffer 3 _ h0 (hfull2 _ h0)
    (htags _ h0 (hfull2 _ h0)).1 (hcnt _ h0 (hfull2 _ h0)) (hlt _ h0 (hfull2 _ h0))
  have hmin := evict_arc_internal_lfu_min m.buffer 3 v hv
  have hsel : select_victim m X = (m, some v) := by
    unfold select_victim
    rw [if_neg (by rw [hp]; decide), if_neg (by rw [hp]; decide), if_pos hp, hv]
  have hch : chosen m X = (m, some v) := by
    rw [chosen_of_select m X v (by rw [hsel]), hsel]
  have hvlt := hmin.1.1
  have hres := hmin.1.2.1
  have harc := evicted_of_chosen m X v m hch hvlt
  have hmem := frame_at_mem m.buffer v hvlt
  have htag := (htags _ hmem hres).2
  unfold sizes_ok at hsz
  rw [if_neg (by decide)] at hsz
  refine ⟨v, hch, hmin, ?_⟩
  rw [harc, hp]
  unfold evict_arc
  rw [if_neg (by simp), if_pos ⟨rfl, hres⟩]
  rcases htag with ht | ht
  · left
    have hpos : 0 < m.arc_state.t3_size := by
      rw [hsz.2.2.1]
      exact count_tag_pos_of_mem LFU m.buffer 3 _ hmem hres
        (by unfold frame_tag; rw [if_pos (Or.inr rfl)]; exact ht)
    rw [if_pos ht, dec_if_pos_of_pos _ hpos]
    exact ⟨ht, rfl⟩
  · right
    have hpos : 0 < m.arc_state.t4_size := by
      rw [hsz.2.2.2]
      exact count_tag_pos_of_mem LFU m.buffer 4 _ hmem hres
        (by unfold frame_tag; rw [if_pos (Or.inr rfl)]; exact ht)
    rw [if_neg (by rw [ht]; decide), if_pos ht, dec_if_pos_of_pos _ hpos]
    exact ⟨ht, rfl⟩

theorem evict_arc_lru_arc (a : ARCState) (N : Nat) (f : BufferFrame) :
    evict_arc LRU_ARC a N f = a := by
  unfold evict_arc
  simp

theorem evict_arc_lfu_arc (a : ARCState) (N : Nat) (f : BufferFrame) :
    evict_arc LFU_ARC a N f = a := by
  unfold evict_arc
  simp

/-- The eviction of a miss under LRU_ARC. -/
theorem evicted_lru_arc (m : Sim) (X : Nat) (hp : m.current_policy = LRU_ARC)
    (hN : 1 ≤ m.buffer.length) (hfull : find_empty_slot m.buffer = none)
    (htags : tags_ok LRU_ARC m.buffer) (hsz : sizes_ok LRU_ARC m.buffer m.arc_state)
    (hlat : ∀ f ∈ m.buffer, f.page_id ≠ INVALID_PAGE → f.last_access_time < ULLONG_MAX) :
    ∃ v, (chosen m X).2 = some v ∧ (chosen m X).1.buffer = m.buffer ∧
      ((lru_frame_of m.buffer 1 v ∧
          (evicted m X v).arc_state
            = { m.arc_state with
                b1 := arc_add_to_ghost_mru (frame_at m.buffer v).page_id m.arc_state.b1
                  m.buffer.length
                t1_size := m.arc_state.t1_size - 1 }) ∨
        (lru_frame_of m.buffer 2 v ∧
          (evicted m X v).arc_state
            = { m.arc_state with
                b2 := arc_add_to_ghost_mru (frame_at m.buffer v).page_id m.arc_state.b2
                  m.buffer.length
                t2_size := m.arc_state.t2_size - 1 })) := by
  have hfull2 := find_empty_slot_none m.buffer hfull
  obtain ⟨c1, c2, c3⟩ := full_counts_lru_arc m.buffer m.arc_state htags hsz hfull2
  have hn1 : 0 ≤ m.arc_state.t1_size := by rw [c2]; exact count_list_type_nonneg _ _
  have hn2 : 0 ≤ m.arc_state.t2_size := by rw [c3]; exact count_list_type_nonneg _ _
  have hsel := select_victim_lru_arc m X hp
  rcases lru_arc_target_spec m.arc_state m.buffer.length
    (find_in_arc_ghost X m.arc_state.b2) with ⟨_, hno⟩ | ⟨ht, hpos⟩ | ⟨ht, hpos⟩
  · exact absurd ⟨c1, by omega⟩ hno
  · obtain ⟨v, r1, _, r3, r4⟩ := lru_arc_from_t1 m.buffer m.arc_state X ht c2 hpos hlat
    have hsv : (select_victim m X).2 = some v := by rw [hsel]; exact r1
    have hch := chosen_of_select m X v hsv
    rw [hsel] at hch
    refine ⟨v, by rw [hch], by rw [hch], Or.inl ⟨r3, ?_⟩⟩
    rw [evicted_of_chosen m X v _ hch r3.1.1]
    show evict_arc m.current_policy (arc_find_victim_lru_arc m.buffer m.arc_state X).2 _ _ = _
    rw [hp, evict_arc_lru_arc, r4]
  · obtain ⟨v, r1, _, r3, r4⟩ := lru_arc_from_t2 m.buffer m.arc_state X ht c3 hpos hlat
    have hsv : (select_victim m X).2 = some v := by rw [hsel]; exact r1
    have hch := chosen_of_select m X v hsv
    rw [hsel] at hch
    refine ⟨v, by rw [hch], by rw [hch], Or.inr ⟨r3, ?_⟩⟩
    rw [evicted_of_chosen m X v _ hch r3.1.1]
    show evict_arc m.current_policy (arc_find_victim_lru_arc m.buffer m.arc_state X).2 _ _ = _
    rw [hp, evict_arc_lru_arc, r4]

/-- The eviction of a miss under LFU_ARC. -/
theorem evicted_lfu_arc (m : Sim) (X : Nat) (hp : m.current_policy = LFU_ARC)
    (hN : 1 ≤ m.buffer.length) (hfull : find_empty_slot m.buffer = none)
    (htags : tags_ok LFU_ARC m.buffer) (hsz : sizes_ok LFU_ARC m.buffer m.arc_state)
    (hcnt : ∀ f ∈ m.buffer, f.page_id ≠ INVALID_PAGE → f.access_count ≤ UINT_MAX)
    (hlt : ∀ f ∈ m.buffer, f.page_id ≠ INVALID_PAGE → f.load_time < ULLONG_MAX)
    (hlat : ∀ f ∈ m.buffer, f.page_id ≠ INVALID_PAGE → f.last_access_time < ULLONG_MAX) :
    ∃ v, (chosen m X).2 = some v ∧ (chosen m X).1.buffer = m.buffer ∧
      ((lfu_frame_of m.buffer 3 v ∧
          (evicted m X v).arc_state
            = { m.arc_state with
                b3 := arc_add_to_ghost_mru (frame_at m.buffer v).page_id m.arc_state.b3
                  m.buffer.length
                t3_size := m.arc_state.t3_size - 1 }) ∨
        (lru_frame_of m.buffer 4 v ∧
          (evicted m X v).arc_state
            = { m.arc_state with
                b4 := arc_add_to_ghost_mru (frame_at m.buffer v).page_id m.arc_state.b4
                  m.buffer.length
                t4_size := m.arc_state.t4_size - 1 })) := by
  have hfull2 := find_empty_slot_none m.buffer hfull
  obtain ⟨c1, c2, c3⟩ := full_counts_lfu_arc m.buffer m.arc_state htags hsz hfull2
  have hn1 : 0 ≤ m.arc_state.t3_size := by rw [c2]; exact count_list_type_nonneg _ _
  have hn2 : 0 ≤ m.arc_state.t4_size := by rw [c3]; exact count_list_type_nonneg _ _
  have hsel := select_victim_lfu_arc m X hp
  rcases lfu_arc_target_spec m.arc_state m.buffer.length
    (find_in_arc_ghost X m.arc_state.b4) with ⟨_, hno⟩ | ⟨ht, hpos⟩ | ⟨ht, hpos⟩
  · exact absurd ⟨c1, by omega⟩ hno
  · obtain ⟨v, r1, _, r3, r4⟩ := lfu_arc_from_t3 m.buffer m.arc_state X ht c2 hpos hcnt hlt
    have hsv : (select_victim m X).2 = some v := by rw [hsel]; exact r1
    have hch := chosen_of_select m X v hsv
    rw [hsel] at hch
    refine ⟨v, by rw [hch], by rw [hch], Or.inl ⟨r3, ?_⟩⟩
    rw [evicted_of_chosen m X v _ hch r3.1.1]
    show evict_arc m.current_policy (arc_find_victim_lfu_arc m.buffer m.arc_state X).2 _ _ = _
    rw [hp, evict_arc_lfu_arc, r4]
  · obtain ⟨v, r1, _, r3, r4⟩ := lfu_arc_from_t4 m.buffer m.arc_state X ht c3 hpos hlat
    have hsv : (select_victim m X).2 = some v := by rw [hsel]; exact r1
    have hch := chosen_of_select m X v hsv
    rw [hsel] at hch
    refine ⟨v, by rw [hch], by rw [hch], Or.inr ⟨r3, ?_⟩⟩
    rw [evicted_of_chosen m X v _ hch r3.1.1]
    show evict_arc m.current_policy (arc_find_victim_lfu_arc m.buffer m.arc_state X).2 _ _ = _
    rw [hp, evict_arc_lfu_arc, r4]

/-- Under FIFO and plain CLOCK neither step A, nor the eviction, nor the load touches a
ghost list. -/
theorem plain_lists_kept (pol : ReplacementPolicy)
    (hp : pol = FIFO ∨ pol = CLOCK_T1 ∨ pol = CLOCK_T3) (a : ARCState) (N X al rl : Nat)
    (f : BufferFrame) :
    (step_a pol N a X).arc = a ∧ evict_arc pol a N f = a ∧
    (load_arc pol a N X al rl).b1 = a.b1 ∧ (load_arc pol a N X al rl).b2 = a.b2 ∧
    (load_arc pol a N X al rl).b3 = a.b3 ∧ (load_arc pol a N X al rl).b4 = a.b4 := by
  rcases hp with hp | hp | hp <;> subst hp
  · refine ⟨by simp [step_a], by simp [evict_arc], rfl, rfl, rfl, rfl⟩
  · refine ⟨by simp [step_a], by simp [evict_arc], ?_, ?_, ?_, ?_⟩ <;>
      (simp only [load_arc]; split_ifs <;> rfl)
  · refine ⟨by simp [step_a], by simp [evict_arc], ?_, ?_, ?_, ?_⟩ <;>
      (simp only [load_arc]; split_ifs <;> rfl)

theorem miss_entry_inv_at (s : Sim) (X : Nat) (h : s.inv)
    (hno : ∀ f ∈ s.buffer, f.page_id ≠ X) : (miss_entry s X).inv_at s.current_time := by
  obtain ⟨h1, h2, h3, h4, h5, h6, h7⟩ := h
  have hat : Sim.inv_at { s with current_time := (s.current_time + 1) % U64 }
      s.current_time := ⟨⟨h1, h2, h3, h4, h5, h6⟩, h7⟩
  exact (miss_begin_inv _ X s.current_time hat hno).1

theorem times_lt_of_le (buf : List BufferFrame) (T : Nat) (h : times_le buf T)
    (hT : T < ULLONG_MAX) :
    (∀ f ∈ buf, f.page_id ≠ INVALID_PAGE → f.last_access_time < ULLONG_MAX) ∧
    (∀ f ∈ buf, f.page_id ≠ INVALID_PAGE → f.load_time < ULLONG_MAX) := by
  refine ⟨fun f hf hr => ?_, fun f hf hr => ?_⟩
  · have := (h f hf hr).2
    omega
  · have := (h f hf hr).1
    omega

/-- What a miss with a victim is made of: the buffer is full after step A, the victim is
the one victim selection chose, the state before the load is the evicted state, and the
state after the access is that state with the page loaded into the victim's frame. -/
theorem miss_with_victim (s : Sim) (lba X v : Nat) (op : Op) (hX : X ≠ INVALID_PAGE)
    (hmiss : find_in_buffer s.buffer X = none) (hv : miss_victim s X = some v) :
    find_empty_slot s.buffer = none ∧ (chosen (miss_entry s X) X).2 = some v ∧
    before_load (miss_entry s X) X = evicted (miss_entry s X) X v ∧
    access_page s lba X op
      = load_page (evicted (miss_entry s X) X v) v X op
          (step_a s.current_policy s.buffer.length s.arc_state X).actual_load_list_type
          (step_a s.current_policy s.buffer.length s.arc_state X).ref_load_list_type := by
  have hb : (miss_entry s X).buffer = s.buffer := rfl
  unfold miss_victim at hv
  rw [hb] at hv
  rcases Option.eq_none_or_eq_some (find_empty_slot s.buffer) with hn | ⟨k, hk⟩
  · rw [hn] at hv
    simp only [] at hv
    have hbl : before_load (miss_entry s X) X = evicted (miss_entry s X) X v := by
      unfold before_load
      rw [hb, hn]
      simp only []
      rw [hv]
    have hls : load_slot (miss_entry s X) X = some v := by
      unfold load_slot
      rw [hb, hn]
      exact hv
    refine ⟨hn, hv, hbl, ?_⟩
    rw [access_page_miss s lba X op hX hmiss, hls, hbl]
  · rw [hk] at hv
    simp at hv

/-- C32: ghost bookkeeping of an eviction.  Let `s` be a state reached from an initial state
with N ≥ 1 frames by any records with fewer than ULLONG_MAX accesses, let a miss on a valid
page X evict frame `v`, `f` being the victim frame; let `m` be the state once step A is
done, `e` the state right before the load and `s'` the state after the access.  Under LRU
the shadow tag of the victim is 1 or 2: if it is 1 the evicted page is the last (MRU)
element of B1, B2 is as step A left it and t1_size is one less than before; if it is 2 the
same holds with B2 and t2_size.  Under LRU_ARC the same holds by the victim's list_type.
Under LFU and LFU_ARC the same holds with 3 and 4, B3 and B4, t3_size and t4_size.  Under
FIFO, CLOCK_T1 and CLOCK_T3 the four ghost lists are those of `s`.  Under each of these
seven policies the load that follows leaves the ghost lists alone, so the lists of `s'` are
those of `e`. -/
theorem eviction_ghost_bookkeeping (N : Nat) (pol : ReplacementPolicy) (zs : Nat)
    (trace : List Record) (s m e s' : Sim) (lba X v : Nat) (op : Op) (f : BufferFrame)
    (hN : 1 ≤ N) (hlen : access_count_of trace < ULLONG_MAX)
    (hs : s = run (init_sim N pol zs) trace) (hX : X ≠ INVALID_PAGE)
    (hmiss : find_in_buffer s.buffer X = none) (hv : miss_victim s X = some v)
    (hf : f = victim_frame s X v) (hm : m = miss_entry s X) (he : e = before_load m X)
    (hs' : s' = access_page s lba X op) :
    (f.page_id ≠ INVALID_PAGE ∧ f.page_id = (frame_at s.buffer v).page_id) ∧
    (s.current_policy = LRU →
      (f.ref_arc_list_type = 1 ∧ e.arc_state.b1.getLast? = some f.page_id ∧
        e.arc_state.b2 = m.arc_state.b2 ∧
        e.arc_state.t1_size = s.arc_state.t1_size - 1 ∧
        e.arc_state.t2_size = s.arc_state.t2_size) ∨
      (f.ref_arc_list_type = 2 ∧ e.arc_state.b2.getLast? = some f.page_id ∧
        e.arc_state.b1 = m.arc_state.b1 ∧
        e.arc_state.t2_size = s.arc_state.t2_size - 1 ∧
        e.arc_state.t1_size = s.arc_state.t1_size)) ∧
    (s.current_policy = LRU_ARC →
      (f.list_type = 1 ∧ e.arc_state.b1.getLast? = some f.page_id ∧
        e.arc_state.b2 = m.arc_state.b2 ∧
        e.arc_state.t1_size = s.arc_state.t1_size - 1 ∧
        e.arc_state.t2_size = s.arc_state.t2_size) ∨
      (f.list_type = 2 ∧ e.arc_state.b2.getLast? = some f.page_id ∧
        e.arc_state.b1 = m.arc_state.b1 ∧
        e.arc_state.t2_size = s.arc_state.t2_size - 1 ∧
        e.arc_state.t1_size = s.arc_state.t1_size)) ∧
    (s.current_policy = LFU →
      (f.ref_arc_list_type = 3 ∧ e.arc_state.b3.getLast? = some f.page_id ∧
        e.arc_state.b4 = m.arc_state.b4 ∧
        e.arc_state.t3_size = s.arc_state.t3_size - 1 ∧
        e.arc_state.t4_size = s.arc_state.t4_size) ∨
      (f.ref_arc_list_type = 4 ∧ e.arc_state.b4.getLast? = some f.page_id ∧
        e.arc_state.b3 = m.arc_state.b3 ∧
        e.arc_state.t4_size = s.arc_state.t4_size - 1 ∧
        e.arc_state.t3_size = s.arc_state.t3_size)) ∧
    (s.current_policy = LFU_ARC →
      (f.list_type = 3 ∧ e.arc_state.b3.getLast? = some f.page_id ∧
        e.arc_state.b4 = m.arc_state.b4 ∧
        e.arc_state.t3_size = s.arc_state.t3_size - 1 ∧
        e.arc_state.t4_size = s.arc_state.t4_size) ∨
      (f.list_type = 4 ∧ e.arc_state.b4.getLast? = some f.page_id ∧
        e.arc_state.b3 = m.arc_state.b3 ∧
        e.arc_state.t4_size = s.arc_state.t4_size - 1 ∧
        e.arc_state.t3_size = s.arc_state.t3_size)) ∧
    (s.current_policy = FIFO ∨ s.current_policy = CLOCK_T1 ∨ s.current_policy = CLOCK_T3 →
      e.arc_state.b1 = s.arc_state.b1 ∧ e.arc_state.b2 = s.arc_state.b2 ∧
      e.arc_state.b3 = s.arc_state.b3 ∧ e.arc_state.b4 = s.arc_state.b4) ∧
    (s.current_policy ≠ CLOCK_PRO_T1_B4_LOGS_B2 →
      s.current_policy ≠ CLOCK_PRO_T3_B2_LOGS_B4 →
      s'.arc_state.b1 = e.arc_state.b1 ∧ s'.arc_state.b2 = e.arc_state.b2 ∧
      s'.arc_state.b3 = e.arc_state.b3 ∧ s'.arc_state.b4 = e.arc_state.b4) := by
  obtain ⟨hinv, _, hT, hlenN⟩ := reach_facts N pol zs trace hN hlen
  rw [← hs] at hinv hT hlenN
  obtain ⟨hfull, hch, hbl, hacc⟩ := miss_with_victim s lba X v op hX hmiss hv
  have hno := find_in_buffer_none _ _ hmiss
  obtain ⟨⟨mt, _, mc, mtime, msz, _⟩, mok⟩ := miss_entry_inv_at s X hinv hno
  obtain ⟨mlat, mlt⟩ := times_lt_of_le _ _ mtime hT
  have hb : (miss_entry s X).buffer = s.buffer := rfl
  have hpol : (miss_entry s X).current_policy = s.current_policy := rfl
  have harc : (miss_entry s X).arc_state
      = (step_a s.current_policy s.buffer.length s.arc_state X).arc := rfl
  have hsz := step_a_sizes s.current_policy s.buffer.length s.arc_state X
  rw [← harc] at hsz
  have hNm : 1 ≤ (miss_entry s X).buffer.length := by rw [hb]; omega
  have hfm : find_empty_slot (miss_entry s X).buffer = none := by rw [hb]; exact hfull
  have hvr := victim_resident (miss_entry s X) X v hfm hch
  have hpage := page_mod_ref _ _ (chosen_spec (miss_entry s X) X).1 v
  rw [hb] at hpage
  have hfe : f = frame_at (chosen (miss_entry s X) X).1.buffer v := hf
  have hee : e = evicted (miss_entry s X) X v := by rw [he, hm, hbl]
  unfold Sim.ok arc_ok ghost_list_ok at mok
  obtain ⟨⟨_, l1⟩, ⟨_, l2⟩, ⟨_, l3⟩, ⟨_, l4⟩, _⟩ := mok
  refine ⟨⟨by rw [hfe]; exact hvr.2, by rw [hfe]; exact hpage⟩, ?_, ?_, ?_, ?_, ?_, ?_⟩
  · intro hp
    rw [hpol, hp] at mt msz
    obtain ⟨w, hcw, _, hcase⟩ := evicted_lru (miss_entry s X) X (hpol.trans hp) hNm hfm mt
      msz mlat
    have hwv : w = v := by
      rw [hcw] at hch
      exact Option.some.inj hch
    subst hwv
    have hfm2 : f = frame_at (miss_entry s X).buffer w := by rw [hfe, hcw]
    have hres : (frame_at (miss_entry s X).buffer w).page_id ≠ INVALID_PAGE := by
      rw [← hfm2, hfe]; exact hvr.2
    rw [hee, hm, hfm2]
    rcases hcase with ⟨ht, ha⟩ | ⟨ht, ha⟩
    · left
      rw [ha]
      exact ⟨ht, add_mru_last _ _ _ hres (by omega) l1, rfl,
        by show (miss_entry s X).arc_state.t1_size - 1 = _; rw [hsz.1],
        by show (miss_entry s X).arc_state.t2_size = _; rw [hsz.2.1]⟩
    · right
      rw [ha]
      exact ⟨ht, add_mru_last _ _ _ hres (by omega) l2, rfl,
        by show (miss_entry s X).arc_state.t2_size - 1 = _; rw [hsz.2.1],
        by show (miss_entry s X).arc_state.t1_size = _; rw [hsz.1]⟩
  · intro hp
    rw [hpol, hp] at mt msz
    obtain ⟨w, hcw, hbw, hcase⟩ := evicted_lru_arc (miss_entry s X) X (hpol.trans hp) hNm hfm
      mt msz mlat
    have hwv : w = v := by
      rw [hcw] at hch
      exact Option.some.inj hch
    subst hwv
    have hfm2 : f = frame_at (miss_entry s X).buffer w := by rw [hfe, hbw]
    have hres : (frame_at (miss_entry s X).buffer w).page_id ≠ INVALID_PAGE := by
      rw [← hfm2, hfe]; exact hvr.2
    rw [hee, hm, hfm2]
    rcases hcase with ⟨ht, ha⟩ | ⟨ht, ha⟩
    · left
      rw [ha]
      exact ⟨ht.1.2.2, add_mru_last _ _ _ hres (by omega) l1, rfl,
        by show (miss_entry s X).arc_state.t1_size - 1 = _; rw [hsz.1],
        by show (miss_entry s X).arc_state.t2_size = _; rw [hsz.2.1]⟩
    · right
      rw [ha]
      exact ⟨ht.1.2.2, add_mru_last _ _ _ hres (by omega) l2, rfl,
        by show (miss_entry s X).arc_state.t2_size - 1 = _; rw [hsz.2.1],
        by show (miss_entry s X).arc_state.t1_size = _; rw [hsz.1]⟩
  · intro hp
    rw [hpol, hp] at mt msz
    obtain ⟨w, hcw, _, hcase⟩ := evicted_lfu (miss_entry s X) X (hpol.trans hp) hNm hfm mt
      msz mc mlt
    have hwv : w = v := by
      rw [hcw] at hch
      exact Option.some.inj hch
    subst hwv
    have hfm2 : f = frame_at (miss_entry s X).buffer w := by rw [hfe, hcw]
    have hres : (frame_at (miss_entry s X).buffer w).page_id ≠ INVALID_PAGE := by
      rw [← hfm2, hfe]; exact hvr.2
    rw [hee, hm, hfm2]
    rcases hcase with ⟨ht, ha⟩ | ⟨ht, ha⟩
    · left
      rw [ha]
      exact ⟨ht, add_mru_last _ _ _ hres (by omega) l3, rfl,
        by show (miss_entry s X).arc_state.t3_size - 1 = _; rw [hsz.2.2.1],
        by show (miss_entry s X).arc_state.t4_size = _; rw [hsz.2.2.2]⟩
    · right
      rw [ha]
      exact ⟨ht, add_mru_last _ _ _ hres (by omega) l4, rfl,
        by show (miss_entry s X).arc_state.t4_size - 1 = _; rw [hsz.2.2.2],
        by show (miss_entry s X).arc_state.t3_size = _; rw [hsz.2.2.1]⟩
  · intro hp
    rw [hpol, hp] at mt msz
    obtain ⟨w, hcw, hbw, hcase⟩ := evicted_lfu_arc (miss_entry s X) X (hpol.trans hp) hNm hfm
      mt msz mc mlt mlat
    have hwv : w = v := by
      rw [hcw] at hch
      exact Option.some.inj hch
    subst hwv
    have hfm2 : f = frame_at (miss_entry s X).buffer w := by rw [hfe, hbw]
    have hres : (frame_at (miss_entry s X).buffer w).page_id ≠ INVALID_PAGE := by
      rw [← hfm2, hfe]; exact hvr.2
    rw [hee, hm, hfm2]
    rcases hcase with ⟨ht, ha⟩ | ⟨ht, ha⟩
    · left
      rw [ha]
      exact ⟨ht.1.2.2, add_mru_last _ _ _ hres (by omega) l3, rfl,
        by show (miss_entry s X).arc_state.t3_size - 1 = _; rw [hsz.2.2.1],
        by show (miss_entry s X).arc_state.t4_size = _; rw [hsz.2.2.2]⟩
    · right
      rw [ha]
      exact ⟨ht.1.2.2, add_mru_last _ _ _ hres (by omega) l4, rfl,
        by show (miss_entry s X).arc_state.t4_size - 1 = _; rw [hsz.2.2.2],
        by show (miss_entry s X).arc_state.t3_size = _; rw [hsz.2.2.1]⟩
  · intro hp
    have hg := (chosen_spec (miss_entry s X) X).2.2.2.2
      (by rw [hpol]; rcases hp with h | h | h <;> rw [h] <;> decide)
      (by rw [hpol]; rcases hp with h | h | h <;> rw [h] <;> decide)
    have hea := evicted_arc (miss_entry s X) X v hvr.1
    have hpc : (chosen (miss_entry s X) X).1.current_policy = s.current_policy := by
      have := congrArg (fun p => p.1) (chosen_fixed (miss_entry s X) X)
      exact this
    rw [hpc, (plain_lists_kept s.current_policy hp _ _ 0 0 0 _).2.1] at hea
    have hstep := (plain_lists_kept s.current_policy hp s.arc_state s.buffer.length X 0 0
      empty_frame).1
    rw [← harc] at hstep
    unfold arc_ghosts at hg
    simp only [Prod.mk.injEq] at hg
    rw [hee, hea, hg.1, hg.2.1, hg.2.2.1, hg.2.2.2.1, hstep]
    exact ⟨rfl, rfl, rfl, rfl⟩
  · intro hp1 hp2
    rw [hs', hacc, load_page_eq, hee]
    have hpe : (evicted (miss_entry s X) X v).current_policy = s.current_policy := by
      have := congrArg (fun p => p.1) (evicted_fixed (miss_entry s X) X v)
      exact this
    show (load_arc (evicted (miss_entry s X) X v).current_policy _ _ _ _ _).b1 = _ ∧
      (load_arc (evicted (miss_entry s X) X v).current_policy _ _ _ _ _).b2 = _ ∧
      (load_arc (evicted (miss_entry s X) X v).current_policy _ _ _ _ _).b3 = _ ∧
      (load_arc (evicted (miss_entry s X) X v).current_policy _ _ _ _ _).b4 = _
    rw [hpe]
    generalize (evicted (miss_entry s X) X v).arc_state = a
    generalize (evicted (miss_entry s X) X v).buffer.length = n
    generalize (step_a s.current_policy s.buffer.length s.arc_state X).actual_load_list_type
      = al
    generalize (step_a s.current_policy s.buffer.length s.arc_state X).ref_load_list_type = rl
    revert hp1 hp2
    generalize s.current_policy = q
    intro hp1 hp2
    cases q <;> first
      | exact absurd rfl hp1
      | exact absurd rfl hp2
      | (simp only [load_arc]; split_ifs <;> exact ⟨rfl, rfl, rfl, rfl⟩)
      | exact ⟨rfl, rfl, rfl, rfl⟩

theorem eviction_ghost_bookkeeping_witness :
    (1 ≤ 2 ∧ 2 ≠ INVALID_PAGE ∧ find_in_buffer lru_mixed.buffer 2 = none ∧
      miss_victim lru_mixed 2 = some 0 ∧ lru_mixed.current_policy = LRU ∧
      (victim_frame lru_mixed 2 0).page_id = 0 ∧
      (victim_frame lru_mixed 2 0).ref_arc_list_type = 2) ∧
    (before_load (miss_entry lru_mixed 2) 2).arc_state.b2.getLast?
      = some (victim_frame lru_mixed 2 0).page_id ∧
    (before_load (miss_entry lru_mixed 2) 2).arc_state.t2_size
      = lru_mixed.arc_state.t2_size - 1 ∧
    (access_page lru_mixed 16 2 OP_READ).arc_state.b2 = [0] ∧
    (access_page lru_mixed 16 2 OP_READ).arc_state.b1 = [] := by
  have h := (eviction_ghost_bookkeeping 2 LRU 0
    [Record.access 0 OP_READ, Record.access 0 OP_READ, Record.access 8 OP_READ]
    lru_mixed (miss_entry lru_mixed 2) (before_load (miss_entry lru_mixed 2) 2)
    (access_page lru_mixed 16 2 OP_READ) 16 2 0 OP_READ (victim_frame lru_mixed 2 0)
    (by decide) (by decide) rfl (by decide) (by decide) (by decide) rfl rfl rfl rfl).2.1
    (by decide)
  have hne : ¬ (victim_frame lru_mixed 2 0).ref_arc_list_type = 1 := by decide
  rcases h with h | h
  · exact absurd h.1 hne
  · exact ⟨⟨by decide, by decide, by decide, by decide, by decide, by decide, by decide⟩,
      h.2.1, h.2.2.2.1, by decide, by decide⟩

theorem frame_at_map_eq {β : Type} (g : BufferFrame → β) (b b' : List BufferFrame)
    (h : b'.map g = b.map g) (v : Nat) : g (frame_at b' v) = g (frame_at b v) := by
  induction b generalizing b' v with
  | nil =>
    cases b' with
    | nil => rfl
    | cons f rest => simp at h
  | cons x rest ih =>
    cases b' with
    | nil => simp at h
    | cons f rest' =>
      simp only [List.map_cons, List.cons.injEq] at h
      cases v with
      | zero => exact h.1
      | succ v =>
        have := ih rest' h.2 v
        simpa [frame_at] using this

theorem sub_loads_of_map {β : Type} (g : BufferFrame → β) (b e : List BufferFrame)
    (h : e.map g = b.map g)
    (hg : ∀ x y : BufferFrame, g x = g y → x.page_id = y.page_id ∧ x.load_time = y.load_time) :
    sub_loads b e := by
  refine ⟨?_, fun j _ => hg _ _ (frame_at_map_eq g b e h j)⟩
  have := congrArg List.length h
  simpa using this

theorem sub_loads_core (b e : List BufferFrame) (h : e.map frame_core = b.map frame_core) :
    sub_loads b e :=
  sub_loads_of_map frame_core b e h (fun _ _ hxy =>
    ⟨congrArg (fun c => c.1) hxy, congrArg (fun c => c.2.1) hxy⟩)

theorem sub_loads_mod_ref (b e : List BufferFrame) (h : e.map erase_ref = b.map erase_ref) :
    sub_loads b e :=
  sub_loads_of_map erase_ref b e h (fun _ _ hxy =>
    ⟨congrArg (fun c => c.page_id) hxy, congrArg (fun c => c.load_time) hxy⟩)

theorem sub_loads_refl (b : List BufferFrame) : sub_loads b b :=
  ⟨rfl, fun _ _ => ⟨rfl, rfl⟩⟩

theorem sub_loads_resident (b e : List BufferFrame) (h : sub_loads b e) (j : Nat)
    (hj : resident_at e j) : resident_at b j :=
  ⟨by rw [← h.1]; exact hj.1, by rw [← (h.2 j hj).1]; exact hj.2⟩

theorem distinct_sub (b e : List BufferFrame) (h : sub_loads b e)
    (hd : load_times_distinct b) : load_times_distinct e := by
  intro i j hi hj hij
  apply hd i j (sub_loads_resident b e h i hi) (sub_loads_resident b e h j hj)
  rw [← (h.2 i hi).2, ← (h.2 j hj).2]
  exact hij

/-- Emptying a frame keeps the remaining resident frames. -/
theorem sub_loads_set_invalid (b e : List BufferFrame) (v : Nat) (g : BufferFrame)
    (h : sub_loads b e) (hg : g.page_id = INVALID_PAGE) : sub_loads b (e.set v g) := by
  refine ⟨by rw [List.length_set]; exact h.1, ?_⟩
  intro j hj
  have hjlt : j < e.length := by
    have := hj.1
    rw [List.length_set] at this
    exact this
  by_cases hjv : j = v
  · subst hjv
    have := hj.2
    rw [frame_at_set_eq _ _ _ hjlt] at this
    exact absurd hg this
  · have hres := hj.2
    rw [frame_at_set_ne _ _ _ _ hjv] at hres ⊢
    exact h.2 j ⟨hjlt, hres⟩

/-- Loading a page with a time stamp above all others keeps the load times distinct. -/
theorem distinct_set_new (e : List BufferFrame) (k T : Nat) (g : BufferFrame)
    (hd : load_times_distinct e)
    (ht : ∀ j, resident_at e j → j ≠ k → (frame_at e j).load_time ≤ T)
    (hg : T < g.load_time) : load_times_distinct (e.set k g) := by
  have key : ∀ i j, resident_at (e.set k g) i → resident_at (e.set k g) j → i = k → j ≠ k →
      (frame_at (e.set k g) i).load_time ≠ (frame_at (e.set k g) j).load_time := by
    intro i j hi hj hik hjk heq
    have hilt : i < e.length := by
      have := hi.1
      rw [List.length_set] at this
      exact this
    have hjlt : j < e.length := by
      have := hj.1
      rw [List.length_set] at this
      exact this
    subst hik
    have hjr := hj.2
    rw [frame_at_set_eq _ _ _ hilt, frame_at_set_ne _ _ _ _ hjk] at heq
    rw [frame_at_set_ne _ _ _ _ hjk] at hjr
    have := ht j ⟨hjlt, hjr⟩ hjk
    omega
  intro i j hi hj hij
  by_cases hik : i = k
  · by_cases hjk : j = k
    · rw [hik, hjk]
    · exact absurd hij (key i j hi hj hik hjk)
  · by_cases hjk : j = k
    · exact absurd hij.symm (key j i hj hi hjk hik)
    · have hilt : i < e.length := by
        have := hi.1
        rw [List.length_set] at this
        exact this
      have hjlt : j < e.length := by
        have := hj.1
        rw [List.length_set] at this
        exact this
      have hir := hi.2
      have hjr := hj.2
      rw [frame_at_set_ne _ _ _ _ hik] at hij hir
      rw [frame_at_set_ne _ _ _ _ hjk] at hij hjr
      exact hd i j ⟨hilt, hir⟩ ⟨hjlt, hjr⟩ hij

/-- The frames right before the load of a miss: resident frames of the state before. -/
theorem before_load_sub (m : Sim) (X : Nat) : sub_loads m.buffer (before_load m X).buffer := by
  unfold before_load
  rcases Option.eq_none_or_eq_some (find_empty_slot m.buffer) with hn | ⟨k, hk⟩
  · rw [hn]
    simp only []
    rcases Option.eq_none_or_eq_some (chosen m X).2 with hc | ⟨v, hc⟩
    · rw [hc]
      exact sub_loads_mod_ref _ _ (chosen_spec m X).1
    · rw [hc]
      simp only []
      obtain ⟨_, b, g, hb, hg, he⟩ := evicted_buffer m X v hc
      rw [he]
      exact sub_loads_set_invalid _ _ _ _ (sub_loads_mod_ref _ _ hb) hg
  · rw [hk]
    exact sub_loads_refl _

theorem times_of_sub (b e : List BufferFrame) (T : Nat) (h : sub_loads b e)
    (ht : times_le b T) : ∀ j, resident_at e j → (frame_at e j).load_time ≤ T := by
  intro j hj
  have hr := sub_loads_resident b e h j hj
  rw [(h.2 j hj).2]
  exact (ht _ (frame_at_mem b j hr.1) hr.2).1

/-- A hit changes neither the page nor the load time of a frame. -/
theorem hit_sub_loads (s : Sim) (lba X : Nat) (op : Op) (i : Nat) (hX : X ≠ INVALID_PAGE)
    (hi : find_in_buffer s.buffer X = some i) :
    sub_loads s.buffer (access_page s lba X op).buffer := by
  refine ⟨access_page_length s lba X op, fun j _ => ⟨?_, hit_keeps_load_time s lba X op i hX hi j⟩⟩
  obtain ⟨hlt, _⟩ := find_in_buffer_some _ _ _ hi
  have he : access_page s lba X op
      = access_hit { s with current_time := (s.current_time + 1) % U64 } i op := by
    unfold access_page
    simp only [hX, if_false, hi]
  rw [he, access_hit_eq]
  simp only []
  by_cases hj : j = i
  · subst hj
    rw [frame_at_set_eq _ _ _ hlt]
    exact (hit_frame_base _ _ _ _).1
  · rw [frame_at_set_ne _ _ _ _ hj]

/-- One access keeps the load times distinct while the clock has not reached its last
value. -/
theorem access_page_distinct (s : Sim) (lba X : Nat) (op : Op) (h : s.inv)
    (hd : load_times_distinct s.buffer) (hT : s.current_time < ULLONG_MAX) :
    load_times_distinct (access_page s lba X op).buffer := by
  by_cases hX : X = INVALID_PAGE
  · unfold access_page
    simp only [hX, if_true]
    exact hd
  · rcases Option.eq_none_or_eq_some (find_in_buffer s.buffer X) with hmiss | ⟨i, hi⟩
    · have hsub := before_load_sub (miss_entry s X) X
      have hb : (miss_entry s X).buffer = s.buffer := rfl
      rw [hb] at hsub
      have hde := distinct_sub _ _ hsub hd
      have hte := times_of_sub _ _ s.current_time hsub h.2.2.2.1
      rw [access_page_miss s lba X op hX hmiss]
      rcases Option.eq_none_or_eq_some (load_slot (miss_entry s X) X) with hl | ⟨k, hl⟩
      · rw [hl]
        exact hde
      · rw [hl]
        simp only []
        rw [load_page_eq]
        apply distinct_set_new _ k s.current_time _ hde (fun j hj _ => hte j hj)
        rw [(load_frame_fields _ _ _ _ _ _ _).2.1]
        have hfix := before_load_fixed (miss_entry s X) X
        have htime : (before_load (miss_entry s X) X).current_time
            = (s.current_time + 1) % U64 := by
          have h2 := congrArg (fun p => p.2.1) hfix
          exact h2
        rw [htime, Nat.mod_eq_of_lt]
        · omega
        · unfold ULLONG_MAX at hT
          unfold U64
          omega
    · exact distinct_sub _ _ (hit_sub_loads s lba X op i hX hi) hd

theorem process_record_distinct (s : Sim) (r : Record) (h : s.inv)
    (hd : load_times_distinct s.buffer)
    (hT : s.current_time + access_count_of [r] ≤ ULLONG_MAX) :
    load_times_distinct (process_record s r).buffer := by
  cases r with
  | access lba op =>
    simp only [access_count_of] at hT
    exact access_page_distinct s lba _ op h hd (by omega)
  | policy_change code =>
    exact distinct_sub _ _ (sub_loads_core _ _ (process_switch_core s code).1) hd

theorem run_distinct (trace : List Record) (s : Sim) (h : s.inv)
    (hd : load_times_distinct s.buffer)
    (hT : s.current_time + access_count_of trace ≤ ULLONG_MAX) (hN : 0 < s.buffer.length) :
    load_times_distinct (run s trace).buffer := by
  induction trace generalizing s with
  | nil => exact hd
  | cons r rest ih =>
    rw [access_count_of_cons] at hT
    obtain ⟨hi, ht⟩ := process_record_inv s r h (by omega) hN
    exact ih _ hi (process_record_distinct s r h hd (by omega)) (by rw [ht]; omega)
      (by rw [process_record_length]; exact hN)

theorem init_sim_distinct (N : Nat) (pol : ReplacementPolicy) (zs : Nat) :
    load_times_distinct (init_sim N pol zs).buffer := by
  intro i j hi _ _
  exfalso
  apply hi.2
  show (frame_at (List.replicate N empty_frame) i).page_id = INVALID_PAGE
  have hlt : i < N := by
    have := hi.1
    rw [init_sim_length] at this
    exact this
  unfold frame_at
  rw [List.getD_eq_getElem _ _ (by rw [List.length_replicate]; exact hlt)]
  simp [empty_frame]

/-- The count form of "no page twice" gives the index form. -/
theorem pages_distinct_of_unique (buf : List BufferFrame) (h : pages_unique buf) :
    pages_distinct buf := by
  induction buf with
  | nil =>
    intro i j hi _ _
    exact absurd hi.1 (by simp)
  | cons f rest ih =>
    have hrest : pages_unique rest := by
      intro x hx
      have := h x hx
      rw [List.countP_cons] at this
      omega
    have hpos : ∀ k, resident_at rest k → (frame_at rest k).page_id = f.page_id → False := by
      intro k hk hkf
      have hfr : f.page_id ≠ INVALID_PAGE := by rw [← hkf]; exact hk.2
      have := h f.page_id hfr
      rw [List.countP_cons] at this
      have hc : 0 < rest.countP (fun g => decide (g.page_id = f.page_id)) := by
        rw [List.countP_pos_iff]
        exact ⟨frame_at rest k, frame_at_mem rest k hk.1, by simpa using hkf⟩
      simp only [decide_True, if_true] at this
      omega
    intro i j hi hj hij
    cases i with
    | zero =>
      cases j with
      | zero => rfl
      | succ j =>
        exfalso
        have hj' : resident_at rest j := ⟨by have := hj.1; simpa using this, hj.2⟩
        exact hpos j hj' hij.symm
    | succ i =>
      cases j with
      | zero =>
        exfalso
        have hi' : resident_at rest i := ⟨by have := hi.1; simpa using this, hi.2⟩
        exact hpos i hi' hij
      | succ j =>
        have hi' : resident_at rest i := ⟨by have := hi.1; simpa using this, hi.2⟩
        have hj' : resident_at rest j := ⟨by have := hj.1; simpa using this, hj.2⟩
        rw [ih hrest i j hi' hj' hij]

/-- C35: in the state after any sequence of access and policy-switch records, run from an
initial state, no two frames hold the same valid page.  If moreover N ≥ 1 and the sequence
has at most ULLONG_MAX accesses (the 64-bit clock does not wrap), the load_time values of
the resident frames are pairwise distinct and at most current_time, and the frame
`evict_fifo` returns, when it is resident, has a load_time strictly below that of every
other resident frame: the FIFO victim is unique. -/
theorem frames_distinct (N : Nat) (pol : ReplacementPolicy) (zs : Nat)
    (trace : List Record) :
    pages_distinct (run (init_sim N pol zs) trace).buffer ∧
    (1 ≤ N → access_count_of trace ≤ ULLONG_MAX →
      load_times_distinct (run (init_sim N pol zs) trace).buffer ∧
      (∀ j, resident_at (run (init_sim N pol zs) trace).buffer j →
        (frame_at (run (init_sim N pol zs) trace).buffer j).load_time
          ≤ (run (init_sim N pol zs) trace).current_time) ∧
      (∀ v, evict_fifo (run (init_sim N pol zs) trace).buffer = some v →
        resident_at (run (init_sim N pol zs) trace).buffer v →
        ∀ j, resident_at (run (init_sim N pol zs) trace).buffer j → j ≠ v →
          (frame_at (run (init_sim N pol zs) trace).buffer v).load_time
            < (frame_at (run (init_sim N pol zs) trace).buffer j).load_time)) := by
  refine ⟨pages_distinct_of_unique _ (run_wf trace _ (init_sim_wf N pol zs)).1, ?_⟩
  intro hN hlen
  have hinv := run_inv trace (init_sim N pol zs) (init_sim_inv N pol zs)
    (by
      show 0 + access_count_of trace ≤ ULLONG_MAX
      omega)
    (by rw [init_sim_length]; omega)
  have htime := (run_inv_time trace (init_sim N pol zs) (init_sim_inv N pol zs)
    (by
      show 0 + access_count_of trace ≤ ULLONG_MAX
      omega)
    (by rw [init_sim_length]; omega)).2
  have hct : (run (init_sim N pol zs) trace).current_time ≤ ULLONG_MAX := by
    rw [htime]
    show 0 + access_count_of trace ≤ ULLONG_MAX
    omega
  have hd := run_distinct trace (init_sim N pol zs) (init_sim_inv N pol zs)
    (init_sim_distinct N pol zs)
    (by
      show 0 + access_count_of trace ≤ ULLONG_MAX
      omega)
    (by rw [init_sim_length]; omega)
  have hle : ∀ j, resident_at (run (init_sim N pol zs) trace).buffer j →
      (frame_at (run (init_sim N pol zs) trace).buffer j).load_time
        ≤ (run (init_sim N pol zs) trace).current_time :=
    fun j hj => (hinv.2.2.2.1 _ (frame_at_mem _ j hj.1) hj.2).1
  refine ⟨hd, hle, ?_⟩
  intro v hv hvr j hj hjv
  have hne : (frame_at (run (init_sim N pol zs) trace).buffer v).load_time
      ≠ (frame_at (run (init_sim N pol zs) trace).buffer j).load_time :=
    fun he => hjv (hd v j hvr hj he).symm
  have h1 := hle v hvr
  have h2 := hle j hj
  have hex : ∃ f ∈ (run (init_sim N pol zs) trace).buffer,
      f.page_id ≠ INVALID_PAGE ∧ f.load_time < ULLONG_MAX := by
    by_cases hlt : (frame_at (run (init_sim N pol zs) trace).buffer v).load_time < ULLONG_MAX
    · exact ⟨_, frame_at_mem _ v hvr.1, hvr.2, hlt⟩
    · exact ⟨_, frame_at_mem _ j hj.1, hj.2, by omega⟩
  obtain ⟨w, hw, _, hmin, _⟩ := evict_fifo_min _ (Or.inl hex)
  rw [hv] at hw
  have hwv : v = w := Option.some.inj hw
  subst hwv
  have := hmin j hj
  omega

theorem frames_distinct_witness :
    (1 ≤ 2 ∧ access_count_of distinct_trace ≤ ULLONG_MAX) ∧
    (run (init_sim 2 LRU 0) distinct_trace).buffer.map (fun f => (f.page_id, f.load_time))
      = [(3, 5), (2, 4)] ∧
    (run (init_sim 2 LRU 0) distinct_trace).current_time = 5 ∧
    load_times_distinct (run (init_sim 2 LRU 0) distinct_trace).buffer ∧
    pages_distinct (run (init_sim 2 LRU 0) distinct_trace).buffer := by
  have h := frames_distinct 2 LRU 0 distinct_trace
  exact ⟨⟨by decide, by decide⟩, by decide, by decide, (h.2 (by decide) (by decide)).1, h.1⟩

theorem strip_fields (x y : BufferFrame) (h : strip_lists x = strip_lists y) :
    x.page_id = y.page_id ∧ x.load_time = y.load_time ∧
    x.last_access_time = y.last_access_time ∧ x.access_count = y.access_count ∧
    x.is_dirty = y.is_dirty ∧ x.ref_bit = y.ref_bit :=
  ⟨congrArg (fun c => c.page_id) h, congrArg (fun c => c.load_time) h,
    congrArg (fun c => c.last_access_time) h, congrArg (fun c => c.access_count) h,
    congrArg (fun c => c.is_dirty) h, congrArg (fun c => c.ref_bit) h⟩

theorem same_frames_refl (b : List BufferFrame) : same_frames b b := rfl

theorem same_frames_symm (b b' : List BufferFrame) (h : same_frames b b') : same_frames b' b :=
  Eq.symm h

theorem same_frames_trans (b b' b'' : List BufferFrame) (h : same_frames b b')
    (h' : same_frames b' b'') : same_frames b b'' := Eq.trans h h'

theorem same_frames_length (b b' : List BufferFrame) (h : same_frames b b') :
    b.length = b'.length := by
  have := congrArg List.length h
  simpa using this

theorem same_frames_at (b b' : List BufferFrame) (h : same_frames b b') (j : Nat) :
    strip_lists (frame_at b j) = strip_lists (frame_at b' j) :=
  frame_at_map_eq strip_lists b' b h j

theorem same_frames_set (b b' : List BufferFrame) (h : same_frames b b') (i : Nat)
    (x x' : BufferFrame) (hx : strip_lists x = strip_lists x') :
    same_frames (b.set i x) (b'.set i x') := by
  unfold same_frames at h ⊢
  rw [List.map_set, List.map_set, h, hx]

theorem same_frames_mod_ref (b b' : List BufferFrame) (h : b'.map erase_ref = b.map erase_ref) :
    b'.map (fun f => (f.list_type, f.ref_arc_list_type))
      = b.map (fun f => (f.list_type, f.ref_arc_list_type)) := by
  have := congrArg (List.map (fun f : BufferFrame => (f.list_type, f.ref_arc_list_type))) h
  simpa [List.map_map, Function.comp_def, erase_ref] using this

theorem find_in_buffer_map (g : BufferFrame → BufferFrame)
    (hg : ∀ f, (g f).page_id = f.page_id) (b : List BufferFrame) (X : Nat) :
    find_in_buffer (b.map g) X = find_in_buffer b X := by
  induction b with
  | nil => rfl
  | cons f rest ih =>
    simp only [List.map_cons, find_in_buffer, hg, ih]

theorem find_empty_slot_map (g : BufferFrame → BufferFrame)
    (hg : ∀ f, (g f).page_id = f.page_id) (b : List BufferFrame) :
    find_empty_slot (b.map g) = find_empty_slot b := by
  induction b with
  | nil => rfl
  | cons f rest ih =>
    simp only [List.map_cons, find_empty_slot, hg, ih]

theorem evict_fifo_loop_map (g : BufferFrame → BufferFrame)
    (hg : ∀ f, (g f).page_id = f.page_id ∧ (g f).load_time = f.load_time)
    (b : List BufferFrame) (i : Nat) (vic : Option Nat) (m : Nat) :
    evict_fifo_loop (b.map g) i vic m = evict_fifo_loop b i vic m := by
  induction b generalizing i vic m with
  | nil => rfl
  | cons f rest ih =>
    simp only [List.map_cons, evict_fifo_loop, (hg f).1, (hg f).2, ih]

theorem evict_fifo_map (g : BufferFrame → BufferFrame)
    (hg : ∀ f, (g f).page_id = f.page_id ∧ (g f).load_time = f.load_time)
    (b : List BufferFrame) : evict_fifo (b.map g) = evict_fifo b := by
  rw [evict_fifo_eq, evict_fifo_eq, evict_fifo_loop_map g hg,
    find_empty_slot_map g (fun f => (hg f).1), List.length_map]

theorem same_find_in_buffer (b b' : List BufferFrame) (h : same_frames b b') (X : Nat) :
    find_in_buffer b X = find_in_buffer b' X := by
  rw [← find_in_buffer_map strip_lists (fun _ => rfl) b,
    ← find_in_buffer_map strip_lists (fun _ => rfl) b', h]

theorem same_find_empty_slot (b b' : List BufferFrame) (h : same_frames b b') :
    find_empty_slot b = find_empty_slot b' := by
  rw [← find_empty_slot_map strip_lists (fun _ => rfl) b,
    ← find_empty_slot_map strip_lists (fun _ => rfl) b', h]

theorem same_evict_fifo (b b' : List BufferFrame) (h : same_frames b b') :
    evict_fifo b = evict_fifo b' := by
  rw [← evict_fifo_map strip_lists (fun _ => ⟨rfl, rfl⟩) b,
    ← evict_fifo_map strip_lists (fun _ => ⟨rfl, rfl⟩) b', h]

theorem resident_lt (b : List BufferFrame) (j : Nat)
    (h : (frame_at b j).page_id ≠ INVALID_PAGE) : j < b.length :=
  clock_match_lt false 0 b j ⟨h, fun hc => by cases hc⟩

theorem all_pass_match (filt : Bool) (t : Nat) (b : List BufferFrame) (h : all_pass filt t b)
    (j : Nat) : clock_match filt t (frame_at b j) ↔ (frame_at b j).page_id ≠ INVALID_PAGE := by
  constructor
  · exact fun hm => hm.1
  · intro hr
    exact ⟨hr, h _ (frame_at_mem b j (resident_lt b j hr)) hr⟩

theorem all_pass_set (filt : Bool) (t : Nat) (b : List BufferFrame) (h : all_pass filt t b)
    (i : Nat) (x : BufferFrame) (hx : x.page_id ≠ INVALID_PAGE → filt = true → x.list_type = t) :
    all_pass filt t (b.set i x) := by
  intro f hf hr hfilt
  rcases List.mem_or_eq_of_mem_set hf with hm | he
  · exact h f hm hr hfilt
  · rw [he] at hr ⊢
    exact hx hr hfilt

theorem strip_erase_ref (x y : BufferFrame) (h : strip_lists x = strip_lists y) :
    strip_lists (erase_ref x) = strip_lists (erase_ref y) := by
  have := congrArg erase_ref h
  exact this

/-- A reference-bit pass over frames that all pass the filter goes as the pass of the
same kind with any other filter all frames pass, over the same frames: same outcome, and
the frames they leave differ at most in their labels. -/
theorem clock_pass_rel (hand : Nat) (filt : Bool) (t : Nat) (filt' : Bool) (t' : Nat)
    (pass n i : Nat) (b b' : List BufferFrame) (h : same_frames b b')
    (hp : all_pass filt t b) (hp' : all_pass filt' t' b') :
    (clock_pass hand filt t pass n i b).1 = (clock_pass hand filt' t' pass n i b').1 ∧
    same_frames (clock_pass hand filt t pass n i b).2 (clock_pass hand filt' t' pass n i b').2 ∧
    all_pass filt t (clock_pass hand filt t pass n i b).2 ∧
    all_pass filt' t' (clock_pass hand filt' t' pass n i b').2 := by
  induction n generalizing i b b' with
  | zero => exact ⟨rfl, h, hp, hp'⟩
  | succ n ih =>
    have hlen := same_frames_length b b' h
    have hat := same_frames_at b b' h ((hand + i) % b.length)
    have hf := strip_fields _ _ hat
    rw [clock_pass_succ, clock_pass_succ, ← hlen]
    have hm : clock_match filt t (frame_at b ((hand + i) % b.length))
        ↔ clock_match filt' t' (frame_at b' ((hand + i) % b.length)) := by
      rw [all_pass_match filt t b hp, all_pass_match filt' t' b' hp', hf.1]
    by_cases hc : clock_match filt t (frame_at b ((hand + i) % b.length))
    · rw [if_pos hc, if_pos (hm.1 hc), ← hf.2.2.2.2.2]
      by_cases hr : (frame_at b ((hand + i) % b.length)).ref_bit = 0
      · rw [if_pos hr, if_pos hr]
        exact ⟨rfl, h, hp, hp'⟩
      · rw [if_neg hr, if_neg hr]
        by_cases hz : pass = 0
        · rw [if_pos hz, if_pos hz]
          apply ih
          · exact same_frames_set b b' h _ _ _ (strip_erase_ref _ _ hat)
          · exact all_pass_set filt t b hp _ _ (fun _ => hc.2)
          · exact all_pass_set filt' t' b' hp' _ _ (fun _ => (hm.1 hc).2)
        · rw [if_neg hz, if_neg hz]
          exact ih _ b b' h hp hp'
    · rw [if_neg hc, if_neg (fun x => hc (hm.2 x))]
      exact ih _ b b' h hp hp'

theorem clock_force_succ (hand : Nat) (filt : Bool) (t : Nat) (b : List BufferFrame)
    (n i : Nat) :
    clock_force hand filt t b (n + 1) i
      = if clock_match filt t (frame_at b ((hand + i) % b.length)) then
          some ((hand + i) % b.length)
        else clock_force hand filt t b n (i + 1) := by
  rw [clock_force]
  simp only [clock_match]
  split_ifs <;> first | rfl | (exfalso; tauto)

theorem clock_force_rel (hand : Nat) (filt : Bool) (t : Nat) (filt' : Bool) (t' : Nat)
    (n i : Nat) (b b' : List BufferFrame) (h : same_frames b b')
    (hp : all_pass filt t b) (hp' : all_pass filt' t' b') :
    clock_force hand filt t b n i = clock_force hand filt' t' b' n i := by
  induction n generalizing i with
  | zero => rfl
  | succ n ih =>
    have hlen := same_frames_length b b' h
    have hat := same_frames_at b b' h ((hand + i) % b.length)
    have hf := strip_fields _ _ hat
    rw [clock_force_succ, clock_force_succ, ← hlen]
    have hm : clock_match filt t (frame_at b ((hand + i) % b.length))
        ↔ clock_match filt' t' (frame_at b' ((hand + i) % b.length)) := by
      rw [all_pass_match filt t b hp, all_pass_match filt' t' b' hp', hf.1]
    by_cases hc : clock_match filt t (frame_at b ((hand + i) % b.length))
    · rw [if_pos hc, if_pos (hm.1 hc)]
    · rw [if_neg hc, if_neg (fun x => hc (hm.2 x))]
      exact ih _

/-- A call of `evict_via_clock_policy` on frames that all pass its filter returns what the
call with any other filter all frames pass returns on the same frames: the same victim,
hand and diagnostics, and frames that differ at most in their labels. -/
theorem evict_via_clock_rel (hand : Nat) (filt : Bool) (t : Nat) (filt' : Bool) (t' : Nat)
    (b b' : List BufferFrame) (h : same_frames b b')
    (hp : all_pass filt t b) (hp' : all_pass filt' t' b') :
    (evict_via_clock_policy hand filt t b).victim
      = (evict_via_clock_policy hand filt' t' b').victim ∧
    (evict_via_clock_policy hand filt t b).hand
      = (evict_via_clock_policy hand filt' t' b').hand ∧
    (evict_via_clock_policy hand filt t b).msgs
      = (evict_via_clock_policy hand filt' t' b').msgs ∧
    same_frames (evict_via_clock_policy hand filt t b).buf
      (evict_via_clock_policy hand filt' t' b').buf := by
  have hlen := same_frames_length b b' h
  by_cases h0 : b.length = 0
  · have h0' : b'.length = 0 := by omega
    unfold evict_via_clock_policy
    rw [if_pos h0, if_pos h0']
    exact ⟨rfl, rfl, rfl, h⟩
  · have h0' : b'.length ≠ 0 := by omega
    rw [evict_via_clock_policy_eq hand filt t b h0, evict_via_clock_policy_eq hand filt' t' b' h0',
      ← hlen]
    obtain ⟨p1, p2, p3, p4⟩ := clock_pass_rel hand filt t filt' t' 0 b.length 0 b b' h hp hp'
    rw [← p1]
    rcases Option.eq_none_or_eq_some (clock_pass hand filt t 0 b.length 0 b).1 with e1 | ⟨v, e1⟩
    · rw [e1]
      simp only []
      obtain ⟨q1, q2, q3, q4⟩ := clock_pass_rel hand filt t filt' t' 1 b.length 0 _ _ p2 p3 p4
      rw [← q1]
      rcases Option.eq_none_or_eq_some (clock_pass hand filt t 1 b.length 0
          (clock_pass hand filt t 0 b.length 0 b).2).1 with e2 | ⟨v, e2⟩
      · rw [e2]
        simp only []
        have hforce := clock_force_rel hand filt t filt' t' b.length 0 _ _ q2 q3 q4
        rw [← hforce]
        rcases Option.eq_none_or_eq_some (clock_force hand filt t
            (clock_pass hand filt t 1 b.length 0 (clock_pass hand filt t 0 b.length 0 b).2).2
            b.length 0) with e3 | ⟨v, e3⟩
        · rw [e3]
          exact ⟨same_evict_fifo _ _ q2, rfl, rfl, q2⟩
        · rw [e3]
          refine ⟨rfl, rfl, ?_, q2⟩
          show [ErrMsg.clock_force_evict _ v] = [ErrMsg.clock_force_evict _ v]
          rw [(strip_fields _ _ (same_frames_at _ _ q2 v)).1]
      · rw [e2]
        exact ⟨rfl, rfl, rfl, q2⟩
    · rw [e1]
      exact ⟨rfl, rfl, rfl, p2⟩

theorem device_of_quiet (s s' : Sim) (h : quiet_step s s') : device s' = device s := by
  obtain ⟨h1, h2, h3, _⟩ := h
  unfold device
  rw [h1, h2, h3]

theorem counters_of_fixed (s s' : Sim) (h : s'.fixed = s.fixed) :
    counters s' = counters s ∧ s'.current_policy = s.current_policy ∧
    s'.buffer.length = s.buffer.length := by
  simp only [Sim.fixed, Prod.mk.injEq] at h
  unfold counters
  rw [h.2.1, h.2.2.1, h.2.2.2.1]
  exact ⟨rfl, h.1, h.2.2.2.2.2⟩

theorem clock_state_pass (s : Sim) (h : clock_state s) :
    (s.current_policy = CLOCK_PRO_T1_B4_LOGS_B2 → all_pass true 1 s.buffer) ∧
    (s.current_policy = CLOCK_PRO_T3_B2_LOGS_B4 → all_pass true 3 s.buffer) ∧
    all_pass false 0 s.buffer := by
  refine ⟨fun hp f hf hr _ => ?_, fun hp f hf hr _ => ?_, fun f _ _ hc => by cases hc⟩
  · have := h.2 f hf hr
    rw [hp] at this
    exact this
  · have := h.2 f hf hr
    rw [hp] at this
    exact this

theorem select_plain_clock (s : Sim) (X : Nat)
    (hp : s.current_policy = CLOCK_T1 ∨ s.current_policy = CLOCK_T3) :
    select_victim s X = clock_on_global_hand s false 0 := by
  unfold select_victim
  rcases hp with hp | hp <;> simp only [hp, reduceCtorEq, if_false, if_true]

theorem select_pro_t1 (s : Sim) (X : Nat) (hp : s.current_policy = CLOCK_PRO_T1_B4_LOGS_B2)
    (hne : (clock_on_p_hand s true 1).2 ≠ none) :
    select_victim s X
      = if s.arc_state.t1_size ≥ s.arc_state.p ∧ s.arc_state.t1_size > 0 then
          clock_on_p_hand s true 1
        else clock_on_p_hand s false 0 := by
  unfold select_victim
  simp only [hp, reduceCtorEq, if_false, if_true]
  by_cases hc : s.arc_state.t1_size ≥ s.arc_state.p ∧ s.arc_state.t1_size > 0
  · simp only [hc, and_self, if_true, hne, if_false]
  · simp only [hc, if_false, if_true]

theorem select_pro_t3 (s : Sim) (X : Nat) (hp : s.current_policy = CLOCK_PRO_T3_B2_LOGS_B4)
    (hne : (clock_on_q_hand s true 3).2 ≠ none) :
    select_victim s X
      = if s.arc_state.t3_size ≥ s.arc_state.q ∧ s.arc_state.t3_size > 0 then
          clock_on_q_hand s true 3
        else clock_on_q_hand s false 0 := by
  unfold select_victim
  simp only [hp, reduceCtorEq, if_false, if_true]
  by_cases hc : s.arc_state.t3_size ≥ s.arc_state.q ∧ s.arc_state.t3_size > 0
  · simp only [hc, and_self, if_true, hne, if_false]
  · simp only [hc, if_false, if_true]

/-- Victim selection of a CLOCK-family policy on a full buffer: one sweep from the hand of
the policy, with a filter that every resident frame passes. -/
theorem select_clock (s : Sim) (X : Nat) (hs : clock_state s) (hN : 0 < s.buffer.length)
    (hfull : find_empty_slot s.buffer = none) :
    ∃ filt t, all_pass filt t s.buffer ∧
      (select_victim s X).2 = (evict_via_clock_policy (clock_hand s) filt t s.buffer).victim ∧
      (select_victim s X).1.buffer
        = (evict_via_clock_policy (clock_hand s) filt t s.buffer).buf ∧
      clock_hand (select_victim s X).1
        = (evict_via_clock_policy (clock_hand s) filt t s.buffer).hand := by
  obtain ⟨hpT1, hpT3, hpF⟩ := clock_state_pass s hs
  have hsome : ∀ hand filt t, (evict_via_clock_policy hand filt t s.buffer).victim ≠ none := by
    intro hand filt t hn
    obtain ⟨v, hv⟩ := (evict_via_clock_policy_spec hand filt t s.buffer).2.2 hN hfull
    rw [hn] at hv
    cases hv
  rcases hs.1 with hp | hp | hp | hp
  · rw [select_plain_clock s X (Or.inl hp)]
    refine ⟨false, 0, hpF, ?_, ?_, ?_⟩ <;> simp [clock_on_global_hand, clock_hand, hp]
  · rw [select_plain_clock s X (Or.inr hp)]
    refine ⟨false, 0, hpF, ?_, ?_, ?_⟩ <;> simp [clock_on_global_hand, clock_hand, hp]
  · rw [select_pro_t1 s X hp (hsome _ true 1)]
    by_cases hc : s.arc_state.t1_size ≥ s.arc_state.p ∧ s.arc_state.t1_size > 0
    · rw [if_pos hc]
      refine ⟨true, 1, hpT1 hp, ?_, ?_, ?_⟩ <;> simp [clock_on_p_hand, clock_hand, hp]
    · rw [if_neg hc]
      refine ⟨false, 0, hpF, ?_, ?_, ?_⟩ <;> simp [clock_on_p_hand, clock_hand, hp]
  · rw [select_pro_t3 s X hp (hsome _ true 3)]
    by_cases hc : s.arc_state.t3_size ≥ s.arc_state.q ∧ s.arc_state.t3_size > 0
    · rw [if_pos hc]
      refine ⟨true, 3, hpT3 hp, ?_, ?_, ?_⟩ <;> simp [clock_on_q_hand, clock_hand, hp]
    · rw [if_neg hc]
      refine ⟨false, 0, hpF, ?_, ?_, ?_⟩ <;> simp [clock_on_q_hand, clock_hand, hp]

theorem clock_state_mod_ref (s s' : Sim) (hs : clock_state s)
    (hb : s'.buffer.map erase_ref = s.buffer.map erase_ref)
    (hp : s'.current_policy = s.current_policy) : clock_state s' := by
  refine ⟨by rw [hp]; exact hs.1, ?_⟩
  intro f hf hr
  obtain ⟨i, hi, hfi⟩ := mem_iff_frame_at _ f hf
  have he := frame_at_mod_ref s.buffer s'.buffer hb i
  rw [hfi] at he
  have hlen : s'.buffer.length = s.buffer.length := by
    have := congrArg List.length hb
    simpa using this
  have h1 : f.page_id = (frame_at s.buffer i).page_id := congrArg (fun c => c.page_id) he
  have h2 : f.list_type = (frame_at s.buffer i).list_type :=
    congrArg (fun c => c.list_type) he
  rw [hp, h2]
  exact hs.2 _ (frame_at_mem _ i (by rw [← hlen]; exact hi)) (by rw [← h1]; exact hr)

/-- Victim selection and fallback of two CLOCK-family states that cannot be told apart:
the same victim, and states that cannot be told apart. -/
theorem chosen_clock_rel (m r : Sim) (X : Nat) (hm : clock_state m) (hr : clock_state r)
    (h : clock_rel m r) (hN : 0 < m.buffer.length)
    (hfull : find_empty_slot m.buffer = none) :
    (chosen m X).2 = (chosen r X).2 ∧ (∃ v, (chosen m X).2 = some v) ∧
    clock_rel (chosen m X).1 (chosen r X).1 ∧
    clock_state (chosen m X).1 ∧ clock_state (chosen r X).1 := by
  obtain ⟨hb, hh, hc, hd⟩ := h
  have hlen := same_frames_length _ _ hb
  have hNr : 0 < r.buffer.length := by omega
  have hfullr : find_empty_slot r.buffer = none := by
    rw [← same_find_empty_slot _ _ hb]; exact hfull
  obtain ⟨f1, t1, p1, a1, a2, a3⟩ := select_clock m X hm hN hfull
  obtain ⟨f2, t2, p2, b1, b2, b3⟩ := select_clock r X hr hNr hfullr
  rw [← hh] at b1 b2 b3
  obtain ⟨e1, e2, _, e4⟩ := evict_via_clock_rel (clock_hand m) f1 t1 f2 t2 _ _ hb p1 p2
  obtain ⟨v, hv⟩ := (evict_via_clock_policy_spec (clock_hand m) f1 t1 m.buffer).2.2 hN hfull
  have hsm : (select_victim m X).2 = some v := by rw [a1]; exact hv
  have hsr : (select_victim r X).2 = some v := by rw [b1, ← e1]; exact hv
  have hcm := chosen_of_select m X v hsm
  have hcr := chosen_of_select r X v hsr
  have hfm := counters_of_fixed _ _ (select_victim_fixed m X)
  have hfr := counters_of_fixed _ _ (select_victim_fixed r X)
  have hqm := device_of_quiet _ _ (select_victim_quiet m X)
  have hqr := device_of_quiet _ _ (select_victim_quiet r X)
  have hcs := chosen_spec m X
  have hcsr := chosen_spec r X
  have hpm : (chosen m X).1.current_policy = m.current_policy := by rw [hcm]; exact hfm.2.1
  have hpr : (chosen r X).1.current_policy = r.current_policy := by rw [hcr]; exact hfr.2.1
  refine ⟨by rw [hcm, hcr], ⟨v, by rw [hcm]⟩, ?_, clock_state_mod_ref m _ hm hcs.1 hpm,
    clock_state_mod_ref r _ hr hcsr.1 hpr⟩
  rw [hcm, hcr]
  refine ⟨?_, ?_, ?_, ?_⟩
  · show same_frames (select_victim m X).1.buffer (select_victim r X).1.buffer
    rw [a2, b2]
    exact e4
  · show clock_hand (select_victim m X).1 = clock_hand (select_victim r X).1
    rw [a3, b3]
    exact e2
  · show counters (select_victim m X).1 = counters (select_victim r X).1
    rw [hfm.1, hfr.1]
    exact hc
  · show device (select_victim m X).1 = device (select_victim r X).1
    rw [hqm, hqr]
    exact hd

theorem strip_of_fields (x y : BufferFrame) (h1 : x.page_id = y.page_id)
    (h2 : x.load_time = y.load_time) (h3 : x.last_access_time = y.last_access_time)
    (h4 : x.access_count = y.access_count) (h5 : x.is_dirty = y.is_dirty)
    (h6 : x.ref_bit = y.ref_bit) : strip_lists x = strip_lists y := by
  unfold strip_lists
  rw [h1, h2, h3, h4, h5, h6]

theorem write_fio_log_device (s r : Sim) (lba n : Nat) (op : Op) (h : device s = device r) :
    device (write_fio_log s lba n op) = device (write_fio_log r lba n op) := by
  unfold device at h
  simp only [Prod.mk.injEq] at h
  obtain ⟨hz, hw, hl⟩ := h
  unfold write_fio_log device
  by_cases hn : n = 0
  · simp only [hn, if_true, hz, hw, hl]
  · simp only [hn, if_false]
    rw [hz, hw]
    by_cases h1 : op = OP_WRITE ∧ r.zone_size_pages_global > 0
    · rw [if_pos h1, if_pos h1]
      by_cases h2 : lba_to_page_id lba / r.zone_size_pages_global ≥ MAX_ZONES
      · rw [if_pos h2, if_pos h2]
        split_ifs <;> simp only [hz, hw, hl]
      · rw [if_neg h2, if_neg h2]
        by_cases h3 : lba_to_page_id lba ≠ r.zone_write_pointers
            (lba_to_page_id lba / r.zone_size_pages_global)
        · rw [if_pos h3, if_pos h3]
          split_ifs <;> simp only [hz, hw, hl]
        · rw [if_neg h3, if_neg h3]
          split_ifs <;> simp only [hz, hw, hl]
    · rw [if_neg h1, if_neg h1]
      split_ifs <;> simp only [hz, hw, hl]

theorem handle_dirty_eviction_hand (s : Sim) (v : Nat) :
    (handle_dirty_eviction s v).global_clk_hand = s.global_clk_hand := by
  unfold handle_dirty_eviction
  simp only []
  split_ifs
  · rfl
  · exact write_fio_log_hand _ _ _ _
  · rfl

theorem evict_arc_hands (pol : ReplacementPolicy) (a : ARCState) (N : Nat) (f : BufferFrame) :
    (evict_arc pol a N f).p_clk_hand = a.p_clk_hand ∧
    (evict_arc pol a N f).q_clk_hand = a.q_clk_hand := by
  unfold evict_arc
  split_ifs <;> exact ⟨rfl, rfl⟩

theorem load_arc_hands (pol : ReplacementPolicy) (a : ARCState) (N X al rl : Nat) :
    (load_arc pol a N X al rl).p_clk_hand = a.p_clk_hand ∧
    (load_arc pol a N X al rl).q_clk_hand = a.q_clk_hand := by
  cases pol <;> simp only [load_arc] <;>
    first | exact ⟨trivial, trivial⟩ | (split_ifs <;> exact ⟨rfl, rfl⟩)

theorem step_a_hands (pol : ReplacementPolicy) (N : Nat) (a : ARCState) (X : Nat) :
    (step_a pol N a X).arc.p_clk_hand = a.p_clk_hand ∧
    (step_a pol N a X).arc.q_clk_hand = a.q_clk_hand := by
  cases pol <;> simp only [step_a, reduceCtorEq, if_true, if_false, or_self, or_true, true_or,
    or_false, false_or] <;> (try split_ifs) <;> simp

theorem clock_hand_of (s s' : Sim) (hp : s'.current_policy = s.current_policy)
    (h1 : s'.arc_state.p_clk_hand = s.arc_state.p_clk_hand)
    (h2 : s'.arc_state.q_clk_hand = s.arc_state.q_clk_hand)
    (h3 : s'.global_clk_hand = s.global_clk_hand) : clock_hand s' = clock_hand s := by
  unfold clock_hand
  rw [hp, h1, h2, h3]

theorem load_frame_clock (pol pol' : ReplacementPolicy) (hp : is_clock pol)
    (hp' : is_clock pol') (f0 f0' : BufferFrame) (T X : Nat) (op : Op) (al rl al' rl' : Nat) :
    strip_lists (load_frame pol f0 T X op al rl)
      = strip_lists (load_frame pol' f0' T X op al' rl') ∧
    (load_frame pol f0 T X op al rl).list_type = clock_tag pol := by
  rcases hp with h | h | h | h <;> rcases hp' with h' | h' | h' | h' <;> subst h <;>
    subst h' <;> exact ⟨rfl, rfl⟩

/-- The write-back of the victim in two states that cannot be told apart. -/
theorem handle_dirty_eviction_rel (c cr : Sim) (v : Nat)
    (hb : same_frames c.buffer cr.buffer) (hd : device c = device cr) :
    same_frames (handle_dirty_eviction c v).buffer (handle_dirty_eviction cr v).buffer ∧
    device (handle_dirty_eviction c v) = device (handle_dirty_eviction cr v) ∧
    (∀ t, (∀ f ∈ c.buffer, f.page_id ≠ INVALID_PAGE → f.list_type = t) →
      ∀ f ∈ (handle_dirty_eviction c v).buffer, f.page_id ≠ INVALID_PAGE → f.list_type = t) := by
  have hlen := same_frames_length _ _ hb
  have hf := strip_fields _ _ (same_frames_at _ _ hb v)
  unfold handle_dirty_eviction
  rw [← hlen]
  by_cases hv : v ≥ c.buffer.length
  · rw [if_pos hv, if_pos hv]
    exact ⟨hb, hd, fun _ h => h⟩
  · rw [if_neg hv, if_neg hv]
    simp only []
    by_cases hc : (frame_at c.buffer v).page_id ≠ INVALID_PAGE ∧ (frame_at c.buffer v).is_dirty ≠ 0
    · have hc' : (frame_at cr.buffer v).page_id ≠ INVALID_PAGE ∧
          (frame_at cr.buffer v).is_dirty ≠ 0 := by
        rw [← hf.1, ← hf.2.2.2.2.1]; exact hc
      rw [if_pos hc, if_pos hc']
      refine ⟨?_, ?_, ?_⟩
      · show same_frames (List.set (write_fio_log c _ _ _).buffer v _)
          (List.set (write_fio_log cr _ _ _).buffer v _)
        rw [write_fio_log_buffer, write_fio_log_buffer]
        apply same_frames_set _ _ hb
        exact strip_of_fields _ _ hf.1 hf.2.1 hf.2.2.1 hf.2.2.2.1 rfl hf.2.2.2.2.2
      · show device (write_fio_log c _ _ _) = device (write_fio_log cr _ _ _)
        rw [← hf.1]
        exact write_fio_log_device c cr _ _ _ hd
      · intro t ht f hfm hr
        have hfm2 : f ∈ List.set (write_fio_log c
            (((frame_at c.buffer v).page_id * SECTORS_PER_PAGE) % U64) SECTORS_PER_PAGE
            OP_WRITE).buffer v { frame_at c.buffer v with is_dirty := 0 } := hfm
        rw [write_fio_log_buffer] at hfm2
        rcases List.mem_or_eq_of_mem_set hfm2 with hm | he
        · exact ht f hm hr
        · rw [he] at hr ⊢
          show (frame_at c.buffer v).list_type = t
          exact ht _ (frame_at_mem _ v (by omega)) hr
    · have hc' : ¬ ((frame_at cr.buffer v).page_id ≠ INVALID_PAGE ∧
          (frame_at cr.buffer v).is_dirty ≠ 0) := by
        rw [← hf.1, ← hf.2.2.2.2.1]; exact hc
      rw [if_neg hc, if_neg hc']
      exact ⟨hb, hd, fun _ h => h⟩

/-- The block "victim processing" in two CLOCK-family states that cannot be told apart. -/
theorem process_victim_rel (c cr : Sim) (v : Nat) (hc : clock_state c) (hcr : clock_state cr)
    (h : clock_rel c cr) :
    clock_rel (process_victim c v) (process_victim cr v) ∧
    clock_state (process_victim c v) ∧ clock_state (process_victim cr v) := by
  obtain ⟨hb, hh, hcnt, hd⟩ := h
  obtain ⟨e1, e2, e3⟩ := handle_dirty_eviction_rel c cr v hb hd
  obtain ⟨_, _, e3r⟩ := handle_dirty_eviction_rel cr c v (same_frames_symm _ _ hb) hd.symm
  have hfc := counters_of_fixed _ _ (process_victim_fixed c v)
  have hfr := counters_of_fixed _ _ (process_victim_fixed cr v)
  have harc : ∀ x : Sim,
      (process_victim x v).arc_state.p_clk_hand = x.arc_state.p_clk_hand ∧
      (process_victim x v).arc_state.q_clk_hand = x.arc_state.q_clk_hand := by
    intro x
    unfold process_victim
    simp only []
    split_ifs <;> simp only [handle_dirty_eviction_arc] <;> exact ⟨trivial, trivial⟩
  have hhand : ∀ x : Sim, clock_hand (process_victim x v) = clock_hand x := by
    intro x
    exact clock_hand_of _ _ (counters_of_fixed _ _ (process_victim_fixed x v)).2.1
      (harc x).1 (harc x).2 (handle_dirty_eviction_hand x v)
  have hstate : ∀ x : Sim, clock_state x →
      (∀ f ∈ (handle_dirty_eviction x v).buffer, f.page_id ≠ INVALID_PAGE →
        f.list_type = clock_tag x.current_policy) → clock_state (process_victim x v) := by
    intro x hx hx2
    have hpx := (counters_of_fixed _ _ (process_victim_fixed x v)).2.1
    refine ⟨by rw [hpx]; exact hx.1, ?_⟩
    intro f hfm hr
    rw [hpx]
    have hfm2 : f ∈ List.set (handle_dirty_eviction x v).buffer v
        { frame_at (handle_dirty_eviction x v).buffer v with page_id := INVALID_PAGE } := hfm
    rcases List.mem_or_eq_of_mem_set hfm2 with hm | he
    · exact hx2 f hm hr
    · rw [he] at hr
      exact absurd rfl hr
  refine ⟨⟨?_, ?_, ?_, ?_⟩, hstate c hc (e3 _ hc.2), hstate cr hcr (e3r _ hcr.2)⟩
  · show same_frames (List.set (handle_dirty_eviction c v).buffer v _)
      (List.set (handle_dirty_eviction cr v).buffer v _)
    apply same_frames_set _ _ e1
    have hg := strip_fields _ _ (same_frames_at _ _ e1 v)
    exact strip_of_fields _ _ rfl hg.2.1 hg.2.2.1 hg.2.2.2.1 hg.2.2.2.2.1 hg.2.2.2.2.2
  · rw [hhand c, hhand cr]
    exact hh
  · rw [hfc.1, hfr.1]
    exact hcnt
  · exact e2

/-- The block "load the new page" in two CLOCK-family states that cannot be told apart. -/
theorem load_page_rel (e er : Sim) (slot X : Nat) (op : Op) (al rl al' rl' : Nat)
    (he : clock_state e) (her : clock_state er) (h : clock_rel e er) :
    clock_rel (load_page e slot X op al rl) (load_page er slot X op al' rl') ∧
    clock_state (load_page e slot X op al rl) ∧
    clock_state (load_page er slot X op al' rl') := by
  obtain ⟨hb, hh, hcnt, hd⟩ := h
  have htime : e.current_time = er.current_time := congrArg (fun c => c.1) hcnt
  have hstate : ∀ (x : Sim) (a b : Nat), clock_state x →
      clock_state (load_page x slot X op a b) := by
    intro x a b hx
    rw [load_page_eq]
    refine ⟨hx.1, ?_⟩
    intro f hfm hr
    have hfm2 : f ∈ List.set x.buffer slot
        (load_frame x.current_policy (frame_at x.buffer slot) x.current_time X op a b) := hfm
    show f.list_type = clock_tag x.current_policy
    rcases List.mem_or_eq_of_mem_set hfm2 with hm | hq
    · exact hx.2 f hm hr
    · rw [hq]
      exact (load_frame_clock x.current_policy x.current_policy hx.1 hx.1
        (frame_at x.buffer slot) (frame_at x.buffer slot) x.current_time X op a b a b).2
  refine ⟨?_, hstate e al rl he, hstate er al' rl' her⟩
  rw [load_page_eq, load_page_eq]
  refine ⟨?_, ?_, hcnt, hd⟩
  · show same_frames (List.set e.buffer slot _) (List.set er.buffer slot _)
    apply same_frames_set _ _ hb
    rw [htime]
    exact (load_frame_clock _ _ he.1 her.1 _ _ _ _ _ _ _ _ _).1
  · have h1 : ∀ (x : Sim) (a b : Nat),
        clock_hand ({ x with
          buffer := x.buffer.set slot
            (load_frame x.current_policy (frame_at x.buffer slot) x.current_time X op a b)
          arc_state := load_arc x.current_policy x.arc_state x.buffer.length X a b } : Sim)
          = clock_hand x :=
      fun x a b => clock_hand_of _ _ rfl (load_arc_hands _ _ _ _ _ _).1
        (load_arc_hands _ _ _ _ _ _).2 rfl
    rw [h1 e, h1 er]
    exact hh

theorem hit_frame_clock (pol pol' : ReplacementPolicy) (hp : is_clock pol)
    (hp' : is_clock pol') (f f' : BufferFrame) (T : Nat) (op : Op)
    (h : strip_lists f = strip_lists f') :
    strip_lists (hit_frame pol (hit_base f T op))
      = strip_lists (hit_frame pol' (hit_base f' T op)) ∧
    (hit_frame pol (hit_base f T op)).list_type = f.list_type ∧
    (hit_frame pol (hit_base f T op)).page_id = f.page_id := by
  obtain ⟨h1, h2, h3, h4, h5, h6⟩ := strip_fields _ _ h
  have hb := hit_base_fields f T op
  have hb' := hit_base_fields f' T op
  have hff : ∀ (q : ReplacementPolicy), is_clock q → ∀ g : BufferFrame,
      hit_frame q g = { g with ref_bit := 1 } := by
    intro q hq g
    rcases hq with e | e | e | e <;> subst e <;> rfl
  rw [hff pol hp, hff pol' hp']
  refine ⟨?_, hb.2.2.2.1, hb.1⟩
  apply strip_of_fields
  · show (hit_base f T op).page_id = (hit_base f' T op).page_id
    rw [hb.1, hb'.1, h1]
  · show (hit_base f T op).load_time = (hit_base f' T op).load_time
    rw [hb.2.1, hb'.2.1, h2]
  · show (hit_base f T op).last_access_time = (hit_base f' T op).last_access_time
    rw [hb.2.2.1, hb'.2.2.1]
  · show (hit_base f T op).access_count = (hit_base f' T op).access_count
    unfold hit_base
    simp only []
    rw [h4]
    split_ifs <;> rfl
  · show (hit_base f T op).is_dirty = (hit_base f' T op).is_dirty
    unfold hit_base
    simp only []
    split_ifs <;> first | rfl | exact h5
  · rfl

theorem hit_arc_clock (pol : ReplacementPolicy) (hp : is_clock pol) (f : BufferFrame)
    (a : ARCState) : hit_arc pol f a = a := by
  rcases hp with e | e | e | e <;> subst e <;> rfl

/-- The head of a miss (count, read record, step A) in two CLOCK-family states that cannot
be told apart. -/
theorem miss_entry_rel (s r : Sim) (X : Nat) (hs : clock_state s) (hr : clock_state r)
    (h : clock_rel s r) :
    clock_rel (miss_entry s X) (miss_entry r X) ∧
    clock_state (miss_entry s X) ∧ clock_state (miss_entry r X) := by
  obtain ⟨hb, hh, hc, hd⟩ := h
  have hhand : ∀ x : Sim, clock_hand (miss_entry x X) = clock_hand x := by
    intro x
    refine clock_hand_of x (miss_entry x X) ?_ ?_ ?_ ?_
    · rfl
    · show (step_a x.current_policy x.buffer.length x.arc_state X).arc.p_clk_hand = _
      exact (step_a_hands _ _ _ _).1
    · show (step_a x.current_policy x.buffer.length x.arc_state X).arc.q_clk_hand = _
      exact (step_a_hands _ _ _ _).2
    · show (write_fio_log _ _ _ _).global_clk_hand = _
      rw [write_fio_log_hand]
  have hdev : ∀ x : Sim, device (miss_entry x X)
      = device (write_fio_log x ((X * SECTORS_PER_PAGE) % U64) SECTORS_PER_PAGE OP_READ) := by
    intro x
    show device (write_fio_log _ _ _ _) = _
    exact write_fio_log_device _ _ _ _ _ rfl
  unfold counters at hc
  simp only [Prod.mk.injEq] at hc
  refine ⟨⟨hb, ?_, ?_, ?_⟩, ⟨hs.1, hs.2⟩, ⟨hr.1, hr.2⟩⟩
  · rw [hhand s, hhand r]
    exact hh
  · have e1 := miss_entry_fixed s X
    have e2 := miss_entry_fixed r X
    simp only [Sim.fixed, Prod.mk.injEq] at e1 e2
    unfold counters
    rw [e1.2.1, e1.2.2.1, e1.2.2.2.1, e2.2.1, e2.2.2.1, e2.2.2.2.1, hc.1, hc.2.1, hc.2.2]
  · rw [hdev s, hdev r]
    exact write_fio_log_device _ _ _ _ _ hd

/-- The victim of a miss is the same in two CLOCK-family states that cannot be told
apart, and it holds the same page. -/
theorem miss_victim_rel (s r : Sim) (X : Nat) (hs : clock_state s) (hr : clock_state r)
    (h : clock_rel s r) (hN : 0 < s.buffer.length) :
    miss_victim s X = miss_victim r X ∧
    ∀ v, (victim_frame s X v).page_id = (victim_frame r X v).page_id := by
  obtain ⟨hm, hms, hmr⟩ := miss_entry_rel s r X hs hr h
  have hbs : (miss_entry s X).buffer = s.buffer := rfl
  have hbr : (miss_entry r X).buffer = r.buffer := rfl
  have hfe := same_find_empty_slot _ _ h.1
  have hpages : ∀ v, (victim_frame s X v).page_id = (victim_frame r X v).page_id := by
    intro v
    unfold victim_frame
    rw [page_mod_ref _ _ (chosen_spec (miss_entry s X) X).1 v,
      page_mod_ref _ _ (chosen_spec (miss_entry r X) X).1 v, hbs, hbr]
    exact (strip_fields _ _ (same_frames_at _ _ h.1 v)).1
  refine ⟨?_, hpages⟩
  unfold miss_victim
  rw [hbs, hbr, ← hfe]
  rcases Option.eq_none_or_eq_some (find_empty_slot s.buffer) with hn | ⟨k, hk⟩
  · rw [hn]
    exact (chosen_clock_rel _ _ X hms hmr hm (by rw [hbs]; exact hN)
      (by rw [hbs]; exact hn)).1
  · rw [hk]

/-- One access in two CLOCK-family states that cannot be told apart leaves states that
cannot be told apart. -/
theorem access_clock_rel (s r : Sim) (lba lba' X : Nat) (op : Op) (hs : clock_state s)
    (hr : clock_state r) (h : clock_rel s r) (hN : 0 < s.buffer.length) :
    clock_rel (access_page s lba X op) (access_page r lba' X op) ∧
    clock_state (access_page s lba X op) ∧ clock_state (access_page r lba' X op) := by
  have hfi := same_find_in_buffer _ _ h.1 X
  have hfe := same_find_empty_slot _ _ h.1
  have hlen := same_frames_length _ _ h.1
  by_cases hX : X = INVALID_PAGE
  · obtain ⟨hb, hh, hc, hd⟩ := h
    unfold counters at hc
    simp only [Prod.mk.injEq] at hc
    unfold access_page
    simp only [hX, if_true]
    refine ⟨⟨hb, hh, ?_, hd⟩, ⟨hs.1, hs.2⟩, ⟨hr.1, hr.2⟩⟩
    unfold counters
    simp only [hc.1, hc.2.1, hc.2.2]
  · rcases Option.eq_none_or_eq_some (find_in_buffer s.buffer X) with hmiss | ⟨i, hi⟩
    · have hmissr : find_in_buffer r.buffer X = none := by rw [← hfi]; exact hmiss
      obtain ⟨hm, hms, hmr⟩ := miss_entry_rel s r X hs hr h
      have hbs : (miss_entry s X).buffer = s.buffer := rfl
      have hbr : (miss_entry r X).buffer = r.buffer := rfl
      rw [access_page_miss s lba X op hX hmiss, access_page_miss r lba' X op hX hmissr]
      rcases Option.eq_none_or_eq_some (find_empty_slot s.buffer) with hn | ⟨k, hk⟩
      · have hnr : find_empty_slot r.buffer = none := by rw [← hfe]; exact hn
        obtain ⟨c1, ⟨v, c2⟩, c3, c4, c5⟩ := chosen_clock_rel _ _ X hms hmr hm
          (by rw [hbs]; exact hN) (by rw [hbs]; exact hn)
        have c2r : (chosen (miss_entry r X) X).2 = some v := by rw [← c1]; exact c2
        have l1 : load_slot (miss_entry s X) X = some v := by
          unfold load_slot
          rw [hbs, hn]
          exact c2
        have l2 : load_slot (miss_entry r X) X = some v := by
          unfold load_slot
          rw [hbr, hnr]
          exact c2r
        have b1 : before_load (miss_entry s X) X = process_victim (chosen (miss_entry s X) X).1 v := by
          unfold before_load
          rw [hbs, hn]
          simp only []
          rw [c2]
          rfl
        have b2 : before_load (miss_entry r X) X = process_victim (chosen (miss_entry r X) X).1 v := by
          unfold before_load
          rw [hbr, hnr]
          simp only []
          rw [c2r]
          rfl
        rw [l1, l2, b1, b2]
        obtain ⟨p1, p2, p3⟩ := process_victim_rel _ _ v c4 c5 c3
        exact load_page_rel _ _ v X op _ _ _ _ p2 p3 p1
      · have hkr : find_empty_slot r.buffer = some k := by rw [← hfe]; exact hk
        have l1 : load_slot (miss_entry s X) X = some k := by
          unfold load_slot
          rw [hbs, hk]
        have l2 : load_slot (miss_entry r X) X = some k := by
          unfold load_slot
          rw [hbr, hkr]
        have b1 : before_load (miss_entry s X) X = miss_entry s X := by
          unfold before_load
          rw [hbs, hk]
        have b2 : before_load (miss_entry r X) X = miss_entry r X := by
          unfold before_load
          rw [hbr, hkr]
        rw [l1, l2, b1, b2]
        exact load_page_rel _ _ k X op _ _ _ _ hms hmr hm
    · have hir : find_in_buffer r.buffer X = some i := by rw [← hfi]; exact hi
      obtain ⟨hb, hh, hc, hd⟩ := h
      unfold counters at hc
      simp only [Prod.mk.injEq] at hc
      obtain ⟨hlt, hpg⟩ := find_in_buffer_some _ _ _ hi
      have he : ∀ (x : Sim) (l : Nat), find_in_buffer x.buffer X = some i →
          access_page x l X op
            = access_hit { x with current_time := (x.current_time + 1) % U64 } i op := by
        intro x l hx
        unfold access_page
        simp only [hX, if_false, hx]
      rw [he s lba hi, he r lba' hir, access_hit_eq, access_hit_eq]
      have hst := same_frames_at _ _ hb i
      have hstate : ∀ x : Sim, clock_state x → i < x.buffer.length →
          clock_state ({ x with
            current_time := (x.current_time + 1) % U64
            hits := x.hits + 1
            buffer := x.buffer.set i
              (hit_frame x.current_policy
                (hit_base (frame_at x.buffer i) ((x.current_time + 1) % U64) op))
            arc_state := hit_arc x.current_policy
              (hit_base (frame_at x.buffer i) ((x.current_time + 1) % U64) op)
              x.arc_state } : Sim) := by
        intro x hx hix
        refine ⟨hx.1, ?_⟩
        intro f hfm hres
        have hfm2 : f ∈ x.buffer.set i (hit_frame x.current_policy
            (hit_base (frame_at x.buffer i) ((x.current_time + 1) % U64) op)) := hfm
        show f.list_type = clock_tag x.current_policy
        rcases List.mem_or_eq_of_mem_set hfm2 with hm | hq
        · exact hx.2 f hm hres
        · have hk := hit_frame_clock x.current_policy x.current_policy hx.1 hx.1
            (frame_at x.buffer i) (frame_at x.buffer i) ((x.current_time + 1) % U64) op rfl
          rw [hq] at hres ⊢
          rw [hk.2.1]
          rw [hk.2.2] at hres
          exact hx.2 _ (frame_at_mem _ i hix) hres
      refine ⟨⟨?_, ?_, ?_, hd⟩, hstate s hs hlt, hstate r hr (by omega)⟩
      · show same_frames (List.set s.buffer i _) (List.set r.buffer i _)
        apply same_frames_set _ _ hb
        show strip_lists (hit_frame s.current_policy
            (hit_base (frame_at s.buffer i) ((s.current_time + 1) % U64) op))
          = strip_lists (hit_frame r.current_policy
            (hit_base (frame_at r.buffer i) ((r.current_time + 1) % U64) op))
        rw [← hc.1]
        exact (hit_frame_clock _ _ hs.1 hr.1 _ _ _ _ hst).1
      · have hk : ∀ x : Sim, is_clock x.current_policy → ∀ (b : List BufferFrame) (g : BufferFrame),
            clock_hand ({ x with
              current_time := (x.current_time + 1) % U64
              hits := x.hits + 1
              buffer := b
              arc_state := hit_arc x.current_policy g x.arc_state } : Sim) = clock_hand x := by
          intro x hx b g
          refine clock_hand_of x _ ?_ ?_ ?_ ?_
          · rfl
          · show (hit_arc x.current_policy g x.arc_state).p_clk_hand = _
            rw [hit_arc_clock _ hx]
          · show (hit_arc x.current_policy g x.arc_state).q_clk_hand = _
            rw [hit_arc_clock _ hx]
          · rfl
        rw [hk s hs.1, hk r hr.1]
        exact hh
      · unfold counters
        simp only [hc.1, hc.2.1, hc.2.2]

theorem init_clock_state (N : Nat) (pol : ReplacementPolicy) (zs : Nat) (hp : is_clock pol) :
    clock_state (init_sim N pol zs) := by
  refine ⟨hp, ?_⟩
  intro f hf hres
  have hf' : f ∈ initialize_buffer N := hf
  unfold initialize_buffer at hf'
  rw [List.eq_of_mem_replicate hf'] at hres
  exact absurd rfl hres

theorem init_clock_hand (N : Nat) (pol : ReplacementPolicy) (zs : Nat) :
    clock_hand (init_sim N pol zs) = 0 := by
  cases pol <;> rfl

theorem init_clock_rel (N : Nat) (pol pol' : ReplacementPolicy) (zs : Nat) :
    clock_rel (init_sim N pol zs) (init_sim N pol' zs) := by
  refine ⟨same_frames_refl _, ?_, rfl, rfl⟩
  rw [init_clock_hand, init_clock_hand]

theorem access_outcome_rel (s r : Sim) (X : Nat) (hs : clock_state s) (hr : clock_state r)
    (h : clock_rel s r) (hN : 0 < s.buffer.length) :
    access_outcome s X = access_outcome r X := by
  obtain ⟨hv, hpg⟩ := miss_victim_rel s r X hs hr h hN
  unfold access_outcome
  rw [← same_find_in_buffer _ _ h.1 X, ← hv]
  have hfun : (fun v => (victim_frame s X v).page_id) = fun v => (victim_frame r X v).page_id :=
    funext hpg
  rw [hfun]

theorem run_access_cons (s : Sim) (a : Nat × Op) (rest : List (Nat × Op)) :
    run s (access_records (a :: rest))
      = run (access_page s a.1 (lba_to_page_id a.1) a.2) (access_records rest) := rfl

/-- A run of access records from two CLOCK-family states that cannot be told apart. -/
theorem run_clock_rel (l : List (Nat × Op)) (s r : Sim) (hs : clock_state s)
    (hr : clock_state r) (h : clock_rel s r) (hN : 0 < s.buffer.length) :
    clock_rel (run s (access_records l)) (run r (access_records l)) ∧
    clock_state (run s (access_records l)) ∧ clock_state (run r (access_records l)) ∧
    access_outcomes s l = access_outcomes r l := by
  induction l generalizing s r with
  | nil => exact ⟨h, hs, hr, rfl⟩
  | cons a rest ih =>
    obtain ⟨h1, h2, h3⟩ := access_clock_rel s r a.1 a.1 (lba_to_page_id a.1) a.2 hs hr h hN
    have hN' : 0 < (access_page s a.1 (lba_to_page_id a.1) a.2).buffer.length := by
      rw [access_page_length]
      exact hN
    obtain ⟨i1, i2, i3, i4⟩ := ih _ _ h2 h3 h1 hN'
    rw [run_access_cons, run_access_cons]
    refine ⟨i1, i2, i3, ?_⟩
    show access_outcome s (lba_to_page_id a.1)
        :: access_outcomes (access_page s a.1 (lba_to_page_id a.1) a.2) rest
      = access_outcome r (lba_to_page_id a.1)
        :: access_outcomes (access_page r a.1 (lba_to_page_id a.1) a.2) rest
    rw [i4, access_outcome_rel s r _ hs hr h hN]

theorem flush_writes_strip (s r : Sim)
    (hz : s.zone_size_pages_global = r.zone_size_pages_global) (b : List BufferFrame) :
    flush_writes s b = flush_writes r (b.map strip_lists) := by
  have hrej : ∀ x, zns_rejects s x ↔ zns_rejects r x := by
    intro x
    unfold zns_rejects
    rw [hz]
  induction b with
  | nil => rfl
  | cons f rest ih =>
    unfold flush_writes at ih ⊢
    rw [List.map_cons, List.filter_cons, List.filter_cons]
    have hpg : (strip_lists f).page_id = f.page_id := rfl
    have hd : (strip_lists f).is_dirty = f.is_dirty := rfl
    rw [hpg, hd]
    by_cases hc : f.page_id ≠ INVALID_PAGE ∧ f.is_dirty ≠ 0 ∧
        ¬ zns_rejects s ((f.page_id * SECTORS_PER_PAGE) % U64)
    · have hc' : f.page_id ≠ INVALID_PAGE ∧ f.is_dirty ≠ 0 ∧
          ¬ zns_rejects r ((f.page_id * SECTORS_PER_PAGE) % U64) :=
        ⟨hc.1, hc.2.1, fun hx => hc.2.2 ((hrej _).2 hx)⟩
      rw [if_pos (decide_eq_true hc), if_pos (decide_eq_true hc'), List.map_cons, List.map_cons,
        ih, hpg]
    · have hc' : ¬ (f.page_id ≠ INVALID_PAGE ∧ f.is_dirty ≠ 0 ∧
          ¬ zns_rejects r ((f.page_id * SECTORS_PER_PAGE) % U64)) :=
        fun hx => hc ⟨hx.1, hx.2.1, fun hy => hx.2.2 ((hrej _).1 hy)⟩
      rw [if_neg (by simpa using hc), if_neg (by simpa using hc'), ih]

theorem flush_writes_rel (s r : Sim) (h : clock_rel s r) :
    flush_writes s s.buffer = flush_writes r r.buffer := by
  have hd := h.2.2.2
  unfold device at hd
  simp only [Prod.mk.injEq] at hd
  rw [flush_writes_strip s s rfl s.buffer, flush_writes_strip r r rfl r.buffer,
    flush_writes_strip s r hd.1 (s.buffer.map strip_lists)]
  have hb : s.buffer.map strip_lists = r.buffer.map strip_lists := h.1
  rw [hb]
  have hidem : ∀ b : List BufferFrame, (b.map strip_lists).map strip_lists = b.map strip_lists := by
    intro b
    rw [List.map_map]
    rfl
  rw [hidem]

/-- The victim of a miss in a CLOCK-family state does not depend on what the ARC state
holds besides the two hands. -/
theorem miss_victim_arc_free (s : Sim) (a : ARCState) (X : Nat) (hs : clock_state s)
    (hN : 0 < s.buffer.length) (h1 : a.p_clk_hand = s.arc_state.p_clk_hand)
    (h2 : a.q_clk_hand = s.arc_state.q_clk_hand) :
    miss_victim { s with arc_state := a } X = miss_victim s X := by
  have hst : clock_state ({ s with arc_state := a } : Sim) := ⟨hs.1, hs.2⟩
  have hh : clock_hand ({ s with arc_state := a } : Sim) = clock_hand s :=
    clock_hand_of s ({ s with arc_state := a } : Sim) rfl h1 h2 rfl
  have hrel : clock_rel ({ s with arc_state := a } : Sim) s :=
    ⟨same_frames_refl _, hh, rfl, rfl⟩
  exact (miss_victim_rel _ _ X hst hs hrel hN).1

/-- C36: for every N ≥ 1, every zone size and every trace of access records, any two of
the four CLOCK-family policies (CLOCK_T1, CLOCK_T3, CLOCK_PRO_T1_B4_LOGS_B2,
CLOCK_PRO_T3_B2_LOGS_B4), each run from its initial state, give the same outcome at every
access (hit or miss, and the page evicted at a miss), the same hit and miss counters, the
same device I/O log after the record loop and after the shutdown flush, and buffers whose
frames differ at most in the partition labels.  The adaptive targets p and q and the ghost
lists have no part in the choice: in the state reached, the victim of a miss is the same
whatever the ARC state holds besides the two hands. -/
theorem clock_family_equivalent (N zs : Nat) (l : List (Nat × Op))
    (pol pol' : ReplacementPolicy) (hN : 1 ≤ N) (hp : is_clock pol) (hp' : is_clock pol') :
    access_outcomes (init_sim N pol zs) l = access_outcomes (init_sim N pol' zs) l ∧
    (run (init_sim N pol zs) (access_records l)).hits
      = (run (init_sim N pol' zs) (access_records l)).hits ∧
    (run (init_sim N pol zs) (access_records l)).misses
      = (run (init_sim N pol' zs) (access_records l)).misses ∧
    (run (init_sim N pol zs) (access_records l)).log_file
      = (run (init_sim N pol' zs) (access_records l)).log_file ∧
    (simulate N pol zs (access_records l)).log_file
      = (simulate N pol' zs (access_records l)).log_file ∧
    same_frames (run (init_sim N pol zs) (access_records l)).buffer
      (run (init_sim N pol' zs) (access_records l)).buffer ∧
    ∀ (a : ARCState) (X : Nat),
      a.p_clk_hand = (run (init_sim N pol zs) (access_records l)).arc_state.p_clk_hand →
      a.q_clk_hand = (run (init_sim N pol zs) (access_records l)).arc_state.q_clk_hand →
      miss_victim { run (init_sim N pol zs) (access_records l) with arc_state := a } X
        = miss_victim (run (init_sim N pol zs) (access_records l)) X := by
  have hlen : 0 < (init_sim N pol zs).buffer.length := by
    rw [init_sim_length]
    omega
  obtain ⟨h1, h2, h3, h4⟩ := run_clock_rel l _ _ (init_clock_state N pol zs hp)
    (init_clock_state N pol' zs hp') (init_clock_rel N pol pol' zs) hlen
  have hc := h1.2.2.1
  have hd := h1.2.2.2
  unfold counters at hc
  unfold device at hd
  simp only [Prod.mk.injEq] at hc hd
  refine ⟨h4, hc.2.1, hc.2.2, hd.2.2, ?_, h1.1, ?_⟩
  · unfold simulate
    rw [(shutdown_flush_spec _).2, (shutdown_flush_spec _).2, hd.2.2, flush_writes_rel _ _ h1]
  · intro a X ha1 ha2
    have hrl : (run (init_sim N pol zs) (access_records l)).buffer.length = N := by
      rw [run_length, init_sim_length]
    exact miss_victim_arc_free _ a X h2 (by omega) ha1 ha2

theorem clock_family_equivalent_witness :
    (1 ≤ 2 ∧ is_clock CLOCK_PRO_T1_B4_LOGS_B2 ∧ is_clock CLOCK_T3) ∧
    access_outcomes (init_sim 2 CLOCK_PRO_T1_B4_LOGS_B2 0) clock_family_trace
      = [some (false, none), some (false, none), some (false, some 0), some (false, some 1),
          some (false, some 2), some (false, some 0)] ∧
    access_outcomes (init_sim 2 CLOCK_PRO_T1_B4_LOGS_B2 0) clock_family_trace
      = access_outcomes (init_sim 2 CLOCK_T3 0) clock_family_trace ∧
    (simulate 2 CLOCK_PRO_T1_B4_LOGS_B2 0 (access_records clock_family_trace)).log_file
      = (simulate 2 CLOCK_T3 0 (access_records clock_family_trace)).log_file := by
  have h := clock_family_equivalent 2 0 clock_family_trace CLOCK_PRO_T1_B4_LOGS_B2 CLOCK_T3
    (by decide) (by decide) (by decide)
  exact ⟨⟨by decide, by decide, by decide⟩, by decide, h.1, h.2.2.2.2.1⟩

/-- The contract of `evict_fifo` on the buffer of a state whose resident load times are
below ULLONG_MAX and pairwise distinct. -/
theorem evict_fifo_reached (buf : List BufferFrame) (hlen : 0 < buf.length)
    (hlt : ∀ f ∈ buf, f.page_id ≠ INVALID_PAGE → f.load_time < ULLONG_MAX)
    (hd : load_times_distinct buf) :
    ((∃ j, resident_at buf j) →
      ∃ v, evict_fifo buf = some v ∧ resident_at buf v ∧
        (∀ j, resident_at buf j → (frame_at buf v).load_time ≤ (frame_at buf j).load_time) ∧
        (∀ j, j < v → resident_at buf j →
          (frame_at buf v).load_time < (frame_at buf j).load_time) ∧
        (∀ j, resident_at buf j → j ≠ v →
          (frame_at buf v).load_time < (frame_at buf j).load_time)) ∧
    ((∀ j, ¬ resident_at buf j) →
      evict_fifo buf = none ∧ ∃ k, find_empty_slot buf = some k) := by
  constructor
  · rintro ⟨j, hj⟩
    obtain ⟨v, hv, hr, hmin, hlow⟩ := evict_fifo_min buf
      (Or.inl ⟨frame_at buf j, frame_at_mem buf j hj.1, hj.2,
        hlt _ (frame_at_mem buf j hj.1) hj.2⟩)
    refine ⟨v, hv, hr, hmin, hlow, ?_⟩
    intro k hk hkv
    have hle := hmin k hk
    rcases Nat.lt_or_ge (frame_at buf v).load_time (frame_at buf k).load_time with h | h
    · exact h
    · exact absurd (hd k v hk hr (by omega)) hkv
  · intro hnone
    have hall : ∀ f ∈ buf, f.page_id = INVALID_PAGE := by
      intro f hf
      obtain ⟨i, hi, he⟩ := mem_iff_frame_at buf f hf
      by_contra hne
      exact hnone i ⟨hi, by rw [he]; exact hne⟩
    refine ⟨evict_fifo_empty buf hall, ?_⟩
    rcases Option.eq_none_or_eq_some (find_empty_slot buf) with hn | ⟨k, hk⟩
    · exact absurd (hall _ (frame_at_mem buf 0 hlen))
        (find_empty_slot_none buf hn _ (frame_at_mem buf 0 hlen))
    · exact ⟨k, hk⟩

/-- C24: `evict_fifo()` on the buffer of a state `s` reached from an initial state with
N ≥ 1 frames by any records with fewer than ULLONG_MAX accesses (the 64-bit clock has not
wrapped).  If a frame is resident, it returns the index of the resident frame with the
smallest load_time, the lowest index among equal load times (and, the load times of
resident frames being pairwise distinct, strictly the smallest).  If no frame is resident,
an empty slot exists and it returns -1.  Under FIFO the frame a miss evicts is the one
`evict_fifo` names, and a hit changes the load_time of no frame, so under FIFO pages leave
the buffer in the order they were loaded.  With FIFO and N = 2 the accesses 0 R, 8 R, 16 R,
0 R give hits = 0, misses = 4 and the device log holds the reads of pages 0, 1, 2, 0 and
no write. -/
theorem fifo_victim_contract (N : Nat) (pol : ReplacementPolicy) (zs : Nat)
    (trace : List Record) (s : Sim) (hN : 1 ≤ N) (hlen : access_count_of trace < ULLONG_MAX)
    (hs : s = run (init_sim N pol zs) trace) :
    ((∃ j, resident_at s.buffer j) →
      ∃ v, evict_fifo s.buffer = some v ∧ resident_at s.buffer v ∧
        (∀ j, resident_at s.buffer j →
          (frame_at s.buffer v).load_time ≤ (frame_at s.buffer j).load_time) ∧
        (∀ j, j < v → resident_at s.buffer j →
          (frame_at s.buffer v).load_time < (frame_at s.buffer j).load_time) ∧
        (∀ j, resident_at s.buffer j → j ≠ v →
          (frame_at s.buffer v).load_time < (frame_at s.buffer j).load_time)) ∧
    ((∀ j, ¬ resident_at s.buffer j) →
      evict_fifo s.buffer = none ∧ ∃ k, find_empty_slot s.buffer = some k) ∧
    (∀ X v, s.current_policy = FIFO → miss_victim s X = some v →
      evict_fifo s.buffer = some v ∧ resident_at s.buffer v ∧
      ∀ j, resident_at s.buffer j → j ≠ v →
        (frame_at s.buffer v).load_time < (frame_at s.buffer j).load_time) ∧
    (∀ (lba X : Nat) (op : Op) (i : Nat), X ≠ INVALID_PAGE →
      find_in_buffer s.buffer X = some i →
      ∀ j, (frame_at (access_page s lba X op).buffer j).load_time
        = (frame_at s.buffer j).load_time) ∧
    ((run (init_sim 2 FIFO 0) fifo_scenario).hits = 0 ∧
      (run (init_sim 2 FIFO 0) fifo_scenario).misses = 4 ∧
      (run (init_sim 2 FIFO 0) fifo_scenario).log_file
        = [miss_read_record 0, miss_read_record 1, miss_read_record 2, miss_read_record 0] ∧
      (run (init_sim 2 FIFO 0) (fifo_scenario.take 3)).buffer.map (fun f => f.page_id)
        = [2, 1] ∧
      (run (init_sim 2 FIFO 0) fifo_scenario).buffer.map (fun f => f.page_id) = [2, 0]) := by
  obtain ⟨hinv, _, hT, hlenN⟩ := reach_facts N pol zs trace hN hlen
  have hd := run_distinct trace (init_sim N pol zs) (init_sim_inv N pol zs)
    (init_sim_distinct N pol zs)
    (by
      show 0 + access_count_of trace ≤ ULLONG_MAX
      omega)
    (by rw [init_sim_length]; omega)
  rw [← hs] at hinv hT hlenN hd
  have hlt := (inv_bounds s hinv hT).2.1
  obtain ⟨c1, c2⟩ := evict_fifo_reached s.buffer (by omega) hlt hd
  refine ⟨c1, c2, ?_, fun lba X op i hX hi j => hit_keeps_load_time s lba X op i hX hi j,
    by decide⟩
  intro X v hp hv
  obtain ⟨hfull, hev⟩ := fifo_miss_victim s X v hp hv
  have hres : resident_at s.buffer 0 :=
    ⟨by omega, find_empty_slot_none s.buffer hfull _ (frame_at_mem s.buffer 0 (by omega))⟩
  obtain ⟨w, hw, hr, _, _, hstrict⟩ := c1 ⟨0, hres⟩
  rw [hev] at hw
  simp only [Option.some.injEq] at hw
  subst hw
  exact ⟨hev, hr, hstrict⟩

theorem fifo_victim_contract_witness :
    (1 ≤ 2 ∧ access_count_of (fifo_scenario.take 3) < ULLONG_MAX ∧
      (run (init_sim 2 FIFO 0) (fifo_scenario.take 3)).current_policy = FIFO) ∧
    (run (init_sim 2 FIFO 0) (fifo_scenario.take 3)).buffer.map
        (fun f => (f.page_id, f.load_time)) = [(2, 3), (1, 2)] ∧
    miss_victim (run (init_sim 2 FIFO 0) (fifo_scenario.take 3)) 0 = some 1 ∧
    evict_fifo (run (init_sim 2 FIFO 0) (fifo_scenario.take 3)).buffer = some 1 ∧
    ∃ v, evict_fifo (run (init_sim 2 FIFO 0) (fifo_scenario.take 3)).buffer = some v ∧
      resident_at (run (init_sim 2 FIFO 0) (fifo_scenario.take 3)).buffer v ∧
      ∀ j, resident_at (run (init_sim 2 FIFO 0) (fifo_scenario.take 3)).buffer j → j ≠ v →
        (frame_at (run (init_sim 2 FIFO 0) (fifo_scenario.take 3)).buffer v).load_time
          < (frame_at (run (init_sim 2 FIFO 0) (fifo_scenario.take 3)).buffer j).load_time := by
  have h := (fifo_victim_contract 2 FIFO 0 (fifo_scenario.take 3)
    (run (init_sim 2 FIFO 0) (fifo_scenario.take 3)) (by decide) (by decide)
    rfl).2.2.1 0 1 (by decide) (by decide)
  exact ⟨⟨by decide, by decide, by decide⟩, by decide, by decide, h.1, 1, h.1, h.2.1, h.2.2⟩

end BufSim
